import Mathlib

/-!
# Principia: a verification development

A shallow embedding of parts of the Principia sources (`ksp_plugin/plugin.cpp`,
`ksp_plugin/interface.cpp`, ...) together with theorems about them.

Conventions of the embedding.

* Quantities (`Instant`, `Angle`, coordinates) are exact rationals.
* `std::map<K, V>` is an association list kept in increasing key order,
  `std::set<T*>` a list of addresses without repetition.
* A heap object is identified by its `address`; a pointer is the address of the
  object it points to.  Where the source allocates an object, the embedding
  takes the address of the fresh storage as an argument.
* A failed `CHECK` (and `FindOrDie` on an absent key, and a null dereference)
  aborts the process: `Outcome.fatal s`, where `s` is the state reached when
  the process aborted.
* Calls issued to collaborators whose code lies outside the embedded sources
  (the ephemeris, the physics bubble, the vessels) are recorded, in program
  order, in the ghost field `Plugin.calls_`.
-/

set_option autoImplicit false

namespace principia

/-! ## Primitive types -/

/-- The GUID of a vessel, key of `vessels_` (`using GUID = std::string`). -/
abbrev GUID := String

/-- The index of a celestial body, key of `celestials_` (`using Index = int`). -/
abbrev Index := Int

/-- An instant of simulated time (exact). -/
abbrev Instant := ℚ

/-- A duration (exact). -/
abbrev Time := ℚ

/-- An angle (exact). -/
abbrev Angle := ℚ

/-- The identity of a heap object: the value of a pointer to it. -/
abbrev Address := Nat

/-- Coordinates of a vector or of a position. -/
abbrev Vec3 := ℚ × ℚ × ℚ

/-- A position and a velocity, `DegreesOfFreedom<Barycentric>`. -/
abbrev DegreesOfFreedom := Vec3 × Vec3

/-- A displacement and a relative velocity, `RelativeDegreesOfFreedom<Frame>`. -/
abbrev RelativeDegreesOfFreedom := Vec3 × Vec3

/-- The timeline of a `DiscreteTrajectory<Barycentric>`, oldest point first. -/
abbrev DiscreteTrajectory := List (Instant × DegreesOfFreedom)

/-- The result of running an operation from a state of type `σ`: either it
returns a value and leaves a state, or a `CHECK` fails and the process aborts in
the state reached so far. -/
inductive Outcome (σ : Type) (α : Type) where
  | returns (value : α) (state : σ)
  | fatal (state : σ)

namespace Outcome

/-- The state in which the operation ended, normally or not. -/
def state {σ α : Type} : Outcome σ α → σ
  | returns _ s => s
  | fatal s => s

/-- Whether the operation aborted. -/
def is_fatal {σ α : Type} : Outcome σ α → Bool
  | returns _ _ => false
  | fatal _ => true

/-- The value returned, if the operation returned. -/
def value? {σ α : Type} : Outcome σ α → Option α
  | returns a _ => some a
  | fatal _ => none

/-- The outcome with the value returned dropped. -/
def discard {σ α : Type} : Outcome σ α → Outcome σ Unit
  | returns _ s => returns () s
  | fatal s => fatal s

end Outcome

/-! ## `std::map` and `std::set` -/

namespace map

variable {κ ν : Type}

/-- The keys, in iteration order. -/
def keys (m : List (κ × ν)) : List κ := m.map Prod.fst

/-- The function `std::map::find`: the value stored under `k`, if any. -/
def find? [DecidableEq κ] : List (κ × ν) → κ → Option ν
  | [], _ => none
  | (k', v) :: m, k => if k = k' then some v else find? m k

/-- Insertion of a new entry at its place in the key order. -/
def insert_ordered [LT κ] [DecidableRel (fun a b : κ => a < b)] (k : κ) (v : ν) :
    List (κ × ν) → List (κ × ν)
  | [] => [(k, v)]
  | (k', v') :: m =>
    if k < k' then (k, v) :: (k', v') :: m else (k', v') :: insert_ordered k v m

/-- The function `std::map::emplace`: when the key is present nothing is
inserted and the existing element is designated; otherwise the entry is
inserted.  Returns the map, the element now stored under `k` (the `->second` of
the returned iterator) and whether an insertion took place (the `.second` of the
returned pair). -/
def emplace [DecidableEq κ] [LT κ] [DecidableRel (fun a b : κ => a < b)]
    (m : List (κ × ν)) (k : κ) (v : ν) : List (κ × ν) × ν × Bool :=
  match find? m k with
  | some existing => (m, existing, false)
  | none => (insert_ordered k v m, v, true)

/-- The function `std::map::operator[]`: the value stored under `k`, after a
default value has been inserted under `k` if there was none. -/
def subscript [DecidableEq κ] [LT κ] [DecidableRel (fun a b : κ => a < b)]
    (m : List (κ × ν)) (k : κ) (default_value : ν) : List (κ × ν) × ν :=
  ((emplace m k default_value).1, (emplace m k default_value).2.1)

/-- The assignment `m[k] = v`. -/
def assign [DecidableEq κ] [LT κ] [DecidableRel (fun a b : κ => a < b)]
    (m : List (κ × ν)) (k : κ) (v : ν) : List (κ × ν) :=
  match find? m k with
  | some _ => m.map (fun kv => if kv.1 = k then (kv.1, v) else kv)
  | none => insert_ordered k v m

/-- The values, in iteration order. -/
def values (m : List (κ × ν)) : List ν := m.map Prod.snd

/-- Mutation, through a pointer, of the object stored under `k`. -/
def modify [DecidableEq κ] (m : List (κ × ν)) (k : κ) (f : ν → ν) : List (κ × ν) :=
  m.map (fun kv => if kv.1 = k then (kv.1, f kv.2) else kv)

end map

namespace set

/-- The function `std::set::emplace`. -/
def emplace (s : List Address) (a : Address) : List Address :=
  if a ∈ s then s else a :: s

/-- The function `std::set::erase(key)`: the set without `a`, and the number of
elements removed (0 or 1) as a Boolean. -/
def erase (s : List Address) (a : Address) : List Address × Bool :=
  (s.filter (fun b => decide (b ≠ a)), decide (a ∈ s))

/-- The function `std::set<std::uint64_t>::insert`: the set, kept in increasing
order, and whether an insertion took place. -/
def insert (s : List Nat) (a : Nat) : List Nat × Bool :=
  if a ∈ s then (s, false) else (s.orderedInsert (fun x y => x ≤ y) a, true)

/-- The function `std::set::count`. -/
def count (s : List Address) (a : Address) : Nat :=
  if a ∈ s then 1 else 0

end set

/-! ## `base::Status` -/

namespace base

/-- Modelled from the spec: the error codes of `base::Status` (`base/status.hpp`
is not among the sources).  The spec speaks of a recorded "last severe
integration status"; the codes are the canonical ones, of which the plugin names
`INVALID_ARGUMENT`. -/
inductive Error where
  | OK
  | CANCELLED
  | UNKNOWN
  | INVALID_ARGUMENT
  | DEADLINE_EXCEEDED
  | NOT_FOUND
  | ALREADY_EXISTS
  | PERMISSION_DENIED
  | UNAUTHENTICATED
  | RESOURCE_EXHAUSTED
  | FAILED_PRECONDITION
  | ABORTED
  | OUT_OF_RANGE
  | UNIMPLEMENTED
  | INTERNAL
  | UNAVAILABLE
  | DATA_LOSS
  deriving DecidableEq, Repr

/-- Modelled from the spec: a `base::Status`, an error code with a message. -/
structure Status where
  error : Error
  message : String
  deriving DecidableEq, Repr

/-- The predicate `Status::ok()`. -/
def Status.ok (s : Status) : Bool := decide (s.error = Error.OK)

/-- The constant `Status::OK`. -/
def Status.OK : Status := ⟨Error.OK, ""⟩

end base

/-! ## Collaborators of the plugin -/

namespace physics

/-- Modelled from the spec: `Ephemeris<Barycentric>::FixedStepParameters`
(`physics/ephemeris.hpp` is not among the sources), the "explicit step-control
parameters" of a fixed-step integration: its step. -/
structure FixedStepParameters where
  step : Time
  deriving DecidableEq, Repr

/-- Modelled from the spec: `Ephemeris<Barycentric>::AdaptiveStepParameters`,
the step budget and the "configured length/speed error tolerances" of an
adaptive-step integration. -/
structure AdaptiveStepParameters where
  max_steps : Int
  length_integration_tolerance : ℚ
  speed_integration_tolerance : ℚ
  deriving DecidableEq, Repr

/-- A massive body handed to the plugin, as far as the plugin looks at it: its
identity and whether `dynamic_cast<RotatingBody<Barycentric> const*>` succeeds
on it. -/
structure MassiveBody where
  address : Address
  is_rotating : Bool
  deriving DecidableEq, Repr

/-- Modelled from the spec: the part of an `Ephemeris<Barycentric>` that the
plugin observes (`physics/ephemeris.hpp` is not among the sources): the bodies
it was built from, the time up to which the trajectories have been prolonged,
the time before which they have been forgotten, and the recorded "last severe
integration status". -/
structure Ephemeris where
  bodies_ : List MassiveBody
  t_max_ : Instant
  t_min_ : Option Instant
  last_severe_integration_status_ : base.Status
  deriving DecidableEq, Repr

/-- Modelled from the spec: `Prolong(t)` extends the trajectories "up to at
least `t`" and is "idempotent if trajectories already cover `t`". -/
def Ephemeris.Prolong (e : Ephemeris) (t : Instant) : Ephemeris :=
  { e with t_max_ := max e.t_max_ t }

/-- Modelled from the spec: `ForgetBefore(t)` discards "all body-trajectory data
strictly before `t`". -/
def Ephemeris.ForgetBefore (e : Ephemeris) (t : Instant) : Ephemeris :=
  { e with t_min_ := some (match e.t_min_ with
                           | none => t
                           | some t_min => max t_min t) }

/-- Modelled from the spec: the constructor of the ephemeris, which takes
ownership of the bodies; the trajectories start at `initial_time` and no failure
is recorded yet. -/
def Ephemeris.new (bodies : List MassiveBody) (initial_time : Instant) : Ephemeris :=
  { bodies_ := bodies
    t_max_ := initial_time
    t_min_ := none
    last_severe_integration_status_ := base.Status.OK }

/-- Modelled from the spec: the accessor `last_severe_integration_status()`
(`physics/ephemeris.hpp` is not among the sources).  It hands over the status
that the ephemeris has "recorded ... for later diagnostic retrieval", which is
"a one-shot latch cleared only by reading it": the value is the status recorded,
together with the ephemeris as the read leaves it, with the status OK. -/
def Ephemeris.last_severe_integration_status (e : Ephemeris) : base.Status × Ephemeris :=
  (e.last_severe_integration_status_,
    { e with last_severe_integration_status_ := base.Status.OK })

/-- The values of a set of `KeplerianElements<Barycentric>`, which the plugin
only hands over. -/
abbrev KeplerianElements := List ℚ

/-- A `HierarchicalSystem<Barycentric>`, as the record of what it was given: the
primary and, for each body added, its parent and its Jacobi osculating elements.
What `ConsumeBarycentricSystem` makes of it is a parameter
(`Environment.ConsumeBarycentricSystem`). -/
structure HierarchicalSystem where
  primary : MassiveBody
  added : List (MassiveBody × Address × KeplerianElements) := []
  deriving DecidableEq, Repr

/-- The function `HierarchicalSystem::Add(body, parent, elements)`. -/
def HierarchicalSystem.Add (system : HierarchicalSystem) (body : MassiveBody)
    (parent : Address) (jacobi_osculating_elements : KeplerianElements) : HierarchicalSystem :=
  { system with added := system.added ++ [(body, parent, jacobi_osculating_elements)] }

/-- The function `DiscreteTrajectory::last()`, absent on an empty timeline. -/
def last (trajectory : DiscreteTrajectory) : Option (Instant × DegreesOfFreedom) :=
  trajectory.getLast?

end physics

namespace ksp_plugin

open physics

/-- A `Celestial`, as far as `plugin.cpp` uses it (`ksp_plugin/celestial.hpp` is
not among the sources): the body it represents, its parent (null for the sun)
and whether its trajectory has been set. -/
structure Celestial where
  address : Address
  body_ : Address
  parent_ : Option Address := none
  has_trajectory_ : Bool := false
  deriving DecidableEq, Repr

/-- The constructor `Celestial(body)`. -/
def Celestial.new (storage : Address) (body : Address) : Celestial :=
  { address := storage, body_ := body }

/-- The mutator `Celestial::set_parent`. -/
def Celestial.set_parent (c : Celestial) (parent : Address) : Celestial :=
  { c with parent_ := some parent }

/-- The mutator `Celestial::set_trajectory`. -/
def Celestial.set_trajectory (c : Celestial) : Celestial :=
  { c with has_trajectory_ := true }

/-- The accessor `Celestial::body()`. -/
def Celestial.body (c : Celestial) : Address := c.body_

/-- The predicate `Celestial::has_parent()`. -/
def Celestial.has_parent (c : Celestial) : Bool := c.parent_.isSome

/-- A `Vessel`, as far as the plugin looks at it (see `ksp_plugin/vessel.hpp`).
The pointers `history_` and `prolongation_` are null until the vessel is given
an initial state. -/
structure Vessel where
  address : Address
  parent_ : Address
  history_fixed_step_parameters_ : FixedStepParameters
  prolongation_adaptive_step_parameters_ : AdaptiveStepParameters
  prediction_adaptive_step_parameters_ : AdaptiveStepParameters
  history_ : Option DiscreteTrajectory := none
  prolongation_ : Option DiscreteTrajectory := none
  prediction_ : Option DiscreteTrajectory := none
  is_dirty_ : Bool := false
  deriving DecidableEq, Repr

/-- The constructor `Vessel(parent, ephemeris, history_fixed_step_parameters,
prolongation_adaptive_step_parameters, prediction_adaptive_step_parameters)`,
building the object in `storage`. -/
def Vessel.new (storage : Address) (parent : Address)
    (history_fixed_step_parameters : FixedStepParameters)
    (prolongation_adaptive_step_parameters : AdaptiveStepParameters)
    (prediction_adaptive_step_parameters : AdaptiveStepParameters) : Vessel :=
  { address := storage
    parent_ := parent
    history_fixed_step_parameters_ := history_fixed_step_parameters
    prolongation_adaptive_step_parameters_ := prolongation_adaptive_step_parameters
    prediction_adaptive_step_parameters_ := prediction_adaptive_step_parameters }

/-- The predicate `Vessel::is_initialized()`: "True if, and only if,
`prolongation_` is not null". -/
def Vessel.is_initialized (v : Vessel) : Bool := v.prolongation_.isSome

/-- The accessor `Vessel::parent()`. -/
def Vessel.parent (v : Vessel) : Address := v.parent_

/-- The mutator `Vessel::set_parent`. -/
def Vessel.set_parent (v : Vessel) (parent : Address) : Vessel :=
  { v with parent_ := parent }

/-- The mutator `Vessel::set_dirty`. -/
def Vessel.set_dirty (v : Vessel) : Vessel := { v with is_dirty_ := true }

/-- The mutator `Vessel::set_prediction_adaptive_step_parameters`. -/
def Vessel.set_prediction_adaptive_step_parameters (v : Vessel)
    (prediction_adaptive_step_parameters : AdaptiveStepParameters) : Vessel :=
  { v with prediction_adaptive_step_parameters_ := prediction_adaptive_step_parameters }

/-- Modelled from the spec: `Vessel::CreateHistoryAndForkProlongation`
(`vessel.cpp` is not among the sources), which by `vessel.hpp` "creates a
`history_` for this vessel and appends a point with the given `time` and
`degrees_of_freedom`, then forks a `prolongation_` at `time`", after which the
vessel `is_initialized()`. -/
def Vessel.CreateHistoryAndForkProlongation (v : Vessel) (time : Instant)
    (degrees_of_freedom : DegreesOfFreedom) : Vessel :=
  { v with
    history_ := some [(time, degrees_of_freedom)]
    prolongation_ := some [(time, degrees_of_freedom)] }

/-- The accessor `Vessel::is_dirty`. -/
def Vessel.is_dirty (v : Vessel) : Bool := v.is_dirty_

/-- Modelled from the spec: the accessor `Vessel::history()` (`vessel.cpp` is not
among the sources).  Of `history()`, `prolongation()` and `prediction()` the
header `vessel.hpp` says "These three functions require `is_initialized()`", and
"querying an uninitialized vehicle" is "fatal by contract": `none` when the
requirement fails or the pointer is null. -/
def Vessel.history (v : Vessel) : Option DiscreteTrajectory :=
  if v.is_initialized then v.history_ else none

/-- Modelled from the spec: the accessor `Vessel::prolongation()`, which
requires `is_initialized()` (see `Vessel.history`). -/
def Vessel.prolongation (v : Vessel) : Option DiscreteTrajectory :=
  if v.is_initialized then v.prolongation_ else none

/-- Modelled from the spec: the accessor `Vessel::prediction()`, which requires
`is_initialized()` (see `Vessel.history`).  The timeline is that of the
prediction from its fork on. -/
def Vessel.prediction (v : Vessel) : Option DiscreteTrajectory :=
  if v.is_initialized then v.prediction_ else none

/-- Modelled from the spec: the precondition of `Vessel::UpdatePrediction`
(`vessel.cpp` is not among the sources).  The prediction is "forked from the end
of prolongation", and `prolongation()` requires `is_initialized()`: on a vessel
that was not given an initial state the call fails ("querying an uninitialized
vehicle" is "fatal by contract"). -/
def Vessel.UpdatePrediction.precondition (v : Vessel) : Bool := v.is_initialized

/-- Modelled from the spec: the state of a `PhysicsBubble` that the plugin
observes (`ksp_plugin/physics_bubble.hpp` is not among the sources): the answers
of `empty()`, `vessels()`, `contains(vessel)`, `from_centre_of_mass(vessel)`,
`centre_of_mass_trajectory()` and `centre_of_mass_intrinsic_acceleration()`. -/
structure PhysicsBubble where
  empty : Bool
  vessels : List Address
  contains : Address → Bool
  from_centre_of_mass : Address → RelativeDegreesOfFreedom
  centre_of_mass_trajectory : DiscreteTrajectory
  centre_of_mass_intrinsic_acceleration : Instant → Vec3

/-- Modelled from the spec: the bubble of a new plugin
(`make_not_null_unique<PhysicsBubble>()`), which holds no vessel, pile-ups being
"created lazily per advance-time call". -/
def PhysicsBubble.new : PhysicsBubble :=
  { empty := true
    vessels := []
    contains := fun _ => false
    from_centre_of_mass := fun _ => 0
    centre_of_mass_trajectory := []
    centre_of_mass_intrinsic_acceleration := fun _ => 0 }

/-- The rotation returned by `PlanetariumRotation()`, described by what it is
built from: before Cardano a rotation by `planetarium_rotation_` about the z
axis of `Barycentric`; otherwise the same rotation composed with the Euler
rotation defined by the pole of `main_body_`. -/
inductive PlanetariumRotationValue where
  | about_z (planetarium_rotation : Angle)
  | about_pole (planetarium_rotation : Angle) (main_body : Address)
  deriving DecidableEq, Repr

/-- A call issued by the plugin to one of its collaborators. -/
inductive Call where
  | Ephemeris_Prolong (t : Instant)
  | Ephemeris_ForgetBefore (t : Instant)
  | Ephemeris_FlowWithAdaptiveStep (t : Instant)
      (parameters : AdaptiveStepParameters)
  | PhysicsBubble_Prepare (barycentric_to_world_sun : PlanetariumRotationValue)
      (current_time : Instant) (next_time : Instant)
  | Vessel_AdvanceTimeNotInBubble (vessel : Address) (time : Instant)
  | Vessel_AdvanceTimeInBubble (vessel : Address) (time : Instant)
      (degrees_of_freedom : DegreesOfFreedom)
  | Vessel_ForgetBefore (vessel : Address) (time : Instant)
  | Vessel_CreateHistoryAndForkProlongation (vessel : Address) (time : Instant)
      (degrees_of_freedom : DegreesOfFreedom)
  | Vessel_UpdatePrediction (vessel : Address) (last_time : Instant)
  | Vessel_CreateFlightPlan (vessel : Address) (final_time : Instant) (initial_mass : ℚ)
      (parameters : AdaptiveStepParameters)
  | PhysicsBubble_AddVesselToNext (vessel : Address) (parts : List Nat)
  deriving DecidableEq, Repr

/-- Whether a call advances the vessel at address `a`, in the bubble or not. -/
def Call.advances (a : Address) : Call → Bool
  | .Vessel_AdvanceTimeNotInBubble vessel _ => decide (vessel = a)
  | .Vessel_AdvanceTimeInBubble vessel _ _ => decide (vessel = a)
  | _ => false

/-- What `FlowWithAdaptiveStep` leaves behind: the ephemeris (whose last severe
integration status it may have updated), the trajectory it has extended, and
whether the final time was reached. -/
structure FlowResult where
  ephemeris : Ephemeris
  trajectory : DiscreteTrajectory
  reached_final_time : Bool

/-- A `NavigationFrame`, described by the constructor that made it and the
bodies it refers to. -/
inductive NavigationFrame where
  | BodyCentredNonRotating (centre : Address)
  | BarycentricRotating (primary : Address) (secondary : Address)
  | BodyCentredBodyDirection (primary : Address) (secondary : Address)
  | BodySurface (centre : Address)
  deriving DecidableEq, Repr

namespace astronomy

/-- Modelled from the spec: the constant `astronomy::J2000` (`astronomy/epoch.hpp`
is not among the sources), the "documented default" that stands for a missing
game epoch: the origin from which the instants are counted. -/
def J2000 : Instant := 0

end astronomy

/-! ### Messages

The messages of `serialization/ksp_plugin.proto`, which is not among the
sources, as `plugin.cpp` fills and reads them.  A field is an `Option` when the
code tests its presence (`has_...()`) or leaves it unset; a repeated field is a
list. -/

namespace serialization

/-- Modelled from the spec: what `Vessel::WriteToMessage` records of a vessel
(`vessel.cpp` is not among the sources), "each vehicle's trajectory tree" and
its step-control parameters. -/
structure Vessel where
  history_fixed_step_parameters : FixedStepParameters
  prolongation_adaptive_step_parameters : AdaptiveStepParameters
  prediction_adaptive_step_parameters : AdaptiveStepParameters
  history : DiscreteTrajectory
  prolongation : DiscreteTrajectory
  prediction : Option DiscreteTrajectory
  deriving DecidableEq, Repr

/-- Modelled from the spec: what `PhysicsBubble::WriteToMessage` records of a
bubble (`physics_bubble.cpp` is not among the sources), its vessels being named
by their GUIDs. -/
structure PhysicsBubble where
  empty : Bool
  vessels : List GUID
  from_centre_of_mass : GUID → RelativeDegreesOfFreedom
  centre_of_mass_trajectory : DiscreteTrajectory
  centre_of_mass_intrinsic_acceleration : Instant → Vec3

/-- An element of the repeated field `vessel` of `serialization::Plugin`. -/
structure VesselAndProperties where
  guid : GUID
  vessel : Vessel
  parent_index : Index
  dirty : Bool
  deriving DecidableEq, Repr

/-- An element of the repeated field `celestial` of `serialization::Plugin`. -/
structure CelestialParenthood where
  index : Index
  parent_index : Option Index
  deriving DecidableEq, Repr

/-- An element of the repeated field `pre_bourbaki_celestial` of
`serialization::Plugin`: besides the indices, the celestial as a plugin older
than Bourbaki wrote it, of which the body is kept here. -/
structure CelestialAndProperties where
  index : Index
  celestial : MassiveBody
  parent_index : Option Index
  deriving DecidableEq, Repr

/-- The message `serialization::Plugin`. -/
structure Plugin where
  vessel : List VesselAndProperties
  pre_bourbaki_celestial : List CelestialAndProperties := []
  celestial : List CelestialParenthood
  ephemeris : Option Ephemeris
  history_parameters : Option FixedStepParameters
  prolongation_parameters : Option AdaptiveStepParameters
  prediction_parameters : Option AdaptiveStepParameters
  bubble : PhysicsBubble
  planetarium_rotation : Angle
  game_epoch : Option Instant
  current_time : Instant
  sun_index : Index
  plotting_frame : Option NavigationFrame

end serialization

/-- The constant `fitting_tolerance` of `plugin.cpp`, one millimetre. -/
def fitting_tolerance : ℚ := 1 / 1000

/-- The function `DefaultEphemerisParameters` of `plugin.cpp`: a step of 45
minutes. -/
def DefaultEphemerisParameters : FixedStepParameters := ⟨45 * 60⟩

/-- The behaviour of the collaborators whose code is not among the sources,
taken as a parameter: `PhysicsBubble::Prepare` and `AddVesselToNext`,
`Ephemeris::FlowWithAdaptiveStep`, the member functions of `Vessel` that advance
or forget its trajectories, update its prediction or create its flight plan
(they act on the vessel and, through its `ephemeris_` pointer, on the
ephemeris), the evaluation of the trajectory of a body
(`Celestial::current_degrees_of_freedom`), the action of the inverse of a
planetarium rotation, `HierarchicalSystem::ConsumeBarycentricSystem` (the bodies
with their barycentric degrees of freedom) and the fingerprint functions; then
the action of a planetarium rotation, the change of coordinates to the plotting
frame at a time (`NavigationFrame::ToThisFrameAtTime`), the map from the
plotting frame at the current time to `World` (given the position of the sun in
`Barycentric` and in `World` and the rotation `BarycentricToWorldSun()`), on
degrees of freedom and on a velocity alone, and the values returned by
`DefaultHistoryParameters()`, `DefaultProlongationParameters()` and
`DefaultPredictionParameters()` (declared in `vessel.hpp`); last,
`Ephemeris::ReadFromPreBourbakiMessages`. -/
structure Environment where
  Prepare : PhysicsBubble → PlanetariumRotationValue → Instant → Instant → PhysicsBubble
  AddVesselToNext : PhysicsBubble → Address → List Nat → PhysicsBubble
  FlowWithAdaptiveStep : Ephemeris → DiscreteTrajectory → (Instant → Vec3) → Instant →
    AdaptiveStepParameters → FlowResult
  Vessel_AdvanceTimeNotInBubble : Ephemeris → Vessel → Instant → Ephemeris × Vessel
  Vessel_AdvanceTimeInBubble : Ephemeris → Vessel → Instant → DegreesOfFreedom →
    Ephemeris × Vessel
  Vessel_ForgetBefore : Ephemeris → Vessel → Instant → Ephemeris × Vessel
  Vessel_UpdatePrediction : Ephemeris → Vessel → Instant → Ephemeris × Vessel
  Vessel_CreateFlightPlan : Ephemeris → Vessel → Instant → ℚ → AdaptiveStepParameters →
    Ephemeris × Vessel
  current_degrees_of_freedom : Ephemeris → Address → Instant → DegreesOfFreedom
  rotate_inverse : PlanetariumRotationValue → RelativeDegreesOfFreedom →
    RelativeDegreesOfFreedom
  rotate : PlanetariumRotationValue → RelativeDegreesOfFreedom → RelativeDegreesOfFreedom
  ToThisFrameAtTime : NavigationFrame → Ephemeris → Instant → DegreesOfFreedom →
    DegreesOfFreedom
  from_navigation_frame_to_world : NavigationFrame → Ephemeris → Instant → Vec3 → Vec3 →
    PlanetariumRotationValue → DegreesOfFreedom → DegreesOfFreedom
  velocity_to_world : NavigationFrame → Ephemeris → Instant → PlanetariumRotationValue →
    Vec3 → Vec3
  DefaultHistoryParameters : FixedStepParameters
  DefaultProlongationParameters : AdaptiveStepParameters
  DefaultPredictionParameters : AdaptiveStepParameters
  ReadFromPreBourbakiMessages : List serialization.CelestialAndProperties → ℚ →
    FixedStepParameters → Ephemeris
  ConsumeBarycentricSystem : HierarchicalSystem → List (MassiveBody × DegreesOfFreedom)
  FingerprintCelestialJacobiKeplerian : Index → Option Index → Option KeplerianElements →
    MassiveBody → Nat
  FingerprintCat2011 : Nat → Nat → Nat

/-- The objects of an absolute initialization. -/
structure AbsoluteInitializationObjects where
  bodies : List (Index × MassiveBody) := []
  initial_state : List (Index × DegreesOfFreedom) := []
  deriving DecidableEq, Repr

/-- The objects of a hierarchical initialization.  A pointer stored in
`indices_to_bodies` is `none` when null. -/
structure HierarchicalInitializationObjects where
  system : HierarchicalSystem
  parents : List (Index × Option Index) := []
  indices_to_bodies : List (Index × Option Address) := []
  deriving DecidableEq, Repr

/-- The constructor `HierarchicalInitializationObjects(sun)`. -/
def HierarchicalInitializationObjects.new (sun : MassiveBody) :
    HierarchicalInitializationObjects :=
  { system := { primary := sun } }

/-- The constant `ksp_stock_system_fingerprint`. -/
def ksp_stock_system_fingerprint : Nat := 0xD15286A27180CD31

/-- The constant `ksp_fixed_system_fingerprint`. -/
def ksp_fixed_system_fingerprint : Nat := 0x648C354716008328

/-- The state of a `Plugin`: the data members that `plugin.cpp` names, with the
values they have before the constructor body runs where the structure gives a
default (`prediction_length_` is one hour, in seconds).  The field `calls_` is a
ghost: the calls issued so far to the ephemeris, the bubble and the vessels. -/
structure Plugin where
  vessels_ : List (GUID × Vessel) := []
  celestials_ : List (Index × Celestial) := []
  absolute_initialization_ : Option AbsoluteInitializationObjects := none
  hierarchical_initialization_ : Option HierarchicalInitializationObjects := none
  bubble_ : PhysicsBubble := PhysicsBubble.new
  ephemeris_ : Option Ephemeris := none
  history_parameters_ : FixedStepParameters
  prolongation_parameters_ : AdaptiveStepParameters
  prediction_parameters_ : AdaptiveStepParameters
  plotting_frame_ : Option NavigationFrame := none
  prediction_length_ : Time := 3600
  initializing_ : Bool := true
  planetarium_rotation_ : Angle
  game_epoch_ : Instant
  current_time_ : Instant
  sun_ : Option Address := none
  main_body_ : Option Address := none
  kept_vessels_ : List Address := []
  celestial_jacobi_keplerian_fingerprints_ : List Nat := []
  is_ksp_stock_system_ : Bool := false
  is_pre_cardano_ : Bool := false
  calls_ : List Call := []

namespace Plugin

/-! ## Member functions of `Plugin` (`ksp_plugin/plugin.cpp`) -/

/-- A call `vessel->f(...)` of a member function of `Vessel` whose code is not
among the sources: the call is recorded, and the function acts on the object at
address `vessel` (which stays where it is) and on the ephemeris. -/
def call_on_vessel (p : Plugin) (vessel : Address)
    (f : Ephemeris → Vessel → Ephemeris × Vessel) (call : Call) : Plugin :=
  let p := { p with calls_ := p.calls_ ++ [call] }
  match p.ephemeris_, p.vessels_.find? (fun gv => decide (gv.2.address = vessel)) with
  | some ephemeris, some (guid, v) =>
    let r := f ephemeris v
    { p with
      ephemeris_ := some r.1
      vessels_ := map.modify p.vessels_ guid (fun w => { r.2 with address := w.address }) }
  | _, _ => p

/-- The function `Plugin::HasEncounteredApocalypse(std::string* details)`.  The
pointer `details` is `none` when null, otherwise the string it points to; the
value returned is the result together with the final content of `*details`.
The member function is `const`: it writes to no member of the plugin, and acts
on the ephemeris that `ephemeris_` points to by reading its status. -/
def HasEncounteredApocalypse (p : Plugin) (details : Option String) :
    Outcome Plugin (Bool × String) :=
  match details with
  | none => .fatal p
  | some details_content =>
    match p.ephemeris_ with
    | none => .fatal p
    | some ephemeris =>
      let read := ephemeris.last_severe_integration_status
      let status := read.1
      let p1 : Plugin := { p with ephemeris_ := some read.2 }
      if status.error = base.Error.INVALID_ARGUMENT then
        .returns (true, status.message) p1
      else
        .returns (false, details_content) p1

/-- The function `Plugin::InsertOrKeepVessel`.  The new `Vessel` made by
`make_not_null_unique<Vessel>` is built in `storage`. -/
def InsertOrKeepVessel (p : Plugin) (vessel_guid : GUID) (parent_index : Index)
    (storage : Address) : Outcome Plugin Bool :=
  if p.initializing_ then .fatal p else
  match map.find? p.celestials_ parent_index with
  | none => .fatal p
  | some parent_celestial =>
    let parent := parent_celestial.address
    match p.ephemeris_ with
    | none => .fatal p
    | some _ =>
      let inserted :=
        map.emplace p.vessels_ vessel_guid
          (Vessel.new storage parent p.history_parameters_ p.prolongation_parameters_
            p.prediction_parameters_)
      let vessel := inserted.2.1
      .returns inserted.2.2
        { p with
          vessels_ := map.modify inserted.1 vessel_guid (fun v => v.set_parent parent)
          kept_vessels_ := set.emplace p.kept_vessels_ vessel.address }

/-- The loop of `Plugin::FreeVessels` over `vessels_`, with `kept_vessels_`. -/
def FreeVessels.loop :
    List (GUID × Vessel) → List Address → List (GUID × Vessel) × List Address
  | [], kept_vessels => ([], kept_vessels)
  | (guid, vessel) :: rest, kept_vessels =>
    let erased := set.erase kept_vessels vessel.address
    if erased.2 then
      let r := FreeVessels.loop rest erased.1
      ((guid, vessel) :: r.1, r.2)
    else
      FreeVessels.loop rest erased.1

/-- The function `Plugin::FreeVessels`. -/
def FreeVessels (p : Plugin) : Plugin :=
  let r := FreeVessels.loop p.vessels_ p.kept_vessels_
  { p with vessels_ := r.1, kept_vessels_ := r.2 }

/-- The function `Plugin::PlanetariumRotation`; `none` when
`CHECK_NOTNULL(main_body_)` fails. -/
def PlanetariumRotation (p : Plugin) : Option PlanetariumRotationValue :=
  if p.is_pre_cardano_ then
    some (.about_z p.planetarium_rotation_)
  else
    match p.main_body_ with
    | none => none
    | some main_body => some (.about_pole p.planetarium_rotation_ main_body)

/-- The function `Plugin::BarycentricToWorldSun`: the planetarium rotation
composed with the constant `sun_looking_glass.Inverse()`. -/
def BarycentricToWorldSun (p : Plugin) : Option PlanetariumRotationValue :=
  p.PlanetariumRotation

/-- The loop of `Plugin::EvolveBubble` over `bubble_->vessels()`. -/
def EvolveBubble.loop (env : Environment) (t : Instant)
    (centre_of_mass : DegreesOfFreedom) : Plugin → List Address → Plugin
  | p, [] => p
  | p, vessel :: rest =>
    let from_centre_of_mass := p.bubble_.from_centre_of_mass vessel
    EvolveBubble.loop env t centre_of_mass
      (p.call_on_vessel vessel
        (fun e v => env.Vessel_AdvanceTimeInBubble e v t (centre_of_mass + from_centre_of_mass))
        (Call.Vessel_AdvanceTimeInBubble vessel t (centre_of_mass + from_centre_of_mass)))
      rest

/-- The function `Plugin::EvolveBubble`.  The flow is always asked for
`unlimited_max_ephemeris_steps`. -/
def EvolveBubble (env : Environment) (p : Plugin) (t : Instant) : Outcome Plugin Unit :=
  if p.bubble_.empty then .returns () p else
  match p.ephemeris_ with
  | none => .fatal p
  | some ephemeris =>
    let trajectory := p.bubble_.centre_of_mass_trajectory
    let intrinsic_acceleration := p.bubble_.centre_of_mass_intrinsic_acceleration
    let flow :=
      env.FlowWithAdaptiveStep ephemeris trajectory intrinsic_acceleration t
        p.prolongation_parameters_
    let p1 : Plugin :=
      { p with
        ephemeris_ := some flow.ephemeris
        bubble_ := { p.bubble_ with centre_of_mass_trajectory := flow.trajectory }
        calls_ := p.calls_ ++ [Call.Ephemeris_FlowWithAdaptiveStep t p.prolongation_parameters_] }
    if !flow.reached_final_time then .fatal p1 else
    match physics.last p1.bubble_.centre_of_mass_trajectory with
    | none => .fatal p1
    | some last =>
      let centre_of_mass := last.2
      .returns () (EvolveBubble.loop env t centre_of_mass p1 p1.bubble_.vessels)

/-- The loop of `Plugin::AdvanceTime` over `vessels_`. -/
def AdvanceTime.loop (env : Environment) (t : Instant) : Plugin → List (GUID × Vessel) → Plugin
  | p, [] => p
  | p, (_, vessel) :: rest =>
    if !p.bubble_.contains vessel.address then
      AdvanceTime.loop env t
        (p.call_on_vessel vessel.address
          (fun e v => env.Vessel_AdvanceTimeNotInBubble e v t)
          (Call.Vessel_AdvanceTimeNotInBubble vessel.address t))
        rest
    else
      AdvanceTime.loop env t p rest

/-- The function `Plugin::AdvanceTime`. -/
def AdvanceTime (env : Environment) (p : Plugin) (t : Instant)
    (planetarium_rotation : Angle) : Outcome Plugin Unit :=
  if p.initializing_ then .fatal p else
  if ¬ (t > p.current_time_) then .fatal p else
  let p1 := p.FreeVessels
  match p1.ephemeris_ with
  | none => .fatal p1
  | some ephemeris =>
    let p2 : Plugin :=
      { p1 with
        ephemeris_ := some (ephemeris.Prolong t)
        calls_ := p1.calls_ ++ [Call.Ephemeris_Prolong t] }
    match p2.BarycentricToWorldSun with
    | none => .fatal p2
    | some barycentric_to_world_sun =>
      let p3 : Plugin :=
        { p2 with
          bubble_ := env.Prepare p2.bubble_ barycentric_to_world_sun p2.current_time_ t
          calls_ := p2.calls_ ++
            [Call.PhysicsBubble_Prepare barycentric_to_world_sun p2.current_time_ t] }
      match EvolveBubble env p3 t with
      | .fatal s => .fatal s
      | .returns _ p4 =>
        let p5 := AdvanceTime.loop env t p4 p4.vessels_
        .returns () { p5 with current_time_ := t, planetarium_rotation_ := planetarium_rotation }

/-- The loop of `Plugin::ForgetAllHistoriesBefore` over `vessels_`. -/
def ForgetAllHistoriesBefore.loop (env : Environment) (t : Instant) :
    Plugin → List (GUID × Vessel) → Plugin
  | p, [] => p
  | p, (_, vessel) :: rest =>
    ForgetAllHistoriesBefore.loop env t
      (p.call_on_vessel vessel.address
        (fun e v => env.Vessel_ForgetBefore e v t)
        (Call.Vessel_ForgetBefore vessel.address t))
      rest

/-- The function `Plugin::ForgetAllHistoriesBefore`. -/
def ForgetAllHistoriesBefore (env : Environment) (p : Plugin) (t : Instant) :
    Outcome Plugin Unit :=
  if p.initializing_ then .fatal p else
  if ¬ (t < p.current_time_) then .fatal p else
  match p.ephemeris_ with
  | none => .fatal p
  | some ephemeris =>
    let p1 : Plugin :=
      { p with
        ephemeris_ := some (ephemeris.ForgetBefore t)
        calls_ := p.calls_ ++ [Call.Ephemeris_ForgetBefore t] }
    .returns () (ForgetAllHistoriesBefore.loop env t p1 p1.vessels_)

/-- The celestial at address `a`, what a `Celestial*` of value `a` points to. -/
def celestial_at (p : Plugin) (a : Address) : Option Celestial :=
  (p.celestials_.find? (fun ic => decide (ic.2.address = a))).map Prod.snd

/-- The body at address `a`, owned by the objects of the absolute
initialization or, once it exists, by the ephemeris. -/
def body_at (p : Plugin) (a : Address) : Option MassiveBody :=
  (((p.absolute_initialization_.map (fun objects => map.values objects.bodies)).getD []) ++
    ((p.ephemeris_.map (fun ephemeris => ephemeris.bodies_)).getD [])).find?
      (fun body => decide (body.address = a))

/-- The function `Plugin::InsertCelestialAbsoluteCartesian`.  The new
`Celestial` made by `std::make_unique<Celestial>` is built in `storage`. -/
def InsertCelestialAbsoluteCartesian (p : Plugin) (celestial_index : Index)
    (parent_index : Option Index) (initial_state : DegreesOfFreedom) (body : MassiveBody)
    (storage : Address) : Outcome Plugin Unit :=
  if !p.initializing_ then .fatal p else
  if p.hierarchical_initialization_.isSome then .fatal p else
  let objects := p.absolute_initialization_.getD {}
  let p1 : Plugin := { p with absolute_initialization_ := some objects }
  let inserted := map.emplace p1.celestials_ celestial_index (Celestial.new storage body.address)
  if !inserted.2.2 then .fatal p1 else
  let celestial := inserted.2.1
  let objects1 : AbsoluteInitializationObjects :=
    { objects with bodies := (map.emplace objects.bodies celestial_index body).1 }
  let p2 : Plugin :=
    { p1 with celestials_ := inserted.1, absolute_initialization_ := some objects1 }
  let objects2 : AbsoluteInitializationObjects :=
    { objects1 with
      initial_state := (map.emplace objects1.initial_state celestial_index initial_state).1 }
  match parent_index with
  | some parent_index =>
    match map.find? p2.celestials_ parent_index with
    | none => .fatal p2
    | some parent =>
      .returns ()
        { p2 with
          celestials_ :=
            map.modify p2.celestials_ celestial_index (fun c => c.set_parent parent.address)
          absolute_initialization_ := some objects2 }
  | none =>
    if p2.sun_.isSome then .fatal p2 else
    .returns ()
      { p2 with sun_ := some celestial.address, absolute_initialization_ := some objects2 }

/-- The first part of `Plugin::InsertCelestialJacobiKeplerian`: the body is
added to the hierarchical system under the body found at
`indices_to_bodies[*parent_index]` (the parent handed to `Add` is a `not_null`
pointer), or it becomes the primary of a new system.  Returns the objects of the
hierarchical initialization as they then are. -/
def InsertCelestialJacobiKeplerian.add (p : Plugin) (parent_index : Option Index)
    (keplerian_elements : Option KeplerianElements) (body : MassiveBody) :
    Outcome Plugin HierarchicalInitializationObjects :=
  match p.hierarchical_initialization_, parent_index, keplerian_elements with
  | some objects, some parent_index, some keplerian_elements =>
    let looked_up := map.subscript objects.indices_to_bodies parent_index none
    let objects1 : HierarchicalInitializationObjects :=
      { objects with indices_to_bodies := looked_up.1 }
    match looked_up.2 with
    | none => .fatal { p with hierarchical_initialization_ := some objects1 }
    | some parent =>
      .returns
        { objects1 with system := objects1.system.Add body parent keplerian_elements }
        p
  | some _, _, _ => .fatal p
  | none, _, _ => .returns (HierarchicalInitializationObjects.new body) p

/-- The function `Plugin::InsertCelestialJacobiKeplerian`. -/
def InsertCelestialJacobiKeplerian (env : Environment) (p : Plugin) (celestial_index : Index)
    (parent_index : Option Index) (keplerian_elements : Option KeplerianElements)
    (body : MassiveBody) : Outcome Plugin Unit :=
  if !p.initializing_ then .fatal p else
  if p.absolute_initialization_.isSome then .fatal p else
  if parent_index.isSome != keplerian_elements.isSome then .fatal p else
  if parent_index.isSome != p.hierarchical_initialization_.isSome then .fatal p else
  let unowned_body := body.address
  match InsertCelestialJacobiKeplerian.add p parent_index keplerian_elements body with
  | .fatal s => .fatal s
  | .returns objects _ =>
    let inserted_parent := map.emplace objects.parents celestial_index parent_index
    let inserted_body :=
      map.emplace objects.indices_to_bodies celestial_index (some unowned_body)
    let p1 : Plugin :=
      { p with
        hierarchical_initialization_ := some
          { objects with
            parents := inserted_parent.1
            indices_to_bodies := inserted_body.1 } }
    if !(inserted_parent.2.2 && inserted_body.2.2) then .fatal p1 else
    let fingerprinted :=
      set.insert p1.celestial_jacobi_keplerian_fingerprints_
        (env.FingerprintCelestialJacobiKeplerian celestial_index parent_index
          keplerian_elements body)
    if !fingerprinted.2 then .fatal p1 else
    .returns () { p1 with celestial_jacobi_keplerian_fingerprints_ := fingerprinted.1 }

/-- The function `Plugin::SetPlottingFrame`. -/
def SetPlottingFrame (p : Plugin) (plotting_frame : NavigationFrame) : Plugin :=
  { p with plotting_frame_ := some plotting_frame }

/-- The function `Plugin::InitializeEphemerisAndSetCelestialTrajectories`.  The
ephemeris made by `NewEphemeris` starts at `current_time_`. -/
def InitializeEphemerisAndSetCelestialTrajectories (p : Plugin) : Outcome Plugin Unit :=
  match p.absolute_initialization_ with
  | none => .fatal p
  | some objects =>
    let bodies := map.values objects.bodies
    let p1 : Plugin :=
      { p with
        absolute_initialization_ := none
        ephemeris_ := some (Ephemeris.new bodies p.current_time_) }
    let p2 : Plugin :=
      { p1 with celestials_ := p1.celestials_.map (fun ic => (ic.1, ic.2.set_trajectory)) }
    match p2.sun_ with
    | none => .fatal p2
    | some sun =>
      match p2.celestial_at sun with
      | none => .fatal p2
      | some sun_celestial =>
        .returns () (p2.SetPlottingFrame (.BodyCentredNonRotating sun_celestial.body))

/-- The map `bodies_to_indices` that `EndInitialization` builds from
`indices_to_bodies`; `none` when a pointer is null. -/
def EndInitialization.bodies_to_indices :
    List (Index × Option Address) → List (Address × Index) → Option (List (Address × Index))
  | [], result => some result
  | (_, none) :: _, _ => none
  | (index, some body) :: rest, result =>
    EndInitialization.bodies_to_indices rest (map.assign result body index)

/-- The loop of `Plugin::EndInitialization` over `system.bodies`; the celestial
of the `i`-th body is built in `storage i`. -/
def EndInitialization.loop (parents : List (Index × Option Index)) (storage : Nat → Address) :
    Plugin → List (Address × Index) → Nat → List (MassiveBody × DegreesOfFreedom) →
      Outcome Plugin Unit
  | p, _, _, [] => .returns () p
  | p, bodies_to_indices, i, (body, degrees_of_freedom) :: rest =>
    let looked_up := map.subscript bodies_to_indices body.address 0
    let celestial_index := looked_up.2
    match map.find? parents celestial_index with
    | none => .fatal p
    | some parent_index =>
      match p.InsertCelestialAbsoluteCartesian celestial_index parent_index
          degrees_of_freedom body (storage i) with
      | .fatal s => .fatal s
      | .returns _ p1 => EndInitialization.loop parents storage p1 looked_up.1 (i + 1) rest

/-- The first part of `Plugin::EndInitialization`: the conversion of a
hierarchical initialization into absolute insertions. -/
def EndInitialization.hierarchical (env : Environment) (p : Plugin)
    (storage : Nat → Address) : Outcome Plugin Unit :=
  match p.hierarchical_initialization_ with
  | none => .returns () p
  | some objects =>
    let system_fingerprint :=
      p.celestial_jacobi_keplerian_fingerprints_.foldl env.FingerprintCat2011 0
    let p1 : Plugin :=
      if system_fingerprint = ksp_stock_system_fingerprint then
        { p with is_ksp_stock_system_ := true }
      else p
    let system := env.ConsumeBarycentricSystem objects.system
    match EndInitialization.bodies_to_indices objects.indices_to_bodies [] with
    | none => .fatal p1
    | some bodies_to_indices =>
      let parents := objects.parents
      let p2 : Plugin := { p1 with hierarchical_initialization_ := none }
      EndInitialization.loop parents storage p2 bodies_to_indices 0 system

/-- The function `Plugin::EndInitialization`.  The serialized ephemeris that it
logs at the end is not part of the state. -/
def EndInitialization (env : Environment) (p : Plugin) (storage : Nat → Address) :
    Outcome Plugin Unit :=
  if !p.initializing_ then .fatal p else
  match EndInitialization.hierarchical env p storage with
  | .fatal s => .fatal s
  | .returns _ p1 =>
    match p1.absolute_initialization_ with
    | none => .fatal p1
    | some _ =>
      match p1.sun_ with
      | none => .fatal p1
      | some sun =>
        match p1.celestial_at sun with
        | none => .fatal p1
        | some sun_celestial =>
          match p1.body_at sun_celestial.body with
          | none => .fatal p1
          | some sun_body =>
            if !sun_body.is_rotating then .fatal p1 else
            InitializeEphemerisAndSetCelestialTrajectories
              { p1 with main_body_ := some sun_body.address, initializing_ := false }

/-- The function `Plugin::UpdateCelestialHierarchy`. -/
def UpdateCelestialHierarchy (p : Plugin) (celestial_index : Index) (parent_index : Index) :
    Outcome Plugin Unit :=
  if p.initializing_ then .fatal p else
  match map.find? p.celestials_ celestial_index, map.find? p.celestials_ parent_index with
  | some _, some parent =>
    .returns ()
      { p with
        celestials_ :=
          map.modify p.celestials_ celestial_index (fun c => c.set_parent parent.address) }
  | _, _ => .fatal p

/-- The function `Plugin::SetMainBody`. -/
def SetMainBody (p : Plugin) (index : Index) : Outcome Plugin Unit :=
  match map.find? p.celestials_ index with
  | none => .fatal p
  | some celestial =>
    match p.body_at celestial.body with
    | none => .fatal p
    | some body =>
      if body.is_rotating then .returns () { p with main_body_ := some body.address }
      else .fatal { p with main_body_ := none }

/-- The function `Plugin::SetVesselStateOffset`. -/
def SetVesselStateOffset (env : Environment) (p : Plugin) (vessel_guid : GUID)
    (from_parent : RelativeDegreesOfFreedom) : Outcome Plugin Unit :=
  if p.initializing_ then .fatal p else
  match map.find? p.vessels_ vessel_guid with
  | none => .fatal p
  | some vessel =>
    if vessel.is_initialized then .fatal p else
    match p.PlanetariumRotation with
    | none => .fatal p
    | some planetarium_rotation =>
      let relative := env.rotate_inverse planetarium_rotation from_parent
      match p.ephemeris_ with
      | none => .fatal p
      | some ephemeris =>
        let p1 : Plugin :=
          { p with
            ephemeris_ := some (ephemeris.Prolong p.current_time_)
            calls_ := p.calls_ ++ [Call.Ephemeris_Prolong p.current_time_] }
        match p1.celestial_at vessel.parent with
        | none => .fatal p1
        | some parent =>
          let degrees_of_freedom :=
            env.current_degrees_of_freedom (ephemeris.Prolong p.current_time_) parent.body
              p1.current_time_ + relative
          .returns ()
            { p1 with
              vessels_ :=
                map.modify p1.vessels_ vessel_guid
                  (fun v => v.CreateHistoryAndForkProlongation p1.current_time_
                    degrees_of_freedom)
              calls_ := p1.calls_ ++
                [Call.Vessel_CreateHistoryAndForkProlongation vessel.address p1.current_time_
                  degrees_of_freedom] }

/-- The function `Plugin::UpdatePrediction`.  The call
`vessel->UpdatePrediction(...)` aborts when the precondition of that function
fails. -/
def UpdatePrediction (env : Environment) (p : Plugin) (vessel_guid : GUID) :
    Outcome Plugin Unit :=
  if p.initializing_ then .fatal p else
  match map.find? p.vessels_ vessel_guid with
  | none => .fatal p
  | some vessel =>
    if !Vessel.UpdatePrediction.precondition vessel then .fatal p else
    .returns ()
      (p.call_on_vessel vessel.address
        (fun e v => env.Vessel_UpdatePrediction e v (p.current_time_ + p.prediction_length_))
        (Call.Vessel_UpdatePrediction vessel.address (p.current_time_ + p.prediction_length_)))

/-- The function `Plugin::CreateFlightPlan`. -/
def CreateFlightPlan (env : Environment) (p : Plugin) (vessel_guid : GUID)
    (final_time : Instant) (initial_mass : ℚ) : Outcome Plugin Unit :=
  if p.initializing_ then .fatal p else
  match map.find? p.vessels_ vessel_guid with
  | none => .fatal p
  | some vessel =>
    .returns ()
      (p.call_on_vessel vessel.address
        (fun e v =>
          env.Vessel_CreateFlightPlan e v final_time initial_mass p.prediction_parameters_)
        (Call.Vessel_CreateFlightPlan vessel.address final_time initial_mass
          p.prediction_parameters_))

/-- The function `Plugin::SetPredictionLength`. -/
def SetPredictionLength (p : Plugin) (t : Time) : Plugin :=
  { p with prediction_length_ := t }

/-- The function `Plugin::SetPredictionAdaptiveStepParameters`. -/
def SetPredictionAdaptiveStepParameters (p : Plugin)
    (prediction_adaptive_step_parameters : AdaptiveStepParameters) : Plugin :=
  { p with
    prediction_parameters_ := prediction_adaptive_step_parameters
    vessels_ := p.vessels_.map (fun gv =>
      (gv.1, gv.2.set_prediction_adaptive_step_parameters prediction_adaptive_step_parameters)) }

/-- The function `Plugin::AddVesselToNextPhysicsBubble`. -/
def AddVesselToNextPhysicsBubble (env : Environment) (p : Plugin) (vessel_guid : GUID)
    (parts : List Nat) : Outcome Plugin Unit :=
  match map.find? p.vessels_ vessel_guid with
  | none => .fatal p
  | some vessel =>
    if ¬ (0 < set.count p.kept_vessels_ vessel.address) then .fatal p else
    .returns ()
      { p with
        bubble_ := env.AddVesselToNext p.bubble_ vessel.address parts
        calls_ := p.calls_ ++ [Call.PhysicsBubble_AddVesselToNext vessel.address parts] }

/-- The private constructor `Plugin::Plugin(vessels, celestials, bubble,
ephemeris, ..., sun_index, is_pre_cardano)` with which `ReadFromMessage` builds
the plugin; `none` when a `FindOrDie` or a `CHECK` fails. -/
def restore (vessels : List (GUID × Vessel)) (celestials : List (Index × Celestial))
    (bubble : PhysicsBubble) (ephemeris : Option Ephemeris)
    (history_parameters : FixedStepParameters)
    (prolongation_parameters : AdaptiveStepParameters)
    (prediction_parameters : AdaptiveStepParameters)
    (planetarium_rotation : Angle) (game_epoch : Instant) (current_time : Instant)
    (sun_index : Index) (is_pre_cardano : Bool) : Option Plugin :=
  match map.find? celestials sun_index with
  | none => none
  | some sun =>
    let p : Plugin :=
      { vessels_ := vessels
        celestials_ := celestials
        bubble_ := bubble
        ephemeris_ := ephemeris
        history_parameters_ := history_parameters
        prolongation_parameters_ := prolongation_parameters
        prediction_parameters_ := prediction_parameters
        planetarium_rotation_ := planetarium_rotation
        game_epoch_ := game_epoch
        current_time_ := current_time
        sun_ := some sun.address
        is_pre_cardano_ := is_pre_cardano
        kept_vessels_ := vessels.foldl (fun kept gv => set.emplace kept gv.2.address) [] }
    if is_pre_cardano then
      some { p with initializing_ := false }
    else
      match p.body_at sun.body with
      | none => none
      | some sun_body =>
        if sun_body.is_rotating then
          some { p with main_body_ := some sun_body.address, initializing_ := false }
        else none

/-- The function `Plugin::CurrentTime`. -/
def CurrentTime (p : Plugin) : Instant := p.current_time_

/-- The function `Plugin::HasVessel`. -/
def HasVessel (p : Plugin) (vessel_guid : GUID) : Bool :=
  (map.find? p.vessels_ vessel_guid).isSome

/-- The constructor `Plugin::Plugin(game_epoch, solar_system_epoch,
planetarium_rotation)`. -/
def new (env : Environment) (game_epoch : Instant) (solar_system_epoch : Instant)
    (planetarium_rotation : Angle) : Plugin :=
  { bubble_ := PhysicsBubble.new
    history_parameters_ := env.DefaultHistoryParameters
    prolongation_parameters_ := env.DefaultProlongationParameters
    prediction_parameters_ := env.DefaultPredictionParameters
    planetarium_rotation_ := planetarium_rotation
    game_epoch_ := game_epoch
    current_time_ := solar_system_epoch }

/-- The function `Plugin::VesselFromParent`.  The member function is `const` and
calls no function that acts on a collaborator. -/
def VesselFromParent (env : Environment) (p : Plugin) (vessel_guid : GUID) :
    Outcome Plugin RelativeDegreesOfFreedom :=
  if p.initializing_ then .fatal p else
  match map.find? p.vessels_ vessel_guid with
  | none => .fatal p
  | some vessel =>
    if !vessel.is_initialized then .fatal p else
    match vessel.prolongation.bind physics.last, p.ephemeris_, p.celestial_at vessel.parent,
        p.PlanetariumRotation with
    | some last, some ephemeris, some parent, some planetarium_rotation =>
      let barycentric_result :=
        last.2 - env.current_degrees_of_freedom ephemeris parent.body p.current_time_
      .returns (env.rotate planetarium_rotation barycentric_result) p
    | _, _, _, _ => .fatal p

/-- The function `Plugin::CelestialFromParent`. -/
def CelestialFromParent (env : Environment) (p : Plugin) (celestial_index : Index) :
    Outcome Plugin RelativeDegreesOfFreedom :=
  if p.initializing_ then .fatal p else
  match p.ephemeris_ with
  | none => .fatal p
  | some ephemeris =>
    let p1 : Plugin :=
      { p with
        ephemeris_ := some (ephemeris.Prolong p.current_time_)
        calls_ := p.calls_ ++ [Call.Ephemeris_Prolong p.current_time_] }
    match map.find? p1.celestials_ celestial_index with
    | none => .fatal p1
    | some celestial =>
      if !celestial.has_parent then .fatal p1 else
      match celestial.parent_.bind p1.celestial_at, p1.PlanetariumRotation with
      | some parent, some planetarium_rotation =>
        let barycentric_result :=
          env.current_degrees_of_freedom (ephemeris.Prolong p.current_time_) celestial.body
              p1.current_time_ -
            env.current_degrees_of_freedom (ephemeris.Prolong p.current_time_) parent.body
              p1.current_time_
        .returns (env.rotate planetarium_rotation barycentric_result) p1
      | _, _ => .fatal p1

/-- The function `Plugin::RenderedTrajectoryFromIterators`, on the points from
`begin` to `end`; `none` when a `CHECK` fails or a null pointer is
dereferenced. -/
def RenderedTrajectoryFromIterators (env : Environment) (p : Plugin)
    (points : DiscreteTrajectory) (sun_world_position : Vec3) : Option DiscreteTrajectory :=
  match p.sun_.bind p.celestial_at, p.ephemeris_, p.BarycentricToWorldSun,
      p.plotting_frame_ with
  | some sun, some ephemeris, some barycentric_to_world_sun, some plotting_frame =>
    let sun_position :=
      (env.current_degrees_of_freedom ephemeris sun.body p.current_time_).1
    let intermediate_trajectory : DiscreteTrajectory :=
      points.map (fun point =>
        (point.1, env.ToThisFrameAtTime plotting_frame ephemeris point.1 point.2))
    some (intermediate_trajectory.map (fun point =>
      (point.1,
        env.from_navigation_frame_to_world plotting_frame ephemeris p.current_time_
          sun_position sun_world_position barycentric_to_world_sun point.2)))
  | _, _, _, _ => none

/-- The function `Plugin::RenderedVesselTrajectory`. -/
def RenderedVesselTrajectory (env : Environment) (p : Plugin) (vessel_guid : GUID)
    (sun_world_position : Vec3) : Outcome Plugin DiscreteTrajectory :=
  if p.initializing_ then .fatal p else
  match map.find? p.vessels_ vessel_guid with
  | none => .fatal p
  | some vessel =>
    if !vessel.is_initialized then .fatal p else
    match vessel.history with
    | none => .fatal p
    | some history =>
      match p.RenderedTrajectoryFromIterators env history sun_world_position with
      | none => .fatal p
      | some result => .returns result p

/-- The function `Plugin::RenderedPrediction`. -/
def RenderedPrediction (env : Environment) (p : Plugin) (vessel_guid : GUID)
    (sun_world_position : Vec3) : Outcome Plugin DiscreteTrajectory :=
  if p.initializing_ then .fatal p else
  match map.find? p.vessels_ vessel_guid with
  | none => .fatal p
  | some vessel =>
    match vessel.prediction with
    | none => .fatal p
    | some prediction =>
      match p.RenderedTrajectoryFromIterators env prediction sun_world_position with
      | none => .fatal p
      | some result => .returns result p

/-- The function `Plugin::VesselVelocity`. -/
def VesselVelocity (env : Environment) (p : Plugin) (vessel_guid : GUID) :
    Outcome Plugin Vec3 :=
  match map.find? p.vessels_ vessel_guid with
  | none => .fatal p
  | some vessel =>
    match vessel.prolongation.bind physics.last, p.plotting_frame_, p.ephemeris_,
        p.BarycentricToWorldSun with
    | some last, some plotting_frame, some ephemeris, some barycentric_to_world_sun =>
      let time := last.1
      let plotting_frame_degrees_of_freedom :=
        env.ToThisFrameAtTime plotting_frame ephemeris time last.2
      .returns
        (env.velocity_to_world plotting_frame ephemeris time barycentric_to_world_sun
          plotting_frame_degrees_of_freedom.2)
        p
    | _, _, _, _ => .fatal p

/-- The function `Plugin::GameEpoch`. -/
def GameEpoch (p : Plugin) : Instant := p.game_epoch_

/-- The function `Plugin::MustRotateBodies`. -/
def MustRotateBodies (p : Plugin) : Bool := !p.is_pre_cardano_

end Plugin

/-- The function `principia__HasEncounteredApocalypse` of
`ksp_plugin/interface.cpp`.  The pointers `plugin` and `details` are `none` when
null (`details_out` is what `*details` pointed to before the call); the value
returned is the result together with the C string stored into `*details`. -/
def principia__HasEncounteredApocalypse (plugin : Option Plugin)
    (details_out : Option String) : Option (Outcome Plugin (Bool × String)) :=
  match plugin with
  | none => none
  | some p =>
    let details_string := ""
    match p.HasEncounteredApocalypse (some details_string) with
    | .fatal s => some (.fatal s)
    | .returns r s =>
      match details_out with
      | none => some (.fatal s)
      | some _ => some (.returns (r.1, r.2) s)

/-! ## Serialization (`Plugin::WriteToMessage`, `Plugin::ReadFromMessage`) -/

/-- Modelled from the spec: `Vessel::WriteToMessage` (`vessel.cpp` is not among
the sources), which records the trajectories and the parameters of the vessel;
by `vessel.hpp`, "The vessel must satisfy `is_initialized()`": `none` when it
does not. -/
def Vessel.WriteToMessage (v : Vessel) : Option serialization.Vessel :=
  match v.history, v.prolongation with
  | some history, some prolongation =>
    some
      { history_fixed_step_parameters := v.history_fixed_step_parameters_
        prolongation_adaptive_step_parameters := v.prolongation_adaptive_step_parameters_
        prediction_adaptive_step_parameters := v.prediction_adaptive_step_parameters_
        history := history
        prolongation := prolongation
        prediction := v.prediction_ }
  | _, _ => none

/-- Modelled from the spec: `Vessel::ReadFromMessage(message, ephemeris,
parent)`, which builds, in `storage`, a vessel with the trajectories and the
parameters recorded in the message ("full-fidelity write/read round trip"). -/
def Vessel.ReadFromMessage (message : serialization.Vessel) (storage : Address)
    (parent : Address) : Vessel :=
  { address := storage
    parent_ := parent
    history_fixed_step_parameters_ := message.history_fixed_step_parameters
    prolongation_adaptive_step_parameters_ := message.prolongation_adaptive_step_parameters
    prediction_adaptive_step_parameters_ := message.prediction_adaptive_step_parameters
    history_ := some message.history
    prolongation_ := some message.prolongation
    prediction_ := message.prediction }

/-- Modelled from the spec: `PhysicsBubble::WriteToMessage(guid, message)`
(`physics_bubble.cpp` is not among the sources), which names each vessel of the
bubble by the GUID that the callback `guid` gives for it; `none` when the
callback fails. -/
def PhysicsBubble.WriteToMessage (bubble : PhysicsBubble) (guid : Address → Option GUID) :
    Option serialization.PhysicsBubble :=
  match bubble.vessels.mapM guid with
  | none => none
  | some guids =>
    some
      { empty := bubble.empty
        vessels := guids
        from_centre_of_mass := fun g =>
          match (guids.zip bubble.vessels).lookup g with
          | some vessel => bubble.from_centre_of_mass vessel
          | none => 0
        centre_of_mass_trajectory := bubble.centre_of_mass_trajectory
        centre_of_mass_intrinsic_acceleration := bubble.centre_of_mass_intrinsic_acceleration }

/-- Modelled from the spec: `PhysicsBubble::ReadFromMessage(vessel, message)`,
which finds each vessel of the bubble through the callback `vessel`; `none` when
the callback fails. -/
def PhysicsBubble.ReadFromMessage (vessel : GUID → Option Address)
    (message : serialization.PhysicsBubble) : Option PhysicsBubble :=
  match message.vessels.mapM vessel with
  | none => none
  | some vessels =>
    some
      { empty := message.empty
        vessels := vessels
        contains := fun a => decide (a ∈ vessels)
        from_centre_of_mass := fun a =>
          match (vessels.zip message.vessels).lookup a with
          | some g => message.from_centre_of_mass g
          | none => 0
        centre_of_mass_trajectory := message.centre_of_mass_trajectory
        centre_of_mass_intrinsic_acceleration :=
          message.centre_of_mass_intrinsic_acceleration }

namespace Plugin

/-- The map `celestial_to_index` that `WriteToMessage` builds from
`celestials_`. -/
def WriteToMessage.celestial_to_index (celestials : List (Index × Celestial)) :
    List (Address × Index) :=
  celestials.foldl (fun m ic => (map.emplace m ic.2.address ic.1).1) []

/-- The map `vessel_to_guid` that `WriteToMessage` builds from `vessels_`. -/
def WriteToMessage.vessel_to_guid (vessels : List (GUID × Vessel)) : List (Address × GUID) :=
  vessels.foldl (fun m gv => (map.emplace m gv.2.address gv.1).1) []

/-- The loop of `WriteToMessage` over `celestials_`, which fills the repeated
field `celestial`; `none` when a `FindOrDie` fails. -/
def WriteToMessage.celestials (celestial_to_index : List (Address × Index)) :
    List (Index × Celestial) → Option (List serialization.CelestialParenthood)
  | [] => some []
  | (index, owned_celestial) :: rest =>
    match owned_celestial.parent_ with
    | none =>
      (WriteToMessage.celestials celestial_to_index rest).map
        (fun messages => { index := index, parent_index := none } :: messages)
    | some parent =>
      match map.find? celestial_to_index parent with
      | none => none
      | some parent_index =>
        (WriteToMessage.celestials celestial_to_index rest).map
          (fun messages => { index := index, parent_index := some parent_index } :: messages)

/-- The loop of `WriteToMessage` over `vessels_`, which fills the repeated field
`vessel`; `none` when `Vessel::WriteToMessage` or a `FindOrDie` fails. -/
def WriteToMessage.vessels (celestial_to_index : List (Address × Index)) :
    List (GUID × Vessel) → Option (List serialization.VesselAndProperties)
  | [] => some []
  | (guid, vessel) :: rest =>
    match vessel.WriteToMessage, map.find? celestial_to_index vessel.parent with
    | some vessel_message, some parent_index =>
      (WriteToMessage.vessels celestial_to_index rest).map
        (fun messages =>
          { guid := guid, vessel := vessel_message, parent_index := parent_index,
            dirty := vessel.is_dirty } :: messages)
    | _, _ => none

/-- The function `Plugin::WriteToMessage`; the value returned is the message
that it fills. -/
def WriteToMessage (p : Plugin) : Outcome Plugin serialization.Plugin :=
  if p.initializing_ then .fatal p else
  match p.ephemeris_ with
  | none => .fatal p
  | some ephemeris =>
    let p1 : Plugin :=
      { p with
        ephemeris_ := some (ephemeris.Prolong p.current_time_)
        calls_ := p.calls_ ++ [Call.Ephemeris_Prolong p.current_time_] }
    let celestial_to_index := WriteToMessage.celestial_to_index p1.celestials_
    let vessel_to_guid := WriteToMessage.vessel_to_guid p1.vessels_
    match WriteToMessage.celestials celestial_to_index p1.celestials_,
        WriteToMessage.vessels celestial_to_index p1.vessels_,
        p1.bubble_.WriteToMessage (fun vessel => map.find? vessel_to_guid vessel),
        p1.sun_.bind (map.find? celestial_to_index),
        p1.plotting_frame_ with
    | some celestial, some vessel, some bubble, some sun_index, some plotting_frame =>
      .returns
        { vessel := vessel
          celestial := celestial
          ephemeris := some (ephemeris.Prolong p.current_time_)
          history_parameters := some p1.history_parameters_
          prolongation_parameters := some p1.prolongation_parameters_
          prediction_parameters := some p1.prediction_parameters_
          bubble := bubble
          planetarium_rotation := p1.planetarium_rotation_
          game_epoch := if !p1.is_pre_cardano_ then some p1.game_epoch_ else none
          current_time := p1.current_time_
          sun_index := sun_index
          plotting_frame := some plotting_frame }
        p1
    | _, _, _, _, _ => .fatal p1

/-- The index of the sun, as `WriteToMessage` finds it:
`FindOrDie(celestial_to_index, sun_)`. -/
def sun_index (p : Plugin) : Option Index :=
  p.sun_.bind (map.find? (WriteToMessage.celestial_to_index p.celestials_))

/-- The first loop of `Plugin::ReadCelestialsFromMessages`, over the messages
(of which the index and the parent index are given) and, with `bodies_it`, over
the bodies of the ephemeris; the celestial of the `i`-th message is built in
`storage i`.  Returns the celestials and the bodies that `bodies_it` has not
reached; `none` when the `CHECK` fails or `bodies_it` is dereferenced at the
end. -/
def ReadCelestialsFromMessages.insert (storage : Nat → Address) :
    List (Index × Option Index) → List MassiveBody → Nat → List (Index × Celestial) →
      Option (List (Index × Celestial) × List MassiveBody)
  | [], bodies, _, celestials => some (celestials, bodies)
  | _ :: _, [], _, _ => none
  | (index, _) :: rest, body :: bodies, i, celestials =>
    let inserted := map.emplace celestials index (Celestial.new (storage i) body.address)
    if !inserted.2.2 then none else
    ReadCelestialsFromMessages.insert storage rest bodies (i + 1)
      (map.modify inserted.1 index (fun c => c.set_trajectory))

/-- The second loop of `Plugin::ReadCelestialsFromMessages`; `none` when a
`FindOrDie` fails. -/
def ReadCelestialsFromMessages.set_parents :
    List (Index × Option Index) → List (Index × Celestial) → Option (List (Index × Celestial))
  | [], celestials => some celestials
  | (_, none) :: rest, celestials => ReadCelestialsFromMessages.set_parents rest celestials
  | (index, some parent_index) :: rest, celestials =>
    match map.find? celestials index, map.find? celestials parent_index with
    | some _, some parent =>
      ReadCelestialsFromMessages.set_parents rest
        (map.modify celestials index (fun c => c.set_parent parent.address))
    | _, _ => none

/-- The function `Plugin::ReadCelestialsFromMessages`, for messages of either
kind, of which the index and the parent index are given. -/
def ReadCelestialsFromMessages (ephemeris : Ephemeris)
    (celestial_messages : List (Index × Option Index)) (storage : Nat → Address)
    (celestials : List (Index × Celestial)) : Option (List (Index × Celestial)) :=
  match ReadCelestialsFromMessages.insert storage celestial_messages ephemeris.bodies_ 0
      celestials with
  | none => none
  | some inserted =>
    if inserted.2.length ≠ 0 then none else
    ReadCelestialsFromMessages.set_parents celestial_messages inserted.1

/-- The loop of `Plugin::ReadFromMessage` over the repeated field `vessel`; the
vessel of the `i`-th message is built in `storage i`.  `none` when a `FindOrDie`
or the `CHECK` fails. -/
def ReadFromMessage.vessels (celestials : List (Index × Celestial)) (storage : Nat → Address) :
    List serialization.VesselAndProperties → Nat → List (GUID × Vessel) →
      Option (List (GUID × Vessel))
  | [], _, vessels => some vessels
  | vessel_message :: rest, i, vessels =>
    match map.find? celestials vessel_message.parent_index with
    | none => none
    | some parent =>
      let vessel := Vessel.ReadFromMessage vessel_message.vessel (storage i) parent.address
      let vessel := if vessel_message.dirty then vessel.set_dirty else vessel
      let inserted := map.emplace vessels vessel_message.guid vessel
      if !inserted.2.2 then none else
      ReadFromMessage.vessels celestials storage rest (i + 1) inserted.1

/-- The function `Plugin::NewBodyCentredNonRotatingNavigationFrame`; `none` when
a `CHECK` or the `FindOrDie` fails. -/
def NewBodyCentredNonRotatingNavigationFrame (p : Plugin) (reference_body_index : Index) :
    Option NavigationFrame :=
  if p.initializing_ then none else
  match map.find? p.celestials_ reference_body_index, p.ephemeris_ with
  | some reference_body, some _ => some (.BodyCentredNonRotating reference_body.body)
  | _, _ => none

/-- The function `Plugin::ReadFromMessage`; `none` when a `CHECK` or a
`FindOrDie` fails.  The celestials and the vessels are built in the storage
given by `celestial_storage` and `vessel_storage`.  The source calls
`is_pre_bunyakovsky` by the Cyrillic spelling of the name. -/
def ReadFromMessage (env : Environment) (message : serialization.Plugin)
    (celestial_storage : Nat → Address) (vessel_storage : Nat → Address) : Option Plugin :=
  let is_pre_bourbaki := decide (message.pre_bourbaki_celestial.length > 0)
  let ephemeris : Option Ephemeris :=
    if is_pre_bourbaki then
      some (env.ReadFromPreBourbakiMessages message.pre_bourbaki_celestial fitting_tolerance
        DefaultEphemerisParameters)
    else message.ephemeris
  match ephemeris with
  | none => none
  | some ephemeris =>
    let celestials :=
      if is_pre_bourbaki then
        ReadCelestialsFromMessages ephemeris
          (message.pre_bourbaki_celestial.map (fun m => (m.index, m.parent_index)))
          celestial_storage []
      else
        ReadCelestialsFromMessages ephemeris
          (message.celestial.map (fun m => (m.index, m.parent_index))) celestial_storage []
    match celestials with
    | none => none
    | some celestials =>
      match ReadFromMessage.vessels celestials vessel_storage message.vessel 0 [] with
      | none => none
      | some vessels =>
        match PhysicsBubble.ReadFromMessage
            (fun guid => (map.find? vessels guid).map (fun vessel => vessel.address))
            message.bubble with
        | none => none
        | some bubble =>
          let current_time := message.current_time
          let is_pre_bunyakovsky :=
            !(message.history_parameters.isSome && message.prolongation_parameters.isSome &&
              message.prediction_parameters.isSome)
          let history_parameters :=
            if is_pre_bunyakovsky then env.DefaultHistoryParameters
            else message.history_parameters.getD env.DefaultHistoryParameters
          let prolongation_parameters :=
            if is_pre_bunyakovsky then env.DefaultProlongationParameters
            else message.prolongation_parameters.getD env.DefaultProlongationParameters
          let prediction_parameters :=
            if is_pre_bunyakovsky then env.DefaultPredictionParameters
            else message.prediction_parameters.getD env.DefaultPredictionParameters
          let is_pre_cardano := !message.game_epoch.isSome
          let game_epoch :=
            if is_pre_cardano then astronomy.J2000
            else message.game_epoch.getD astronomy.J2000
          match restore vessels celestials bubble (some ephemeris) history_parameters
              prolongation_parameters prediction_parameters message.planetarium_rotation
              game_epoch current_time message.sun_index is_pre_cardano with
          | none => none
          | some plugin =>
            match message.plotting_frame with
            | none =>
              (plugin.NewBodyCentredNonRotatingNavigationFrame message.sun_index).map
                plugin.SetPlottingFrame
            | some plotting_frame => some (plugin.SetPlottingFrame plotting_frame)

end Plugin

/-! ## Sequences of operations -/

/-- The operations of a `Plugin`: its non-`const` member functions, which alone
can write to its members, and of the `const` ones `HasEncounteredApocalypse`,
`UpdateCelestialHierarchy`, `ForgetAllHistoriesBefore`, `UpdatePrediction`,
`CreateFlightPlan`, `CelestialFromParent` and `WriteToMessage`, which act on the
objects that the plugin points to.  The other `const` member functions compute a
result from the state. -/
inductive Operation where
  | InsertCelestialAbsoluteCartesian (celestial_index : Index) (parent_index : Option Index)
      (initial_state : DegreesOfFreedom) (body : physics.MassiveBody) (storage : Address)
  | InsertCelestialJacobiKeplerian (celestial_index : Index) (parent_index : Option Index)
      (keplerian_elements : Option physics.KeplerianElements) (body : physics.MassiveBody)
  | EndInitialization (storage : Nat → Address)
  | HasEncounteredApocalypse (details : Option String)
  | UpdateCelestialHierarchy (celestial_index : Index) (parent_index : Index)
  | SetMainBody (index : Index)
  | InsertOrKeepVessel (vessel_guid : GUID) (parent_index : Index) (storage : Address)
  | SetVesselStateOffset (vessel_guid : GUID) (from_parent : RelativeDegreesOfFreedom)
  | AdvanceTime (t : Instant) (planetarium_rotation : Angle)
  | ForgetAllHistoriesBefore (t : Instant)
  | UpdatePrediction (vessel_guid : GUID)
  | CreateFlightPlan (vessel_guid : GUID) (final_time : Instant) (initial_mass : ℚ)
  | SetPredictionLength (t : Time)
  | SetPredictionAdaptiveStepParameters
      (prediction_adaptive_step_parameters : physics.AdaptiveStepParameters)
  | SetPlottingFrame (plotting_frame : NavigationFrame)
  | AddVesselToNextPhysicsBubble (vessel_guid : GUID) (parts : List Nat)
  | CelestialFromParent (celestial_index : Index)
  | WriteToMessage

/-- Whether the operation is an `AdvanceTime`. -/
def Operation.is_AdvanceTime : Operation → Bool
  | .AdvanceTime _ _ => true
  | _ => false

/-- Whether the operation is an `EndInitialization`. -/
def Operation.is_EndInitialization : Operation → Bool
  | .EndInitialization _ => true
  | _ => false

/-- Whether the operation inserts a celestial under `celestial_index`. -/
def Operation.inserts_celestial (celestial_index : Index) : Operation → Bool
  | .InsertCelestialAbsoluteCartesian index _ _ _ _ => decide (index = celestial_index)
  | .InsertCelestialJacobiKeplerian index _ _ _ => decide (index = celestial_index)
  | _ => false

/-- Whether the operation belongs to the initialization: the insertion of a
celestial or `EndInitialization`. -/
def Operation.is_initialization : Operation → Bool
  | .InsertCelestialAbsoluteCartesian _ _ _ _ _ => true
  | .InsertCelestialJacobiKeplerian _ _ _ _ => true
  | .EndInitialization _ => true
  | _ => false

/-- One operation on the plugin. -/
def Plugin.step (env : Environment) (p : Plugin) : Operation → Outcome Plugin Unit
  | .InsertCelestialAbsoluteCartesian celestial_index parent_index initial_state body storage =>
    p.InsertCelestialAbsoluteCartesian celestial_index parent_index initial_state body storage
  | .InsertCelestialJacobiKeplerian celestial_index parent_index keplerian_elements body =>
    p.InsertCelestialJacobiKeplerian env celestial_index parent_index keplerian_elements body
  | .EndInitialization storage => p.EndInitialization env storage
  | .HasEncounteredApocalypse details => (p.HasEncounteredApocalypse details).discard
  | .UpdateCelestialHierarchy celestial_index parent_index =>
    p.UpdateCelestialHierarchy celestial_index parent_index
  | .SetMainBody index => p.SetMainBody index
  | .InsertOrKeepVessel vessel_guid parent_index storage =>
    (p.InsertOrKeepVessel vessel_guid parent_index storage).discard
  | .SetVesselStateOffset vessel_guid from_parent =>
    p.SetVesselStateOffset env vessel_guid from_parent
  | .AdvanceTime t planetarium_rotation => p.AdvanceTime env t planetarium_rotation
  | .ForgetAllHistoriesBefore t => p.ForgetAllHistoriesBefore env t
  | .UpdatePrediction vessel_guid => p.UpdatePrediction env vessel_guid
  | .CreateFlightPlan vessel_guid final_time initial_mass =>
    p.CreateFlightPlan env vessel_guid final_time initial_mass
  | .SetPredictionLength t => .returns () (p.SetPredictionLength t)
  | .SetPredictionAdaptiveStepParameters prediction_adaptive_step_parameters =>
    .returns () (p.SetPredictionAdaptiveStepParameters prediction_adaptive_step_parameters)
  | .SetPlottingFrame plotting_frame => .returns () (p.SetPlottingFrame plotting_frame)
  | .AddVesselToNextPhysicsBubble vessel_guid parts =>
    p.AddVesselToNextPhysicsBubble env vessel_guid parts
  | .CelestialFromParent celestial_index =>
    (p.CelestialFromParent env celestial_index).discard
  | .WriteToMessage => p.WriteToMessage.discard

/-- A sequence of operations; it ends at the first fatal error. -/
def Plugin.run (env : Environment) : Plugin → List Operation → Outcome Plugin Unit
  | p, [] => .returns () p
  | p, operation :: rest =>
    match p.step env operation with
    | .fatal s => .fatal s
    | .returns _ q => Plugin.run env q rest

/-! ## What the calls on the vessels leave -/

/-- The vessel as a call `vessel->f(...)` leaves it, when the call finds the
ephemeris as `e`: what `f` makes of the vessel, the object staying where it
is. -/
def Vessel.after (f : Ephemeris → Vessel → Ephemeris × Vessel) (e : Ephemeris)
    (v : Vessel) : Vessel :=
  { (f e v).2 with address := v.address }

/-- The ephemeris after the calls `vessel->f(...)` on the vessels in order, the
first of which finds the ephemeris as `e` and each of the others as the one
before it left it. -/
def ephemeris_after (f : Ephemeris → Vessel → Ephemeris × Vessel) (e : Ephemeris)
    (vessels : List Vessel) : Ephemeris :=
  vessels.foldl (fun ephemeris v => (f ephemeris v).1) e

/-! ## Well-formed states -/

namespace Plugin

/-- The addresses of the registered vessels, in the order of `vessels_`. -/
def vessel_addresses (p : Plugin) : List Address :=
  p.vessels_.map (fun gv => gv.2.address)

/-- The vessel at address `a`, what a `Vessel*` of value `a` points to. -/
def vessel_at (p : Plugin) (a : Address) : Option Vessel :=
  (p.vessels_.find? (fun gv => decide (gv.2.address = a))).map Prod.snd

/-- The calls `vessel->f(...)` on the vessels at the addresses, in order. -/
def call_on_vessels (f : Ephemeris → Vessel → Ephemeris × Vessel) (call : Address → Call) :
    Plugin → List Address → Plugin
  | p, [] => p
  | p, a :: rest => call_on_vessels f call (p.call_on_vessel a f (call a)) rest

/-- The vessel registered under `vessel_guid` is flagged as kept. -/
def is_kept (p : Plugin) (vessel_guid : GUID) : Prop :=
  ∃ v, map.find? p.vessels_ vessel_guid = some v ∧ v.address ∈ p.kept_vessels_

/-- The answer of `FlowWithAdaptiveStep` to `EvolveBubble`, for the ephemeris
found in the plugin. -/
def EvolveBubble.flow (env : Environment) (p : Plugin) (ephemeris : Ephemeris)
    (t : Instant) : FlowResult :=
  env.FlowWithAdaptiveStep ephemeris p.bubble_.centre_of_mass_trajectory
    p.bubble_.centre_of_mass_intrinsic_acceleration t p.prolongation_parameters_

/-- The state of `EvolveBubble` once `FlowWithAdaptiveStep` has returned. -/
def EvolveBubble.flowed (env : Environment) (p : Plugin) (ephemeris : Ephemeris)
    (t : Instant) : Plugin :=
  { p with
    ephemeris_ := some (EvolveBubble.flow env p ephemeris t).ephemeris
    bubble_ :=
      { p.bubble_ with
        centre_of_mass_trajectory := (EvolveBubble.flow env p ephemeris t).trajectory }
    calls_ := p.calls_ ++ [Call.Ephemeris_FlowWithAdaptiveStep t p.prolongation_parameters_] }

/-- The state in which `AdvanceTime` calls `EvolveBubble`: after `FreeVessels`,
`ephemeris_->Prolong(t)` and `bubble_->Prepare(...)`, for the ephemeris and the
rotation found there. -/
def AdvanceTime.prepared (env : Environment) (p : Plugin) (ephemeris : Ephemeris)
    (barycentric_to_world_sun : PlanetariumRotationValue) (t : Instant) : Plugin :=
  { p.FreeVessels with
    ephemeris_ := some (ephemeris.Prolong t)
    bubble_ := env.Prepare p.bubble_ barycentric_to_world_sun p.current_time_ t
    calls_ := p.calls_ ++ [Call.Ephemeris_Prolong t] ++
      [Call.PhysicsBubble_Prepare barycentric_to_world_sun p.current_time_ t] }

/-- The state in which `AdvanceTime` returns, given the state `p4` in which
`EvolveBubble` returned. -/
def AdvanceTime.finished (env : Environment) (p4 : Plugin) (t : Instant)
    (planetarium_rotation : Angle) : Plugin :=
  { AdvanceTime.loop env t p4 p4.vessels_ with
    current_time_ := t, planetarium_rotation_ := planetarium_rotation }

/-- The bubble as `AdvanceTime` prepares it (`bubble_->Prepare(...)`), on which
`EvolveBubble` and the loop over the vessels then rely. -/
def AdvanceTime.prepared_bubble (env : Environment) (p : Plugin) (t : Instant) : PhysicsBubble :=
  match p.BarycentricToWorldSun with
  | some barycentric_to_world_sun =>
    env.Prepare p.bubble_ barycentric_to_world_sun p.current_time_ t
  | none => p.bubble_

/-- The calls issued between the states `p` and `q`. -/
def calls_since (p q : Plugin) : List Call := q.calls_.drop p.calls_.length

/-- The registry of vessels: which GUID owns the object at which address. -/
def registry (p : Plugin) : List (GUID × Address) :=
  p.vessels_.map (fun gv => (gv.1, gv.2.address))

/-- The invariant of the vessel tables: a GUID is registered once, the vessels
owned by distinct entries are distinct objects, and only registered vessels are
flagged as kept. -/
structure WellFormed (p : Plugin) : Prop where
  guids_nodup : (map.keys p.vessels_).Nodup
  addresses_nodup : p.vessel_addresses.Nodup
  kept_registered : ∀ a ∈ p.kept_vessels_, a ∈ p.vessel_addresses

/-- The plugin has been initialized: `initializing_` has flopped, the ephemeris
exists and, unless the save predates Cardano, the main body is known. -/
structure Initialized (p : Plugin) : Prop where
  not_initializing : p.initializing_ = false
  has_ephemeris : p.ephemeris_.isSome = true
  has_main_body : p.is_pre_cardano_ = false → p.main_body_.isSome = true

/-- The vessel tables of `q` are those of `p`: the same GUIDs own the same
objects, and the same objects are flagged as kept. -/
structure SameVessels (p q : Plugin) : Prop where
  registry_eq : q.registry = p.registry
  kept_vessels_eq : q.kept_vessels_ = p.kept_vessels_

/-- The storage that the operation allocates for a vessel, if any, is not
occupied by a registered vessel. -/
def fresh (p : Plugin) : Operation → Prop
  | .InsertOrKeepVessel _ _ storage => storage ∉ p.vessel_addresses
  | _ => True

/-- Along the sequence of operations, every allocation of a vessel yields fresh
storage. -/
def fresh_run (env : Environment) : Plugin → List Operation → Prop
  | _, [] => True
  | p, operation :: rest =>
    p.fresh operation ∧
      match p.step env operation with
      | .fatal _ => True
      | .returns _ q => fresh_run env q rest

/-- What a call to a collaborator leaves alone: every member of the plugin but
the ephemeris (which stays non-null if it was), the contents of the vessels
(which stay where they are) and the record of the calls. -/
structure Frame (p q : Plugin) : Prop where
  registry_eq : q.registry = p.registry
  kept_vessels_eq : q.kept_vessels_ = p.kept_vessels_
  celestials_eq : q.celestials_ = p.celestials_
  bubble_empty_eq : q.bubble_.empty = p.bubble_.empty
  bubble_vessels_eq : q.bubble_.vessels = p.bubble_.vessels
  bubble_contains_eq : q.bubble_.contains = p.bubble_.contains
  bubble_from_centre_of_mass_eq : q.bubble_.from_centre_of_mass = p.bubble_.from_centre_of_mass
  initializing_eq : q.initializing_ = p.initializing_
  current_time_eq : q.current_time_ = p.current_time_
  planetarium_rotation_eq : q.planetarium_rotation_ = p.planetarium_rotation_
  game_epoch_eq : q.game_epoch_ = p.game_epoch_
  sun_eq : q.sun_ = p.sun_
  main_body_eq : q.main_body_ = p.main_body_
  is_pre_cardano_eq : q.is_pre_cardano_ = p.is_pre_cardano_
  prolongation_parameters_eq : q.prolongation_parameters_ = p.prolongation_parameters_
  ephemeris_some : p.ephemeris_.isSome = true → q.ephemeris_.isSome = true
  absolute_initialization_eq : q.absolute_initialization_ = p.absolute_initialization_
  hierarchical_initialization_eq :
    q.hierarchical_initialization_ = p.hierarchical_initialization_

/-- The celestial index has been registered by the initialization under way:
an absolute one (a celestial is stored under the index and the objects of the
absolute initialization exist) or a hierarchical one (the parent of a body is
recorded under the index). -/
def is_registered (p : Plugin) (celestial_index : Index) : Prop :=
  (celestial_index ∈ map.keys p.celestials_ ∧ p.absolute_initialization_.isSome = true) ∨
    ∃ objects, p.hierarchical_initialization_ = some objects ∧
      celestial_index ∈ map.keys objects.parents

/-- The plugin is closed to an insertion under the celestial index: the
initialization has ended, or the index is registered in the initialization under
way. -/
def is_closed (p : Plugin) (celestial_index : Index) : Prop :=
  p.initializing_ = false ∨ p.is_registered celestial_index

/-- The epoch of the game is consistent with the age of the save: a plugin from
before Cardano, whose game epoch is not recorded, has the game epoch `J2000`. -/
def epoch_consistent (p : Plugin) : Prop :=
  p.is_pre_cardano_ = true → p.game_epoch_ = astronomy.J2000

/-- The bodies of `q` are those of `p`: the initialization is at the same stage
with the same objects, the same celestial indices are registered, and the epoch
of the game is the same. -/
structure SameBodies (p q : Plugin) : Prop where
  initializing_eq : q.initializing_ = p.initializing_
  celestial_indices_eq : map.keys q.celestials_ = map.keys p.celestials_
  absolute_initialization_eq : q.absolute_initialization_ = p.absolute_initialization_
  hierarchical_initialization_eq :
    q.hierarchical_initialization_ = p.hierarchical_initialization_
  game_epoch_eq : q.game_epoch_ = p.game_epoch_
  is_pre_cardano_eq : q.is_pre_cardano_ = p.is_pre_cardano_

/-- The index of the parent of the celestial stored under `index`, as
`WriteToMessage` finds it in `celestial_to_index`: `none` when no celestial is
stored under the index, `some none` when the celestial has no parent. -/
def celestial_parent_index (p : Plugin) (index : Index) : Option (Option Index) :=
  (map.find? p.celestials_ index).map (fun celestial =>
    celestial.parent_.bind (map.find? (WriteToMessage.celestial_to_index p.celestials_)))

/-- The ephemeris body to which the celestial stored under `index` is bound,
the answer of `Celestial::body()`. -/
def celestial_body (p : Plugin) (index : Index) : Option Address :=
  (map.find? p.celestials_ index).map (fun celestial => celestial.body)

/-- The index of the parent of the vessel registered under `guid`, as
`WriteToMessage` finds it in `celestial_to_index`. -/
def vessel_parent_index (p : Plugin) (guid : GUID) : Option (Option Index) :=
  (map.find? p.vessels_ guid).map (fun vessel =>
    map.find? (WriteToMessage.celestial_to_index p.celestials_) vessel.parent)

/-- The dirty flag of the vessel registered under `guid`. -/
def vessel_is_dirty (p : Plugin) (guid : GUID) : Option Bool :=
  (map.find? p.vessels_ guid).map (fun vessel => vessel.is_dirty)

/-- While an absolute initialization is under way, the bodies kept for the
ephemeris in `absolute_initialization_->bodies` are those of the celestials:
under the same indices and in the same order, the body of each celestial. -/
def bodies_aligned (p : Plugin) : Prop :=
  p.celestials_.map (fun ic => (ic.1, ic.2.body))
    = ((p.absolute_initialization_.map (fun objects => objects.bodies)).getD []).map
        (fun ib => (ib.1, ib.2.address))

/-- The celestials, taken in the order of `celestials_`, are bound to the bodies
of the ephemeris, taken in the order in which the ephemeris was given them. -/
def bodies_in_index_order (p : Plugin) : Prop :=
  ∃ ephemeris, p.ephemeris_ = some ephemeris ∧
    p.celestials_.map (fun ic => ic.2.body) = ephemeris.bodies_.map (fun body => body.address)

/-- The invariant of the table of celestials of an initialized plugin: an index
is registered once, the celestials taken in the order of `celestials_` are bound
to the bodies of the ephemeris taken in their order, and, unless the save
predates Cardano, the sun is bound to a rotating body. -/
structure CelestialsWellFormed (p : Plugin) : Prop where
  indices_nodup : (map.keys p.celestials_).Nodup
  bodies_in_index_order : p.bodies_in_index_order
  sun_rotating :
    p.is_pre_cardano_ = false →
      ∃ ephemeris sun sun_celestial sun_body,
        p.ephemeris_ = some ephemeris ∧ p.sun_ = some sun ∧
        p.celestial_at sun = some sun_celestial ∧
        ephemeris.bodies_.find? (fun body => decide (body.address = sun_celestial.body))
          = some sun_body ∧
        sun_body.is_rotating = true

/-- The collaborators leave the bodies of the ephemeris alone: in
`ephemeris.hpp` the member `bodies_` is filled by the constructor, and the flow
and the member functions of `Vessel` only extend or trim trajectories. -/
structure KeepsBodies (env : Environment) : Prop where
  FlowWithAdaptiveStep :
    ∀ ephemeris trajectory intrinsic_acceleration t parameters,
      (env.FlowWithAdaptiveStep ephemeris trajectory intrinsic_acceleration t
        parameters).ephemeris.bodies_ = ephemeris.bodies_
  Vessel_AdvanceTimeNotInBubble :
    ∀ ephemeris vessel t,
      (env.Vessel_AdvanceTimeNotInBubble ephemeris vessel t).1.bodies_ = ephemeris.bodies_
  Vessel_AdvanceTimeInBubble :
    ∀ ephemeris vessel t degrees_of_freedom,
      (env.Vessel_AdvanceTimeInBubble ephemeris vessel t degrees_of_freedom).1.bodies_
        = ephemeris.bodies_
  Vessel_ForgetBefore :
    ∀ ephemeris vessel t,
      (env.Vessel_ForgetBefore ephemeris vessel t).1.bodies_ = ephemeris.bodies_
  Vessel_UpdatePrediction :
    ∀ ephemeris vessel t,
      (env.Vessel_UpdatePrediction ephemeris vessel t).1.bodies_ = ephemeris.bodies_
  Vessel_CreateFlightPlan :
    ∀ ephemeris vessel t initial_mass parameters,
      (env.Vessel_CreateFlightPlan ephemeris vessel t initial_mass parameters).1.bodies_
        = ephemeris.bodies_

/-- The member functions of `Vessel` leave an initialized vessel initialized: by
`vessel.hpp`, `is_initialized()` is true "if either `CreateProlongation` or
`CreateHistoryAndForkProlongation` was called at some point". -/
structure KeepsInitialized (env : Environment) : Prop where
  Vessel_AdvanceTimeNotInBubble :
    ∀ ephemeris vessel t, vessel.is_initialized = true →
      (env.Vessel_AdvanceTimeNotInBubble ephemeris vessel t).2.is_initialized = true
  Vessel_AdvanceTimeInBubble :
    ∀ ephemeris vessel t degrees_of_freedom, vessel.is_initialized = true →
      (env.Vessel_AdvanceTimeInBubble ephemeris vessel t degrees_of_freedom).2.is_initialized
        = true
  Vessel_ForgetBefore :
    ∀ ephemeris vessel t, vessel.is_initialized = true →
      (env.Vessel_ForgetBefore ephemeris vessel t).2.is_initialized = true
  Vessel_UpdatePrediction :
    ∀ ephemeris vessel t, vessel.is_initialized = true →
      (env.Vessel_UpdatePrediction ephemeris vessel t).2.is_initialized = true
  Vessel_CreateFlightPlan :
    ∀ ephemeris vessel t initial_mass parameters, vessel.is_initialized = true →
      (env.Vessel_CreateFlightPlan ephemeris vessel t initial_mass parameters).2.is_initialized
        = true

/-- Every vessel of `p` that is initialized is still registered in `q`, where it
is initialized. -/
def StaysInitialized (p q : Plugin) : Prop :=
  ∀ g v, map.find? p.vessels_ g = some v → v.is_initialized = true →
    ∃ v', map.find? q.vessels_ g = some v' ∧ v'.is_initialized = true

/-- The celestial under each index, where it is and the body it is bound to. -/
def bindings (p : Plugin) : List (Index × Address × Address) :=
  p.celestials_.map (fun ic => (ic.1, ic.2.address, ic.2.body))

/-- The bodies of the ephemeris, if there is one. -/
def ephemeris_bodies (p : Plugin) : Option (List MassiveBody) :=
  p.ephemeris_.map (fun ephemeris => ephemeris.bodies_)

/-- The celestials of `q` are bound as those of `p`: under the same indices, in
the same order, the same objects are bound to the same bodies, the ephemeris has
the same bodies, and the sun and the age of the save are the same. -/
structure SameBindings (p q : Plugin) : Prop where
  bindings_eq : q.bindings = p.bindings
  ephemeris_bodies_eq : q.ephemeris_bodies = p.ephemeris_bodies
  sun_eq : q.sun_ = p.sun_
  is_pre_cardano_eq : q.is_pre_cardano_ = p.is_pre_cardano_

/-! ## States and collaborators used as examples -/

/-- An ephemeris covering the time up to 0, with no failure recorded. -/
def test_ephemeris : Ephemeris :=
  { bodies_ := [⟨100, true⟩], t_max_ := 0, t_min_ := none,
    last_severe_integration_status_ := base.Status.OK }

/-- The sun: the celestial at address 10, for the body at address 100. -/
def test_sun : Celestial :=
  { Celestial.new 10 100 with has_trajectory_ := true }

/-- A vessel at address `a` orbiting the celestial at address 10. -/
def test_vessel (a : Address) : Vessel :=
  Vessel.new a 10 ⟨10⟩ ⟨1000, 1, 1⟩ ⟨1000, 1, 1⟩

/-- An initialized plugin at time 0 with the sun (index 0, at address 10) and
two vessels, of which `"a"` has been flagged as kept and `"b"` has not. -/
def test_plugin : Plugin :=
  { vessels_ := [("a", test_vessel 1), ("b", test_vessel 2)]
    celestials_ := [(0, test_sun)]
    ephemeris_ := some test_ephemeris
    history_parameters_ := ⟨10⟩
    prolongation_parameters_ := ⟨1000, 1, 1⟩
    prediction_parameters_ := ⟨1000, 1, 1⟩
    initializing_ := false
    planetarium_rotation_ := 0
    game_epoch_ := 0
    current_time_ := 0
    plotting_frame_ := some (.BodyCentredNonRotating 100)
    sun_ := some 10
    main_body_ := some 100
    kept_vessels_ := [1] }

/-- Collaborators that leave the bubble as it is, whose flow reaches the final
time by appending a point at the origin, and whose vessels do nothing. -/
def test_environment : Environment :=
  { Prepare := fun bubble _ _ _ => bubble
    AddVesselToNext := fun bubble _ _ => bubble
    FlowWithAdaptiveStep := fun e trajectory _ t _ => ⟨e, trajectory ++ [(t, 0)], true⟩
    Vessel_AdvanceTimeNotInBubble := fun e v _ => (e, v)
    Vessel_AdvanceTimeInBubble := fun e v _ _ => (e, v)
    Vessel_ForgetBefore := fun e v _ => (e, v)
    Vessel_UpdatePrediction := fun e v _ => (e, v)
    Vessel_CreateFlightPlan := fun e v _ _ _ => (e, v)
    current_degrees_of_freedom := fun _ _ _ => 0
    rotate_inverse := fun _ x => x
    rotate := fun _ x => x
    ToThisFrameAtTime := fun _ _ _ x => x
    from_navigation_frame_to_world := fun _ _ _ _ _ _ x => x
    velocity_to_world := fun _ _ _ _ x => x
    DefaultHistoryParameters := ⟨10⟩
    DefaultProlongationParameters := ⟨1000000, 1 / 1000, 1 / 1000⟩
    DefaultPredictionParameters := ⟨1000, 1, 1⟩
    ReadFromPreBourbakiMessages := fun messages _ _ =>
      Ephemeris.new (messages.map (fun message => message.celestial)) 0
    ConsumeBarycentricSystem := fun system =>
      (system.primary, 0) :: system.added.map (fun b => (b.1, 0))
    FingerprintCelestialJacobiKeplerian := fun celestial_index _ _ _ => celestial_index.toNat
    FingerprintCat2011 := fun a b => a + b }

/-- Collaborators whose planetarium rotation is a quarter turn about the z axis,
and for which a body is at `(t, 1, 2)` at time `t`, with velocity `(1, 0, 0)`. -/
def test_environment_rotating : Environment :=
  { test_environment with
    rotate := fun _ x =>
      ((-x.1.2.1, x.1.1, x.1.2.2), (-x.2.2.1, x.2.1, x.2.2.2))
    rotate_inverse := fun _ x =>
      ((x.1.2.1, -x.1.1, x.1.2.2), (x.2.2.1, -x.2.1, x.2.2.2))
    current_degrees_of_freedom := fun _ _ t => ((t, 1, 2), (1, 0, 0)) }

/-- Collaborators whose vessels act on their trajectories: advancing a vessel in
the bubble appends the point given to its prolongation and dirties it, advancing
it out of the bubble appends the origin at the time given and cleans it, and
forgetting drops the points of its history before the time given; each call
prolongs the ephemeris to the time it is given. -/
def test_environment_acting : Environment :=
  { test_environment with
    Vessel_AdvanceTimeInBubble := fun e v t degrees_of_freedom =>
      ({ e with t_max_ := t },
        { v with
          prolongation_ := some (v.prolongation_.getD [] ++ [(t, degrees_of_freedom)])
          is_dirty_ := true })
    Vessel_AdvanceTimeNotInBubble := fun e v t =>
      ({ e with t_max_ := t },
        { v with
          prolongation_ := some (v.prolongation_.getD [] ++ [(t, 0)])
          is_dirty_ := false })
    Vessel_ForgetBefore := fun e v t =>
      ({ e with t_min_ := some t },
        { v with
          history_ := v.history_.map (fun history =>
            history.filter (fun point => decide (t ≤ point.1))) }) }

/-- A plugin as its constructor leaves it, at time 0: no body has been inserted
and the initialization is under way. -/
def test_new_plugin : Plugin := Plugin.new test_environment 0 0 0

/-- The new plugin after the sun (a rotating body at address 100) has been
inserted under index 0 by an absolute insertion; its celestial is at address
10. -/
def test_plugin_with_sun : Plugin :=
  (test_new_plugin.InsertCelestialAbsoluteCartesian 0 none 0 ⟨100, true⟩ 10).state

/-- The new plugin after the sun has been inserted under index 0 by a
hierarchical insertion. -/
def test_plugin_hierarchical : Plugin :=
  (test_new_plugin.InsertCelestialJacobiKeplerian test_environment 0 none none
    ⟨100, true⟩).state

/-- A plugin in flight, built by its operations: the game epoch is 5 and the
time 30; the sun (a rotating body) is under index 3 and a planet under index 1;
the vessel `"a"` orbits the planet and has been given a state. -/
def test_plugin_in_flight : Plugin :=
  ((Plugin.new test_environment_rotating 5 30 0).run test_environment_rotating
    [.InsertCelestialAbsoluteCartesian 3 none 0 ⟨100, true⟩ 10,
      .InsertCelestialAbsoluteCartesian 1 (some 3) ((1, 0, 0), (0, 1, 0)) ⟨101, false⟩ 11,
      .EndInitialization id,
      .InsertOrKeepVessel "a" 1 1,
      .SetVesselStateOffset "a" ((1, 2, 3), (4, 5, 6))]).state

/-- A message with every field: a planet (index 1) around the sun (index 3), a
vessel around the planet, the game epoch 5, the time 30, and step-control
parameters that differ from the defaults of the example collaborators. -/
def test_message : serialization.Plugin :=
  { vessel :=
      [{ guid := "a"
         vessel :=
           { history_fixed_step_parameters := ⟨10⟩
             prolongation_adaptive_step_parameters := ⟨1000, 1, 1⟩
             prediction_adaptive_step_parameters := ⟨1000, 1, 1⟩
             history := [(30, ((1, 0, 0), (0, 0, 0)))]
             prolongation := [(30, ((1, 0, 0), (0, 0, 0)))]
             prediction := none }
         parent_index := 1
         dirty := false }]
    celestial := [⟨1, some 3⟩, ⟨3, none⟩]
    ephemeris := some
      { bodies_ := [⟨101, false⟩, ⟨100, true⟩], t_max_ := 30, t_min_ := none,
        last_severe_integration_status_ := base.Status.OK }
    history_parameters := some ⟨7⟩
    prolongation_parameters := some ⟨500, 2, 2⟩
    prediction_parameters := some ⟨600, 3, 3⟩
    bubble :=
      { empty := true
        vessels := []
        from_centre_of_mass := fun _ => 0
        centre_of_mass_trajectory := []
        centre_of_mass_intrinsic_acceleration := fun _ => 0 }
    planetarium_rotation := 0
    game_epoch := some 5
    current_time := 30
    sun_index := 3
    plotting_frame := some (.BodyCentredNonRotating 100) }

/-- A plugin from before Cardano: the plugin read from the example message
without its game epoch (the celestials are built at the addresses 10, 11 and
the vessel at the address 1). -/
def test_plugin_pre_cardano : Plugin :=
  match ReadFromMessage test_environment { test_message with game_epoch := none }
      (fun i => 10 + i) (fun i => 1 + i) with
  | some p => p
  | none => test_plugin

/-- The example plugin with both vessels flagged as kept and a physics bubble
that holds the vessel at address 1, displaced by one unit along x from the
centre of mass, whose trajectory starts at the origin at time 0. -/
def test_plugin_with_bubble : Plugin :=
  { test_plugin with
    kept_vessels_ := [1, 2]
    bubble_ :=
      { empty := false
        vessels := [1]
        contains := fun a => decide (a = 1)
        from_centre_of_mass := fun _ => ((1, 0, 0), (0, 0, 0))
        centre_of_mass_trajectory := [(0, 0)]
        centre_of_mass_intrinsic_acceleration := fun _ => 0 } }

/-- The example plugin at time 10, its vessels having a history with a point at
time 0 and a point at time 5. -/
def test_plugin_with_histories : Plugin :=
  { test_plugin with
    current_time_ := 10
    vessels_ :=
      [("a", { test_vessel 1 with
                history_ := some [(0, 0), (5, 0)], prolongation_ := some [(5, 0)] }),
        ("b", { test_vessel 2 with
                history_ := some [(0, 0), (5, 0)], prolongation_ := some [(5, 0)] })] }

/-- Collaborators whose adaptive-step flow gives up before the final time,
leaving the trajectory as it was and recording the failure in the ephemeris. -/
def test_environment_diverging : Environment :=
  { test_environment with
    FlowWithAdaptiveStep := fun e trajectory _ _ _ =>
      ⟨{ e with last_severe_integration_status_ :=
            ⟨base.Error.INVALID_ARGUMENT, "singularity"⟩ },
        trajectory, false⟩ }

/-- The example plugin after an integration in which the ephemeris recorded an
`INVALID_ARGUMENT` status. -/
def test_plugin_after_apocalypse : Plugin :=
  { test_plugin with
    ephemeris_ := some
      { test_ephemeris with
        last_severe_integration_status_ := ⟨base.Error.INVALID_ARGUMENT, "singularity"⟩ } }

/-- The example plugin with a recorded status that is a failure other than
`INVALID_ARGUMENT`. -/
def test_plugin_after_failure : Plugin :=
  { test_plugin with
    ephemeris_ := some
      { test_ephemeris with
        last_severe_integration_status_ := ⟨base.Error.UNKNOWN, "step budget exhausted"⟩ } }

end Plugin

end ksp_plugin

/-! ## Fixed-size arrays (`numerics/fixed_arrays_body.hpp`) -/

namespace numerics

/-- The class `FixedVector<Scalar, size_>`: its only member `data_` is a
`std::array<Scalar, size_>`, an array of exactly `size_` scalars. Scalars are
exact numbers. -/
structure FixedVector (size_ : Nat) where
  data_ : List ℚ
  size_eq : data_.length = size_

/-- The default constructor `FixedVector()`, which is `data_.fill({})`: every
entry is the value-initialized scalar, zero. -/
def FixedVector.new (size_ : Nat) : FixedVector size_ :=
  ⟨List.replicate size_ 0, List.length_replicate size_ 0⟩

/-- A write `data_[index] = value` to the array of a vector; the reads are
`data_[index]?`, which is `none` outside the array. -/
def FixedVector.set {size_ : Nat} (v : FixedVector size_) (index : Nat) (value : ℚ) :
    FixedVector size_ :=
  ⟨v.data_.set index value, by rw [List.length_set]; exact v.size_eq⟩

/-- The class `FixedMatrix<Scalar, rows, columns>`: its only member `data_` is
a `std::array<Scalar, rows * columns>`. -/
structure FixedMatrix (rows columns : Nat) where
  data_ : List ℚ
  size_eq : data_.length = rows * columns

/-- The inner loop of `operator*(FixedMatrix, FixedVector)`,
`for (int j = 0; j < columns; ++j) { result.data_[i] += row[j] * right.data_[j]; }`,
where `row` is the offset in `left.data_` that the pointer `row` points to. A
read outside an array has no value. -/
def FixedMatrix.operator_mul.columns_loop {rows columns : Nat} (left : FixedMatrix rows columns)
    (right : FixedVector columns) (row : Nat) (i : Nat) (result : FixedVector rows) :
    Option (FixedVector rows) :=
  (List.range columns).foldlM
    (fun (result : FixedVector rows) (j : Nat) => do
      let entry ← result.data_[i]?
      let left_entry ← left.data_[row + j]?
      let right_entry ← right.data_[j]?
      pure (result.set i (entry + left_entry * right_entry)))
    result

/-- The outer loop of `operator*(FixedMatrix, FixedVector)`,
`for (int i = 0; i < rows; ++i) { ...; row += columns; }`, started on a given
`result` with `row = left.data_.data()`, offset 0. -/
def FixedMatrix.operator_mul.rows_loop {rows columns : Nat} (left : FixedMatrix rows columns)
    (right : FixedVector columns) (result : FixedVector rows) :
    Option (FixedVector rows × Nat) :=
  (List.range rows).foldlM
    (fun (state : FixedVector rows × Nat) (i : Nat) => do
      let result ← FixedMatrix.operator_mul.columns_loop left right state.2 i state.1
      pure (result, state.2 + columns))
    (result, 0)

/-- The function `operator*(FixedMatrix const& left, FixedVector const& right)`:
the loops run on a default-constructed `result`, which is returned. -/
def FixedMatrix.operator_mul {rows columns : Nat} (left : FixedMatrix rows columns)
    (right : FixedVector columns) : Option (FixedVector rows) :=
  (FixedMatrix.operator_mul.rows_loop left right (FixedVector.new rows)).map Prod.fst

/-- The C++ type `int`: the integers from `-2^31` to `2^31 - 1`. -/
def is_int (x : Int) : Prop := -2 ^ 31 ≤ x ∧ x < 2 ^ 31

instance (x : Int) : Decidable (is_int x) := by unfold is_int; infer_instance

/-- The function `FixedStrictlyLowerTriangularMatrix::operator[](int index)`,
which returns `&data_[index * (index - 1) / 2]`: the offset in `data_` of the
row `index`. The division of C++ truncates. -/
def FixedStrictlyLowerTriangularMatrix.operator_index (index : Int) : Int :=
  Int.tdiv (index * (index - 1)) 2

/-- The entry `m[i][j]`: `operator[](i)` is a pointer into `data_`, and `[j]`
on it reads `data_` at the offset of the row plus `j`. -/
def FixedStrictlyLowerTriangularMatrix.flat_index (i j : Int) : Int :=
  FixedStrictlyLowerTriangularMatrix.operator_index i + j

end numerics

/-! ## Jacobi coordinates (`physics/jacobi_coordinates_body.hpp`) -/

namespace geometry

/-- Modelled from the spec: the class
`BarycentreCalculator<DegreesOfFreedom<Frame>, GravitationalParameter>`
(`geometry/barycentre_calculator.hpp` is not among the sources), which
accumulates the weighted sum of the degrees of freedom it is given, counted from
the origin of the frame, and their total weight. -/
structure BarycentreCalculator where
  weighted_sum_ : DegreesOfFreedom := 0
  weight_ : ℚ := 0
  deriving DecidableEq, Repr

/-- Modelled from the spec: `BarycentreCalculator::Add(degrees_of_freedom,
weight)`. -/
def BarycentreCalculator.Add (calculator : BarycentreCalculator)
    (degrees_of_freedom : DegreesOfFreedom) (weight : ℚ) : BarycentreCalculator :=
  { weighted_sum_ := calculator.weighted_sum_ + weight • degrees_of_freedom
    weight_ := calculator.weight_ + weight }

/-- Modelled from the spec: `BarycentreCalculator::Get()`, the weighted sum
divided by the total weight; there is no barycentre when the total weight is
zero. -/
def BarycentreCalculator.Get (calculator : BarycentreCalculator) : Option DegreesOfFreedom :=
  if calculator.weight_ = 0 then none
  else some (calculator.weight_⁻¹ • calculator.weighted_sum_)

/-- Modelled from the spec: `BarycentreCalculator::weight()`, the total of the
weights added. -/
def BarycentreCalculator.weight (calculator : BarycentreCalculator) : ℚ :=
  calculator.weight_

end geometry

namespace physics

namespace jacobi_coordinates

/-- A `MassiveBody`, as far as `JacobiCoordinates` looks at it: the
gravitational parameter it was constructed with. -/
structure MassiveBody where
  gravitational_parameter : ℚ
  deriving DecidableEq, Repr

/-- The class `JacobiCoordinates<Frame>`: the degrees of freedom of the bodies
in the frame of the primary, in the order of insertion, and the calculator of
the barycentre of the system. -/
structure JacobiCoordinates where
  primocentric_dof_ : List DegreesOfFreedom
  system_barycentre_ : geometry.BarycentreCalculator
  deriving DecidableEq, Repr

/-- The map `id_fp_`, the `Identity<Frame, PrimocentricFrame>`. -/
def id_fp_ (dof : RelativeDegreesOfFreedom) : RelativeDegreesOfFreedom := dof

/-- The map `id_pf_`, the `Identity<PrimocentricFrame, Frame>`. -/
def id_pf_ (dof : RelativeDegreesOfFreedom) : RelativeDegreesOfFreedom := dof

/-- The constructor `JacobiCoordinates(MassiveBody const& primary)`: the
primary is motionless at the origin of its own frame. -/
def JacobiCoordinates.new (primary : MassiveBody) : JacobiCoordinates :=
  let motionless_origin : DegreesOfFreedom := (0, 0)
  let primocentric_dof_ := [motionless_origin]
  { primocentric_dof_ := primocentric_dof_
    system_barycentre_ :=
      ({} : geometry.BarycentreCalculator).Add
        (primocentric_dof_.getLast (List.cons_ne_nil _ _)) primary.gravitational_parameter }

/-- The function `JacobiCoordinates::Add(MassiveBody const& body,
RelativeDegreesOfFreedom<Frame> const& dof_wrt_system)`. -/
def JacobiCoordinates.Add (coordinates : JacobiCoordinates) (body : MassiveBody)
    (dof_wrt_system : RelativeDegreesOfFreedom) : Option JacobiCoordinates := do
  let barycentre ← coordinates.system_barycentre_.Get
  let primocentric_dof_ := coordinates.primocentric_dof_ ++ [barycentre + id_fp_ dof_wrt_system]
  pure { primocentric_dof_ := primocentric_dof_
         system_barycentre_ :=
           coordinates.system_barycentre_.Add
             (primocentric_dof_.getLast (List.append_ne_nil_of_right_ne_nil _ (List.cons_ne_nil _ _)))
             body.gravitational_parameter }

/-- The function `JacobiCoordinates::System()`. -/
def JacobiCoordinates.System (coordinates : JacobiCoordinates) : MassiveBody :=
  ⟨coordinates.system_barycentre_.weight⟩

/-- The function `JacobiCoordinates::BarycentricCoordinates()`. -/
def JacobiCoordinates.BarycentricCoordinates (coordinates : JacobiCoordinates) :
    Option (List RelativeDegreesOfFreedom) := do
  let system_barycentre ← coordinates.system_barycentre_.Get
  pure (coordinates.primocentric_dof_.map (fun dof => id_pf_ (dof - system_barycentre)))

/-- A sequence of calls `Add(body, dof_wrt_system)` on the coordinates of a
primary. -/
def JacobiCoordinates.AddAll (coordinates : JacobiCoordinates)
    (bodies : List (MassiveBody × RelativeDegreesOfFreedom)) : Option JacobiCoordinates :=
  bodies.foldlM (fun coordinates body => coordinates.Add body.1 body.2) coordinates

/-- The weighted sum of a list of degrees of freedom, each taken with the
gravitational parameter of its body. -/
def weighted_sum (bodies : List MassiveBody) (dof : List RelativeDegreesOfFreedom) :
    RelativeDegreesOfFreedom :=
  (List.zipWith (fun body dof => body.gravitational_parameter • dof) bodies dof).sum

/-- The barycentre of a list of degrees of freedom weighted by the gravitational
parameters of their bodies: the weighted sum divided by the total weight. -/
def weighted_barycentre (bodies : List MassiveBody) (dof : List RelativeDegreesOfFreedom) :
    RelativeDegreesOfFreedom :=
  ((bodies.map (fun body => body.gravitational_parameter)).sum)⁻¹ • weighted_sum bodies dof

/-- What the calculator of a `JacobiCoordinates` holds: the weighted sum and the
total weight of the primocentric degrees of freedom of `bodies`. -/
structure JacobiCoordinates.Holds (coordinates : JacobiCoordinates) (bodies : List MassiveBody) :
    Prop where
  length_eq : bodies.length = coordinates.primocentric_dof_.length
  weighted_sum_eq :
    coordinates.system_barycentre_.weighted_sum_ =
      weighted_sum bodies coordinates.primocentric_dof_
  weight_eq :
    coordinates.system_barycentre_.weight_ =
      (bodies.map (fun body => body.gravitational_parameter)).sum
  weight_pos : 0 < coordinates.system_barycentre_.weight_

end jacobi_coordinates

end physics

/-! ## Bodies and their messages (`physics/body_test.cpp`) -/

namespace physics

namespace internal_body

/-- The frames in which `BodyTest.AllFrames` instantiates `RotatingBody<F>`,
each named by its tag in `serialization::Frame`. -/
inductive Frame where
  | ALICE_SUN | ALICE_WORLD | BARYCENTRIC | PRE_BOREL_BARYCENTRIC | NAVIGATION | WORLD
  | WORLD_SUN | ICRF_J2000_ECLIPTIC | ICRF_J2000_EQUATOR | TEST | TEST1 | TEST2 | FROM
  | THROUGH | TO
  deriving DecidableEq, Repr

/-- The arguments of `RotatingBody<F>::Parameters(...)`, in the order in which
the fixture of `BodyTest` gives them. -/
structure RotatingBodyParameters where
  mean_radius : ℚ
  reference_angle : Angle
  reference_instant : Instant
  angular_frequency : ℚ
  right_ascension_of_pole : Angle
  declination_of_pole : Angle
  deriving DecidableEq, Repr

/-- The argument of `OblateBody<F>::Parameters(...)`. -/
structure OblateBodyParameters where
  j2 : ℚ
  deriving DecidableEq, Repr

/-- Modelled from the spec: "a single tagged-variant body type carrying optional
oblateness and rotation attributes" (`physics/body.hpp` and the headers of its
subclasses are not among the sources). The variants are the classes that
`BodyTest` constructs, with the arguments of their constructors. -/
inductive Body where
  | MasslessBody
  | MassiveBody (gravitational_parameter : ℚ)
  | RotatingBody (frame : Frame) (gravitational_parameter : ℚ)
      (parameters : RotatingBodyParameters)
  | OblateBody (frame : Frame) (gravitational_parameter : ℚ)
      (parameters : RotatingBodyParameters) (oblate_parameters : OblateBodyParameters)
  deriving DecidableEq, Repr

/-- The four variants of a body. -/
inductive Variant where
  | massless | massive | rotating | oblate
  deriving DecidableEq, Repr

namespace Body

/-- The class of a body, which a `dynamic_cast` observes. -/
def variant : Body → Variant
  | MasslessBody => .massless
  | MassiveBody _ => .massive
  | RotatingBody _ _ _ => .rotating
  | OblateBody _ _ _ _ => .oblate

/-- Modelled from the spec: `Body::is_massless()`. -/
def is_massless : Body → Bool
  | MasslessBody => true
  | _ => false

/-- Modelled from the spec: `Body::is_oblate()`. -/
def is_oblate : Body → Bool
  | OblateBody _ _ _ _ => true
  | _ => false

/-- Modelled from the spec: `MassiveBody::gravitational_parameter()`, which a
massless body does not have. -/
def gravitational_parameter : Body → Option ℚ
  | MasslessBody => none
  | MassiveBody gravitational_parameter => some gravitational_parameter
  | RotatingBody _ gravitational_parameter _ => some gravitational_parameter
  | OblateBody _ gravitational_parameter _ _ => some gravitational_parameter

/-- The frame of a rotating body. -/
def frame : Body → Option Frame
  | RotatingBody frame _ _ => some frame
  | OblateBody frame _ _ _ => some frame
  | _ => none

/-- The rotation parameters of a rotating body. -/
def parameters : Body → Option RotatingBodyParameters
  | RotatingBody _ _ parameters => some parameters
  | OblateBody _ _ parameters _ => some parameters
  | _ => none

/-- Modelled from the spec: `RotatingBody::polar_axis()`, the unit vector at the
"pole orientation"; `BodyTest` computes it as
`RadiusLatitudeLongitude(1.0, declination_of_pole, right_ascension_of_pole).ToCartesian()`,
and the conversion `ToCartesian` is a parameter. -/
def polar_axis (ToCartesian : ℚ → Angle → Angle → Vec3) (body : Body) : Option Vec3 :=
  body.parameters.map (fun parameters =>
    ToCartesian 1 parameters.declination_of_pole parameters.right_ascension_of_pole)

/-- Modelled from the spec: `RotatingBody::angular_velocity()`, the polar axis
times the angular frequency. -/
def angular_velocity (ToCartesian : ℚ → Angle → Angle → Vec3) (body : Body) : Option Vec3 :=
  body.parameters.bind (fun parameters =>
    (body.polar_axis ToCartesian).map (fun axis => parameters.angular_frequency • axis))

/-- Modelled from the spec: `RotatingBody::AngleAt(t)`, from the "reference
angle at a reference instant" and the angular frequency. -/
def AngleAt (body : Body) (t : Instant) : Option Angle :=
  body.parameters.map (fun parameters =>
    parameters.reference_angle + (t - parameters.reference_instant) * parameters.angular_frequency)

/-- Modelled from the spec: `OblateBody::j2()`, the "zonal harmonic
coefficient" of an oblate body. -/
def j2 : Body → Option ℚ
  | OblateBody _ _ _ oblate_parameters => some oblate_parameters.j2
  | _ => none

end Body

namespace serialization

/-- The message `serialization::OblateBody`, with the field that
`BodyTest.OblateSerializationSuccess` reads. -/
structure OblateBody where
  j2 : ℚ
  deriving DecidableEq, Repr

/-- The message `serialization::RotatingBody`, with the fields that
`BodyTest.RotatingSerializationSuccess` reads, the mean radius, and the
extension `serialization::OblateBody::extension`. -/
structure RotatingBody where
  frame : Frame
  mean_radius : ℚ
  reference_angle : ℚ
  reference_instant : ℚ
  angular_frequency : ℚ
  right_ascension_of_pole : ℚ
  declination_of_pole : ℚ
  oblate_body_extension : Option OblateBody := none
  deriving DecidableEq, Repr

/-- The message `serialization::MassiveBody`, with the extension
`serialization::RotatingBody::extension`. -/
structure MassiveBody where
  gravitational_parameter : ℚ
  rotating_body_extension : Option RotatingBody := none
  deriving DecidableEq, Repr

/-- The message `serialization::MasslessBody`, which has no field. -/
structure MasslessBody where
  deriving DecidableEq, Repr

/-- The message `serialization::Body`, with its two optional parts. -/
structure Body where
  massless_body : Option MasslessBody := none
  massive_body : Option MassiveBody := none
  deriving DecidableEq, Repr

/-- The function `has_massless_body()` of the message. -/
def Body.has_massless_body (message : Body) : Bool := message.massless_body.isSome

/-- The function `has_massive_body()` of the message. -/
def Body.has_massive_body (message : Body) : Bool := message.massive_body.isSome

end serialization

/-- The rotation part of the message of a rotating body. -/
def RotatingBodyParameters.WriteToMessage (parameters : RotatingBodyParameters) (frame : Frame)
    (oblate_body_extension : Option serialization.OblateBody) : serialization.RotatingBody :=
  { frame := frame
    mean_radius := parameters.mean_radius
    reference_angle := parameters.reference_angle
    reference_instant := parameters.reference_instant
    angular_frequency := parameters.angular_frequency
    right_ascension_of_pole := parameters.right_ascension_of_pole
    declination_of_pole := parameters.declination_of_pole
    oblate_body_extension := oblate_body_extension }

/-- Modelled from the spec: `Body::WriteToMessage(&message)`, the write side of
the "full-fidelity write/read round trip": a massless body fills the part
`massless_body`, a massive body the part `massive_body`, a rotating body adds
the extension of `RotatingBody` to it and an oblate body the extension of
`OblateBody` to that one, as `BodyTest` expects. -/
def Body.WriteToMessage : Body → serialization.Body
  | .MasslessBody => { massless_body := some {} }
  | .MassiveBody gravitational_parameter =>
    { massive_body := some { gravitational_parameter := gravitational_parameter } }
  | .RotatingBody frame gravitational_parameter parameters =>
    { massive_body := some
        { gravitational_parameter := gravitational_parameter
          rotating_body_extension := some (parameters.WriteToMessage frame none) } }
  | .OblateBody frame gravitational_parameter parameters oblate_parameters =>
    { massive_body := some
        { gravitational_parameter := gravitational_parameter
          rotating_body_extension :=
            some (parameters.WriteToMessage frame (some { j2 := oblate_parameters.j2 })) } }

/-- The rotation parameters read from the message of a rotating body. -/
def RotatingBodyParameters.ReadFromMessage (message : serialization.RotatingBody) :
    RotatingBodyParameters :=
  { mean_radius := message.mean_radius
    reference_angle := message.reference_angle
    reference_instant := message.reference_instant
    angular_frequency := message.angular_frequency
    right_ascension_of_pole := message.right_ascension_of_pole
    declination_of_pole := message.declination_of_pole }

/-- Modelled from the spec: `MassiveBody::ReadFromMessage(message)`, which
needs the part `massive_body` and dispatches on the extensions present. -/
def MassiveBody.ReadFromMessage (message : serialization.Body) : Option Body :=
  match message.massive_body with
  | none => none
  | some massive_body =>
    match massive_body.rotating_body_extension with
    | none => some (.MassiveBody massive_body.gravitational_parameter)
    | some rotating_body =>
      match rotating_body.oblate_body_extension with
      | none =>
        some (.RotatingBody rotating_body.frame massive_body.gravitational_parameter
          (RotatingBodyParameters.ReadFromMessage rotating_body))
      | some oblate_body =>
        some (.OblateBody rotating_body.frame massive_body.gravitational_parameter
          (RotatingBodyParameters.ReadFromMessage rotating_body) { j2 := oblate_body.j2 })

/-- Modelled from the spec: `MasslessBody::ReadFromMessage(message)`, which
needs the part `massless_body`. -/
def MasslessBody.ReadFromMessage (message : serialization.Body) : Option Body :=
  match message.massless_body with
  | none => none
  | some _ => some .MasslessBody

/-- Modelled from the spec: `Body::ReadFromMessage(message)`, the read side of
the round trip, which dispatches on the part that the message has; a message
with neither part is not the message of a body. -/
def Body.ReadFromMessage (message : serialization.Body) : Option Body :=
  if message.has_massless_body then MasslessBody.ReadFromMessage message
  else if message.has_massive_body then MassiveBody.ReadFromMessage message
  else none

/-- The fixture `BodyTest::massless_body_`. -/
def BodyTest.massless_body_ : Body := .MasslessBody

/-- The fixture `BodyTest::massive_body_`. -/
def BodyTest.massive_body_ : Body := .MassiveBody 42

/-- The parameters of the rotation of the fixtures of `BodyTest`; the value of
`si::Degree` in radians is a parameter. -/
def BodyTest.parameters (Degree : Angle) (mean_radius : ℚ) : RotatingBodyParameters :=
  { mean_radius := mean_radius
    reference_angle := 3
    reference_instant := 0 + 4
    angular_frequency := -3 / 2
    right_ascension_of_pole := 37 * Degree
    declination_of_pole := 123 * Degree }

/-- The fixture `BodyTest::rotating_body_`. -/
def BodyTest.rotating_body_ (Degree : Angle) : Body :=
  .RotatingBody .TEST 17 (BodyTest.parameters Degree 1)

/-- The fixture `BodyTest::oblate_body_`. -/
def BodyTest.oblate_body_ (Degree : Angle) : Body :=
  .OblateBody .TEST 17 (BodyTest.parameters Degree 1) { j2 := 163 }

/-- The body of `BodyTest::TestRotatingBody<Tag, tag>()`. -/
def BodyTest.TestRotatingBody (Degree : Angle) (frame : Frame) : Body :=
  .RotatingBody frame 17 (BodyTest.parameters Degree 2)

end internal_body

end physics

/-! ## Fork handles (`ksp_plugin/fork_handle_body.hpp`) -/

namespace ksp_plugin


/-- Modelled from the spec: a node of the "discrete trajectory tree"
(`physics/discrete_trajectory.hpp` is not among the sources), as far as a
`ForkHandle` looks at it: it has "at most one parent reference" and "any number
of owned children forks". -/
structure TrajectoryNode where
  parent_ : Option Address
  children_ : List Address
  deriving DecidableEq, Repr

/-- Modelled from the spec: the trajectories that are alive, each under its
address, with the record of the calls `parent->DeleteFork(&fork)` made so far. -/
structure Trajectories where
  nodes_ : List (Address × TrajectoryNode)
  delete_fork_calls_ : List (Address × Address) := []
  deriving DecidableEq, Repr

/-- Modelled from the spec: `DiscreteTrajectory::is_root()`; a node is the root
when it has no parent. There is no answer for an address at which no trajectory
lives. -/
def Trajectories.is_root (trajectories : Trajectories) (trajectory : Address) : Option Bool :=
  (map.find? trajectories.nodes_ trajectory).map (fun node => node.parent_.isNone)

/-- Modelled from the spec: `DiscreteTrajectory::parent()`. -/
def Trajectories.parent (trajectories : Trajectories) (trajectory : Address) : Option Address :=
  (map.find? trajectories.nodes_ trajectory).bind (fun node => node.parent_)

/-- Modelled from the spec: the children forks owned by a trajectory. -/
def Trajectories.children (trajectories : Trajectories) (trajectory : Address) : List Address :=
  match map.find? trajectories.nodes_ trajectory with
  | some node => node.children_
  | none => []

/-- Modelled from the spec: the addresses of the "subtree rooted at" a
trajectory, down to a given depth. -/
def Trajectories.subtree (trajectories : Trajectories) : Nat → Address → List Address
  | 0, trajectory => [trajectory]
  | depth + 1, trajectory =>
    trajectory ::
      (trajectories.children trajectory).flatMap (fun child => trajectories.subtree depth child)

/-- Modelled from the spec: `parent->DeleteFork(&fork)`, which "detaches and
destroys the subtree rooted at" the fork; deleting what is not a child fork of
`parent` "is a usage error". -/
def Trajectories.DeleteFork (trajectories : Trajectories) (parent : Address) (fork : Address) :
    Outcome Trajectories Unit :=
  let called : Trajectories :=
    { trajectories with
      delete_fork_calls_ := trajectories.delete_fork_calls_ ++ [(parent, fork)] }
  if fork ∈ trajectories.children parent then
    let destroyed := trajectories.subtree trajectories.nodes_.length fork
    .returns ()
      { called with
        nodes_ :=
          (map.modify trajectories.nodes_ parent
            (fun node => { node with children_ := node.children_.filter (fun child => child ≠ fork) })
          ).filter (fun entry => entry.1 ∉ destroyed) }
  else .fatal called

/-- The class `ForkHandle`: its member `trajectory_` is a pointer to a
`DiscreteTrajectory<Barycentric>`, which may be null. -/
structure ForkHandle where
  trajectory_ : Option Address
  deriving DecidableEq, Repr

/-- The constructor `ForkHandle::ForkHandle(not_null<DiscreteTrajectory<Barycentric>*>
trajectory)`: `CHECK(!trajectory_->is_root())`. -/
def ForkHandle.new (trajectories : Trajectories) (trajectory : Address) :
    Outcome Trajectories ForkHandle :=
  let handle : ForkHandle := { trajectory_ := some trajectory }
  match handle.trajectory_.bind trajectories.is_root with
  | some false => .returns handle trajectories
  | _ => .fatal trajectories

/-- The destructor `ForkHandle::~ForkHandle()`:
`if (trajectory_ == nullptr) { trajectory_->parent()->DeleteFork(&trajectory_); }`.
Following a null pointer aborts. -/
def ForkHandle.destroy (handle : ForkHandle) (trajectories : Trajectories) :
    Outcome Trajectories Unit :=
  if handle.trajectory_ = none then
    match handle.trajectory_ with
    | none => .fatal trajectories
    | some trajectory =>
      match trajectories.parent trajectory with
      | none => .fatal trajectories
      | some parent => trajectories.DeleteFork parent trajectory
  else .returns () trajectories

/-- The function `ForkHandle::get()`. -/
def ForkHandle.get (handle : ForkHandle) : Option Address :=
  handle.trajectory_

/-- A history at address 1 with one fork at address 2. -/
def test_trajectories : Trajectories :=
  { nodes_ := [(1, { parent_ := none, children_ := [2] }),
               (2, { parent_ := some 1, children_ := [] })] }

end ksp_plugin

/-! # Theorems -/

/-! ## Facts about `std::map` and `std::set` -/

namespace map

variable {κ ν : Type}

theorem find?_eq_none_iff [DecidableEq κ] (m : List (κ × ν)) (k : κ) :
    find? m k = none ↔ k ∉ keys m := by
  induction m with
  | nil => simp [find?, keys]
  | cons kv m ih =>
    obtain ⟨k', v⟩ := kv
    by_cases h : k = k'
    · simp [find?, keys, h]
    · simp only [find?, h, if_false, ih, keys, List.map_cons, List.mem_cons, false_or]

theorem find?_mem [DecidableEq κ] (m : List (κ × ν)) (k : κ) (v : ν)
    (h : find? m k = some v) : (k, v) ∈ m := by
  induction m with
  | nil => simp [find?] at h
  | cons kv m ih =>
    obtain ⟨k', v'⟩ := kv
    by_cases hk : k = k'
    · simp [find?, hk] at h
      simp [hk, h]
    · simp only [find?, hk, if_false] at h
      exact List.mem_cons_of_mem _ (ih h)

theorem find?_eq_some_iff [DecidableEq κ] (m : List (κ × ν)) (k : κ) (v : ν)
    (h : (keys m).Nodup) : find? m k = some v ↔ (k, v) ∈ m := by
  induction m with
  | nil => simp [find?]
  | cons kv m ih =>
    obtain ⟨k₀, v₀⟩ := kv
    have h' : k₀ ∉ keys m ∧ (keys m).Nodup := by
      simpa [keys] using h
    by_cases e : k = k₀
    · subst e
      have : ∀ w, (k, w) ∉ m := fun w hw =>
        h'.1 (List.mem_map_of_mem Prod.fst hw)
      simp [find?, this, eq_comm]
    · simp [find?, e, ih h'.2]

theorem keys_filter_nodup (m : List (κ × ν)) (f : κ × ν → Bool) (h : (keys m).Nodup) :
    (keys (m.filter f)).Nodup :=
  (List.filter_sublist m).map Prod.fst |>.nodup h

theorem find?_cons [DecidableEq κ] (k₀ : κ) (v₀ : ν) (m : List (κ × ν)) (k : κ) :
    find? ((k₀, v₀) :: m) k = if k = k₀ then some v₀ else find? m k := rfl

theorem find?_insert_ordered [DecidableEq κ] [LT κ] [DecidableRel (fun a b : κ => a < b)]
    (m : List (κ × ν)) (k : κ) (v : ν) (k' : κ) (h : find? m k = none) :
    find? (insert_ordered k v m) k' = if k' = k then some v else find? m k' := by
  induction m with
  | nil => simp [insert_ordered, find?]
  | cons kv m ih =>
    obtain ⟨k₀, v₀⟩ := kv
    have hne : k ≠ k₀ := by
      intro e
      simp [find?, e] at h
    have h' : find? m k = none := by
      simpa [find?, hne] using h
    by_cases hlt : k < k₀
    · simp [insert_ordered, hlt, find?_cons]
    · simp only [insert_ordered, hlt, if_false, find?_cons, ih h']
      by_cases e₀ : k' = k₀
      · have hk : k₀ ≠ k := fun e => hne e.symm
        subst e₀
        simp [hk]
      · simp [e₀]

theorem insert_ordered_perm [LT κ] [DecidableRel (fun a b : κ => a < b)]
    (m : List (κ × ν)) (k : κ) (v : ν) : (insert_ordered k v m).Perm ((k, v) :: m) := by
  induction m with
  | nil => exact List.Perm.refl _
  | cons kv m ih =>
    obtain ⟨k₀, v₀⟩ := kv
    by_cases h : k < k₀
    · simp [insert_ordered, h]
    · simp only [insert_ordered, h, if_false]
      exact (List.Perm.cons _ ih).trans (List.Perm.swap _ _ _)

theorem modify_cons [DecidableEq κ] (k₀ : κ) (v₀ : ν) (m : List (κ × ν)) (k : κ)
    (f : ν → ν) :
    modify ((k₀, v₀) :: m) k f
      = (if k₀ = k then (k₀, f v₀) else (k₀, v₀)) :: modify m k f := rfl

theorem find?_modify [DecidableEq κ] (m : List (κ × ν)) (k : κ) (f : ν → ν) (k' : κ) :
    find? (modify m k f) k' = if k' = k then (find? m k').map f else find? m k' := by
  induction m with
  | nil => simp [modify, find?]
  | cons kv m ih =>
    obtain ⟨k₀, v₀⟩ := kv
    rw [modify_cons]
    by_cases e₀ : k₀ = k
    · rw [if_pos e₀, find?_cons, find?_cons, ih]
      by_cases e : k' = k₀
      · have e' : k' = k := e.trans e₀
        simp [e, e₀]
      · simp only [e, if_false]
    · rw [if_neg e₀, find?_cons, find?_cons, ih]
      by_cases e : k' = k₀
      · have e' : ¬ k' = k := fun h => e₀ (e ▸ h)
        simp [e, e₀]
      · simp only [e, if_false]

theorem keys_modify [DecidableEq κ] (m : List (κ × ν)) (k : κ) (f : ν → ν) :
    keys (modify m k f) = keys m := by
  induction m with
  | nil => rfl
  | cons kv m ih =>
    obtain ⟨k₀, v₀⟩ := kv
    rw [modify_cons]
    have ih' : List.map Prod.fst (modify m k f) = List.map Prod.fst m := ih
    by_cases e : k₀ = k <;> simp [keys, e, ih']

end map

namespace ksp_plugin

open physics

namespace Plugin

/-! ## The frame of the calls to collaborators -/

theorem keys_eq_of_registry {p q : Plugin} (h : q.registry = p.registry) :
    map.keys q.vessels_ = map.keys p.vessels_ := by
  have := congrArg (List.map Prod.fst) h
  simpa [registry, map.keys, List.map_map, Function.comp_def] using this

theorem addresses_eq_of_registry {p q : Plugin} (h : q.registry = p.registry) :
    q.vessel_addresses = p.vessel_addresses := by
  have := congrArg (List.map Prod.snd) h
  simpa [registry, vessel_addresses, List.map_map, Function.comp_def] using this

theorem Frame.refl (p : Plugin) : Frame p p :=
  ⟨rfl, rfl, rfl, rfl, rfl, rfl, rfl, rfl, rfl, rfl, rfl, rfl, rfl, rfl, rfl, id, rfl, rfl⟩

theorem Frame.trans {p q r : Plugin} (h₁ : Frame p q) (h₂ : Frame q r) : Frame p r where
  registry_eq := h₂.registry_eq.trans h₁.registry_eq
  kept_vessels_eq := h₂.kept_vessels_eq.trans h₁.kept_vessels_eq
  celestials_eq := h₂.celestials_eq.trans h₁.celestials_eq
  bubble_empty_eq := h₂.bubble_empty_eq.trans h₁.bubble_empty_eq
  bubble_vessels_eq := h₂.bubble_vessels_eq.trans h₁.bubble_vessels_eq
  bubble_contains_eq := h₂.bubble_contains_eq.trans h₁.bubble_contains_eq
  bubble_from_centre_of_mass_eq :=
    h₂.bubble_from_centre_of_mass_eq.trans h₁.bubble_from_centre_of_mass_eq
  initializing_eq := h₂.initializing_eq.trans h₁.initializing_eq
  current_time_eq := h₂.current_time_eq.trans h₁.current_time_eq
  planetarium_rotation_eq := h₂.planetarium_rotation_eq.trans h₁.planetarium_rotation_eq
  game_epoch_eq := h₂.game_epoch_eq.trans h₁.game_epoch_eq
  sun_eq := h₂.sun_eq.trans h₁.sun_eq
  main_body_eq := h₂.main_body_eq.trans h₁.main_body_eq
  is_pre_cardano_eq := h₂.is_pre_cardano_eq.trans h₁.is_pre_cardano_eq
  prolongation_parameters_eq :=
    h₂.prolongation_parameters_eq.trans h₁.prolongation_parameters_eq
  ephemeris_some := fun h => h₂.ephemeris_some (h₁.ephemeris_some h)
  absolute_initialization_eq :=
    h₂.absolute_initialization_eq.trans h₁.absolute_initialization_eq
  hierarchical_initialization_eq :=
    h₂.hierarchical_initialization_eq.trans h₁.hierarchical_initialization_eq

theorem registry_modify_keep_address (m : List (GUID × Vessel)) (guid : GUID) (x : Vessel) :
    (map.modify m guid (fun w => { x with address := w.address })).map
        (fun gv => (gv.1, gv.2.address))
      = m.map (fun gv => (gv.1, gv.2.address)) := by
  induction m with
  | nil => rfl
  | cons gv m ih =>
    obtain ⟨g, v⟩ := gv
    rw [map.modify_cons]
    by_cases e : g = guid <;> simp [e, ih]

theorem call_on_vessel_frame (p : Plugin) (vessel : Address)
    (f : Ephemeris → Vessel → Ephemeris × Vessel) (call : Call) :
    Frame p (p.call_on_vessel vessel f call) := by
  unfold call_on_vessel
  dsimp only
  split
  · exact ⟨registry_modify_keep_address _ _ _, rfl, rfl, rfl, rfl, rfl, rfl, rfl, rfl, rfl,
      rfl, rfl, rfl, rfl, rfl, fun _ => rfl, rfl, rfl⟩
  · exact ⟨rfl, rfl, rfl, rfl, rfl, rfl, rfl, rfl, rfl, rfl, rfl, rfl, rfl, rfl, rfl, id,
      rfl, rfl⟩

theorem call_on_vessel_calls (p : Plugin) (vessel : Address)
    (f : Ephemeris → Vessel → Ephemeris × Vessel) (call : Call) :
    (p.call_on_vessel vessel f call).calls_ = p.calls_ ++ [call] := by
  unfold call_on_vessel
  dsimp only
  split <;> rfl

/-! ## The loops over the vessels -/

theorem EvolveBubble_loop_frame (env : Environment) (t : Instant) (c : DegreesOfFreedom)
    (vessels : List Address) (p : Plugin) :
    Frame p (EvolveBubble.loop env t c p vessels) := by
  induction vessels generalizing p with
  | nil => exact Frame.refl p
  | cons v rest ih =>
    rw [EvolveBubble.loop]
    exact (call_on_vessel_frame p v _ _).trans (ih _)

theorem EvolveBubble_loop_calls (env : Environment) (t : Instant) (c : DegreesOfFreedom)
    (vessels : List Address) (p : Plugin) :
    (EvolveBubble.loop env t c p vessels).calls_
      = p.calls_ ++ vessels.map
          (fun v => Call.Vessel_AdvanceTimeInBubble v t (c + p.bubble_.from_centre_of_mass v)) := by
  induction vessels generalizing p with
  | nil => simp [EvolveBubble.loop]
  | cons v rest ih =>
    rw [EvolveBubble.loop, ih, call_on_vessel_calls,
      (call_on_vessel_frame p v _ _).bubble_from_centre_of_mass_eq]
    simp

theorem AdvanceTime_loop_frame (env : Environment) (t : Instant)
    (vessels : List (GUID × Vessel)) (p : Plugin) :
    Frame p (AdvanceTime.loop env t p vessels) := by
  induction vessels generalizing p with
  | nil => exact Frame.refl p
  | cons gv rest ih =>
    obtain ⟨g, v⟩ := gv
    rw [AdvanceTime.loop]
    split
    · exact (call_on_vessel_frame p v.address _ _).trans (ih _)
    · exact ih p

theorem AdvanceTime_loop_calls (env : Environment) (t : Instant)
    (vessels : List (GUID × Vessel)) (p : Plugin) :
    (AdvanceTime.loop env t p vessels).calls_
      = p.calls_ ++
          (vessels.filter (fun gv => !p.bubble_.contains gv.2.address)).map
            (fun gv => Call.Vessel_AdvanceTimeNotInBubble gv.2.address t) := by
  induction vessels generalizing p with
  | nil => simp [AdvanceTime.loop]
  | cons gv rest ih =>
    obtain ⟨g, v⟩ := gv
    rw [AdvanceTime.loop]
    by_cases h : p.bubble_.contains v.address = true
    · simp [h, ih]
    · have h' : p.bubble_.contains v.address = false := by simpa using h
      simp only [h', Bool.not_false, if_true]
      rw [ih, call_on_vessel_calls, (call_on_vessel_frame p v.address _ _).bubble_contains_eq]
      simp [h']

theorem ForgetAllHistoriesBefore_loop_frame (env : Environment) (t : Instant)
    (vessels : List (GUID × Vessel)) (p : Plugin) :
    Frame p (ForgetAllHistoriesBefore.loop env t p vessels) := by
  induction vessels generalizing p with
  | nil => exact Frame.refl p
  | cons gv rest ih =>
    obtain ⟨g, v⟩ := gv
    rw [ForgetAllHistoriesBefore.loop]
    exact (call_on_vessel_frame p v.address _ _).trans (ih _)

theorem ForgetAllHistoriesBefore_loop_calls (env : Environment) (t : Instant)
    (vessels : List (GUID × Vessel)) (p : Plugin) :
    (ForgetAllHistoriesBefore.loop env t p vessels).calls_
      = p.calls_ ++ vessels.map (fun gv => Call.Vessel_ForgetBefore gv.2.address t) := by
  induction vessels generalizing p with
  | nil => simp [ForgetAllHistoriesBefore.loop]
  | cons gv rest ih =>
    obtain ⟨g, v⟩ := gv
    rw [ForgetAllHistoriesBefore.loop, ih, call_on_vessel_calls]
    simp

/-! ## `FreeVessels` -/

theorem FreeVessels.loop_snd (m : List (GUID × Vessel)) (kept : List Address) :
    (FreeVessels.loop m kept).2
      = kept.filter (fun a => decide (a ∉ m.map (fun gv => gv.2.address))) := by
  induction m generalizing kept with
  | nil => simp [FreeVessels.loop]
  | cons gv m ih =>
    obtain ⟨g, v⟩ := gv
    rw [FreeVessels.loop]
    have key : (List.filter (fun b => decide (b ≠ v.address)) kept).filter
          (fun a => decide (a ∉ m.map (fun gv => gv.2.address)))
        = kept.filter (fun a => decide (a ∉ ((g, v) :: m).map (fun gv => gv.2.address))) := by
      rw [List.filter_filter]
      apply List.filter_congr
      intro a _
      by_cases e : a = v.address <;> simp [e]
    split
    · simp only [set.erase, ih, key]
    · simp only [set.erase, ih, key]

theorem FreeVessels.loop_fst (m : List (GUID × Vessel)) (kept : List Address)
    (h : (m.map (fun gv => gv.2.address)).Nodup) :
    (FreeVessels.loop m kept).1 = m.filter (fun gv => decide (gv.2.address ∈ kept)) := by
  induction m generalizing kept with
  | nil => simp [FreeVessels.loop]
  | cons gv m ih =>
    obtain ⟨g, v⟩ := gv
    rw [List.map_cons, List.nodup_cons] at h
    obtain ⟨hv, hm⟩ := h
    have key : m.filter (fun gv => decide
          (gv.2.address ∈ List.filter (fun b => decide (b ≠ v.address)) kept))
        = m.filter (fun gv => decide (gv.2.address ∈ kept)) := by
      apply List.filter_congr
      intro w hw
      have : w.2.address ≠ v.address := by
        intro e
        exact hv (e ▸ List.mem_map_of_mem (fun gv => gv.2.address) hw)
      simp [List.mem_filter, this]
    rw [FreeVessels.loop]
    by_cases hk : v.address ∈ kept
    · have e : (set.erase kept v.address).2 = true := by simp [set.erase, hk]
      rw [if_pos e]
      show (g, v) :: (FreeVessels.loop m (List.filter _ kept)).1 = _
      rw [ih _ hm, key, List.filter_cons_of_pos (by simpa using hk)]
    · have e : ¬ (set.erase kept v.address).2 = true := by simp [set.erase, hk]
      rw [if_neg e]
      show (FreeVessels.loop m (List.filter _ kept)).1 = _
      rw [ih _ hm, key, List.filter_cons_of_neg (by simpa using hk)]

/-! ## The paths through `AdvanceTime` -/

theorem AdvanceTime_initializing (env : Environment) (p : Plugin) (t : Instant) (rot : Angle)
    (h : p.initializing_ = true) : p.AdvanceTime env t rot = .fatal p := by
  simp [AdvanceTime, h]

theorem AdvanceTime_not_after (env : Environment) (p : Plugin) (t : Instant) (rot : Angle)
    (h : ¬ p.current_time_ < t) : p.AdvanceTime env t rot = .fatal p := by
  unfold AdvanceTime
  by_cases hi : p.initializing_ = true
  · rw [if_pos hi]
  · rw [if_neg hi, if_pos (by simpa using h)]

theorem AdvanceTime_no_ephemeris (env : Environment) (p : Plugin) (t : Instant) (rot : Angle)
    (hi : p.initializing_ = false) (ht : p.current_time_ < t) (he : p.ephemeris_ = none) :
    p.AdvanceTime env t rot = .fatal p.FreeVessels := by
  have he' : p.FreeVessels.ephemeris_ = none := he
  unfold AdvanceTime
  rw [if_neg (by simp [hi]), if_neg (by simpa using ht)]
  simp only [he']

theorem AdvanceTime_no_rotation (env : Environment) (p : Plugin) (t : Instant) (rot : Angle)
    (e : Ephemeris)
    (hi : p.initializing_ = false) (ht : p.current_time_ < t) (he : p.ephemeris_ = some e)
    (hr : p.BarycentricToWorldSun = none) :
    p.AdvanceTime env t rot = .fatal
      { p.FreeVessels with
        ephemeris_ := some (e.Prolong t)
        calls_ := p.calls_ ++ [Call.Ephemeris_Prolong t] } := by
  have he' : p.FreeVessels.ephemeris_ = some e := he
  unfold AdvanceTime
  rw [if_neg (by simp [hi]), if_neg (by simpa using ht)]
  simp only [he']
  have hr' : BarycentricToWorldSun
      { p.FreeVessels with
        ephemeris_ := some (e.Prolong t)
        calls_ := p.FreeVessels.calls_ ++ [Call.Ephemeris_Prolong t] } = none := hr
  simp only [hr']
  rfl

theorem AdvanceTime_run (env : Environment) (p : Plugin) (t : Instant) (rot : Angle)
    (e : Ephemeris) (rotv : PlanetariumRotationValue)
    (hi : p.initializing_ = false) (ht : p.current_time_ < t) (he : p.ephemeris_ = some e)
    (hr : p.BarycentricToWorldSun = some rotv) :
    p.AdvanceTime env t rot =
      match EvolveBubble env (AdvanceTime.prepared env p e rotv t) t with
      | .fatal s => .fatal s
      | .returns _ p4 => .returns () (AdvanceTime.finished env p4 t rot) := by
  have he' : p.FreeVessels.ephemeris_ = some e := he
  unfold AdvanceTime
  rw [if_neg (by simp [hi]), if_neg (by simpa using ht)]
  simp only [he']
  have hr' : BarycentricToWorldSun
      { p.FreeVessels with
        ephemeris_ := some (e.Prolong t)
        calls_ := p.FreeVessels.calls_ ++ [Call.Ephemeris_Prolong t] } = some rotv := hr
  simp only [hr']
  rfl

/-! ## The paths through `EvolveBubble` -/

theorem EvolveBubble_empty (env : Environment) (p : Plugin) (t : Instant)
    (h : p.bubble_.empty = true) : p.EvolveBubble env t = .returns () p := by
  simp [EvolveBubble, h]

theorem EvolveBubble_no_ephemeris (env : Environment) (p : Plugin) (t : Instant)
    (h : p.bubble_.empty = false) (he : p.ephemeris_ = none) :
    p.EvolveBubble env t = .fatal p := by
  simp [EvolveBubble, h, he]

theorem EvolveBubble_not_reached (env : Environment) (p : Plugin) (t : Instant)
    (e : Ephemeris) (h : p.bubble_.empty = false) (he : p.ephemeris_ = some e)
    (hf : (EvolveBubble.flow env p e t).reached_final_time = false) :
    p.EvolveBubble env t = .fatal (EvolveBubble.flowed env p e t) := by
  unfold EvolveBubble
  rw [if_neg (by simp [h])]
  simp only [he]
  rw [if_pos (by simpa [EvolveBubble.flow] using hf)]
  rfl

theorem EvolveBubble_no_last (env : Environment) (p : Plugin) (t : Instant)
    (e : Ephemeris) (h : p.bubble_.empty = false) (he : p.ephemeris_ = some e)
    (hf : (EvolveBubble.flow env p e t).reached_final_time = true)
    (hl : physics.last (EvolveBubble.flow env p e t).trajectory = none) :
    p.EvolveBubble env t = .fatal (EvolveBubble.flowed env p e t) := by
  unfold EvolveBubble
  rw [if_neg (by simp [h])]
  simp only [he]
  rw [if_neg (by simpa [EvolveBubble.flow] using hf)]
  have hl' : physics.last
      (env.FlowWithAdaptiveStep e p.bubble_.centre_of_mass_trajectory
        p.bubble_.centre_of_mass_intrinsic_acceleration t p.prolongation_parameters_).trajectory
        = none := hl
  simp only [hl']
  rfl

theorem EvolveBubble_run (env : Environment) (p : Plugin) (t : Instant)
    (e : Ephemeris) (l : Instant × DegreesOfFreedom)
    (h : p.bubble_.empty = false) (he : p.ephemeris_ = some e)
    (hf : (EvolveBubble.flow env p e t).reached_final_time = true)
    (hl : physics.last (EvolveBubble.flow env p e t).trajectory = some l) :
    p.EvolveBubble env t = .returns ()
      (EvolveBubble.loop env t l.2 (EvolveBubble.flowed env p e t) p.bubble_.vessels) := by
  unfold EvolveBubble
  rw [if_neg (by simp [h])]
  simp only [he]
  rw [if_neg (by simpa [EvolveBubble.flow] using hf)]
  have hl' : physics.last
      (env.FlowWithAdaptiveStep e p.bubble_.centre_of_mass_trajectory
        p.bubble_.centre_of_mass_intrinsic_acceleration t p.prolongation_parameters_).trajectory
        = some l := hl
  simp only [hl']
  rfl

theorem EvolveBubble.flowed_frame (env : Environment) (p : Plugin) (e : Ephemeris)
    (t : Instant) : Frame p (EvolveBubble.flowed env p e t) :=
  ⟨rfl, rfl, rfl, rfl, rfl, rfl, rfl, rfl, rfl, rfl, rfl, rfl, rfl, rfl, rfl, fun _ => rfl,
    rfl, rfl⟩

/-- Whatever path `EvolveBubble` takes, the state it ends in differs from the
initial one only by what the collaborators did. -/
theorem EvolveBubble_frame (env : Environment) (p : Plugin) (t : Instant) :
    Frame p (p.EvolveBubble env t).state := by
  by_cases h : p.bubble_.empty = true
  · rw [EvolveBubble_empty env p t h]
    exact Frame.refl p
  · have h' : p.bubble_.empty = false := by simpa using h
    cases he : p.ephemeris_ with
    | none =>
      rw [EvolveBubble_no_ephemeris env p t h' he]
      exact Frame.refl p
    | some e =>
      cases hf : (EvolveBubble.flow env p e t).reached_final_time with
      | false =>
        rw [EvolveBubble_not_reached env p t e h' he hf]
        exact EvolveBubble.flowed_frame env p e t
      | true =>
        cases hl : physics.last (EvolveBubble.flow env p e t).trajectory with
        | none =>
          rw [EvolveBubble_no_last env p t e h' he hf hl]
          exact EvolveBubble.flowed_frame env p e t
        | some l =>
          rw [EvolveBubble_run env p t e l h' he hf hl]
          exact (EvolveBubble.flowed_frame env p e t).trans (EvolveBubble_loop_frame _ _ _ _ _)

/-! ## Vessel retention -/

theorem FreeVessels_vessels (p : Plugin) (h : p.vessel_addresses.Nodup) :
    p.FreeVessels.vessels_
      = p.vessels_.filter (fun gv => decide (gv.2.address ∈ p.kept_vessels_)) :=
  FreeVessels.loop_fst _ _ h

theorem FreeVessels_kept_vessels (p : Plugin) :
    p.FreeVessels.kept_vessels_
      = p.kept_vessels_.filter (fun a => decide (a ∉ p.vessel_addresses)) :=
  FreeVessels.loop_snd _ _

theorem FreeVessels_kept_vessels_nil (p : Plugin) (wf : p.WellFormed) :
    p.FreeVessels.kept_vessels_ = [] := by
  rw [FreeVessels_kept_vessels, List.filter_eq_nil_iff]
  intro a ha
  simpa using wf.kept_registered a ha

theorem FreeVessels_wellFormed (p : Plugin) (wf : p.WellFormed) : p.FreeVessels.WellFormed where
  guids_nodup := by
    rw [FreeVessels_vessels p wf.addresses_nodup]
    exact map.keys_filter_nodup _ _ wf.guids_nodup
  addresses_nodup := by
    unfold vessel_addresses
    rw [FreeVessels_vessels p wf.addresses_nodup]
    exact ((List.filter_sublist _).map _).nodup wf.addresses_nodup
  kept_registered := by
    rw [FreeVessels_kept_vessels_nil p wf]
    intro a ha
    cases ha

theorem wellFormed_of_registry {p q : Plugin} (wf : p.WellFormed)
    (hr : q.registry = p.registry) (hk : q.kept_vessels_ = p.kept_vessels_) :
    q.WellFormed where
  guids_nodup := by
    rw [keys_eq_of_registry hr]
    exact wf.guids_nodup
  addresses_nodup := by
    rw [addresses_eq_of_registry hr]
    exact wf.addresses_nodup
  kept_registered := by
    rw [addresses_eq_of_registry hr, hk]
    exact wf.kept_registered

theorem Frame.wellFormed {p q : Plugin} (h : Frame p q) (wf : p.WellFormed) : q.WellFormed :=
  wellFormed_of_registry wf h.registry_eq h.kept_vessels_eq

theorem AdvanceTime_returns_inv (env : Environment) (p q : Plugin) (t : Instant) (rot : Angle)
    (h : p.AdvanceTime env t rot = .returns () q) :
    p.initializing_ = false ∧ p.current_time_ < t ∧
      ∃ e rotv p4, p.ephemeris_ = some e ∧ p.BarycentricToWorldSun = some rotv ∧
        EvolveBubble env (AdvanceTime.prepared env p e rotv t) t = .returns () p4 ∧
        q = AdvanceTime.finished env p4 t rot := by
  cases hi : p.initializing_ with
  | true => rw [AdvanceTime_initializing env p t rot hi] at h; cases h
  | false =>
    by_cases ht : p.current_time_ < t
    · cases he : p.ephemeris_ with
      | none => rw [AdvanceTime_no_ephemeris env p t rot hi ht he] at h; cases h
      | some e =>
        cases hr : p.BarycentricToWorldSun with
        | none => rw [AdvanceTime_no_rotation env p t rot e hi ht he hr] at h; cases h
        | some rotv =>
          rw [AdvanceTime_run env p t rot e rotv hi ht he hr] at h
          cases hb : EvolveBubble env (AdvanceTime.prepared env p e rotv t) t with
          | fatal s => rw [hb] at h; cases h
          | returns u p4 =>
            rw [hb] at h
            simp only [Outcome.returns.injEq, true_and] at h
            exact ⟨rfl, ht, e, rotv, p4, rfl, rfl, hb, h.symm⟩
    · rw [AdvanceTime_not_after env p t rot ht] at h; cases h

theorem AdvanceTime.finished_frame (env : Environment) (p4 : Plugin) (t : Instant)
    (rot : Angle) :
    (AdvanceTime.finished env p4 t rot).registry = p4.registry ∧
      (AdvanceTime.finished env p4 t rot).kept_vessels_ = p4.kept_vessels_ :=
  ⟨(AdvanceTime_loop_frame env t p4.vessels_ p4).registry_eq,
    (AdvanceTime_loop_frame env t p4.vessels_ p4).kept_vessels_eq⟩

theorem AdvanceTime_registry (env : Environment) (p q : Plugin) (t : Instant) (rot : Angle)
    (h : p.AdvanceTime env t rot = .returns () q) :
    q.registry = p.FreeVessels.registry ∧ q.kept_vessels_ = p.FreeVessels.kept_vessels_ := by
  obtain ⟨_, _, e, rotv, p4, _, _, hb, rfl⟩ := AdvanceTime_returns_inv env p q t rot h
  have hf := EvolveBubble_frame env (AdvanceTime.prepared env p e rotv t) t
  rw [hb] at hf
  have h4 := AdvanceTime.finished_frame env p4 t rot
  exact ⟨h4.1.trans hf.registry_eq, h4.2.trans hf.kept_vessels_eq⟩

end Plugin

namespace Plugin

/-! ## The vessel tables along a sequence of operations -/

theorem SameVessels.same (p : Plugin) : SameVessels p p := ⟨rfl, rfl⟩

theorem SameVessels.followed_by {p q r : Plugin} (h₁ : SameVessels p q) (h₂ : SameVessels q r) :
    SameVessels p r :=
  ⟨h₂.registry_eq.trans h₁.registry_eq, h₂.kept_vessels_eq.trans h₁.kept_vessels_eq⟩

theorem Frame.sameVessels {p q : Plugin} (h : Frame p q) : SameVessels p q :=
  ⟨h.registry_eq, h.kept_vessels_eq⟩

theorem SameVessels.tables_wellFormed {p q : Plugin} (h : SameVessels p q) (wf : p.WellFormed) :
    q.WellFormed :=
  wellFormed_of_registry wf h.registry_eq h.kept_vessels_eq

theorem registry_modify (m : List (GUID × Vessel)) (guid : GUID) (f : Vessel → Vessel)
    (hf : ∀ v, (f v).address = v.address) :
    (map.modify m guid f).map (fun gv => (gv.1, gv.2.address))
      = m.map (fun gv => (gv.1, gv.2.address)) := by
  induction m with
  | nil => rfl
  | cons gv m ih =>
    obtain ⟨g, v⟩ := gv
    rw [map.modify_cons]
    by_cases e : g = guid <;> simp [e, ih, hf]

theorem mem_registry_iff (p : Plugin) (wf : p.WellFormed) (g : GUID) (a : Address) :
    (g, a) ∈ p.registry ↔ ∃ v, map.find? p.vessels_ g = some v ∧ v.address = a := by
  unfold registry
  constructor
  · intro h
    obtain ⟨⟨g', v⟩, hm, he⟩ := List.mem_map.1 h
    simp only [Prod.mk.injEq] at he
    obtain ⟨rfl, rfl⟩ := he
    exact ⟨v, (map.find?_eq_some_iff _ _ _ wf.guids_nodup).2 hm, rfl⟩
  · rintro ⟨v, hf, rfl⟩
    exact List.mem_map.2 ⟨(g, v), (map.find?_eq_some_iff _ _ _ wf.guids_nodup).1 hf, rfl⟩

theorem is_kept_iff (p : Plugin) (wf : p.WellFormed) (g : GUID) :
    p.is_kept g ↔ ∃ a, (g, a) ∈ p.registry ∧ a ∈ p.kept_vessels_ := by
  unfold is_kept
  constructor
  · rintro ⟨v, hf, hk⟩
    exact ⟨v.address, (mem_registry_iff p wf g _).2 ⟨v, hf, rfl⟩, hk⟩
  · rintro ⟨a, hr, hk⟩
    obtain ⟨v, hf, rfl⟩ := (mem_registry_iff p wf g a).1 hr
    exact ⟨v, hf, hk⟩

theorem SameVessels.is_kept {p q : Plugin} (h : SameVessels p q) (wf : p.WellFormed)
    (g : GUID) : q.is_kept g ↔ p.is_kept g := by
  rw [is_kept_iff q (h.tables_wellFormed wf), is_kept_iff p wf, h.registry_eq, h.kept_vessels_eq]

theorem registry_guid_unique (p : Plugin) (wf : p.WellFormed) (g g' : GUID) (a : Address)
    (h : (g, a) ∈ p.registry) (h' : (g', a) ∈ p.registry) : g = g' := by
  have hn : (p.registry.map Prod.snd).Nodup := by
    have : p.registry.map Prod.snd = p.vessel_addresses := by
      simp [registry, vessel_addresses, List.map_map, Function.comp_def]
    rw [this]
    exact wf.addresses_nodup
  have := List.inj_on_of_nodup_map hn h h' rfl
  exact (Prod.mk.injEq _ _ _ _ ▸ this).1

theorem mem_addresses_of_registry (p : Plugin) (g : GUID) (a : Address)
    (h : (g, a) ∈ p.registry) : a ∈ p.vessel_addresses := by
  unfold registry at h
  obtain ⟨gv, hm, he⟩ := List.mem_map.1 h
  simp only [Prod.mk.injEq] at he
  exact List.mem_map.2 ⟨gv, hm, he.2⟩

end Plugin

namespace Plugin

theorem FreeVessels_mem_iff (p : Plugin) (wf : p.WellFormed) (g : GUID) (v : Vessel) :
    (g, v) ∈ p.FreeVessels.vessels_ ↔ ((g, v) ∈ p.vessels_ ∧ v.address ∈ p.kept_vessels_) := by
  rw [FreeVessels_vessels p wf.addresses_nodup]
  simp [List.mem_filter]

theorem FreeVessels_hasVessel_iff (p : Plugin) (wf : p.WellFormed) (g : GUID) :
    p.FreeVessels.HasVessel g = true ↔ p.is_kept g := by
  have hv := FreeVessels_vessels p wf.addresses_nodup
  have wf' := FreeVessels_wellFormed p wf
  unfold HasVessel is_kept
  rw [Option.isSome_iff_exists]
  constructor
  · rintro ⟨v, hf⟩
    rw [map.find?_eq_some_iff _ _ _ wf'.guids_nodup, hv] at hf
    simp only [List.mem_filter, decide_eq_true_eq] at hf
    exact ⟨v, (map.find?_eq_some_iff _ _ _ wf.guids_nodup).2 hf.1, hf.2⟩
  · rintro ⟨v, hf, hkept⟩
    refine ⟨v, ?_⟩
    rw [map.find?_eq_some_iff _ _ _ wf'.guids_nodup, hv]
    simp only [List.mem_filter, decide_eq_true_eq]
    exact ⟨(map.find?_eq_some_iff _ _ _ wf.guids_nodup).1 hf, hkept⟩

theorem FreeVessels_twice (p : Plugin) (wf : p.WellFormed) :
    p.FreeVessels.FreeVessels.vessels_ = [] := by
  rw [FreeVessels_vessels _ (FreeVessels_wellFormed p wf).addresses_nodup,
    FreeVessels_kept_vessels_nil p wf]
  simp

end Plugin

theorem test_plugin_wellFormed : Plugin.test_plugin.WellFormed :=
  ⟨by decide, by decide, by decide⟩

/-! ## `InsertOrKeepVessel` -/

namespace Plugin

theorem InsertOrKeepVessel_run (p : Plugin) (vessel_guid : GUID) (parent_index : Index)
    (storage : Address) (parent : Celestial) (e : Ephemeris)
    (hi : p.initializing_ = false)
    (hp : map.find? p.celestials_ parent_index = some parent)
    (he : p.ephemeris_ = some e) :
    p.InsertOrKeepVessel vessel_guid parent_index storage =
      .returns
        (map.emplace p.vessels_ vessel_guid
          (Vessel.new storage parent.address p.history_parameters_ p.prolongation_parameters_
            p.prediction_parameters_)).2.2
        { p with
          vessels_ :=
            map.modify
              (map.emplace p.vessels_ vessel_guid
                (Vessel.new storage parent.address p.history_parameters_
                  p.prolongation_parameters_ p.prediction_parameters_)).1
              vessel_guid (fun v => v.set_parent parent.address)
          kept_vessels_ :=
            set.emplace p.kept_vessels_
              (map.emplace p.vessels_ vessel_guid
                (Vessel.new storage parent.address p.history_parameters_
                  p.prolongation_parameters_ p.prediction_parameters_)).2.1.address } := by
  unfold InsertOrKeepVessel
  rw [if_neg (by simp [hi])]
  simp only [hp, he]

theorem set.mem_emplace (s : List Address) (a b : Address) :
    b ∈ set.emplace s a ↔ b = a ∨ b ∈ s := by
  unfold set.emplace
  split
  · constructor
    · exact Or.inr
    · rintro (rfl | h)
      · assumption
      · exact h
  · simp

end Plugin

/-- C2 (`InsertOrKeepVessel`).  On an initialized plugin, with `parent_index`
registered for the celestial `parent`, the call returns; it returns true if and
only if no vessel had that GUID; a vessel that had that GUID is retained (the
same object, with its contents) and a new one is built in `storage` only when
there was none; in both cases the vessel under that GUID is flagged as kept and
its parent is `parent`; the other vessels are untouched. -/
theorem C2_InsertOrKeepVessel (p : Plugin) (vessel_guid : GUID) (parent_index : Index)
    (storage : Address) (parent : Celestial)
    (init : p.Initialized)
    (hp : map.find? p.celestials_ parent_index = some parent) :
    ∃ inserted q, p.InsertOrKeepVessel vessel_guid parent_index storage = .returns inserted q ∧
      (inserted = true ↔ p.HasVessel vessel_guid = false) ∧
      (∀ v, map.find? p.vessels_ vessel_guid = some v →
        map.find? q.vessels_ vessel_guid = some (v.set_parent parent.address)) ∧
      (p.HasVessel vessel_guid = false →
        map.find? q.vessels_ vessel_guid =
          some (Vessel.new storage parent.address p.history_parameters_
            p.prolongation_parameters_ p.prediction_parameters_)) ∧
      (∃ v, map.find? q.vessels_ vessel_guid = some v ∧ v.address ∈ q.kept_vessels_ ∧
        v.parent = parent.address) ∧
      (∀ g, g ≠ vessel_guid → map.find? q.vessels_ g = map.find? p.vessels_ g) := by
  obtain ⟨e, he⟩ := Option.isSome_iff_exists.1 init.has_ephemeris
  refine ⟨_, _, Plugin.InsertOrKeepVessel_run p vessel_guid parent_index storage parent e
    init.not_initializing hp he, ?_⟩
  cases hf : map.find? p.vessels_ vessel_guid with
  | none =>
    have hfind : ∀ g, map.find?
        (map.modify (map.insert_ordered vessel_guid
          (Vessel.new storage parent.address p.history_parameters_ p.prolongation_parameters_
            p.prediction_parameters_) p.vessels_) vessel_guid
          (fun v => v.set_parent parent.address)) g
        = if g = vessel_guid then
            some (Vessel.new storage parent.address p.history_parameters_
              p.prolongation_parameters_ p.prediction_parameters_)
          else map.find? p.vessels_ g := by
      intro g
      rw [map.find?_modify, map.find?_insert_ordered _ _ _ _ hf]
      by_cases eg : g = vessel_guid
      · simp [eg, Vessel.set_parent, Vessel.new]
      · simp [eg]
    simp only [map.emplace, hf, Plugin.HasVessel, Option.isSome_none, true_iff]
    refine ⟨trivial, ?_, ?_, ?_, ?_⟩
    · intro v hv
      cases hv
    · intro _
      rw [hfind]
      simp
    · refine ⟨Vessel.new storage parent.address p.history_parameters_
        p.prolongation_parameters_ p.prediction_parameters_, by rw [hfind]; simp, ?_, rfl⟩
      rw [Plugin.set.mem_emplace]
      exact Or.inl rfl
    · intro g hg
      rw [hfind]
      simp [hg]
  | some v =>
    have hfind : ∀ g, map.find?
        (map.modify p.vessels_ vessel_guid (fun v => v.set_parent parent.address)) g
        = if g = vessel_guid then some (v.set_parent parent.address)
          else map.find? p.vessels_ g := by
      intro g
      rw [map.find?_modify]
      by_cases eg : g = vessel_guid
      · simp [eg, hf]
      · simp [eg]
    simp only [map.emplace, hf, Plugin.HasVessel, Option.isSome_some]
    refine ⟨by simp, ?_, ?_, ?_, ?_⟩
    · intro w hw
      cases hw
      rw [hfind]
      simp
    · intro h
      cases h
    · refine ⟨v.set_parent parent.address, by rw [hfind]; simp, ?_, rfl⟩
      rw [Plugin.set.mem_emplace]
      exact Or.inl rfl
    · intro g hg
      rw [hfind]
      simp [hg]

theorem test_plugin_initialized : Plugin.test_plugin.Initialized :=
  ⟨rfl, rfl, fun _ => rfl⟩

/-- C2, on the example: keeping the registered vessel `"a"` returns false,
inserting the unknown vessel `"c"` returns true. -/
theorem C2_InsertOrKeepVessel_witness :
    Plugin.test_plugin.Initialized ∧
    map.find? Plugin.test_plugin.celestials_ 0 = some Plugin.test_sun ∧
    (Plugin.test_plugin.InsertOrKeepVessel "a" 0 3).value? = some false ∧
    ∃ inserted q,
      Plugin.test_plugin.InsertOrKeepVessel "c" 0 3 = .returns inserted q ∧
      (inserted = true ↔ Plugin.test_plugin.HasVessel "c" = false) :=
  ⟨test_plugin_initialized, by decide, by decide,
    (C2_InsertOrKeepVessel Plugin.test_plugin "c" 0 3 Plugin.test_sun
      test_plugin_initialized (by decide)).imp
      (fun _ h => h.imp (fun _ h' => ⟨h'.1, h'.2.1⟩))⟩

/-! ## The calls issued by `EvolveBubble` and `AdvanceTime` -/

namespace Plugin

theorem EvolveBubble_returns_inv (env : Environment) (p q : Plugin) (t : Instant)
    (h : p.EvolveBubble env t = .returns () q) :
    (p.bubble_.empty = true ∧ q = p) ∨
    (p.bubble_.empty = false ∧ ∃ e l, p.ephemeris_ = some e ∧
      (EvolveBubble.flow env p e t).reached_final_time = true ∧
      physics.last (EvolveBubble.flow env p e t).trajectory = some l ∧
      q = EvolveBubble.loop env t l.2 (EvolveBubble.flowed env p e t) p.bubble_.vessels) := by
  by_cases hb : p.bubble_.empty = true
  · rw [EvolveBubble_empty env p t hb] at h
    simp only [Outcome.returns.injEq, true_and] at h
    exact Or.inl ⟨hb, h.symm⟩
  · have hb' : p.bubble_.empty = false := by simpa using hb
    right
    cases he : p.ephemeris_ with
    | none => rw [EvolveBubble_no_ephemeris env p t hb' he] at h; cases h
    | some e =>
      cases hf : (EvolveBubble.flow env p e t).reached_final_time with
      | false => rw [EvolveBubble_not_reached env p t e hb' he hf] at h; cases h
      | true =>
        cases hl : physics.last (EvolveBubble.flow env p e t).trajectory with
        | none => rw [EvolveBubble_no_last env p t e hb' he hf hl] at h; cases h
        | some l =>
          rw [EvolveBubble_run env p t e l hb' he hf hl] at h
          simp only [Outcome.returns.injEq, true_and] at h
          exact ⟨hb', e, l, rfl, hf, hl, h.symm⟩

theorem prepared_bubble_eq (env : Environment) (p : Plugin) (t : Instant) (e : Ephemeris)
    (rotv : PlanetariumRotationValue) (hr : p.BarycentricToWorldSun = some rotv) :
    (AdvanceTime.prepared env p e rotv t).bubble_ = AdvanceTime.prepared_bubble env p t := by
  simp [AdvanceTime.prepared, AdvanceTime.prepared_bubble, hr]

theorem filter_map_address (f : Address → Bool) (g : Address → Call)
    (m : List (GUID × Vessel)) :
    (m.filter (fun gv => f gv.2.address)).map (fun gv => g gv.2.address)
      = ((m.map (fun gv => gv.2.address)).filter f).map g := by
  induction m with
  | nil => rfl
  | cons gv m ih =>
    by_cases h : f gv.2.address = true
    · simp [List.filter_cons, h, ih]
    · simp [List.filter_cons, h, ih]

/-- The calls issued by an `AdvanceTime` that returns. -/
theorem AdvanceTime_calls (env : Environment) (p q : Plugin) (t : Instant) (rot : Angle)
    (h : p.AdvanceTime env t rot = .returns () q) :
    ∃ rotv evolve, p.BarycentricToWorldSun = some rotv ∧
      q.calls_ = p.calls_ ++ [Call.Ephemeris_Prolong t] ++
        [Call.PhysicsBubble_Prepare rotv p.current_time_ t] ++ evolve ++
        (p.FreeVessels.vessel_addresses.filter
          (fun a => !(AdvanceTime.prepared_bubble env p t).contains a)).map
          (fun a => Call.Vessel_AdvanceTimeNotInBubble a t) ∧
      (((AdvanceTime.prepared_bubble env p t).empty = true ∧ evolve = []) ∨
       ((AdvanceTime.prepared_bubble env p t).empty = false ∧ ∃ c : DegreesOfFreedom,
          evolve = Call.Ephemeris_FlowWithAdaptiveStep t p.prolongation_parameters_ ::
            (AdvanceTime.prepared_bubble env p t).vessels.map
              (fun v => Call.Vessel_AdvanceTimeInBubble v t
                (c + (AdvanceTime.prepared_bubble env p t).from_centre_of_mass v)))) := by
  obtain ⟨_, _, e, rotv, p4, _, hr, hb, rfl⟩ := AdvanceTime_returns_inv env p q t rot h
  have hf := EvolveBubble_frame env (AdvanceTime.prepared env p e rotv t) t
  rw [hb] at hf
  have hbub := prepared_bubble_eq env p t e rotv hr
  have hcalls : (AdvanceTime.finished env p4 t rot).calls_
      = p4.calls_ ++ (p.FreeVessels.vessel_addresses.filter
          (fun a => !(AdvanceTime.prepared_bubble env p t).contains a)).map
          (fun a => Call.Vessel_AdvanceTimeNotInBubble a t) := by
    show (AdvanceTime.loop env t p4 p4.vessels_).calls_ = _
    rw [AdvanceTime_loop_calls,
      filter_map_address (fun a => !p4.bubble_.contains a)
        (fun a => Call.Vessel_AdvanceTimeNotInBubble a t)]
    have h1 : p4.vessels_.map (fun gv => gv.2.address) = p.FreeVessels.vessel_addresses :=
      addresses_eq_of_registry (p := p.FreeVessels) (q := p4) hf.registry_eq
    have h2 : p4.bubble_.contains = (AdvanceTime.prepared_bubble env p t).contains := by
      rw [← hbub]
      exact hf.bubble_contains_eq
    rw [h1, h2]
  rcases EvolveBubble_returns_inv env _ p4 t hb with ⟨hempty, rfl⟩ | ⟨hne, e', l, _, _, _, rfl⟩
  · refine ⟨rotv, [], hr, ?_, Or.inl ⟨by rw [← hbub]; exact hempty, rfl⟩⟩
    rw [hcalls]
    simp [AdvanceTime.prepared]
  · refine ⟨rotv, _, hr, ?_, Or.inr ⟨by rw [← hbub]; exact hne, l.2, rfl⟩⟩
    rw [hcalls, EvolveBubble_loop_calls]
    simp [AdvanceTime.prepared, EvolveBubble.flowed, AdvanceTime.prepared_bubble, hr]
    rfl

end Plugin

/-- C3 (order of the effects of `AdvanceTime`).  When `AdvanceTime(t)` returns,
the calls it has issued are, in this order: `ephemeris_->Prolong(t)`, then
`bubble_->Prepare`, then the calls of `EvolveBubble` (the flow of the centre of
mass and every `AdvanceTimeInBubble`), then the calls `AdvanceTimeNotInBubble(t)`,
each on a vessel that the bubble does not contain. -/
theorem C3_AdvanceTime_order (env : Environment) (p q : Plugin) (t : Instant) (rot : Angle)
    (h : p.AdvanceTime env t rot = .returns () q) :
    ∃ rotv evolve independent,
      q.calls_ = p.calls_ ++ [Call.Ephemeris_Prolong t] ++
        [Call.PhysicsBubble_Prepare rotv p.current_time_ t] ++ evolve ++ independent ∧
      (∀ c ∈ evolve, c = Call.Ephemeris_FlowWithAdaptiveStep t p.prolongation_parameters_ ∨
        ∃ v dof, c = Call.Vessel_AdvanceTimeInBubble v t dof) ∧
      (∀ c ∈ independent, ∃ v, c = Call.Vessel_AdvanceTimeNotInBubble v t ∧
        (Plugin.AdvanceTime.prepared_bubble env p t).contains v = false) := by
  obtain ⟨rotv, evolve, _, hq, hev⟩ := Plugin.AdvanceTime_calls env p q t rot h
  refine ⟨rotv, evolve, _, hq, ?_, ?_⟩
  · intro c hc
    rcases hev with ⟨_, rfl⟩ | ⟨_, dof, rfl⟩
    · cases hc
    · rcases List.mem_cons.1 hc with rfl | hc
      · exact Or.inl rfl
      · obtain ⟨v, _, rfl⟩ := List.mem_map.1 hc
        exact Or.inr ⟨v, _, rfl⟩
  · intro c hc
    obtain ⟨v, hv, rfl⟩ := List.mem_map.1 hc
    refine ⟨v, rfl, ?_⟩
    simpa using (List.mem_filter.1 hv).2

/-- C3, on the example with a bubble holding the vessel at address 1: the
calls are `Prolong`, `Prepare`, the flow, `AdvanceTimeInBubble` on 1, and then
`AdvanceTimeNotInBubble` on 2. -/
theorem C3_AdvanceTime_order_witness :
    ∃ q, Plugin.test_plugin_with_bubble.AdvanceTime Plugin.test_environment 1 0
        = .returns () q ∧
      ∃ rotv evolve independent,
        q.calls_ = Plugin.test_plugin_with_bubble.calls_ ++ [Call.Ephemeris_Prolong 1] ++
          [Call.PhysicsBubble_Prepare rotv Plugin.test_plugin_with_bubble.current_time_ 1] ++
          evolve ++ independent ∧
        (∀ c ∈ evolve,
          c = Call.Ephemeris_FlowWithAdaptiveStep 1
              Plugin.test_plugin_with_bubble.prolongation_parameters_ ∨
          ∃ v dof, c = Call.Vessel_AdvanceTimeInBubble v 1 dof) ∧
        (∀ c ∈ independent, ∃ v, c = Call.Vessel_AdvanceTimeNotInBubble v 1 ∧
          (Plugin.AdvanceTime.prepared_bubble Plugin.test_environment
            Plugin.test_plugin_with_bubble 1).contains v = false) :=
  ⟨_, rfl, C3_AdvanceTime_order Plugin.test_environment Plugin.test_plugin_with_bubble
    (Plugin.test_plugin_with_bubble.AdvanceTime Plugin.test_environment 1 0).state 1 0 rfl⟩

/-! ## What the calls on the vessels leave in the state -/

namespace Plugin

theorem find?_address_of_mem (m : List (GUID × Vessel))
    (h : (m.map (fun gv => gv.2.address)).Nodup) (g : GUID) (v : Vessel)
    (hm : (g, v) ∈ m) :
    m.find? (fun gv => decide (gv.2.address = v.address)) = some (g, v) := by
  induction m with
  | nil => cases hm
  | cons gv m ih =>
    rw [List.map_cons, List.nodup_cons] at h
    rw [List.find?_cons]
    rcases List.mem_cons.1 hm with rfl | hm
    · simp
    · have hne : ¬ gv.2.address = v.address := by
        intro e
        apply h.1
        rw [e]
        exact List.mem_map.2 ⟨(g, v), hm, rfl⟩
      simp only [hne, decide_False]
      exact ih h.2 hm

theorem find?_address_eq_none (m : List (GUID × Vessel)) (a : Address)
    (h : a ∉ m.map (fun gv => gv.2.address)) :
    m.find? (fun gv => decide (gv.2.address = a)) = none := by
  rw [List.find?_eq_none]
  intro gv hm
  simp only [decide_eq_true_eq]
  intro e
  exact h (List.mem_map.2 ⟨gv, hm, e⟩)

theorem vessel_at_of_find? (p : Plugin) (wf : p.WellFormed) (g : GUID) (v : Vessel)
    (h : map.find? p.vessels_ g = some v) : p.vessel_at v.address = some v := by
  unfold vessel_at
  rw [find?_address_of_mem p.vessels_ wf.addresses_nodup g v
    ((map.find?_eq_some_iff _ _ _ wf.guids_nodup).1 h)]
  rfl

theorem vessel_at_eq_none (p : Plugin) (a : Address) (h : a ∉ p.vessel_addresses) :
    p.vessel_at a = none := by
  unfold vessel_at
  rw [find?_address_eq_none p.vessels_ a h]
  rfl

theorem vessel_at_registered (p : Plugin) (wf : p.WellFormed) (a : Address)
    (h : a ∈ p.vessel_addresses) :
    ∃ g v, map.find? p.vessels_ g = some v ∧ v.address = a := by
  obtain ⟨⟨g, v⟩, hm, he⟩ := List.mem_map.1 h
  exact ⟨g, v, (map.find?_eq_some_iff _ _ _ wf.guids_nodup).2 hm, he⟩

/-- Under distinct addresses, the vessel at an address is registered under one
GUID only. -/
theorem find?_address_unique (p : Plugin) (wf : p.WellFormed) (g g' : GUID) (v v' : Vessel)
    (h : map.find? p.vessels_ g = some v) (h' : map.find? p.vessels_ g' = some v')
    (he : v.address = v'.address) : g = g' ∧ v = v' := by
  have hg : g = g' :=
    registry_guid_unique p wf g g' v.address
      ((mem_registry_iff p wf g _).2 ⟨v, h, rfl⟩)
      ((mem_registry_iff p wf g' _).2 ⟨v', h', he.symm⟩)
  subst hg
  rw [h] at h'
  exact ⟨rfl, Option.some.inj h'⟩

/-- The call `vessel->f(...)` on a registered vessel: the ephemeris and the
vessel are what `f` makes of them. -/
theorem call_on_vessel_registered (p : Plugin) (wf : p.WellFormed) (g : GUID) (v : Vessel)
    (hv : map.find? p.vessels_ g = some v) (e : Ephemeris) (he : p.ephemeris_ = some e)
    (f : Ephemeris → Vessel → Ephemeris × Vessel) (call : Call) :
    (p.call_on_vessel v.address f call).ephemeris_ = some (f e v).1 ∧
    ∀ g', map.find? (p.call_on_vessel v.address f call).vessels_ g'
      = if g' = g then some (v.after f e) else map.find? p.vessels_ g' := by
  have hfind := find?_address_of_mem p.vessels_ wf.addresses_nodup g v
    ((map.find?_eq_some_iff _ _ _ wf.guids_nodup).1 hv)
  have hrun : p.call_on_vessel v.address f call
      = { p with
          calls_ := p.calls_ ++ [call]
          ephemeris_ := some (f e v).1
          vessels_ :=
            map.modify p.vessels_ g (fun w => { (f e v).2 with address := w.address }) } := by
    unfold call_on_vessel
    simp only [he, hfind]
  rw [hrun]
  refine ⟨rfl, fun g' => ?_⟩
  dsimp only
  rw [map.find?_modify]
  by_cases e' : g' = g
  · subst e'
    rw [if_pos rfl, if_pos rfl, hv]
    rfl
  · rw [if_neg e', if_neg e']

/-- The call `vessel->f(...)` through a pointer that is not to a registered vessel
leaves the ephemeris and the vessels as they were. -/
theorem call_on_vessel_unregistered (p : Plugin) (a : Address)
    (h : a ∉ p.vessel_addresses) (f : Ephemeris → Vessel → Ephemeris × Vessel)
    (call : Call) :
    (p.call_on_vessel a f call).ephemeris_ = p.ephemeris_ ∧
    (p.call_on_vessel a f call).vessels_ = p.vessels_ := by
  have hfind := find?_address_eq_none p.vessels_ a h
  unfold call_on_vessel
  dsimp only
  rw [hfind]
  cases p.ephemeris_ <;> exact ⟨rfl, rfl⟩

theorem call_on_vessel_no_ephemeris (p : Plugin) (a : Address) (he : p.ephemeris_ = none)
    (f : Ephemeris → Vessel → Ephemeris × Vessel) (call : Call) :
    (p.call_on_vessel a f call).ephemeris_ = none ∧
    (p.call_on_vessel a f call).vessels_ = p.vessels_ := by
  unfold call_on_vessel
  dsimp only
  rw [he]
  exact ⟨rfl, rfl⟩

/-- The function called matters only at the vessel that the pointer designates. -/
theorem call_on_vessel_congr (p : Plugin) (a : Address)
    (f f' : Ephemeris → Vessel → Ephemeris × Vessel) (call : Call)
    (h : ∀ e v, v.address = a → f e v = f' e v) :
    p.call_on_vessel a f call = p.call_on_vessel a f' call := by
  unfold call_on_vessel
  dsimp only
  split
  · rename_i ephemeris guid v he hv
    have := List.find?_some hv
    simp only [decide_eq_true_eq] at this
    rw [h ephemeris v this]
  · rfl

theorem call_on_vessels_frame (f : Ephemeris → Vessel → Ephemeris × Vessel)
    (call : Address → Call) (addresses : List Address) (p : Plugin) :
    Frame p (call_on_vessels f call p addresses) := by
  induction addresses generalizing p with
  | nil => exact Frame.refl p
  | cons a rest ih =>
    rw [call_on_vessels]
    exact (call_on_vessel_frame p a _ _).trans (ih _)

theorem vessel_at_after_call (p : Plugin) (wf : p.WellFormed) (a a' : Address)
    (hne : a' ≠ a) (f : Ephemeris → Vessel → Ephemeris × Vessel) (call : Call) :
    (p.call_on_vessel a f call).vessel_at a' = p.vessel_at a' := by
  by_cases hreg : a ∈ p.vessel_addresses
  · cases he : p.ephemeris_ with
    | none =>
      unfold vessel_at
      rw [(call_on_vessel_no_ephemeris p a he f call).2]
    | some e =>
      obtain ⟨g, v, hv, rfl⟩ := vessel_at_registered p wf a hreg
      have wf' := (call_on_vessel_frame p v.address f call).wellFormed wf
      obtain ⟨_, hfind⟩ := call_on_vessel_registered p wf g v hv e he f call
      by_cases hreg' : a' ∈ p.vessel_addresses
      · obtain ⟨g', v', hv', rfl⟩ := vessel_at_registered p wf a' hreg'
        have hg : g' ≠ g := by
          intro e'
          subst e'
          rw [hv] at hv'
          cases hv'
          exact hne rfl
        have hq : map.find? (p.call_on_vessel v.address f call).vessels_ g' = some v' := by
          rw [hfind, if_neg hg, hv']
        rw [vessel_at_of_find? _ wf' g' v' hq, vessel_at_of_find? p wf g' v' hv']
      · have hreg'' : a' ∉ (p.call_on_vessel v.address f call).vessel_addresses := by
          rw [addresses_eq_of_registry (call_on_vessel_frame p v.address f call).registry_eq]
          exact hreg'
        rw [vessel_at_eq_none _ _ hreg', vessel_at_eq_none _ _ hreg'']
  · unfold vessel_at
    rw [(call_on_vessel_unregistered p a hreg f call).2]

theorem ephemeris_after_cons (f : Ephemeris → Vessel → Ephemeris × Vessel) (e : Ephemeris)
    (v : Vessel) (vessels : List Vessel) :
    ephemeris_after f e (v :: vessels) = ephemeris_after f (f e v).1 vessels := rfl

/-- What the calls `vessel->f(...)` on the vessels at distinct addresses leave:
the ephemeris has gone through the calls on the registered ones in order; a
vessel that was not called is as it was; and a vessel that was called is what
`f` made of it, given the ephemeris that the calls before its own left. -/
theorem call_on_vessels_spec (f : Ephemeris → Vessel → Ephemeris × Vessel)
    (call : Address → Call) (addresses : List Address) (p : Plugin) (wf : p.WellFormed)
    (hn : addresses.Nodup) (e : Ephemeris) (he : p.ephemeris_ = some e) :
    (call_on_vessels f call p addresses).ephemeris_
      = some (ephemeris_after f e (addresses.filterMap p.vessel_at)) ∧
    (∀ g v, map.find? p.vessels_ g = some v → v.address ∉ addresses →
      map.find? (call_on_vessels f call p addresses).vessels_ g = some v) ∧
    (∀ i g v, map.find? p.vessels_ g = some v → addresses[i]? = some v.address →
      map.find? (call_on_vessels f call p addresses).vessels_ g
        = some (v.after f (ephemeris_after f e ((addresses.take i).filterMap p.vessel_at)))) := by
  induction addresses generalizing p e with
  | nil =>
    refine ⟨he, fun g v hv _ => hv, fun i g v _ hi => ?_⟩
    simp at hi
  | cons a rest ih =>
    rw [List.nodup_cons] at hn
    obtain ⟨ha, hrest⟩ := hn
    rw [call_on_vessels]
    have wf' := (call_on_vessel_frame p a f (call a)).wellFormed wf
    have hat : ∀ l : List Address, a ∉ l →
        l.filterMap (p.call_on_vessel a f (call a)).vessel_at = l.filterMap p.vessel_at := by
      intro l hl
      apply List.filterMap_congr
      intro a' ha'
      exact vessel_at_after_call p wf a a' (fun e' => hl (e' ▸ ha')) f (call a)
    by_cases hreg : a ∈ p.vessel_addresses
    · obtain ⟨g₀, v₀, hv₀, rfl⟩ := vessel_at_registered p wf a hreg
      obtain ⟨he', hfind⟩ := call_on_vessel_registered p wf g₀ v₀ hv₀ e he f (call v₀.address)
      obtain ⟨i1, i2, i3⟩ := ih _ wf' hrest _ he'
      have hhead : (v₀.address :: rest).filterMap p.vessel_at
          = v₀ :: rest.filterMap p.vessel_at := by
        rw [List.filterMap_cons, vessel_at_of_find? p wf g₀ v₀ hv₀]
      refine ⟨?_, ?_, ?_⟩
      · rw [i1, hat rest ha, hhead, ephemeris_after_cons]
      · intro g v hv hnot
        have hne : v.address ≠ v₀.address := fun e' => hnot (e' ▸ List.mem_cons_self _ _)
        have hg : g ≠ g₀ := by
          intro e'
          subst e'
          rw [hv₀] at hv
          cases hv
          exact hne rfl
        apply i2 g v
        · rw [hfind, if_neg hg, hv]
        · exact fun hm => hnot (List.mem_cons_of_mem _ hm)
      · intro i g v hv hi
        cases i with
        | zero =>
          simp only [List.getElem?_cons_zero, Option.some.injEq] at hi
          obtain ⟨rfl, rfl⟩ := find?_address_unique p wf g₀ g v₀ v hv₀ hv hi
          have := i2 g₀ (v₀.after f e) (by rw [hfind, if_pos rfl]) ha
          rw [this]
          rfl
        | succ i =>
          rw [List.getElem?_cons_succ] at hi
          have hmem : v.address ∈ rest := List.getElem?_mem hi
          have hne : v.address ≠ v₀.address := fun e' => ha (e' ▸ hmem)
          have hg : g ≠ g₀ := by
            intro e'
            subst e'
            rw [hv₀] at hv
            cases hv
            exact hne rfl
          have := i3 i g v (by rw [hfind, if_neg hg, hv]) hi
          rw [this, hat _ (fun hm => ha (List.mem_of_mem_take hm)), List.take_succ_cons,
            List.filterMap_cons, vessel_at_of_find? p wf g₀ v₀ hv₀, ephemeris_after_cons]
    · obtain ⟨he', hvs⟩ := call_on_vessel_unregistered p a hreg f (call a)
      obtain ⟨i1, i2, i3⟩ := ih _ wf' hrest e (he'.trans he)
      have hhead : ∀ l : List Address, (a :: l).filterMap p.vessel_at
          = l.filterMap p.vessel_at := by
        intro l
        rw [List.filterMap_cons, vessel_at_eq_none p a hreg]
      refine ⟨?_, ?_, ?_⟩
      · rw [i1, hat rest ha, hhead]
      · intro g v hv hnot
        apply i2 g v
        · rw [hvs, hv]
        · exact fun hm => hnot (List.mem_cons_of_mem _ hm)
      · intro i g v hv hi
        cases i with
        | zero =>
          simp only [List.getElem?_cons_zero, Option.some.injEq] at hi
          exfalso
          apply hreg
          rw [hi]
          exact List.mem_map.2 ⟨(g, v), (map.find?_eq_some_iff _ _ _ wf.guids_nodup).1 hv, rfl⟩
        | succ i =>
          rw [List.getElem?_cons_succ] at hi
          have := i3 i g v (by rw [hvs, hv]) hi
          rw [this, hat _ (fun hm => ha (List.mem_of_mem_take hm)), List.take_succ_cons, hhead]

/-- The vessel at an address that was not called is as it was. -/
theorem call_on_vessels_vessel_at (f : Ephemeris → Vessel → Ephemeris × Vessel)
    (call : Address → Call) (addresses : List Address) (p : Plugin) (wf : p.WellFormed)
    (a : Address) (ha : a ∉ addresses) :
    (call_on_vessels f call p addresses).vessel_at a = p.vessel_at a := by
  induction addresses generalizing p with
  | nil => rfl
  | cons b rest ih =>
    rw [call_on_vessels,
      ih _ ((call_on_vessel_frame p b f (call b)).wellFormed wf)
        (fun hm => ha (List.mem_cons_of_mem _ hm))]
    exact vessel_at_after_call p wf b a (fun e => ha (e ▸ List.mem_cons_self _ _)) f (call b)

/-- The vessels of a part of `vessels_`, found again from their addresses. -/
theorem filterMap_vessel_at (p : Plugin) (wf : p.WellFormed) (l : List (GUID × Vessel))
    (hl : ∀ gv ∈ l, gv ∈ p.vessels_) :
    (l.map (fun gv => gv.2.address)).filterMap p.vessel_at = l.map Prod.snd := by
  induction l with
  | nil => rfl
  | cons gv l ih =>
    obtain ⟨g, v⟩ := gv
    have hv : map.find? p.vessels_ g = some v :=
      (map.find?_eq_some_iff _ _ _ wf.guids_nodup).2 (hl _ (List.mem_cons_self _ _))
    rw [List.map_cons, List.filterMap_cons, vessel_at_of_find? p wf g v hv, List.map_cons,
      ih (fun gv hm => hl gv (List.mem_cons_of_mem _ hm))]

theorem ForgetAllHistoriesBefore_loop_eq (env : Environment) (t : Instant)
    (vessels : List (GUID × Vessel)) (p : Plugin) :
    ForgetAllHistoriesBefore.loop env t p vessels
      = call_on_vessels (fun e v => env.Vessel_ForgetBefore e v t)
          (fun a => Call.Vessel_ForgetBefore a t) p (vessels.map (fun gv => gv.2.address)) := by
  induction vessels generalizing p with
  | nil => rfl
  | cons gv rest ih =>
    obtain ⟨g, v⟩ := gv
    rw [ForgetAllHistoriesBefore.loop, ih]
    rfl

theorem AdvanceTime_loop_eq (env : Environment) (t : Instant)
    (vessels : List (GUID × Vessel)) (p : Plugin) :
    AdvanceTime.loop env t p vessels
      = call_on_vessels (fun e v => env.Vessel_AdvanceTimeNotInBubble e v t)
          (fun a => Call.Vessel_AdvanceTimeNotInBubble a t) p
          ((vessels.map (fun gv => gv.2.address)).filter
            (fun a => !p.bubble_.contains a)) := by
  induction vessels generalizing p with
  | nil => rfl
  | cons gv rest ih =>
    obtain ⟨g, v⟩ := gv
    rw [AdvanceTime.loop, List.map_cons, List.filter_cons]
    by_cases h : p.bubble_.contains v.address = true
    · simp only [h, Bool.not_true, Bool.false_eq_true, if_false]
      exact ih p
    · have h' : p.bubble_.contains v.address = false := by simpa using h
      simp only [h', Bool.not_false, if_true]
      rw [ih, (call_on_vessel_frame p v.address _ _).bubble_contains_eq]
      rfl

theorem EvolveBubble_loop_eq (env : Environment) (t : Instant) (c : DegreesOfFreedom)
    (vessels : List Address) (p : Plugin) :
    EvolveBubble.loop env t c p vessels
      = call_on_vessels
          (fun e v => env.Vessel_AdvanceTimeInBubble e v t
            (c + p.bubble_.from_centre_of_mass v.address))
          (fun a => Call.Vessel_AdvanceTimeInBubble a t (c + p.bubble_.from_centre_of_mass a))
          p vessels := by
  induction vessels generalizing p with
  | nil => rfl
  | cons a rest ih =>
    rw [EvolveBubble.loop, ih, call_on_vessels,
      (call_on_vessel_frame p a _ _).bubble_from_centre_of_mass_eq]
    congr 1
    apply call_on_vessel_congr
    intro e v hv
    rw [hv]

/-- What `ForgetAllHistoriesBefore` leaves once the ephemeris has forgotten: the
calls `ForgetBefore(t)` on all the vessels, in the order of `vessels_`. -/
theorem ForgetAllHistoriesBefore_loop_spec (env : Environment) (t : Instant) (p : Plugin)
    (wf : p.WellFormed) (e : Ephemeris) (he : p.ephemeris_ = some e) :
    map.keys (ForgetAllHistoriesBefore.loop env t p p.vessels_).vessels_
      = map.keys p.vessels_ ∧
    (ForgetAllHistoriesBefore.loop env t p p.vessels_).ephemeris_
      = some (ephemeris_after (fun e v => env.Vessel_ForgetBefore e v t) e
          (map.values p.vessels_)) ∧
    ∀ (i : Nat) (g : GUID) (v : Vessel), p.vessels_[i]? = some (g, v) →
      map.find? (ForgetAllHistoriesBefore.loop env t p p.vessels_).vessels_ g
        = some (v.after (fun e v => env.Vessel_ForgetBefore e v t)
            (ephemeris_after (fun e v => env.Vessel_ForgetBefore e v t) e
              ((map.values p.vessels_).take i))) := by
  obtain ⟨s1, _, s3⟩ := call_on_vessels_spec
    (fun e v => env.Vessel_ForgetBefore e v t) (fun a => Call.Vessel_ForgetBefore a t)
    p.vessel_addresses p wf wf.addresses_nodup e he
  rw [ForgetAllHistoriesBefore_loop_eq]
  refine ⟨?_, ?_, ?_⟩
  · exact keys_eq_of_registry (call_on_vessels_frame _ _ _ _).registry_eq
  · rw [show p.vessels_.map (fun gv => gv.2.address) = p.vessel_addresses from rfl, s1]
    unfold vessel_addresses
    rw [filterMap_vessel_at p wf p.vessels_ (fun _ hm => hm)]
    rfl
  · intro i g v hi
    have hm : (g, v) ∈ p.vessels_ := List.getElem?_mem hi
    have hv : map.find? p.vessels_ g = some v :=
      (map.find?_eq_some_iff _ _ _ wf.guids_nodup).2 hm
    have hi' : p.vessel_addresses[i]? = some v.address := by
      unfold vessel_addresses
      rw [List.getElem?_map, hi]
      rfl
    rw [show p.vessels_.map (fun gv => gv.2.address) = p.vessel_addresses from rfl,
      s3 i g v hv hi']
    unfold vessel_addresses
    rw [← List.map_take, filterMap_vessel_at p wf _ (fun _ hm => List.mem_of_mem_take hm)]
    simp only [map.values, List.map_take]

theorem call_on_vessel_bubble (p : Plugin) (a : Address)
    (f : Ephemeris → Vessel → Ephemeris × Vessel) (call : Call) :
    (p.call_on_vessel a f call).bubble_ = p.bubble_ := by
  unfold call_on_vessel
  dsimp only
  split <;> rfl

theorem call_on_vessels_bubble (f : Ephemeris → Vessel → Ephemeris × Vessel)
    (call : Address → Call) (addresses : List Address) (p : Plugin) :
    (call_on_vessels f call p addresses).bubble_ = p.bubble_ := by
  induction addresses generalizing p with
  | nil => rfl
  | cons a rest ih => rw [call_on_vessels, ih, call_on_vessel_bubble]

/-- What the loop of `EvolveBubble` leaves: the calls
`AdvanceTimeInBubble(t, c + from_centre_of_mass(v))` on the members, in the
order of `bubble_->vessels()`. -/
theorem EvolveBubble_loop_spec (env : Environment) (t : Instant) (c : DegreesOfFreedom)
    (members : List Address) (p : Plugin) (wf : p.WellFormed) (hn : members.Nodup)
    (e : Ephemeris) (he : p.ephemeris_ = some e) :
    map.keys (EvolveBubble.loop env t c p members).vessels_ = map.keys p.vessels_ ∧
    (EvolveBubble.loop env t c p members).ephemeris_
      = some (ephemeris_after
          (fun e v => env.Vessel_AdvanceTimeInBubble e v t
            (c + p.bubble_.from_centre_of_mass v.address))
          e (members.filterMap p.vessel_at)) ∧
    (∀ (g : GUID) (v : Vessel), map.find? p.vessels_ g = some v → v.address ∉ members →
      map.find? (EvolveBubble.loop env t c p members).vessels_ g = some v) ∧
    (∀ (i : Nat) (g : GUID) (v : Vessel), map.find? p.vessels_ g = some v →
      members[i]? = some v.address →
      map.find? (EvolveBubble.loop env t c p members).vessels_ g
        = some (v.after
            (fun e v => env.Vessel_AdvanceTimeInBubble e v t
              (c + p.bubble_.from_centre_of_mass v.address))
            (ephemeris_after
              (fun e v => env.Vessel_AdvanceTimeInBubble e v t
                (c + p.bubble_.from_centre_of_mass v.address))
              e ((members.take i).filterMap p.vessel_at)))) := by
  rw [EvolveBubble_loop_eq]
  exact ⟨keys_eq_of_registry (call_on_vessels_frame _ _ _ _).registry_eq,
    call_on_vessels_spec _ _ members p wf hn e he⟩

/-- What the loop of `AdvanceTime` leaves: the calls `AdvanceTimeNotInBubble(t)`
on the vessels that the bubble does not contain, in the order of `vessels_`. -/
theorem AdvanceTime_loop_spec (env : Environment) (t : Instant) (p : Plugin)
    (wf : p.WellFormed) (e : Ephemeris) (he : p.ephemeris_ = some e) :
    map.keys (AdvanceTime.loop env t p p.vessels_).vessels_ = map.keys p.vessels_ ∧
    (AdvanceTime.loop env t p p.vessels_).ephemeris_
      = some (ephemeris_after (fun e v => env.Vessel_AdvanceTimeNotInBubble e v t) e
          ((p.vessel_addresses.filter (fun a => !p.bubble_.contains a)).filterMap
            p.vessel_at)) ∧
    (∀ (g : GUID) (v : Vessel), map.find? p.vessels_ g = some v →
      p.bubble_.contains v.address = true →
      map.find? (AdvanceTime.loop env t p p.vessels_).vessels_ g = some v) ∧
    (∀ (g : GUID) (v : Vessel), map.find? p.vessels_ g = some v →
      p.bubble_.contains v.address = false →
      ∃ j, (p.vessel_addresses.filter (fun a => !p.bubble_.contains a))[j]?
          = some v.address ∧
        map.find? (AdvanceTime.loop env t p p.vessels_).vessels_ g
          = some (v.after (fun e v => env.Vessel_AdvanceTimeNotInBubble e v t)
              (ephemeris_after (fun e v => env.Vessel_AdvanceTimeNotInBubble e v t) e
                (((p.vessel_addresses.filter (fun a => !p.bubble_.contains a)).take
                  j).filterMap p.vessel_at)))) := by
  have hn : (p.vessel_addresses.filter (fun a => !p.bubble_.contains a)).Nodup :=
    (List.filter_sublist _).nodup wf.addresses_nodup
  obtain ⟨s1, s2, s3⟩ := call_on_vessels_spec
    (fun e v => env.Vessel_AdvanceTimeNotInBubble e v t)
    (fun a => Call.Vessel_AdvanceTimeNotInBubble a t)
    (p.vessel_addresses.filter (fun a => !p.bubble_.contains a)) p wf hn e he
  rw [AdvanceTime_loop_eq]
  refine ⟨keys_eq_of_registry (call_on_vessels_frame _ _ _ _).registry_eq, s1, ?_, ?_⟩
  · intro g v hv hc
    apply s2 g v hv
    intro hm
    have := (List.mem_filter.1 hm).2
    simp [hc] at this
  · intro g v hv hc
    have hm : v.address ∈ p.vessel_addresses.filter (fun a => !p.bubble_.contains a) := by
      rw [List.mem_filter]
      refine ⟨List.mem_map.2 ⟨(g, v), (map.find?_eq_some_iff _ _ _ wf.guids_nodup).1 hv, rfl⟩,
        ?_⟩
      simp [hc]
    obtain ⟨j, hj⟩ := List.mem_iff_getElem?.1 hm
    exact ⟨j, hj, s3 j g v hv hj⟩

/-- What an `EvolveBubble` that returns leaves, for a bubble that contains
exactly its members, listed once: the same vessels at the same addresses, each
member as its own call of `AdvanceTimeInBubble` left it, every other vessel as it
was. -/
theorem EvolveBubble_returns_spec (env : Environment) (p q : Plugin) (t : Instant)
    (wf : p.WellFormed) (e : Ephemeris) (he : p.ephemeris_ = some e)
    (hmem : p.bubble_.empty = false →
      ∀ a, p.bubble_.contains a = true ↔ a ∈ p.bubble_.vessels)
    (hnodup : p.bubble_.vessels.Nodup)
    (hempty : p.bubble_.empty = true → ∀ a, p.bubble_.contains a = false)
    (h : p.EvolveBubble env t = .returns () q) :
    q.WellFormed ∧ q.vessel_addresses = p.vessel_addresses ∧
    q.bubble_.contains = p.bubble_.contains ∧ (∃ e', q.ephemeris_ = some e') ∧
    (∀ a, p.bubble_.contains a = false → q.vessel_at a = p.vessel_at a) ∧
    (∀ (g : GUID) (v : Vessel), map.find? p.vessels_ g = some v →
      p.bubble_.contains v.address = false → map.find? q.vessels_ g = some v) ∧
    (∀ (g : GUID) (v : Vessel), map.find? p.vessels_ g = some v →
      p.bubble_.contains v.address = true →
      ∃ i c, p.bubble_.vessels[i]? = some v.address ∧
        physics.last (EvolveBubble.flow env p e t).trajectory = some c ∧
        map.find? q.vessels_ g
          = some (v.after
              (fun e v => env.Vessel_AdvanceTimeInBubble e v t
                (c.2 + p.bubble_.from_centre_of_mass v.address))
              (ephemeris_after
                (fun e v => env.Vessel_AdvanceTimeInBubble e v t
                  (c.2 + p.bubble_.from_centre_of_mass v.address))
                (EvolveBubble.flow env p e t).ephemeris
                ((p.bubble_.vessels.take i).filterMap p.vessel_at)))) := by
  have hframe : Frame p q := by
    have := EvolveBubble_frame env p t
    rw [h] at this
    exact this
  refine ⟨hframe.wellFormed wf, addresses_eq_of_registry hframe.registry_eq,
    hframe.bubble_contains_eq, ?_, ?_⟩
  · have := hframe.ephemeris_some (by rw [he]; rfl)
    exact Option.isSome_iff_exists.1 this
  rcases EvolveBubble_returns_inv env p q t h with ⟨hemp, rfl⟩ | ⟨hne, e₀, c, he₀, _, hl, rfl⟩
  · refine ⟨fun _ _ => rfl, fun _ _ hv _ => hv, fun g v _ hc => ?_⟩
    rw [hempty hemp v.address] at hc
    cases hc
  · rw [he] at he₀
    cases he₀
    have wf1 : (EvolveBubble.flowed env p e t).WellFormed := wellFormed_of_registry wf rfl rfl
    obtain ⟨_, _, s2, s3⟩ := EvolveBubble_loop_spec env t c.2 p.bubble_.vessels
      (EvolveBubble.flowed env p e t) wf1 hnodup (EvolveBubble.flow env p e t).ephemeris rfl
    refine ⟨?_, ?_, ?_⟩
    · intro a hc
      have hnot : a ∉ p.bubble_.vessels := by
        intro hin
        rw [(hmem hne a).2 hin] at hc
        cases hc
      rw [EvolveBubble_loop_eq, call_on_vessels_vessel_at _ _ _ _ wf1 a hnot]
      rfl
    · intro g v hv hc
      apply s2 g v hv
      intro hin
      rw [(hmem hne _).2 hin] at hc
      cases hc
    · intro g v hv hc
      obtain ⟨i, hi⟩ := List.mem_iff_getElem?.1 ((hmem hne _).1 hc)
      exact ⟨i, c, hi, hl, s3 i g v hv hi⟩

end Plugin

/-! ## Every surviving vessel is advanced once -/

namespace Plugin

theorem nodup_filter_eq (l : List Address) (a : Address) (h : l.Nodup) :
    l.filter (fun v => decide (v = a)) = if a ∈ l then [a] else [] := by
  induction l with
  | nil => simp
  | cons b l ih =>
    rw [List.nodup_cons] at h
    by_cases e : b = a
    · subst e
      have : List.filter (fun v => decide (v = b)) l = [] := by
        rw [ih h.2, if_neg h.1]
      simp [List.filter_cons, this]
    · have e' : ¬ a = b := fun h' => e h'.symm
      simp [List.filter_cons, e, e', ih h.2]

theorem filter_advances_in_bubble (a : Address) (t : Instant) (d : Address → DegreesOfFreedom)
    (l : List Address) :
    (l.map (fun v => Call.Vessel_AdvanceTimeInBubble v t (d v))).filter (Call.advances a)
      = (l.filter (fun v => decide (v = a))).map
          (fun v => Call.Vessel_AdvanceTimeInBubble v t (d v)) := by
  induction l with
  | nil => rfl
  | cons b l ih =>
    by_cases e : b = a <;> simp [List.filter_cons, Call.advances, e, ih]

theorem filter_advances_not_in_bubble (a : Address) (t : Instant) (l : List Address) :
    (l.map (fun v => Call.Vessel_AdvanceTimeNotInBubble v t)).filter (Call.advances a)
      = (l.filter (fun v => decide (v = a))).map
          (fun v => Call.Vessel_AdvanceTimeNotInBubble v t) := by
  induction l with
  | nil => rfl
  | cons b l ih =>
    by_cases e : b = a <;> simp [List.filter_cons, Call.advances, e, ih]

theorem calls_since_append (p q : Plugin) (l : List Call) (h : q.calls_ = p.calls_ ++ l) :
    calls_since p q = l := by
  unfold calls_since
  rw [h, List.drop_left]

end Plugin

/-- C5 (each surviving vessel is advanced exactly once).  Let `p` be well formed
and let `AdvanceTime(t)` return.  Let `b` be the bubble as prepared by this
`AdvanceTime`, and assume that when `b` is not empty `b.contains(v)` holds
exactly for the members of `b.vessels()` (each listed once), and that when `b`
is empty it contains no vessel.  (1) For every vessel that survives
`FreeVessels`, the calls of this `AdvanceTime` that advance it are exactly one:
an `AdvanceTimeInBubble(t, _)` if `b` contains it, an `AdvanceTimeNotInBubble(t)`
otherwise.  (2) The plugin is left with the GUIDs that survive `FreeVessels`,
and under each of them with the vessel `v` that `FreeVessels` left, advanced
once: if `b` contains it, as the call
`AdvanceTimeInBubble(t, c + from_centre_of_mass(v))` left it, `c` being the last
point of the trajectory of the centre of mass as flowed, and that call having
found the ephemeris as the flow and the calls on the members before it left it;
otherwise as the call `AdvanceTimeNotInBubble(t)` left it, that call having
found the ephemeris as `EvolveBubble` and the calls on the vessels out of the
bubble before it left it.  The ephemeris is left as the last of these calls left
it. -/
theorem C5_advanced_exactly_once (env : Environment) (p q : Plugin) (t : Instant)
    (rot : Angle) (wf : p.WellFormed)
    (h : p.AdvanceTime env t rot = .returns () q)
    (hmem : (Plugin.AdvanceTime.prepared_bubble env p t).empty = false →
      ∀ a, (Plugin.AdvanceTime.prepared_bubble env p t).contains a = true ↔
        a ∈ (Plugin.AdvanceTime.prepared_bubble env p t).vessels)
    (hnodup : (Plugin.AdvanceTime.prepared_bubble env p t).vessels.Nodup)
    (hempty : (Plugin.AdvanceTime.prepared_bubble env p t).empty = true →
      ∀ a, (Plugin.AdvanceTime.prepared_bubble env p t).contains a = false) :
    (∀ a ∈ p.FreeVessels.vessel_addresses,
      ((Plugin.AdvanceTime.prepared_bubble env p t).contains a = true →
        ∃ dof, (Plugin.calls_since p q).filter (Call.advances a)
          = [Call.Vessel_AdvanceTimeInBubble a t dof]) ∧
      ((Plugin.AdvanceTime.prepared_bubble env p t).contains a = false →
        (Plugin.calls_since p q).filter (Call.advances a)
          = [Call.Vessel_AdvanceTimeNotInBubble a t])) ∧
    ∃ e rotv p4 e4, p.ephemeris_ = some e ∧ p.BarycentricToWorldSun = some rotv ∧
      (Plugin.AdvanceTime.prepared env p e rotv t).EvolveBubble env t = .returns () p4 ∧
      p4.ephemeris_ = some e4 ∧
      map.keys q.vessels_ = map.keys p.FreeVessels.vessels_ ∧
      q.ephemeris_
        = some (ephemeris_after (fun e v => env.Vessel_AdvanceTimeNotInBubble e v t) e4
            ((p.FreeVessels.vessel_addresses.filter
              (fun a => !(Plugin.AdvanceTime.prepared_bubble env p t).contains a)).filterMap
                p.FreeVessels.vessel_at)) ∧
      ∀ (g : GUID) (v : Vessel), map.find? p.FreeVessels.vessels_ g = some v →
        ((Plugin.AdvanceTime.prepared_bubble env p t).contains v.address = true →
          ∃ i c, (Plugin.AdvanceTime.prepared_bubble env p t).vessels[i]? = some v.address ∧
            physics.last (Plugin.EvolveBubble.flow env
              (Plugin.AdvanceTime.prepared env p e rotv t) (e.Prolong t) t).trajectory
              = some c ∧
            map.find? q.vessels_ g
              = some (v.after
                  (fun e v => env.Vessel_AdvanceTimeInBubble e v t
                    (c.2 + (Plugin.AdvanceTime.prepared_bubble env p t).from_centre_of_mass
                      v.address))
                  (ephemeris_after
                    (fun e v => env.Vessel_AdvanceTimeInBubble e v t
                      (c.2 + (Plugin.AdvanceTime.prepared_bubble env p t).from_centre_of_mass
                        v.address))
                    (Plugin.EvolveBubble.flow env (Plugin.AdvanceTime.prepared env p e rotv t)
                      (e.Prolong t) t).ephemeris
                    (((Plugin.AdvanceTime.prepared_bubble env p t).vessels.take i).filterMap
                      p.FreeVessels.vessel_at)))) ∧
        ((Plugin.AdvanceTime.prepared_bubble env p t).contains v.address = false →
          ∃ j, (p.FreeVessels.vessel_addresses.filter
              (fun a => !(Plugin.AdvanceTime.prepared_bubble env p t).contains a))[j]?
              = some v.address ∧
            map.find? q.vessels_ g
              = some (v.after (fun e v => env.Vessel_AdvanceTimeNotInBubble e v t)
                  (ephemeris_after (fun e v => env.Vessel_AdvanceTimeNotInBubble e v t) e4
                    (((p.FreeVessels.vessel_addresses.filter
                      (fun a => !(Plugin.AdvanceTime.prepared_bubble env p t).contains
                        a)).take j).filterMap p.FreeVessels.vessel_at)))) := by
  refine ⟨?_, ?_⟩
  · intro a ha
    obtain ⟨rotv, evolve, _, hq, hev⟩ := Plugin.AdvanceTime_calls env p q t rot h
    have hnd : p.FreeVessels.vessel_addresses.Nodup :=
      (Plugin.FreeVessels_wellFormed p wf).addresses_nodup
    have hsince : Plugin.calls_since p q
        = [Call.Ephemeris_Prolong t, Call.PhysicsBubble_Prepare rotv p.current_time_ t] ++
          evolve ++
          (p.FreeVessels.vessel_addresses.filter
            (fun a => !(Plugin.AdvanceTime.prepared_bubble env p t).contains a)).map
            (fun a => Call.Vessel_AdvanceTimeNotInBubble a t) := by
      apply Plugin.calls_since_append
      rw [hq]
      simp
    have hindep : ∀ c : Bool, (Plugin.AdvanceTime.prepared_bubble env p t).contains a = c →
        ((p.FreeVessels.vessel_addresses.filter
            (fun a => !(Plugin.AdvanceTime.prepared_bubble env p t).contains a)).map
            (fun a => Call.Vessel_AdvanceTimeNotInBubble a t)).filter (Call.advances a)
          = if c then [] else [Call.Vessel_AdvanceTimeNotInBubble a t] := by
      intro c hc
      rw [Plugin.filter_advances_not_in_bubble, List.filter_filter]
      have : List.filter (fun v => decide (v = a) &&
            !(Plugin.AdvanceTime.prepared_bubble env p t).contains v)
            p.FreeVessels.vessel_addresses
          = List.filter (fun _ => !c) (List.filter (fun v => decide (v = a))
            p.FreeVessels.vessel_addresses) := by
        rw [List.filter_filter]
        apply List.filter_congr
        intro v _
        by_cases e : v = a
        · subst e
          simp [hc]
        · simp [e]
      rw [this, Plugin.nodup_filter_eq _ _ hnd, if_pos ha]
      cases c <;> simp
    have hprefix : List.filter (Call.advances a)
        [Call.Ephemeris_Prolong t, Call.PhysicsBubble_Prepare rotv p.current_time_ t] = [] := by
      simp [Call.advances]
    rcases hev with ⟨he, rfl⟩ | ⟨hne, c, rfl⟩
    · have hc := hempty he a
      constructor
      · intro hc'
        rw [hc] at hc'
        cases hc'
      · intro _
        rw [hsince, List.filter_append, List.filter_append, hprefix, hindep false hc]
        simp
    · have hflow : ∀ l : List Call,
          List.filter (Call.advances a)
            (Call.Ephemeris_FlowWithAdaptiveStep t p.prolongation_parameters_ :: l)
            = List.filter (Call.advances a) l := by
        intro l
        simp [List.filter_cons, Call.advances]
      constructor
      · intro hc
        refine ⟨c + (Plugin.AdvanceTime.prepared_bubble env p t).from_centre_of_mass a, ?_⟩
        rw [hsince, List.filter_append, List.filter_append, hprefix, hindep true hc, hflow,
          Plugin.filter_advances_in_bubble a t
            (fun v => c + (Plugin.AdvanceTime.prepared_bubble env p t).from_centre_of_mass v),
          Plugin.nodup_filter_eq _ _ hnodup, if_pos ((hmem hne a).1 hc)]
        simp
      · intro hc
        have hnot : a ∉ (Plugin.AdvanceTime.prepared_bubble env p t).vessels := by
          intro hin
          rw [(hmem hne a).2 hin] at hc
          cases hc
        rw [hsince, List.filter_append, List.filter_append, hprefix, hindep false hc, hflow,
          Plugin.filter_advances_in_bubble a t
            (fun v => c + (Plugin.AdvanceTime.prepared_bubble env p t).from_centre_of_mass v),
          Plugin.nodup_filter_eq _ _ hnodup, if_neg hnot]
        simp
  · obtain ⟨_, _, e, rotv, p4, he, hr, hb4, rfl⟩ := Plugin.AdvanceTime_returns_inv env p q t rot h
    have hb := Plugin.prepared_bubble_eq env p t e rotv hr
    have wfP : (Plugin.AdvanceTime.prepared env p e rotv t).WellFormed :=
      Plugin.wellFormed_of_registry (Plugin.FreeVessels_wellFormed p wf) rfl rfl
    have hspec := Plugin.EvolveBubble_returns_spec env (Plugin.AdvanceTime.prepared env p e rotv t)
      p4 t wfP (e.Prolong t) rfl (by rw [hb]; exact hmem) (by rw [hb]; exact hnodup)
      (by rw [hb]; exact hempty) hb4
    rw [hb] at hspec
    obtain ⟨wf4, haddr, hcont, ⟨e4, he4⟩, hat, hout, hin⟩ := hspec
    have haddr' : p4.vessel_addresses = p.FreeVessels.vessel_addresses := haddr
    have hat' : ∀ a, (Plugin.AdvanceTime.prepared_bubble env p t).contains a = false →
        p4.vessel_at a = p.FreeVessels.vessel_at a := hat
    obtain ⟨l1, l2, l3, l4⟩ := Plugin.AdvanceTime_loop_spec env t p4 wf4 e4 he4
    rw [haddr', hcont] at l2 l4
    have hcongr : ∀ l : List Address,
        (∀ a ∈ l, a ∈ p.FreeVessels.vessel_addresses.filter
          (fun a => !(Plugin.AdvanceTime.prepared_bubble env p t).contains a)) →
        l.filterMap p4.vessel_at = l.filterMap p.FreeVessels.vessel_at := by
      intro l hl
      apply List.filterMap_congr
      intro a ha
      apply hat'
      have := (List.mem_filter.1 (hl a ha)).2
      simpa using this
    refine ⟨e, rotv, p4, e4, he, hr, hb4, he4, ?_, ?_, ?_⟩
    · exact l1.trans (Plugin.keys_eq_of_registry
        (show p4.registry = p.FreeVessels.registry from
          (Plugin.EvolveBubble_frame env _ t |> fun f => by rw [hb4] at f; exact f.registry_eq)))
    · rw [← hcongr _ (fun _ hm => hm)]
      exact l2
    · intro g v hv
      constructor
      · intro hc
        obtain ⟨i, c, hi, hl, hfind⟩ := hin g v hv hc
        refine ⟨i, c, hi, hl, ?_⟩
        have := l3 g _ hfind (by rw [hcont]; exact hc)
        exact this
      · intro hc
        obtain ⟨j, hj, hfind⟩ := l4 g v (hout g v hv hc) hc
        refine ⟨j, hj, ?_⟩
        rw [← hcongr _ (fun _ hm => List.mem_of_mem_take hm)]
        exact hfind

theorem test_plugin_with_bubble_wellFormed : Plugin.test_plugin_with_bubble.WellFormed :=
  ⟨by decide, by decide, by decide⟩

/-- C5, on the example: the vessel at address 1, in the bubble, is advanced once
by `AdvanceTimeInBubble`, which leaves it dirty with a prolongation ending at the
centre of mass displaced by its offset; the vessel at address 2 once by
`AdvanceTimeNotInBubble`, which leaves it clean with a prolongation ending at the
origin. -/
theorem C5_advanced_exactly_once_witness :
    Plugin.test_plugin_with_bubble.WellFormed ∧
    (∃ dof,
      (Plugin.calls_since Plugin.test_plugin_with_bubble
        (Plugin.test_plugin_with_bubble.AdvanceTime Plugin.test_environment_acting 1
          0).state).filter (Call.advances 1) = [Call.Vessel_AdvanceTimeInBubble 1 1 dof]) ∧
    (Plugin.calls_since Plugin.test_plugin_with_bubble
        (Plugin.test_plugin_with_bubble.AdvanceTime Plugin.test_environment_acting 1
          0).state).filter (Call.advances 2) = [Call.Vessel_AdvanceTimeNotInBubble 2 1] ∧
    (map.find? (Plugin.test_plugin_with_bubble.AdvanceTime Plugin.test_environment_acting 1
        0).state.vessels_ "a").map (fun v => (v.prolongation, v.is_dirty))
      = some (some [(1, ((1, 0, 0), (0, 0, 0)))], true) ∧
    (map.find? (Plugin.test_plugin_with_bubble.AdvanceTime Plugin.test_environment_acting 1
        0).state.vessels_ "b").map (fun v => (v.prolongation, v.is_dirty))
      = some (some [(1, 0)], false) := by
  have key := C5_advanced_exactly_once Plugin.test_environment_acting
    Plugin.test_plugin_with_bubble
    (Plugin.test_plugin_with_bubble.AdvanceTime Plugin.test_environment_acting 1 0).state 1 0
    test_plugin_with_bubble_wellFormed rfl
    (fun _ a => by
      show decide (a = 1) = true ↔ a ∈ [1]
      simp)
    (by
      show [1].Nodup
      decide)
    (fun h => by cases h)
  obtain ⟨hlog, e, rotv, p4, e4, _, _, _, _, _, _, hstate⟩ := key
  refine ⟨test_plugin_with_bubble_wellFormed, (hlog 1 (by decide)).1 rfl,
    (hlog 2 (by decide)).2 rfl, ?_, ?_⟩
  · obtain ⟨i, c, _, hl, hfind⟩ := (hstate "a" (Plugin.test_vessel 1) rfl).1 rfl
    have hc : some ((1 : Instant), (0 : DegreesOfFreedom)) = some c := hl
    cases hc
    rw [hfind]
    simp [Vessel.after, Vessel.prolongation, Vessel.is_dirty, Plugin.test_environment_acting,
      Plugin.test_plugin_with_bubble, Plugin.test_vessel, Vessel.new, Vessel.is_initialized,
      Plugin.AdvanceTime.prepared_bubble, Plugin.BarycentricToWorldSun,
      Plugin.PlanetariumRotation, Plugin.test_plugin, Plugin.test_environment]
  · obtain ⟨j, _, hfind⟩ := (hstate "b" (Plugin.test_vessel 2) rfl).2 rfl
    rw [hfind]
    simp [Vessel.after, Vessel.prolongation, Vessel.is_dirty, Plugin.test_environment_acting,
      Plugin.test_vessel, Vessel.new, Vessel.is_initialized]

/-- C6 (`EvolveBubble`).  When the bubble is empty `EvolveBubble(t)` returns
without any effect.  When it is not, the ephemeris exists, the flow of the
centre-of-mass trajectory reports that it reached `t` and leaves `c` as the last
point of that trajectory, `EvolveBubble(t)` returns having issued the flow and
then, for each member `v` of `bubble_->vessels()` in order, the call
`AdvanceTimeInBubble(t, c + from_centre_of_mass(v))`, and nothing else; the
bubble holds the trajectory as flowed; and when the vessel tables are well formed
and the members are listed once, the plugin is left with the same GUIDs, each
member as its own call of `AdvanceTimeInBubble(t, c + from_centre_of_mass(v))`
left it, that call having found the ephemeris as the flow and then the calls on
the members before it left it, every other vessel as it was, and the ephemeris
as the flow and then the calls on the members left it. -/
theorem C6_EvolveBubble (env : Environment) (p : Plugin) (t : Instant) :
    (p.bubble_.empty = true → p.EvolveBubble env t = .returns () p) ∧
    (p.bubble_.empty = false → ∀ e c, p.ephemeris_ = some e →
      (Plugin.EvolveBubble.flow env p e t).reached_final_time = true →
      physics.last (Plugin.EvolveBubble.flow env p e t).trajectory = some c →
      ∃ q, p.EvolveBubble env t = .returns () q ∧
        Plugin.calls_since p q =
          Call.Ephemeris_FlowWithAdaptiveStep t p.prolongation_parameters_ ::
            p.bubble_.vessels.map
              (fun v => Call.Vessel_AdvanceTimeInBubble v t
                (c.2 + p.bubble_.from_centre_of_mass v)) ∧
        q.bubble_.centre_of_mass_trajectory = (Plugin.EvolveBubble.flow env p e t).trajectory ∧
        (p.WellFormed → p.bubble_.vessels.Nodup →
          map.keys q.vessels_ = map.keys p.vessels_ ∧
          q.ephemeris_
            = some (ephemeris_after
                (fun e v => env.Vessel_AdvanceTimeInBubble e v t
                  (c.2 + p.bubble_.from_centre_of_mass v.address))
                (Plugin.EvolveBubble.flow env p e t).ephemeris
                (p.bubble_.vessels.filterMap p.vessel_at)) ∧
          (∀ (g : GUID) (v : Vessel), map.find? p.vessels_ g = some v →
            v.address ∉ p.bubble_.vessels → map.find? q.vessels_ g = some v) ∧
          (∀ (i : Nat) (g : GUID) (v : Vessel), map.find? p.vessels_ g = some v →
            p.bubble_.vessels[i]? = some v.address →
            map.find? q.vessels_ g
              = some (v.after
                  (fun e v => env.Vessel_AdvanceTimeInBubble e v t
                    (c.2 + p.bubble_.from_centre_of_mass v.address))
                  (ephemeris_after
                    (fun e v => env.Vessel_AdvanceTimeInBubble e v t
                      (c.2 + p.bubble_.from_centre_of_mass v.address))
                    (Plugin.EvolveBubble.flow env p e t).ephemeris
                    ((p.bubble_.vessels.take i).filterMap p.vessel_at)))))) := by
  refine ⟨Plugin.EvolveBubble_empty env p t, ?_⟩
  intro hne e c he hf hl
  refine ⟨_, Plugin.EvolveBubble_run env p t e c hne he hf hl, ?_, ?_, fun wf hn => ?_⟩
  · apply Plugin.calls_since_append
    rw [Plugin.EvolveBubble_loop_calls]
    simp [Plugin.EvolveBubble.flowed]
  · rw [Plugin.EvolveBubble_loop_eq, Plugin.call_on_vessels_bubble]
    rfl
  · exact Plugin.EvolveBubble_loop_spec env t c.2 p.bubble_.vessels
      (Plugin.EvolveBubble.flowed env p e t)
      (Plugin.wellFormed_of_registry wf rfl rfl) hn
      (Plugin.EvolveBubble.flow env p e t).ephemeris rfl

/-- C6, on the example: the flow appends the origin at time 1, and the vessel at
address 1, the member of the bubble, is advanced to the centre of mass displaced
by its offset: its prolongation ends there and it is dirty; the vessel at
address 2 is as it was. -/
theorem C6_EvolveBubble_witness :
    Plugin.test_plugin_with_bubble.bubble_.empty = false ∧
    ∃ q, Plugin.test_plugin_with_bubble.EvolveBubble Plugin.test_environment_acting 1
        = .returns () q ∧
      Plugin.calls_since Plugin.test_plugin_with_bubble q =
        [Call.Ephemeris_FlowWithAdaptiveStep 1 ⟨1000, 1, 1⟩,
          Call.Vessel_AdvanceTimeInBubble 1 1 ((1, 0, 0), (0, 0, 0))] ∧
      (map.find? q.vessels_ "a").map Vessel.prolongation
        = some (some [(1, ((1, 0, 0), (0, 0, 0)))]) ∧
      (map.find? q.vessels_ "a").map Vessel.is_dirty = some true ∧
      map.find? q.vessels_ "b" = some (Plugin.test_vessel 2) := by
  obtain ⟨q, h₁, h₂, _, h₃⟩ :=
    (C6_EvolveBubble Plugin.test_environment_acting Plugin.test_plugin_with_bubble 1).2 rfl
      Plugin.test_ephemeris (1, 0) rfl rfl rfl
  obtain ⟨_, _, hout, hin⟩ := h₃ test_plugin_with_bubble_wellFormed (by
    show [1].Nodup
    decide)
  refine ⟨rfl, q, h₁, ?_, ?_, ?_, ?_⟩
  · rw [h₂]
    simp [Plugin.test_plugin_with_bubble, Plugin.test_plugin]
  · rw [hin 0 "a" (Plugin.test_vessel 1) rfl rfl]
    simp [Vessel.after, Vessel.prolongation, Plugin.test_environment_acting,
      Plugin.test_plugin_with_bubble, Plugin.test_vessel, Vessel.new, Vessel.is_initialized]
  · rw [hin 0 "a" (Plugin.test_vessel 1) rfl rfl]
    rfl
  · exact hout "b" (Plugin.test_vessel 2) rfl (by
      show (2 : Address) ∉ [1]
      decide)

/-! ## Divergence of the flow of the bubble -/

/-- C10 as stated fails: on the example, the flow of the centre of mass reports
that it did not reach the final time, and `AdvanceTime` does not return. -/
theorem C10_divergence_counterexample :
    (Plugin.EvolveBubble.flow Plugin.test_environment_diverging
      (Plugin.AdvanceTime.prepared Plugin.test_environment_diverging
        Plugin.test_plugin_with_bubble Plugin.test_ephemeris
        (PlanetariumRotationValue.about_pole 0 100) 1)
      (Plugin.test_ephemeris.Prolong 1) 1).reached_final_time = false ∧
    ¬ ∃ q, Plugin.test_plugin_with_bubble.AdvanceTime Plugin.test_environment_diverging 1 0
        = .returns () q := by
  refine ⟨rfl, ?_⟩
  rintro ⟨q, h⟩
  have : (Plugin.test_plugin_with_bubble.AdvanceTime
      Plugin.test_environment_diverging 1 0).is_fatal = true := rfl
  rw [h] at this
  cases this

/-- C10, amended.  If, during `AdvanceTime(t)` on an initialized plugin with
`t` after the current time, the bubble as prepared is not empty and the flow of
its centre-of-mass trajectory reports that it did not reach `t`, then
`CHECK(reached_final_time)` fails: `AdvanceTime` aborts.  The abort comes after
`FreeVessels`, `Prolong(t)`, `Prepare` and the flow, which are the only calls
issued: no vessel has been advanced, and the current time and the planetarium
rotation have not been updated. -/
theorem C10_divergence_is_fatal (env : Environment) (p : Plugin) (t : Instant) (rot : Angle)
    (e : Ephemeris) (rotv : PlanetariumRotationValue)
    (hi : p.initializing_ = false) (ht : p.current_time_ < t)
    (he : p.ephemeris_ = some e) (hr : p.BarycentricToWorldSun = some rotv)
    (hne : (Plugin.AdvanceTime.prepared_bubble env p t).empty = false)
    (hf : (Plugin.EvolveBubble.flow env (Plugin.AdvanceTime.prepared env p e rotv t)
      (e.Prolong t) t).reached_final_time = false) :
    ∃ s, p.AdvanceTime env t rot = .fatal s ∧
      s.calls_ = p.calls_ ++ [Call.Ephemeris_Prolong t,
        Call.PhysicsBubble_Prepare rotv p.current_time_ t,
        Call.Ephemeris_FlowWithAdaptiveStep t p.prolongation_parameters_] ∧
      s.vessels_ = p.FreeVessels.vessels_ ∧
      s.current_time_ = p.current_time_ ∧
      s.planetarium_rotation_ = p.planetarium_rotation_ := by
  have hne' : (Plugin.AdvanceTime.prepared env p e rotv t).bubble_.empty = false := by
    rw [Plugin.prepared_bubble_eq env p t e rotv hr]
    exact hne
  refine ⟨Plugin.EvolveBubble.flowed env (Plugin.AdvanceTime.prepared env p e rotv t)
    (e.Prolong t) t, ?_, ?_, rfl, rfl, rfl⟩
  · rw [Plugin.AdvanceTime_run env p t rot e rotv hi ht he hr,
      Plugin.EvolveBubble_not_reached env _ t (e.Prolong t) hne' rfl hf]
  · simp [Plugin.EvolveBubble.flowed, Plugin.AdvanceTime.prepared]
    rfl

/-- C10 amended, on the example: `AdvanceTime` aborts after three calls, with
the current time still 0. -/
theorem C10_divergence_is_fatal_witness :
    ∃ s, Plugin.test_plugin_with_bubble.AdvanceTime Plugin.test_environment_diverging 1 0
        = .fatal s ∧
      s.calls_ = Plugin.test_plugin_with_bubble.calls_ ++ [Call.Ephemeris_Prolong 1,
        Call.PhysicsBubble_Prepare (PlanetariumRotationValue.about_pole 0 100)
          Plugin.test_plugin_with_bubble.current_time_ 1,
        Call.Ephemeris_FlowWithAdaptiveStep 1
          Plugin.test_plugin_with_bubble.prolongation_parameters_] ∧
      s.vessels_ = Plugin.test_plugin_with_bubble.FreeVessels.vessels_ ∧
      s.current_time_ = Plugin.test_plugin_with_bubble.current_time_ ∧
      s.planetarium_rotation_ = Plugin.test_plugin_with_bubble.planetarium_rotation_ :=
  C10_divergence_is_fatal Plugin.test_environment_diverging Plugin.test_plugin_with_bubble 1 0
    Plugin.test_ephemeris (PlanetariumRotationValue.about_pole 0 100) rfl (by decide) rfl rfl
    rfl rfl

/-! ## `ForgetAllHistoriesBefore` -/

/-- C7 (`ForgetAllHistoriesBefore`).  For every `t` not strictly before the
current time the call aborts in the state in which it was made: nothing has been
forgotten, no call has been issued.  On an initialized plugin and for `t`
strictly before the current time it returns, having forwarded `ForgetBefore(t)`
to the ephemeris and then to every registered vessel, and nothing else; and
when the vessel tables are well formed, the plugin is left with the same GUIDs,
with the ephemeris as `ForgetBefore(t)` and then the calls `ForgetBefore(t)` on
the vessels left it, and with each vessel as its own call of `ForgetBefore(t)`
left it, that call having found the ephemeris as the calls on the vessels before
it left it. -/
theorem C7_ForgetAllHistoriesBefore (env : Environment) (p : Plugin) (t : Instant) :
    (p.CurrentTime ≤ t → p.ForgetAllHistoriesBefore env t = .fatal p) ∧
    (p.Initialized → t < p.CurrentTime →
      ∃ q e, p.ephemeris_ = some e ∧ p.ForgetAllHistoriesBefore env t = .returns () q ∧
        Plugin.calls_since p q =
          Call.Ephemeris_ForgetBefore t ::
            p.vessel_addresses.map (fun a => Call.Vessel_ForgetBefore a t) ∧
        (p.WellFormed →
          map.keys q.vessels_ = map.keys p.vessels_ ∧
          q.ephemeris_ = some (ephemeris_after (fun e v => env.Vessel_ForgetBefore e v t)
            (e.ForgetBefore t) (map.values p.vessels_)) ∧
          ∀ (i : Nat) (g : GUID) (v : Vessel), p.vessels_[i]? = some (g, v) →
            map.find? q.vessels_ g
              = some (v.after (fun e v => env.Vessel_ForgetBefore e v t)
                  (ephemeris_after (fun e v => env.Vessel_ForgetBefore e v t)
                    (e.ForgetBefore t) ((map.values p.vessels_).take i))))) := by
  constructor
  · intro h
    have h' : ¬ t < p.current_time_ := not_lt.2 h
    unfold Plugin.ForgetAllHistoriesBefore
    by_cases hi : p.initializing_ = true
    · rw [if_pos hi]
    · rw [if_neg hi, if_pos h']
  · intro init h
    have h' : ¬ ¬ t < p.current_time_ := not_not.2 h
    obtain ⟨e, he⟩ := Option.isSome_iff_exists.1 init.has_ephemeris
    have hrun : p.ForgetAllHistoriesBefore env t = .returns ()
        (Plugin.ForgetAllHistoriesBefore.loop env t
          { p with
            ephemeris_ := some (e.ForgetBefore t)
            calls_ := p.calls_ ++ [Call.Ephemeris_ForgetBefore t] } p.vessels_) := by
      unfold Plugin.ForgetAllHistoriesBefore
      rw [if_neg (by simp [init.not_initializing]), if_neg h']
      simp only [he]
    refine ⟨_, e, he, hrun, ?_, fun wf => ?_⟩
    · apply Plugin.calls_since_append
      rw [Plugin.ForgetAllHistoriesBefore_loop_calls]
      simp [Plugin.vessel_addresses]
    · exact Plugin.ForgetAllHistoriesBefore_loop_spec env t
        { p with
          ephemeris_ := some (e.ForgetBefore t)
          calls_ := p.calls_ ++ [Call.Ephemeris_ForgetBefore t] }
        (Plugin.wellFormed_of_registry wf rfl rfl) (e.ForgetBefore t) rfl

theorem test_plugin_with_histories_wellFormed :
    Plugin.test_plugin_with_histories.WellFormed :=
  ⟨by decide, by decide, by decide⟩

/-- C7, on the example at time 10 whose vessels have a history with points at
times 0 and 5: forgetting before the current time itself aborts, and forgetting
before 3 is forwarded to the ephemeris and to both vessels, each of which is left
with the point at time 5 only. -/
theorem C7_ForgetAllHistoriesBefore_witness :
    Plugin.test_plugin_with_histories.ForgetAllHistoriesBefore Plugin.test_environment_acting 10
      = .fatal Plugin.test_plugin_with_histories ∧
    ∃ q, Plugin.test_plugin_with_histories.ForgetAllHistoriesBefore
        Plugin.test_environment_acting 3 = .returns () q ∧
      Plugin.calls_since Plugin.test_plugin_with_histories q =
        [Call.Ephemeris_ForgetBefore 3, Call.Vessel_ForgetBefore 1 3,
          Call.Vessel_ForgetBefore 2 3] ∧
      (map.find? q.vessels_ "a").map Vessel.history = some (some [(5, 0)]) ∧
      (map.find? q.vessels_ "b").map Vessel.history = some (some [(5, 0)]) ∧
      q.ephemeris_.map (fun e => e.t_min_) = some (some 3) := by
  refine ⟨(C7_ForgetAllHistoriesBefore Plugin.test_environment_acting
    Plugin.test_plugin_with_histories 10).1 (by decide), ?_⟩
  obtain ⟨q, e, he, hq, hcalls, hstate⟩ :=
    (C7_ForgetAllHistoriesBefore Plugin.test_environment_acting
      Plugin.test_plugin_with_histories 3).2 ⟨rfl, rfl, fun _ => rfl⟩ (by decide)
  obtain ⟨_, hephemeris, hvessels⟩ := hstate test_plugin_with_histories_wellFormed
  cases he
  refine ⟨q, hq, hcalls, ?_, ?_, ?_⟩
  · rw [hvessels 0 "a" _ rfl]
    rfl
  · rw [hvessels 1 "b" _ rfl]
    rfl
  · rw [hephemeris]
    rfl

/-! ## `HasEncounteredApocalypse` -/

/-- C8 (the diagnostic is a one-shot latch cleared by reading it).  A call of
`HasEncounteredApocalypse` that returns, whatever its result, leaves the plugin
as it was but for the ephemeris, whose recorded status has been read and is now
OK; hence a second call made immediately afterwards, through
`Plugin::HasEncounteredApocalypse` or through
`principia__HasEncounteredApocalypse`, returns false, leaves `*details`
unmodified and leaves the plugin as the first call left it.  In particular this
is so when the first call returned true. -/
theorem C8_latch_cleared_by_reading (p s : Plugin) (details : Option String)
    (r : Bool × String) (h : p.HasEncounteredApocalypse details = .returns r s) :
    (∃ e, p.ephemeris_ = some e ∧
      (r.1 = true ↔ e.last_severe_integration_status_.error = base.Error.INVALID_ARGUMENT) ∧
      s = { p with
            ephemeris_ := some { e with last_severe_integration_status_ := base.Status.OK } }) ∧
    (∀ d, s.HasEncounteredApocalypse (some d) = .returns (false, d) s) ∧
    (∀ out, principia__HasEncounteredApocalypse (some s) (some out)
      = some (.returns (false, "") s)) := by
  unfold Plugin.HasEncounteredApocalypse at h
  cases details with
  | none => cases h
  | some d₀ =>
    cases he : p.ephemeris_ with
    | none => simp [he] at h
    | some e =>
      simp only [he] at h
      have key : ∀ d, ({ p with
            ephemeris_ := some { e with last_severe_integration_status_ := base.Status.OK } }
          : Plugin).HasEncounteredApocalypse (some d)
          = .returns (false, d) { p with
            ephemeris_ := some { e with last_severe_integration_status_ := base.Status.OK } } :=
        fun d => rfl
      have hs : s = { p with
          ephemeris_ := some { e with last_severe_integration_status_ := base.Status.OK } } ∧
          (r.1 = true ↔
            e.last_severe_integration_status_.error = base.Error.INVALID_ARGUMENT) := by
        by_cases hc : e.last_severe_integration_status.1.error = base.Error.INVALID_ARGUMENT
        · rw [if_pos hc] at h
          simp only [Outcome.returns.injEq] at h
          obtain ⟨hr, rfl⟩ := h
          refine ⟨rfl, ?_⟩
          rw [← hr]
          exact ⟨fun _ => hc, fun _ => rfl⟩
        · rw [if_neg hc] at h
          simp only [Outcome.returns.injEq] at h
          obtain ⟨hr, rfl⟩ := h
          refine ⟨rfl, ?_⟩
          rw [← hr]
          exact ⟨fun ht => Bool.noConfusion ht, fun hi => absurd hi hc⟩
      obtain ⟨rfl, hiff⟩ := hs
      refine ⟨⟨e, rfl, hiff, rfl⟩, key, fun out => ?_⟩
      unfold principia__HasEncounteredApocalypse
      simp only [key ""]

/-- C8, on the example with a recorded `INVALID_ARGUMENT` status: the first call
returns true with the message and leaves the example plugin without a recorded
failure; the second, made in that state, returns false and leaves the details
as they were; so does the exported `principia__HasEncounteredApocalypse`. -/
theorem C8_latch_cleared_by_reading_witness :
    Plugin.test_plugin_after_apocalypse.HasEncounteredApocalypse (some "")
      = .returns (true, "singularity") Plugin.test_plugin ∧
    Plugin.test_plugin.HasEncounteredApocalypse (some "again")
      = .returns (false, "again") Plugin.test_plugin ∧
    principia__HasEncounteredApocalypse (some Plugin.test_plugin) (some "")
      = some (.returns (false, "") Plugin.test_plugin) :=
  ⟨rfl,
    (C8_latch_cleared_by_reading Plugin.test_plugin_after_apocalypse Plugin.test_plugin
      (some "") (true, "singularity") rfl).2.1 "again",
    (C8_latch_cleared_by_reading Plugin.test_plugin_after_apocalypse Plugin.test_plugin
      (some "") (true, "singularity") rfl).2.2 ""⟩

/-- C9 as stated fails: on the example whose recorded status is the failure
`UNKNOWN`, a status that is not OK, `HasEncounteredApocalypse` returns false and
leaves the details as they were; the status has been read, which leaves the
example plugin without a recorded failure. -/
theorem C9_any_failure_counterexample :
    (∃ e, Plugin.test_plugin_after_failure.ephemeris_ = some e ∧
      e.last_severe_integration_status.1.ok = false) ∧
    Plugin.test_plugin_after_failure.HasEncounteredApocalypse (some "untouched")
      = .returns (false, "untouched") Plugin.test_plugin :=
  ⟨⟨_, rfl, rfl⟩, rfl⟩

/-- C9, amended.  With the ephemeris in place and `details` not null,
`HasEncounteredApocalypse` returns true and sets `*details` to the message of
the last severe integration status exactly when the error of that status is
`INVALID_ARGUMENT`; for every other status, among them OK, it returns false and
leaves `*details` unmodified.  In both cases the plugin is left as it was but
for the ephemeris, which is as the read of its status left it. -/
theorem C9_invalid_argument_only (p : Plugin) (e : Ephemeris) (details : String)
    (he : p.ephemeris_ = some e) :
    (e.last_severe_integration_status.1.error = base.Error.INVALID_ARGUMENT →
      p.HasEncounteredApocalypse (some details)
        = .returns (true, e.last_severe_integration_status.1.message)
            { p with ephemeris_ := some e.last_severe_integration_status.2 }) ∧
    (e.last_severe_integration_status.1.error ≠ base.Error.INVALID_ARGUMENT →
      p.HasEncounteredApocalypse (some details)
        = .returns (false, details)
            { p with ephemeris_ := some e.last_severe_integration_status.2 }) ∧
    (e.last_severe_integration_status.1.ok = true →
      p.HasEncounteredApocalypse (some details)
        = .returns (false, details)
            { p with ephemeris_ := some e.last_severe_integration_status.2 }) := by
  have hne : e.last_severe_integration_status.1.error ≠ base.Error.INVALID_ARGUMENT →
      p.HasEncounteredApocalypse (some details)
        = .returns (false, details)
            { p with ephemeris_ := some e.last_severe_integration_status.2 } := by
    intro h
    unfold Plugin.HasEncounteredApocalypse
    simp only [he]
    rw [if_neg h]
  refine ⟨?_, hne, ?_⟩
  · intro h
    unfold Plugin.HasEncounteredApocalypse
    simp only [he]
    rw [if_pos h]
  · intro hok
    apply hne
    intro h
    simp [base.Status.ok, h] at hok

/-- C9 amended, on the examples: true with the message for `INVALID_ARGUMENT`,
false with the details untouched when no failure is recorded. -/
theorem C9_invalid_argument_only_witness :
    Plugin.test_plugin_after_apocalypse.HasEncounteredApocalypse (some "untouched")
      = .returns (true, "singularity") Plugin.test_plugin ∧
    Plugin.test_plugin.HasEncounteredApocalypse (some "untouched")
      = .returns (false, "untouched") Plugin.test_plugin :=
  ⟨(C9_invalid_argument_only Plugin.test_plugin_after_apocalypse _ "untouched" rfl).1 rfl,
    (C9_invalid_argument_only Plugin.test_plugin Plugin.test_ephemeris "untouched" rfl).2.2
      rfl⟩

/-! ## The current time -/

namespace Plugin

theorem InsertCelestialAbsoluteCartesian_current_time (p : Plugin) (celestial_index : Index)
    (parent_index : Option Index) (initial_state : DegreesOfFreedom) (body : MassiveBody)
    (storage : Address) :
    (p.InsertCelestialAbsoluteCartesian celestial_index parent_index initial_state body
      storage).state.current_time_ = p.current_time_ := by
  unfold InsertCelestialAbsoluteCartesian
  dsimp only
  repeat' split
  all_goals rfl

theorem InsertCelestialJacobiKeplerian.add_current_time (p : Plugin)
    (parent_index : Option Index) (keplerian_elements : Option KeplerianElements)
    (body : MassiveBody) :
    (InsertCelestialJacobiKeplerian.add p parent_index keplerian_elements
      body).state.current_time_ = p.current_time_ := by
  unfold InsertCelestialJacobiKeplerian.add
  dsimp only
  repeat' split
  all_goals rfl

theorem InsertCelestialJacobiKeplerian_current_time (env : Environment) (p : Plugin)
    (celestial_index : Index) (parent_index : Option Index)
    (keplerian_elements : Option KeplerianElements) (body : MassiveBody) :
    (p.InsertCelestialJacobiKeplerian env celestial_index parent_index keplerian_elements
      body).state.current_time_ = p.current_time_ := by
  have hadd := InsertCelestialJacobiKeplerian.add_current_time p parent_index
    keplerian_elements body
  unfold InsertCelestialJacobiKeplerian
  dsimp only
  repeat' split
  all_goals first
    | rfl
    | (rename_i heq; rw [heq] at hadd; exact hadd)

theorem InitializeEphemerisAndSetCelestialTrajectories_current_time (p : Plugin) :
    p.InitializeEphemerisAndSetCelestialTrajectories.state.current_time_ = p.current_time_ := by
  unfold InitializeEphemerisAndSetCelestialTrajectories
  dsimp only
  repeat' split
  all_goals rfl

theorem EndInitialization.loop_current_time (parents : List (Index × Option Index))
    (storage : Nat → Address) (system : List (MassiveBody × DegreesOfFreedom))
    (p : Plugin) (bodies_to_indices : List (Address × Index)) (i : Nat) :
    (EndInitialization.loop parents storage p bodies_to_indices i system).state.current_time_
      = p.current_time_ := by
  induction system generalizing p bodies_to_indices i with
  | nil => rfl
  | cons bd rest ih =>
    obtain ⟨body, dof⟩ := bd
    rw [EndInitialization.loop]
    split
    · rfl
    · rename_i parent_index _
      have h := InsertCelestialAbsoluteCartesian_current_time p
        (map.subscript bodies_to_indices body.address 0).2 parent_index dof body (storage i)
      split
      · rename_i s heq
        rw [heq] at h
        exact h
      · rename_i u p1 heq
        rw [heq] at h
        rw [ih]
        exact h

theorem EndInitialization.hierarchical_current_time (env : Environment) (p : Plugin)
    (storage : Nat → Address) :
    (EndInitialization.hierarchical env p storage).state.current_time_ = p.current_time_ := by
  unfold EndInitialization.hierarchical
  dsimp only
  split
  · rfl
  · split
    · split <;> rfl
    · rw [EndInitialization.loop_current_time]
      split <;> rfl

theorem EndInitialization_current_time (env : Environment) (p : Plugin)
    (storage : Nat → Address) :
    (p.EndInitialization env storage).state.current_time_ = p.current_time_ := by
  have hh := EndInitialization.hierarchical_current_time env p storage
  unfold EndInitialization
  split
  · rfl
  · split
    · rename_i s heq
      rw [heq] at hh
      exact hh
    · rename_i u p1 heq
      rw [heq] at hh
      repeat' split
      all_goals first
        | exact hh
        | (rw [InitializeEphemerisAndSetCelestialTrajectories_current_time]; exact hh)

theorem UpdateCelestialHierarchy_current_time (p : Plugin) (celestial_index : Index)
    (parent_index : Index) :
    (p.UpdateCelestialHierarchy celestial_index parent_index).state.current_time_
      = p.current_time_ := by
  unfold UpdateCelestialHierarchy
  repeat' split
  all_goals rfl

theorem SetMainBody_current_time (p : Plugin) (index : Index) :
    (p.SetMainBody index).state.current_time_ = p.current_time_ := by
  unfold SetMainBody
  repeat' split
  all_goals rfl

theorem InsertOrKeepVessel_current_time (p : Plugin) (vessel_guid : GUID)
    (parent_index : Index) (storage : Address) :
    (p.InsertOrKeepVessel vessel_guid parent_index storage).state.current_time_
      = p.current_time_ := by
  unfold InsertOrKeepVessel
  dsimp only
  repeat' split
  all_goals rfl

theorem SetVesselStateOffset_current_time (env : Environment) (p : Plugin)
    (vessel_guid : GUID) (from_parent : RelativeDegreesOfFreedom) :
    (p.SetVesselStateOffset env vessel_guid from_parent).state.current_time_
      = p.current_time_ := by
  unfold SetVesselStateOffset
  dsimp only
  repeat' split
  all_goals rfl

/-- The part of the ephemeris that reading its status leaves alone. -/
theorem HasEncounteredApocalypse_frame (p : Plugin) (details : Option String) :
    Frame p (p.HasEncounteredApocalypse details).state := by
  unfold HasEncounteredApocalypse
  repeat' split
  all_goals first
    | exact Frame.refl p
    | (dsimp only
       split <;>
         exact ⟨rfl, rfl, rfl, rfl, rfl, rfl, rfl, rfl, rfl, rfl, rfl, rfl, rfl, rfl, rfl,
           fun _ => rfl, rfl, rfl⟩)

theorem HasEncounteredApocalypse_ephemeris_bodies (p : Plugin) (details : Option String) :
    (p.HasEncounteredApocalypse details).state.ephemeris_bodies = p.ephemeris_bodies := by
  unfold HasEncounteredApocalypse
  repeat' split
  all_goals first
    | rfl
    | (dsimp only
       split <;> simp_all [Outcome.state, ephemeris_bodies,
         Ephemeris.last_severe_integration_status])

theorem ForgetAllHistoriesBefore_current_time (env : Environment) (p : Plugin) (t : Instant) :
    (p.ForgetAllHistoriesBefore env t).state.current_time_ = p.current_time_ := by
  unfold ForgetAllHistoriesBefore
  dsimp only
  repeat' split
  all_goals first
    | rfl
    | exact (ForgetAllHistoriesBefore_loop_frame env t _ _).current_time_eq

theorem UpdatePrediction_current_time (env : Environment) (p : Plugin) (vessel_guid : GUID) :
    (p.UpdatePrediction env vessel_guid).state.current_time_ = p.current_time_ := by
  unfold UpdatePrediction
  repeat' split
  all_goals first
    | rfl
    | exact (call_on_vessel_frame p _ _ _).current_time_eq

theorem CreateFlightPlan_current_time (env : Environment) (p : Plugin) (vessel_guid : GUID)
    (final_time : Instant) (initial_mass : ℚ) :
    (p.CreateFlightPlan env vessel_guid final_time initial_mass).state.current_time_
      = p.current_time_ := by
  unfold CreateFlightPlan
  repeat' split
  all_goals first
    | rfl
    | exact (call_on_vessel_frame p _ _ _).current_time_eq

theorem AddVesselToNextPhysicsBubble_current_time (env : Environment) (p : Plugin)
    (vessel_guid : GUID) (parts : List Nat) :
    (p.AddVesselToNextPhysicsBubble env vessel_guid parts).state.current_time_
      = p.current_time_ := by
  unfold AddVesselToNextPhysicsBubble
  repeat' split
  all_goals rfl

/-- Whatever path `AdvanceTime(t)` takes, it ends either with the current time
it started with or, when it returns, with `t`, which is later. -/
theorem AdvanceTime_current_time (env : Environment) (p : Plugin) (t : Instant) (rot : Angle) :
    (∀ s, p.AdvanceTime env t rot = .fatal s → s.current_time_ = p.current_time_) ∧
    (∀ q, p.AdvanceTime env t rot = .returns () q →
      q.current_time_ = t ∧ p.current_time_ < t) := by
  constructor
  · intro s h
    cases hi : p.initializing_ with
    | true =>
      rw [AdvanceTime_initializing env p t rot hi] at h
      cases h
      rfl
    | false =>
      by_cases ht : p.current_time_ < t
      · cases he : p.ephemeris_ with
        | none =>
          rw [AdvanceTime_no_ephemeris env p t rot hi ht he] at h
          cases h
          rfl
        | some e =>
          cases hr : p.BarycentricToWorldSun with
          | none =>
            rw [AdvanceTime_no_rotation env p t rot e hi ht he hr] at h
            cases h
            rfl
          | some rotv =>
            rw [AdvanceTime_run env p t rot e rotv hi ht he hr] at h
            have hf := EvolveBubble_frame env (AdvanceTime.prepared env p e rotv t) t
            cases hb : EvolveBubble env (AdvanceTime.prepared env p e rotv t) t with
            | fatal s' =>
              rw [hb] at h hf
              cases h
              exact hf.current_time_eq
            | returns u p4 =>
              rw [hb] at h
              cases h
      · rw [AdvanceTime_not_after env p t rot ht] at h
        cases h
        rfl
  · intro q h
    obtain ⟨_, ht, e, rotv, p4, _, _, _, rfl⟩ := AdvanceTime_returns_inv env p q t rot h
    exact ⟨rfl, ht⟩

theorem discard_state {α : Type} (o : Outcome Plugin α) : o.discard.state = o.state := by
  cases o <;> rfl

theorem CelestialFromParent_current_time (env : Environment) (p : Plugin)
    (celestial_index : Index) :
    (p.CelestialFromParent env celestial_index).state.current_time_ = p.current_time_ := by
  unfold CelestialFromParent
  dsimp only
  repeat' split
  all_goals rfl

theorem WriteToMessage_current_time (p : Plugin) :
    p.WriteToMessage.state.current_time_ = p.current_time_ := by
  unfold WriteToMessage
  dsimp only
  repeat' split
  all_goals rfl

theorem CelestialFromParent_sameVessels (env : Environment) (p : Plugin)
    (celestial_index : Index) :
    SameVessels p (p.CelestialFromParent env celestial_index).state := by
  unfold CelestialFromParent
  dsimp only
  repeat' split
  all_goals exact ⟨rfl, rfl⟩

theorem WriteToMessage_sameVessels (p : Plugin) : SameVessels p p.WriteToMessage.state := by
  unfold WriteToMessage
  dsimp only
  repeat' split
  all_goals exact ⟨rfl, rfl⟩

theorem CelestialFromParent_sameBodies (env : Environment) (p : Plugin)
    (celestial_index : Index) :
    SameBodies p (p.CelestialFromParent env celestial_index).state := by
  unfold CelestialFromParent
  dsimp only
  repeat' split
  all_goals exact ⟨rfl, rfl, rfl, rfl, rfl, rfl⟩

theorem WriteToMessage_sameBodies (p : Plugin) : SameBodies p p.WriteToMessage.state := by
  unfold WriteToMessage
  dsimp only
  repeat' split
  all_goals exact ⟨rfl, rfl, rfl, rfl, rfl, rfl⟩

theorem step_current_time (env : Environment) (p : Plugin) (operation : Operation)
    (h : operation.is_AdvanceTime = false) :
    (p.step env operation).state.current_time_ = p.current_time_ := by
  cases operation with
  | InsertCelestialAbsoluteCartesian celestial_index parent_index initial_state body storage =>
    exact InsertCelestialAbsoluteCartesian_current_time p _ _ _ _ _
  | InsertCelestialJacobiKeplerian celestial_index parent_index keplerian_elements body =>
    exact InsertCelestialJacobiKeplerian_current_time env p _ _ _ _
  | EndInitialization storage => exact EndInitialization_current_time env p _
  | HasEncounteredApocalypse details =>
    show (p.HasEncounteredApocalypse details).discard.state.current_time_ = _
    rw [discard_state]
    exact (HasEncounteredApocalypse_frame p details).current_time_eq
  | UpdateCelestialHierarchy celestial_index parent_index =>
    exact UpdateCelestialHierarchy_current_time p _ _
  | SetMainBody index => exact SetMainBody_current_time p _
  | InsertOrKeepVessel vessel_guid parent_index storage =>
    have := InsertOrKeepVessel_current_time p vessel_guid parent_index storage
    show (p.InsertOrKeepVessel vessel_guid parent_index storage).discard.state.current_time_
      = _
    cases hh : p.InsertOrKeepVessel vessel_guid parent_index storage <;> rw [hh] at this <;>
      exact this
  | SetVesselStateOffset vessel_guid from_parent =>
    exact SetVesselStateOffset_current_time env p _ _
  | AdvanceTime t planetarium_rotation => cases h
  | ForgetAllHistoriesBefore t => exact ForgetAllHistoriesBefore_current_time env p _
  | UpdatePrediction vessel_guid => exact UpdatePrediction_current_time env p _
  | CreateFlightPlan vessel_guid final_time initial_mass =>
    exact CreateFlightPlan_current_time env p _ _ _
  | SetPredictionLength t => rfl
  | SetPredictionAdaptiveStepParameters prediction_adaptive_step_parameters => rfl
  | SetPlottingFrame plotting_frame => rfl
  | AddVesselToNextPhysicsBubble vessel_guid parts =>
    exact AddVesselToNextPhysicsBubble_current_time env p _ _
  | CelestialFromParent celestial_index =>
    show (p.CelestialFromParent env celestial_index).discard.state.current_time_ = _
    rw [discard_state]
    exact CelestialFromParent_current_time env p _
  | WriteToMessage =>
    show p.WriteToMessage.discard.state.current_time_ = _
    rw [discard_state]
    exact WriteToMessage_current_time p

theorem step_current_time_le (env : Environment) (p : Plugin) (operation : Operation) :
    p.current_time_ ≤ (p.step env operation).state.current_time_ := by
  cases h : operation.is_AdvanceTime with
  | false => exact (step_current_time env p operation h).ge
  | true =>
    cases operation with
    | AdvanceTime t planetarium_rotation =>
      have key := AdvanceTime_current_time env p t planetarium_rotation
      show p.current_time_ ≤ (p.AdvanceTime env t planetarium_rotation).state.current_time_
      cases hh : p.AdvanceTime env t planetarium_rotation with
      | fatal s => exact (key.1 s hh).ge
      | returns u q =>
        have := key.2 q hh
        show p.current_time_ ≤ q.current_time_
        rw [this.1]
        exact this.2.le
    | _ => cases h

theorem run_current_time_le (env : Environment) (operations : List Operation) (p : Plugin) :
    p.current_time_ ≤ (p.run env operations).state.current_time_ := by
  induction operations generalizing p with
  | nil => exact le_refl _
  | cons operation rest ih =>
    rw [run]
    have hstep := step_current_time_le env p operation
    cases hh : p.step env operation with
    | fatal s =>
      rw [hh] at hstep
      exact hstep
    | returns u q =>
      rw [hh] at hstep
      exact le_trans hstep (ih q)

end Plugin

/-- C4 (the current time only moves forward, and only through `AdvanceTime`).
(1) `AdvanceTime(t, rotation)` with `t` not strictly after `CurrentTime()` aborts
in the very state in which it was called: no vessel, kept flag, current time or
planetarium rotation has been modified and no call has been issued.  (2) An
`AdvanceTime(t, rotation)` that returns leaves `CurrentTime() = t`, with `t`
strictly after the former current time.  (3) No other operation changes the
current time, whether it returns or aborts.  (4) Hence over any sequence of
operations `CurrentTime()` never decreases. -/
theorem C4_current_time_monotone (env : Environment) (p : Plugin) :
    (∀ t rot, ¬ p.CurrentTime < t → p.AdvanceTime env t rot = .fatal p) ∧
    (∀ t rot q, p.AdvanceTime env t rot = .returns () q →
      q.CurrentTime = t ∧ p.CurrentTime < t) ∧
    (∀ operation, operation.is_AdvanceTime = false →
      (p.step env operation).state.CurrentTime = p.CurrentTime) ∧
    (∀ operations, p.CurrentTime ≤ (p.run env operations).state.CurrentTime) :=
  ⟨fun t rot h => Plugin.AdvanceTime_not_after env p t rot h,
    fun t rot q h => (Plugin.AdvanceTime_current_time env p t rot).2 q h,
    fun operation h => Plugin.step_current_time env p operation h,
    fun operations => Plugin.run_current_time_le env operations p⟩

/-- C4, on the example at time 0: advancing to 0 aborts in the unchanged state,
advancing to 1 leaves the current time 1, and keeping a vessel in between
leaves the current time alone. -/
theorem C4_current_time_monotone_witness :
    Plugin.test_plugin.AdvanceTime Plugin.test_environment 0 0 = .fatal Plugin.test_plugin ∧
    (Plugin.test_plugin.AdvanceTime Plugin.test_environment 1 0).state.CurrentTime = 1 ∧
    (Plugin.test_plugin.step Plugin.test_environment
      (.InsertOrKeepVessel "c" 0 3)).state.CurrentTime = Plugin.test_plugin.CurrentTime ∧
    Plugin.test_plugin.CurrentTime ≤
      (Plugin.test_plugin.run Plugin.test_environment
        [.InsertOrKeepVessel "a" 0 3, .AdvanceTime 1 0, .InsertOrKeepVessel "a" 0 4,
          .AdvanceTime 2 0]).state.CurrentTime :=
  ⟨(C4_current_time_monotone Plugin.test_environment Plugin.test_plugin).1 0 0 (by decide),
    ((C4_current_time_monotone Plugin.test_environment Plugin.test_plugin).2.1 1 0 _ rfl).1,
    (C4_current_time_monotone Plugin.test_environment Plugin.test_plugin).2.2.1 _ rfl,
    (C4_current_time_monotone Plugin.test_environment Plugin.test_plugin).2.2.2 _⟩

/-! ## The vessel tables under each operation -/

namespace Plugin

theorem InsertCelestialAbsoluteCartesian_sameVessels (p : Plugin) (celestial_index : Index)
    (parent_index : Option Index) (initial_state : DegreesOfFreedom) (body : MassiveBody)
    (storage : Address) :
    SameVessels p (p.InsertCelestialAbsoluteCartesian celestial_index parent_index
      initial_state body storage).state := by
  unfold InsertCelestialAbsoluteCartesian
  dsimp only
  repeat' split
  all_goals exact ⟨rfl, rfl⟩

theorem InsertCelestialJacobiKeplerian.add_sameVessels (p : Plugin)
    (parent_index : Option Index) (keplerian_elements : Option KeplerianElements)
    (body : MassiveBody) :
    SameVessels p (InsertCelestialJacobiKeplerian.add p parent_index keplerian_elements
      body).state := by
  unfold InsertCelestialJacobiKeplerian.add
  dsimp only
  repeat' split
  all_goals exact ⟨rfl, rfl⟩

theorem InsertCelestialJacobiKeplerian_sameVessels (env : Environment) (p : Plugin)
    (celestial_index : Index) (parent_index : Option Index)
    (keplerian_elements : Option KeplerianElements) (body : MassiveBody) :
    SameVessels p (p.InsertCelestialJacobiKeplerian env celestial_index parent_index
      keplerian_elements body).state := by
  have hadd := InsertCelestialJacobiKeplerian.add_sameVessels p parent_index
    keplerian_elements body
  unfold InsertCelestialJacobiKeplerian
  dsimp only
  repeat' split
  all_goals first
    | exact ⟨rfl, rfl⟩
    | (rename_i heq; rw [heq] at hadd; exact hadd)

theorem InitializeEphemerisAndSetCelestialTrajectories_sameVessels (p : Plugin) :
    SameVessels p p.InitializeEphemerisAndSetCelestialTrajectories.state := by
  unfold InitializeEphemerisAndSetCelestialTrajectories
  dsimp only
  repeat' split
  all_goals exact ⟨rfl, rfl⟩

theorem EndInitialization.loop_sameVessels (parents : List (Index × Option Index))
    (storage : Nat → Address) (system : List (MassiveBody × DegreesOfFreedom))
    (p : Plugin) (bodies_to_indices : List (Address × Index)) (i : Nat) :
    SameVessels p (EndInitialization.loop parents storage p bodies_to_indices i system).state := by
  induction system generalizing p bodies_to_indices i with
  | nil => exact SameVessels.same p
  | cons bd rest ih =>
    obtain ⟨body, dof⟩ := bd
    rw [EndInitialization.loop]
    split
    · exact SameVessels.same p
    · rename_i parent_index _
      have h := InsertCelestialAbsoluteCartesian_sameVessels p
        (map.subscript bodies_to_indices body.address 0).2 parent_index dof body (storage i)
      split
      · rename_i s heq
        rw [heq] at h
        exact h
      · rename_i u p1 heq
        rw [heq] at h
        exact h.followed_by (ih _ _ _)

theorem EndInitialization.hierarchical_sameVessels (env : Environment) (p : Plugin)
    (storage : Nat → Address) :
    SameVessels p (EndInitialization.hierarchical env p storage).state := by
  unfold EndInitialization.hierarchical
  dsimp only
  split
  · exact SameVessels.same p
  · split
    · split <;> exact ⟨rfl, rfl⟩
    · refine SameVessels.followed_by ?_ (EndInitialization.loop_sameVessels _ _ _ _ _ _)
      split <;> exact ⟨rfl, rfl⟩

theorem EndInitialization_sameVessels (env : Environment) (p : Plugin)
    (storage : Nat → Address) :
    SameVessels p (p.EndInitialization env storage).state := by
  have hh := EndInitialization.hierarchical_sameVessels env p storage
  unfold EndInitialization
  split
  · exact SameVessels.same p
  · split
    · rename_i s heq
      rw [heq] at hh
      exact hh
    · rename_i u p1 heq
      rw [heq] at hh
      repeat' split
      all_goals first
        | exact hh
        | (refine hh.followed_by (SameVessels.followed_by ?_
              (InitializeEphemerisAndSetCelestialTrajectories_sameVessels _))
           exact ⟨rfl, rfl⟩)

theorem UpdateCelestialHierarchy_sameVessels (p : Plugin) (celestial_index : Index)
    (parent_index : Index) :
    SameVessels p (p.UpdateCelestialHierarchy celestial_index parent_index).state := by
  unfold UpdateCelestialHierarchy
  repeat' split
  all_goals exact ⟨rfl, rfl⟩

theorem SetMainBody_sameVessels (p : Plugin) (index : Index) :
    SameVessels p (p.SetMainBody index).state := by
  unfold SetMainBody
  repeat' split
  all_goals exact ⟨rfl, rfl⟩

theorem SetVesselStateOffset_sameVessels (env : Environment) (p : Plugin)
    (vessel_guid : GUID) (from_parent : RelativeDegreesOfFreedom) :
    SameVessels p (p.SetVesselStateOffset env vessel_guid from_parent).state := by
  unfold SetVesselStateOffset
  dsimp only
  repeat' split
  all_goals first
    | exact ⟨rfl, rfl⟩
    | (refine ⟨?_, rfl⟩
       simp only [Outcome.state, registry]
       apply registry_modify
       intro v
       rfl)

theorem ForgetAllHistoriesBefore_sameVessels (env : Environment) (p : Plugin) (t : Instant) :
    SameVessels p (p.ForgetAllHistoriesBefore env t).state := by
  unfold ForgetAllHistoriesBefore
  dsimp only
  repeat' split
  all_goals first
    | exact ⟨rfl, rfl⟩
    | exact SameVessels.followed_by (q := { p with
          ephemeris_ := some (Ephemeris.ForgetBefore _ t)
          calls_ := p.calls_ ++ [Call.Ephemeris_ForgetBefore t] }) ⟨rfl, rfl⟩
        (ForgetAllHistoriesBefore_loop_frame env t _ _).sameVessels

theorem UpdatePrediction_sameVessels (env : Environment) (p : Plugin) (vessel_guid : GUID) :
    SameVessels p (p.UpdatePrediction env vessel_guid).state := by
  unfold UpdatePrediction
  repeat' split
  all_goals first
    | exact ⟨rfl, rfl⟩
    | exact (call_on_vessel_frame p _ _ _).sameVessels

theorem CreateFlightPlan_sameVessels (env : Environment) (p : Plugin) (vessel_guid : GUID)
    (final_time : Instant) (initial_mass : ℚ) :
    SameVessels p (p.CreateFlightPlan env vessel_guid final_time initial_mass).state := by
  unfold CreateFlightPlan
  repeat' split
  all_goals first
    | exact ⟨rfl, rfl⟩
    | exact (call_on_vessel_frame p _ _ _).sameVessels

theorem AddVesselToNextPhysicsBubble_sameVessels (env : Environment) (p : Plugin)
    (vessel_guid : GUID) (parts : List Nat) :
    SameVessels p (p.AddVesselToNextPhysicsBubble env vessel_guid parts).state := by
  unfold AddVesselToNextPhysicsBubble
  repeat' split
  all_goals exact ⟨rfl, rfl⟩

theorem SetPredictionAdaptiveStepParameters_sameVessels (p : Plugin)
    (parameters : AdaptiveStepParameters) :
    SameVessels p (p.SetPredictionAdaptiveStepParameters parameters) := by
  refine ⟨?_, rfl⟩
  simp [registry, SetPredictionAdaptiveStepParameters, List.map_map, Function.comp_def,
    Vessel.set_prediction_adaptive_step_parameters]

end Plugin

/-! ## The vessel tables under `InsertOrKeepVessel` -/

namespace Plugin

theorem InsertOrKeepVessel_returns_inv (p q : Plugin) (vessel_guid : GUID)
    (parent_index : Index) (storage : Address) (inserted : Bool)
    (h : p.InsertOrKeepVessel vessel_guid parent_index storage = .returns inserted q) :
    p.initializing_ = false ∧ ∃ parent e, map.find? p.celestials_ parent_index = some parent ∧
      p.ephemeris_ = some e := by
  unfold InsertOrKeepVessel at h
  cases hi : p.initializing_ with
  | true => simp [hi] at h
  | false =>
    cases hp : map.find? p.celestials_ parent_index with
    | none => simp [hi, hp] at h
    | some parent =>
      cases he : p.ephemeris_ with
      | none => simp [hi, hp, he] at h
      | some e => exact ⟨rfl, parent, e, rfl, rfl⟩

theorem keys_eq_registry (p : Plugin) : map.keys p.vessels_ = p.registry.map Prod.fst := by
  simp [registry, map.keys, List.map_map, Function.comp_def]

theorem addresses_eq_registry (p : Plugin) : p.vessel_addresses = p.registry.map Prod.snd := by
  simp [registry, vessel_addresses, List.map_map, Function.comp_def]

/-- The vessel tables after an `InsertOrKeepVessel` that returns, given fresh
storage: they stay well formed, and the GUIDs flagged as kept are the ones that
were flagged and the one just inserted or kept. -/
theorem InsertOrKeepVessel_tables (p q : Plugin) (wf : p.WellFormed) (vessel_guid : GUID)
    (parent_index : Index) (storage : Address) (inserted : Bool)
    (hfresh : storage ∉ p.vessel_addresses)
    (h : p.InsertOrKeepVessel vessel_guid parent_index storage = .returns inserted q) :
    q.WellFormed ∧ ∀ g, q.is_kept g ↔ (g = vessel_guid ∨ p.is_kept g) := by
  obtain ⟨hi, parent, e, hp, he⟩ :=
    InsertOrKeepVessel_returns_inv p q vessel_guid parent_index storage inserted h
  rw [InsertOrKeepVessel_run p vessel_guid parent_index storage parent e hi hp he] at h
  simp only [Outcome.returns.injEq] at h
  obtain ⟨_, rfl⟩ := h
  cases hf : map.find? p.vessels_ vessel_guid with
  | some v =>
    simp only [map.emplace, hf]
    have hreg : ∀ kept : List Address,
        ({ p with
            vessels_ := map.modify p.vessels_ vessel_guid (fun v => v.set_parent parent.address)
            kept_vessels_ := kept } : Plugin).registry = p.registry := by
      intro kept
      exact registry_modify p.vessels_ vessel_guid (fun v => v.set_parent parent.address)
        (fun _ => rfl)
    have hv : (vessel_guid, v.address) ∈ p.registry :=
      (mem_registry_iff p wf _ _).2 ⟨v, hf, rfl⟩
    have wf' : ({ p with
        vessels_ := map.modify p.vessels_ vessel_guid (fun v => v.set_parent parent.address)
        kept_vessels_ := set.emplace p.kept_vessels_ v.address } : Plugin).WellFormed := by
      refine ⟨?_, ?_, ?_⟩
      · rw [keys_eq_registry, hreg, ← keys_eq_registry]
        exact wf.guids_nodup
      · rw [addresses_eq_registry, hreg, ← addresses_eq_registry]
        exact wf.addresses_nodup
      · intro a ha
        rw [addresses_eq_registry, hreg, ← addresses_eq_registry]
        rcases (set.mem_emplace _ _ _).1 ha with rfl | ha
        · exact mem_addresses_of_registry p _ _ hv
        · exact wf.kept_registered a ha
    refine ⟨wf', fun g => ?_⟩
    rw [is_kept_iff _ wf', is_kept_iff p wf, hreg]
    constructor
    · rintro ⟨a, hr, hk⟩
      rcases (set.mem_emplace _ _ _).1 hk with rfl | hk
      · exact Or.inl (registry_guid_unique p wf _ _ _ hr hv)
      · exact Or.inr ⟨a, hr, hk⟩
    · rintro (rfl | ⟨a, hr, hk⟩)
      · exact ⟨v.address, hv, (set.mem_emplace _ _ _).2 (Or.inl rfl)⟩
      · exact ⟨a, hr, (set.mem_emplace _ _ _).2 (Or.inr hk)⟩
  | none =>
    simp only [map.emplace, hf]
    have hperm : ∀ kept : List Address,
        (({ p with
            vessels_ :=
              map.modify
                (map.insert_ordered vessel_guid
                  (Vessel.new storage parent.address p.history_parameters_
                    p.prolongation_parameters_ p.prediction_parameters_) p.vessels_)
                vessel_guid (fun v => v.set_parent parent.address)
            kept_vessels_ := kept } : Plugin).registry).Perm
          ((vessel_guid, storage) :: p.registry) := by
      intro kept
      have h1 : ({ p with
            vessels_ :=
              map.modify
                (map.insert_ordered vessel_guid
                  (Vessel.new storage parent.address p.history_parameters_
                    p.prolongation_parameters_ p.prediction_parameters_) p.vessels_)
                vessel_guid (fun v => v.set_parent parent.address)
            kept_vessels_ := kept } : Plugin).registry
          = (map.insert_ordered vessel_guid
              (Vessel.new storage parent.address p.history_parameters_
                p.prolongation_parameters_ p.prediction_parameters_) p.vessels_).map
              (fun gv => (gv.1, gv.2.address)) :=
        registry_modify _ vessel_guid (fun v => v.set_parent parent.address) (fun _ => rfl)
      rw [h1]
      exact (map.insert_ordered_perm p.vessels_ vessel_guid _).map _
    have hnot : vessel_guid ∉ map.keys p.vessels_ := (map.find?_eq_none_iff _ _).1 hf
    have wf' : ({ p with
        vessels_ :=
          map.modify
            (map.insert_ordered vessel_guid
              (Vessel.new storage parent.address p.history_parameters_
                p.prolongation_parameters_ p.prediction_parameters_) p.vessels_)
            vessel_guid (fun v => v.set_parent parent.address)
        kept_vessels_ := set.emplace p.kept_vessels_
          (Vessel.new storage parent.address p.history_parameters_
            p.prolongation_parameters_ p.prediction_parameters_).address } : Plugin).WellFormed := by
      refine ⟨?_, ?_, ?_⟩
      · rw [keys_eq_registry, ((hperm _).map Prod.fst).nodup_iff, List.map_cons,
          ← keys_eq_registry, List.nodup_cons]
        exact ⟨hnot, wf.guids_nodup⟩
      · rw [addresses_eq_registry, ((hperm _).map Prod.snd).nodup_iff, List.map_cons,
          ← addresses_eq_registry, List.nodup_cons]
        exact ⟨hfresh, wf.addresses_nodup⟩
      · intro a ha
        rw [addresses_eq_registry, ((hperm _).map Prod.snd).mem_iff, List.map_cons,
          ← addresses_eq_registry, List.mem_cons]
        rcases (set.mem_emplace _ _ _).1 ha with rfl | ha
        · exact Or.inl rfl
        · exact Or.inr (wf.kept_registered a ha)
    refine ⟨wf', fun g => ?_⟩
    rw [is_kept_iff _ wf', is_kept_iff p wf]
    constructor
    · rintro ⟨a, hr, hk⟩
      rcases List.mem_cons.1 ((hperm _).mem_iff.1 hr) with he | hr'
      · simp only [Prod.mk.injEq] at he
        exact Or.inl he.1
      · rcases (set.mem_emplace _ _ _).1 hk with hs | hk'
        · exact absurd (mem_addresses_of_registry p _ _ hr') (hs ▸ hfresh)
        · exact Or.inr ⟨a, hr', hk'⟩
    · rintro (rfl | ⟨a, hr, hk⟩)
      · exact ⟨storage, (hperm _).mem_iff.2 (List.mem_cons_self _ _),
          (set.mem_emplace _ _ _).2 (Or.inl rfl)⟩
      · exact ⟨a, (hperm _).mem_iff.2 (List.mem_cons_of_mem _ hr),
          (set.mem_emplace _ _ _).2 (Or.inr hk)⟩

end Plugin

/-! ## The flags along a sequence of operations -/

namespace Plugin

theorem step_tables (env : Environment) (p q : Plugin) (operation : Operation)
    (wf : p.WellFormed) (hfresh : p.fresh operation)
    (hna : operation.is_AdvanceTime = false)
    (h : p.step env operation = .returns () q) :
    q.WellFormed ∧
      ∀ g, q.is_kept g ↔ (p.is_kept g ∨ ∃ i s, operation = .InsertOrKeepVessel g i s) := by
  have same : ∀ {o : Outcome Plugin Unit}, o = .returns () q → SameVessels p o.state →
      (∀ g i s, operation ≠ .InsertOrKeepVessel g i s) →
      q.WellFormed ∧
        ∀ g, q.is_kept g ↔ (p.is_kept g ∨ ∃ i s, operation = .InsertOrKeepVessel g i s) := by
    intro o ho hs hne
    rw [ho] at hs
    have hs' : SameVessels p q := hs
    refine ⟨hs'.tables_wellFormed wf, fun g => ?_⟩
    rw [SameVessels.is_kept hs' wf]
    constructor
    · exact Or.inl
    · rintro (hk | ⟨i, s, he⟩)
      · exact hk
      · exact absurd he (hne g i s)
  cases operation with
  | InsertCelestialAbsoluteCartesian celestial_index parent_index initial_state body storage =>
    exact same h (InsertCelestialAbsoluteCartesian_sameVessels p _ _ _ _ _)
      (fun _ _ _ he => by cases he)
  | InsertCelestialJacobiKeplerian celestial_index parent_index keplerian_elements body =>
    exact same h (InsertCelestialJacobiKeplerian_sameVessels env p _ _ _ _)
      (fun _ _ _ he => by cases he)
  | EndInitialization storage =>
    exact same h (EndInitialization_sameVessels env p _) (fun _ _ _ he => by cases he)
  | HasEncounteredApocalypse details =>
    refine same h ?_ (fun _ _ _ he => by cases he)
    show SameVessels p (p.HasEncounteredApocalypse details).discard.state
    rw [discard_state]
    exact (HasEncounteredApocalypse_frame p details).sameVessels
  | UpdateCelestialHierarchy celestial_index parent_index =>
    exact same h (UpdateCelestialHierarchy_sameVessels p _ _) (fun _ _ _ he => by cases he)
  | SetMainBody index =>
    exact same h (SetMainBody_sameVessels p _) (fun _ _ _ he => by cases he)
  | InsertOrKeepVessel vessel_guid parent_index storage =>
    have h' : ∃ inserted, p.InsertOrKeepVessel vessel_guid parent_index storage
        = .returns inserted q := by
      have h₀ : (p.InsertOrKeepVessel vessel_guid parent_index storage).discard
          = .returns () q := h
      cases hh : p.InsertOrKeepVessel vessel_guid parent_index storage with
      | fatal s => rw [hh] at h₀; cases h₀
      | returns inserted q' =>
        rw [hh] at h₀
        simp only [Outcome.discard, Outcome.returns.injEq, true_and] at h₀
        exact ⟨inserted, by rw [h₀]⟩
    obtain ⟨inserted, h'⟩ := h'
    obtain ⟨wf', hk⟩ := InsertOrKeepVessel_tables p q wf vessel_guid parent_index storage
      inserted hfresh h'
    refine ⟨wf', fun g => ?_⟩
    rw [hk g]
    constructor
    · rintro (rfl | hp)
      · exact Or.inr ⟨parent_index, storage, rfl⟩
      · exact Or.inl hp
    · rintro (hp | ⟨i, s, he⟩)
      · exact Or.inr hp
      · simp only [Operation.InsertOrKeepVessel.injEq] at he
        exact Or.inl he.1.symm
  | SetVesselStateOffset vessel_guid from_parent =>
    exact same h (SetVesselStateOffset_sameVessels env p _ _) (fun _ _ _ he => by cases he)
  | AdvanceTime t planetarium_rotation => cases hna
  | ForgetAllHistoriesBefore t =>
    exact same h (ForgetAllHistoriesBefore_sameVessels env p _) (fun _ _ _ he => by cases he)
  | UpdatePrediction vessel_guid =>
    exact same h (UpdatePrediction_sameVessels env p _) (fun _ _ _ he => by cases he)
  | CreateFlightPlan vessel_guid final_time initial_mass =>
    exact same h (CreateFlightPlan_sameVessels env p _ _ _) (fun _ _ _ he => by cases he)
  | SetPredictionLength t =>
    exact same h (show SameVessels p (Outcome.returns () (p.SetPredictionLength t)).state
      from ⟨rfl, rfl⟩) (fun _ _ _ he => by cases he)
  | SetPredictionAdaptiveStepParameters parameters =>
    exact same h (SetPredictionAdaptiveStepParameters_sameVessels p parameters)
      (fun _ _ _ he => by cases he)
  | SetPlottingFrame plotting_frame =>
    exact same h (show SameVessels p (Outcome.returns () (p.SetPlottingFrame _)).state
      from ⟨rfl, rfl⟩) (fun _ _ _ he => by cases he)
  | AddVesselToNextPhysicsBubble vessel_guid parts =>
    exact same h (AddVesselToNextPhysicsBubble_sameVessels env p _ _)
      (fun _ _ _ he => by cases he)
  | CelestialFromParent celestial_index =>
    refine same h ?_ (fun _ _ _ he => by cases he)
    show SameVessels p (p.CelestialFromParent env celestial_index).discard.state
    rw [discard_state]
    exact CelestialFromParent_sameVessels env p _
  | WriteToMessage =>
    refine same h ?_ (fun _ _ _ he => by cases he)
    show SameVessels p p.WriteToMessage.discard.state
    rw [discard_state]
    exact WriteToMessage_sameVessels p

/-- Between two `AdvanceTime`s the GUIDs flagged as kept are the ones that were
flagged at the start and the ones given to an `InsertOrKeepVessel` since. -/
theorem run_tables (env : Environment) (operations : List Operation) (p q : Plugin)
    (wf : p.WellFormed) (hfresh : p.fresh_run env operations)
    (hna : ∀ operation ∈ operations, operation.is_AdvanceTime = false)
    (h : p.run env operations = .returns () q) :
    q.WellFormed ∧
      ∀ g, q.is_kept g ↔
        (p.is_kept g ∨ ∃ i s, Operation.InsertOrKeepVessel g i s ∈ operations) := by
  induction operations generalizing p with
  | nil =>
    simp only [run, Outcome.returns.injEq, true_and] at h
    subst h
    exact ⟨wf, fun g => by simp⟩
  | cons operation rest ih =>
    rw [run] at h
    obtain ⟨hf₀, hf⟩ := hfresh
    cases hs : p.step env operation with
    | fatal s => rw [hs] at h; cases h
    | returns u p' =>
      rw [hs] at h hf
      obtain ⟨wf', hk'⟩ := step_tables env p p' operation wf hf₀
        (hna operation (List.mem_cons_self _ _)) hs
      obtain ⟨wfq, hkq⟩ := ih p' wf' hf (fun o ho => hna o (List.mem_cons_of_mem _ ho)) h
      refine ⟨wfq, fun g => ?_⟩
      rw [hkq g, hk' g]
      constructor
      · rintro ((hp | ⟨i, s, rfl⟩) | ⟨i, s, hm⟩)
        · exact Or.inl hp
        · exact Or.inr ⟨i, s, List.mem_cons_self _ _⟩
        · exact Or.inr ⟨i, s, List.mem_cons_of_mem _ hm⟩
      · rintro (hp | ⟨i, s, hm⟩)
        · exact Or.inl (Or.inl hp)
        · rcases List.mem_cons.1 hm with he | hm
          · exact Or.inl (Or.inr ⟨i, s, he.symm⟩)
          · exact Or.inr ⟨i, s, hm⟩

theorem AdvanceTime_wellFormed (env : Environment) (p q : Plugin) (t : Instant) (rot : Angle)
    (wf : p.WellFormed) (h : p.AdvanceTime env t rot = .returns () q) : q.WellFormed :=
  wellFormed_of_registry (FreeVessels_wellFormed p wf)
    (AdvanceTime_registry env p q t rot h).1 (AdvanceTime_registry env p q t rot h).2

/-- A plugin without vessels has well-formed vessel tables. -/
theorem wellFormed_of_no_vessels (p : Plugin) (hv : p.vessels_ = [])
    (hk : p.kept_vessels_ = []) : p.WellFormed := by
  refine ⟨?_, ?_, ?_⟩
  · rw [hv]
    exact List.nodup_nil
  · unfold vessel_addresses
    rw [hv]
    exact List.nodup_nil
  · rw [hk]
    intro a ha
    cases ha

/-- Well-formedness of the vessel tables is an invariant: it is preserved by
every sequence of operations in which the vessels are allocated fresh storage. -/
theorem run_wellFormed (env : Environment) (operations : List Operation) (p q : Plugin)
    (wf : p.WellFormed) (hfresh : p.fresh_run env operations)
    (h : p.run env operations = .returns () q) : q.WellFormed := by
  induction operations generalizing p with
  | nil =>
    simp only [run, Outcome.returns.injEq, true_and] at h
    subst h
    exact wf
  | cons operation rest ih =>
    rw [run] at h
    obtain ⟨hf₀, hf⟩ := hfresh
    cases hs : p.step env operation with
    | fatal s => rw [hs] at h; cases h
    | returns u p' =>
      rw [hs] at h hf
      refine ih p' ?_ hf h
      cases hna : operation.is_AdvanceTime with
      | false => exact (step_tables env p p' operation wf hf₀ hna hs).1
      | true =>
        cases operation with
        | AdvanceTime t planetarium_rotation =>
          exact AdvanceTime_wellFormed env p p' t planetarium_rotation wf hs
        | _ => cases hna

theorem mem_foldl_emplace (l : List (GUID × Vessel)) (acc : List Address) (a : Address) :
    a ∈ l.foldl (fun kept gv => set.emplace kept gv.2.address) acc ↔
      (a ∈ acc ∨ a ∈ l.map (fun gv => gv.2.address)) := by
  induction l generalizing acc with
  | nil => simp
  | cons gv l ih =>
    rw [List.foldl_cons, ih, set.mem_emplace]
    simp only [List.map_cons, List.mem_cons]
    constructor
    · rintro ((h | h) | h)
      · exact Or.inr (Or.inl h)
      · exact Or.inl h
      · exact Or.inr (Or.inr h)
    · rintro (h | h | h)
      · exact Or.inl (Or.inr h)
      · exact Or.inl (Or.inl h)
      · exact Or.inr h

/-- In the plugin built by the constructor that `ReadFromMessage` uses, the
vessels are the ones given and every one of them is flagged as kept. -/
theorem restore_kept (vessels : List (GUID × Vessel)) (celestials : List (Index × Celestial))
    (bubble : PhysicsBubble) (ephemeris : Option Ephemeris)
    (history_parameters : FixedStepParameters)
    (prolongation_parameters prediction_parameters : AdaptiveStepParameters)
    (planetarium_rotation : Angle) (game_epoch current_time : Instant)
    (sun_index : Index) (is_pre_cardano : Bool) (q : Plugin)
    (h : restore vessels celestials bubble ephemeris history_parameters
      prolongation_parameters prediction_parameters planetarium_rotation game_epoch
      current_time sun_index is_pre_cardano = some q) :
    q.vessels_ = vessels ∧ ∀ g v, (g, v) ∈ q.vessels_ → v.address ∈ q.kept_vessels_ := by
  have key : q.vessels_ = vessels ∧
      q.kept_vessels_ = vessels.foldl (fun kept gv => set.emplace kept gv.2.address) [] := by
    unfold restore at h
    split at h
    · cases h
    · dsimp only at h
      split at h
      · cases h
        exact ⟨rfl, rfl⟩
      · split at h
        · cases h
        · split at h
          · cases h
            exact ⟨rfl, rfl⟩
          · cases h
  refine ⟨key.1, fun g v hm => ?_⟩
  rw [key.2, mem_foldl_emplace]
  rw [key.1] at hm
  exact Or.inr (List.mem_map.2 ⟨(g, v), hm, rfl⟩)

end Plugin

/-- C1 (vessel retention).  Let `p` be a state whose vessel tables are well
formed.  After the `FreeVessels` step that opens `AdvanceTime`: (1) a vessel is
still registered if and only if it was registered and flagged in
`kept_vessels_`, (2) which by GUID means that `HasVessel` holds afterwards
exactly for the kept GUIDs; (3) no flag is left, so that (4) a second
`FreeVessels` without a refresh removes every vessel; (5) an `AdvanceTime` that
returns ends with exactly the vessels that survived `FreeVessels`, none of them
flagged.  (6) If operations other than `AdvanceTime` lead from `p` to `q`, the
vessels that survive `FreeVessels` in `q` are exactly those that were flagged in
`p` (none after an `AdvanceTime`, by (5)) and those whose GUID was given to an
`InsertOrKeepVessel` among these operations.  (7) In a plugin built by the
constructor that `ReadFromMessage` uses, every vessel is flagged. -/
theorem C1_vessel_retention (p : Plugin) (wf : p.WellFormed) :
    (∀ g v, (g, v) ∈ p.FreeVessels.vessels_ ↔
        ((g, v) ∈ p.vessels_ ∧ v.address ∈ p.kept_vessels_)) ∧
    (∀ g, p.FreeVessels.HasVessel g = true ↔ p.is_kept g) ∧
    p.FreeVessels.kept_vessels_ = [] ∧
    p.FreeVessels.FreeVessels.vessels_ = [] ∧
    (∀ env t rot q, p.AdvanceTime env t rot = .returns () q →
      q.registry = p.FreeVessels.registry ∧ q.kept_vessels_ = []) ∧
    (∀ env operations q,
      (∀ operation ∈ operations, operation.is_AdvanceTime = false) →
      p.fresh_run env operations →
      p.run env operations = .returns () q →
      ∀ g, q.FreeVessels.HasVessel g = true ↔
        (p.is_kept g ∨ ∃ i s, Operation.InsertOrKeepVessel g i s ∈ operations)) ∧
    (∀ vessels celestials bubble ephemeris history_parameters prolongation_parameters
      prediction_parameters planetarium_rotation game_epoch current_time sun_index
      is_pre_cardano q,
      Plugin.restore vessels celestials bubble ephemeris history_parameters
        prolongation_parameters prediction_parameters planetarium_rotation game_epoch
        current_time sun_index is_pre_cardano = some q →
      ∀ g v, (g, v) ∈ q.vessels_ → v.address ∈ q.kept_vessels_) := by
  have hk := Plugin.FreeVessels_kept_vessels_nil p wf
  refine ⟨Plugin.FreeVessels_mem_iff p wf, Plugin.FreeVessels_hasVessel_iff p wf, hk,
    Plugin.FreeVessels_twice p wf, ?_, ?_, ?_⟩
  · intro env t rot q h
    have := Plugin.AdvanceTime_registry env p q t rot h
    exact ⟨this.1, this.2.trans hk⟩
  · intro env operations q hna hfresh h g
    obtain ⟨wfq, hkq⟩ := Plugin.run_tables env operations p q wf hfresh hna h
    rw [Plugin.FreeVessels_hasVessel_iff q wfq, hkq g]
  · intro vessels celestials bubble ephemeris history_parameters prolongation_parameters
      prediction_parameters planetarium_rotation game_epoch current_time sun_index
      is_pre_cardano q h
    exact (Plugin.restore_kept vessels celestials bubble ephemeris history_parameters
      prolongation_parameters prediction_parameters planetarium_rotation game_epoch
      current_time sun_index is_pre_cardano q h).2

/-- C1, on the example: of the vessels `"a"` (flagged) and `"b"` (not flagged)
only `"a"` survives `FreeVessels`, and its flag is consumed. -/
theorem C1_vessel_retention_witness :
    Plugin.test_plugin.WellFormed ∧
    Plugin.test_plugin.is_kept "a" ∧
    Plugin.test_plugin.FreeVessels.HasVessel "a" = true ∧
    Plugin.test_plugin.FreeVessels.HasVessel "b" = false ∧
    Plugin.test_plugin.FreeVessels.kept_vessels_ = [] ∧
    Plugin.test_plugin.FreeVessels.FreeVessels.vessels_ = [] :=
  ⟨test_plugin_wellFormed,
    ⟨Plugin.test_vessel 1, by decide, by decide⟩,
    ((C1_vessel_retention Plugin.test_plugin test_plugin_wellFormed).2.1 "a").2
      ⟨Plugin.test_vessel 1, by decide, by decide⟩,
    by decide,
    (C1_vessel_retention Plugin.test_plugin test_plugin_wellFormed).2.2.1,
    (C1_vessel_retention Plugin.test_plugin test_plugin_wellFormed).2.2.2.1⟩

/-! ## The bodies under each operation -/

namespace Plugin

theorem SameBodies.unchanged (p : Plugin) : SameBodies p p := ⟨rfl, rfl, rfl, rfl, rfl, rfl⟩

theorem SameBodies.compose {p q r : Plugin} (h₁ : SameBodies p q) (h₂ : SameBodies q r) :
    SameBodies p r :=
  ⟨h₂.initializing_eq.trans h₁.initializing_eq,
    h₂.celestial_indices_eq.trans h₁.celestial_indices_eq,
    h₂.absolute_initialization_eq.trans h₁.absolute_initialization_eq,
    h₂.hierarchical_initialization_eq.trans h₁.hierarchical_initialization_eq,
    h₂.game_epoch_eq.trans h₁.game_epoch_eq,
    h₂.is_pre_cardano_eq.trans h₁.is_pre_cardano_eq⟩

theorem Frame.sameBodies {p q : Plugin} (h : Frame p q) : SameBodies p q :=
  ⟨h.initializing_eq, congrArg map.keys h.celestials_eq, h.absolute_initialization_eq,
    h.hierarchical_initialization_eq, h.game_epoch_eq, h.is_pre_cardano_eq⟩

theorem UpdateCelestialHierarchy_sameBodies (p : Plugin) (celestial_index : Index)
    (parent_index : Index) :
    SameBodies p (p.UpdateCelestialHierarchy celestial_index parent_index).state := by
  unfold UpdateCelestialHierarchy
  repeat' split
  all_goals first
    | exact ⟨rfl, rfl, rfl, rfl, rfl, rfl⟩
    | (refine ⟨rfl, ?_, rfl, rfl, rfl, rfl⟩
       simp only [Outcome.state]
       exact map.keys_modify _ _ _)

theorem SetMainBody_sameBodies (p : Plugin) (index : Index) :
    SameBodies p (p.SetMainBody index).state := by
  unfold SetMainBody
  repeat' split
  all_goals exact ⟨rfl, rfl, rfl, rfl, rfl, rfl⟩

theorem InsertOrKeepVessel_sameBodies (p : Plugin) (vessel_guid : GUID)
    (parent_index : Index) (storage : Address) :
    SameBodies p (p.InsertOrKeepVessel vessel_guid parent_index storage).state := by
  unfold InsertOrKeepVessel
  dsimp only
  repeat' split
  all_goals exact ⟨rfl, rfl, rfl, rfl, rfl, rfl⟩

theorem SetVesselStateOffset_sameBodies (env : Environment) (p : Plugin)
    (vessel_guid : GUID) (from_parent : RelativeDegreesOfFreedom) :
    SameBodies p (p.SetVesselStateOffset env vessel_guid from_parent).state := by
  unfold SetVesselStateOffset
  dsimp only
  repeat' split
  all_goals exact ⟨rfl, rfl, rfl, rfl, rfl, rfl⟩

theorem ForgetAllHistoriesBefore_sameBodies (env : Environment) (p : Plugin) (t : Instant) :
    SameBodies p (p.ForgetAllHistoriesBefore env t).state := by
  unfold ForgetAllHistoriesBefore
  dsimp only
  repeat' split
  all_goals first
    | exact ⟨rfl, rfl, rfl, rfl, rfl, rfl⟩
    | exact SameBodies.compose (q := { p with
          ephemeris_ := some (Ephemeris.ForgetBefore _ t)
          calls_ := p.calls_ ++ [Call.Ephemeris_ForgetBefore t] }) ⟨rfl, rfl, rfl, rfl, rfl, rfl⟩
        (ForgetAllHistoriesBefore_loop_frame env t _ _).sameBodies

theorem UpdatePrediction_sameBodies (env : Environment) (p : Plugin) (vessel_guid : GUID) :
    SameBodies p (p.UpdatePrediction env vessel_guid).state := by
  unfold UpdatePrediction
  repeat' split
  all_goals first
    | exact ⟨rfl, rfl, rfl, rfl, rfl, rfl⟩
    | exact (call_on_vessel_frame p _ _ _).sameBodies

theorem CreateFlightPlan_sameBodies (env : Environment) (p : Plugin) (vessel_guid : GUID)
    (final_time : Instant) (initial_mass : ℚ) :
    SameBodies p (p.CreateFlightPlan env vessel_guid final_time initial_mass).state := by
  unfold CreateFlightPlan
  repeat' split
  all_goals first
    | exact ⟨rfl, rfl, rfl, rfl, rfl, rfl⟩
    | exact (call_on_vessel_frame p _ _ _).sameBodies

theorem AddVesselToNextPhysicsBubble_sameBodies (env : Environment) (p : Plugin)
    (vessel_guid : GUID) (parts : List Nat) :
    SameBodies p (p.AddVesselToNextPhysicsBubble env vessel_guid parts).state := by
  unfold AddVesselToNextPhysicsBubble
  repeat' split
  all_goals exact ⟨rfl, rfl, rfl, rfl, rfl, rfl⟩

theorem AdvanceTime_sameBodies (env : Environment) (p q : Plugin) (t : Instant) (rot : Angle)
    (h : p.AdvanceTime env t rot = .returns () q) : SameBodies p q := by
  obtain ⟨_, _, e, rotv, p4, _, _, hb, rfl⟩ := AdvanceTime_returns_inv env p q t rot h
  have hf := EvolveBubble_frame env (AdvanceTime.prepared env p e rotv t) t
  rw [hb] at hf
  have h1 : SameBodies p (AdvanceTime.prepared env p e rotv t) := ⟨rfl, rfl, rfl, rfl, rfl, rfl⟩
  have h2 : SameBodies p4 (AdvanceTime.loop env t p4 p4.vessels_) :=
    (AdvanceTime_loop_frame env t p4.vessels_ p4).sameBodies
  have h3 : SameBodies (AdvanceTime.loop env t p4 p4.vessels_)
      (AdvanceTime.finished env p4 t rot) := ⟨rfl, rfl, rfl, rfl, rfl, rfl⟩
  exact (h1.compose hf.sameBodies).compose (h2.compose h3)

theorem step_sameBodies (env : Environment) (p q : Plugin) (operation : Operation)
    (hi : operation.is_initialization = false)
    (h : p.step env operation = .returns () q) : SameBodies p q := by
  have same : ∀ {o : Outcome Plugin Unit}, o = .returns () q → SameBodies p o.state →
      SameBodies p q := by
    intro o ho hs
    rw [ho] at hs
    exact hs
  cases operation with
  | InsertCelestialAbsoluteCartesian celestial_index parent_index initial_state body storage =>
    cases hi
  | InsertCelestialJacobiKeplerian celestial_index parent_index keplerian_elements body =>
    cases hi
  | EndInitialization storage => cases hi
  | HasEncounteredApocalypse details =>
    refine same h ?_
    show SameBodies p (p.HasEncounteredApocalypse details).discard.state
    rw [discard_state]
    exact (HasEncounteredApocalypse_frame p details).sameBodies
  | UpdateCelestialHierarchy celestial_index parent_index =>
    exact same h (UpdateCelestialHierarchy_sameBodies p _ _)
  | SetMainBody index => exact same h (SetMainBody_sameBodies p _)
  | InsertOrKeepVessel vessel_guid parent_index storage =>
    have hs := InsertOrKeepVessel_sameBodies p vessel_guid parent_index storage
    change (p.InsertOrKeepVessel vessel_guid parent_index storage).discard = .returns () q at h
    cases hh : p.InsertOrKeepVessel vessel_guid parent_index storage with
    | fatal s => rw [hh] at h; cases h
    | returns r s =>
      rw [hh] at h hs
      cases h
      exact hs
  | SetVesselStateOffset vessel_guid from_parent =>
    exact same h (SetVesselStateOffset_sameBodies env p _ _)
  | AdvanceTime t planetarium_rotation => exact AdvanceTime_sameBodies env p q t _ h
  | ForgetAllHistoriesBefore t => exact same h (ForgetAllHistoriesBefore_sameBodies env p _)
  | UpdatePrediction vessel_guid => exact same h (UpdatePrediction_sameBodies env p _)
  | CreateFlightPlan vessel_guid final_time initial_mass =>
    exact same h (CreateFlightPlan_sameBodies env p _ _ _)
  | SetPredictionLength t =>
    cases h
    exact ⟨rfl, rfl, rfl, rfl, rfl, rfl⟩
  | SetPredictionAdaptiveStepParameters prediction_adaptive_step_parameters =>
    cases h
    exact ⟨rfl, rfl, rfl, rfl, rfl, rfl⟩
  | SetPlottingFrame plotting_frame =>
    cases h
    exact ⟨rfl, rfl, rfl, rfl, rfl, rfl⟩
  | AddVesselToNextPhysicsBubble vessel_guid parts =>
    exact same h (AddVesselToNextPhysicsBubble_sameBodies env p _ _)
  | CelestialFromParent celestial_index =>
    refine same h ?_
    show SameBodies p (p.CelestialFromParent env celestial_index).discard.state
    rw [discard_state]
    exact CelestialFromParent_sameBodies env p _
  | WriteToMessage =>
    refine same h ?_
    show SameBodies p p.WriteToMessage.discard.state
    rw [discard_state]
    exact WriteToMessage_sameBodies p

end Plugin

/-! ## The insertion of a celestial -/

namespace Plugin

theorem emplace_absent {κ ν : Type} [DecidableEq κ] [LT κ]
    [DecidableRel (fun a b : κ => a < b)] (m : List (κ × ν)) (k : κ) (v : ν)
    (h : map.find? m k = none) : map.emplace m k v = (map.insert_ordered k v m, v, true) := by
  simp only [map.emplace, h]

theorem emplace_present {κ ν : Type} [DecidableEq κ] [LT κ]
    [DecidableRel (fun a b : κ => a < b)] (m : List (κ × ν)) (k : κ) (v w : ν)
    (h : map.find? m k = some w) : map.emplace m k v = (m, w, false) := by
  simp only [map.emplace, h]

theorem keys_insert_ordered {κ ν : Type} [LT κ]
    [DecidableRel (fun a b : κ => a < b)] (m : List (κ × ν)) (k : κ) (v : ν) (k' : κ) :
    k' ∈ map.keys (map.insert_ordered k v m) ↔ k' = k ∨ k' ∈ map.keys m := by
  have h := (map.insert_ordered_perm m k v).map Prod.fst
  have := h.mem_iff (a := k')
  simpa [map.keys] using this

/-- What a returning `InsertCelestialAbsoluteCartesian` found and left. -/
theorem InsertCelestialAbsoluteCartesian_returns_inv (p q : Plugin) (celestial_index : Index)
    (parent_index : Option Index) (initial_state : DegreesOfFreedom) (body : MassiveBody)
    (storage : Address)
    (h : p.InsertCelestialAbsoluteCartesian celestial_index parent_index initial_state body
      storage = .returns () q) :
    p.initializing_ = true ∧ p.hierarchical_initialization_ = none ∧
      map.find? p.celestials_ celestial_index = none ∧
      q.initializing_ = true ∧ q.hierarchical_initialization_ = none ∧
      q.absolute_initialization_.isSome = true ∧
      map.keys q.celestials_
        = map.keys (map.insert_ordered celestial_index (Celestial.new storage body.address)
            p.celestials_) ∧
      q.game_epoch_ = p.game_epoch_ ∧ q.is_pre_cardano_ = p.is_pre_cardano_ := by
  unfold InsertCelestialAbsoluteCartesian at h
  dsimp only at h
  cases hi : p.initializing_ with
  | false => simp [hi] at h
  | true =>
    cases hh : p.hierarchical_initialization_ with
    | some objects => simp [hi, hh] at h
    | none =>
      cases hf : map.find? p.celestials_ celestial_index with
      | some c =>
        rw [emplace_present _ _ _ _ hf] at h
        simp [hi, hh] at h
      | none =>
        rw [emplace_absent _ _ _ hf] at h
        simp only [hi, hh, Bool.not_true, Option.isSome_none, Bool.false_eq_true, if_false,
          Bool.not_true] at h
        cases parent_index with
        | none =>
          dsimp only at h
          split at h
          · cases h
          · cases h
            exact ⟨rfl, rfl, rfl, rfl, rfl, rfl, rfl, rfl, rfl⟩
        | some parent_index =>
          dsimp only at h
          split at h
          · cases h
          · cases h
            refine ⟨rfl, rfl, rfl, rfl, rfl, rfl, ?_, rfl, rfl⟩
            dsimp only
            exact map.keys_modify _ _ _

end Plugin

namespace Plugin

theorem InsertCelestialJacobiKeplerian.add_parents (p s : Plugin)
    (parent_index : Option Index) (keplerian_elements : Option KeplerianElements)
    (body : MassiveBody) (objects : HierarchicalInitializationObjects)
    (h : InsertCelestialJacobiKeplerian.add p parent_index keplerian_elements body
      = .returns objects s) :
    objects.parents
      = ((p.hierarchical_initialization_.map (fun o => o.parents)).getD []) := by
  unfold InsertCelestialJacobiKeplerian.add at h
  dsimp only at h
  split at h
  · split at h
    · cases h
    · cases h
      simp_all
  · cases h
  · cases h
    simp_all [HierarchicalInitializationObjects.new]

/-- What a returning `InsertCelestialJacobiKeplerian` found and left. -/
theorem InsertCelestialJacobiKeplerian_returns_inv (env : Environment) (p q : Plugin)
    (celestial_index : Index) (parent_index : Option Index)
    (keplerian_elements : Option KeplerianElements) (body : MassiveBody)
    (h : p.InsertCelestialJacobiKeplerian env celestial_index parent_index keplerian_elements
      body = .returns () q) :
    p.initializing_ = true ∧ p.absolute_initialization_ = none ∧
      q.initializing_ = true ∧ q.absolute_initialization_ = none ∧
      q.celestials_ = p.celestials_ ∧
      q.game_epoch_ = p.game_epoch_ ∧ q.is_pre_cardano_ = p.is_pre_cardano_ ∧
      ∃ objects, q.hierarchical_initialization_ = some objects ∧
        ∀ i, i ∈ map.keys objects.parents ↔
          i = celestial_index ∨
            i ∈ map.keys ((p.hierarchical_initialization_.map (fun o => o.parents)).getD []) := by
  unfold InsertCelestialJacobiKeplerian at h
  dsimp only at h
  cases hi : p.initializing_ with
  | false => simp [hi] at h
  | true =>
    cases ha : p.absolute_initialization_ with
    | some objects => simp [hi, ha] at h
    | none =>
      simp only [hi, ha, Bool.not_true, Option.isSome_none, Bool.false_eq_true, if_false] at h
      split at h
      · cases h
      · split at h
        · cases h
        · split at h
          · cases h
          · rename_i objects s hadd
            have hp := InsertCelestialJacobiKeplerian.add_parents p s parent_index
              keplerian_elements body objects hadd
            cases hf : map.find? objects.parents celestial_index with
            | some w =>
              rw [emplace_present _ _ _ _ hf] at h
              simp at h
            | none =>
              rw [emplace_absent _ _ _ hf] at h
              split at h
              · cases h
              · split at h
                · cases h
                · cases h
                  refine ⟨rfl, rfl, rfl, rfl, rfl, rfl, rfl, _, rfl, ?_⟩
                  intro i
                  dsimp only
                  rw [keys_insert_ordered, hp]

end Plugin

namespace Plugin

theorem InsertCelestialAbsoluteCartesian_stage (p : Plugin) (celestial_index : Index)
    (parent_index : Option Index) (initial_state : DegreesOfFreedom) (body : MassiveBody)
    (storage : Address) :
    (p.InsertCelestialAbsoluteCartesian celestial_index parent_index initial_state body
        storage).state.initializing_ = p.initializing_ ∧
      (p.InsertCelestialAbsoluteCartesian celestial_index parent_index initial_state body
        storage).state.game_epoch_ = p.game_epoch_ ∧
      (p.InsertCelestialAbsoluteCartesian celestial_index parent_index initial_state body
        storage).state.is_pre_cardano_ = p.is_pre_cardano_ := by
  unfold InsertCelestialAbsoluteCartesian
  dsimp only
  repeat' split
  all_goals exact ⟨rfl, rfl, rfl⟩

theorem InitializeEphemerisAndSetCelestialTrajectories_stage (p : Plugin) :
    p.InitializeEphemerisAndSetCelestialTrajectories.state.initializing_ = p.initializing_ ∧
      p.InitializeEphemerisAndSetCelestialTrajectories.state.game_epoch_ = p.game_epoch_ ∧
      p.InitializeEphemerisAndSetCelestialTrajectories.state.is_pre_cardano_
        = p.is_pre_cardano_ := by
  unfold InitializeEphemerisAndSetCelestialTrajectories
  dsimp only
  repeat' split
  all_goals exact ⟨rfl, rfl, rfl⟩

theorem EndInitialization.loop_stage (parents : List (Index × Option Index))
    (storage : Nat → Address) (system : List (MassiveBody × DegreesOfFreedom))
    (p : Plugin) (bodies_to_indices : List (Address × Index)) (i : Nat) :
    (EndInitialization.loop parents storage p bodies_to_indices i system).state.initializing_
        = p.initializing_ ∧
      (EndInitialization.loop parents storage p bodies_to_indices i system).state.game_epoch_
        = p.game_epoch_ ∧
      (EndInitialization.loop parents storage p bodies_to_indices i system).state.is_pre_cardano_
        = p.is_pre_cardano_ := by
  induction system generalizing p bodies_to_indices i with
  | nil => exact ⟨rfl, rfl, rfl⟩
  | cons bd rest ih =>
    obtain ⟨body, dof⟩ := bd
    rw [EndInitialization.loop]
    split
    · exact ⟨rfl, rfl, rfl⟩
    · rename_i parent_index _
      have h := InsertCelestialAbsoluteCartesian_stage p
        (map.subscript bodies_to_indices body.address 0).2 parent_index dof body (storage i)
      split
      · rename_i s heq
        rw [heq] at h
        exact h
      · rename_i u p1 heq
        rw [heq] at h
        have h' := ih p1 (map.subscript bodies_to_indices body.address 0).1 (i + 1)
        exact ⟨h'.1.trans h.1, h'.2.1.trans h.2.1, h'.2.2.trans h.2.2⟩

theorem EndInitialization.hierarchical_stage (env : Environment) (p : Plugin)
    (storage : Nat → Address) :
    (EndInitialization.hierarchical env p storage).state.initializing_ = p.initializing_ ∧
      (EndInitialization.hierarchical env p storage).state.game_epoch_ = p.game_epoch_ ∧
      (EndInitialization.hierarchical env p storage).state.is_pre_cardano_
        = p.is_pre_cardano_ := by
  unfold EndInitialization.hierarchical
  dsimp only
  split
  · exact ⟨rfl, rfl, rfl⟩
  · split
    · split <;> exact ⟨rfl, rfl, rfl⟩
    · refine ⟨(EndInitialization.loop_stage _ _ _ _ _ _).1.trans ?_,
        (EndInitialization.loop_stage _ _ _ _ _ _).2.1.trans ?_,
        (EndInitialization.loop_stage _ _ _ _ _ _).2.2.trans ?_⟩ <;> split <;> rfl

/-- What a returning `EndInitialization` found and left: the initialization was
under way and has ended. -/
theorem EndInitialization_returns_inv (env : Environment) (p q : Plugin)
    (storage : Nat → Address) (h : p.EndInitialization env storage = .returns () q) :
    p.initializing_ = true ∧ q.initializing_ = false ∧
      q.game_epoch_ = p.game_epoch_ ∧ q.is_pre_cardano_ = p.is_pre_cardano_ := by
  have hh := EndInitialization.hierarchical_stage env p storage
  unfold EndInitialization at h
  cases hi : p.initializing_ with
  | false => simp [hi] at h
  | true =>
    simp only [hi, Bool.not_true, Bool.false_eq_true, if_false] at h
    split at h
    · cases h
    · rename_i u p1 heq
      rw [heq] at hh
      simp only [Outcome.state] at hh
      repeat' split at h
      all_goals first
        | cases h
        | (obtain rfl : _ = q := congrArg Outcome.state h
           exact ⟨rfl, (InitializeEphemerisAndSetCelestialTrajectories_stage _).1,
             (InitializeEphemerisAndSetCelestialTrajectories_stage _).2.1.trans hh.2.1,
             (InitializeEphemerisAndSetCelestialTrajectories_stage _).2.2.trans hh.2.2⟩)

end Plugin

/-! ## Duplicate registration of a celestial -/

namespace Plugin

theorem SameBodies.is_closed {p q : Plugin} (h : SameBodies p q) (celestial_index : Index)
    (hc : p.is_closed celestial_index) : q.is_closed celestial_index := by
  unfold Plugin.is_closed Plugin.is_registered at hc ⊢
  rw [h.initializing_eq, h.celestial_indices_eq, h.absolute_initialization_eq,
    h.hierarchical_initialization_eq]
  exact hc

/-- An insertion that returns leaves its index registered, and the indices that
were registered stay so. -/
theorem step_is_closed (env : Environment) (p q : Plugin) (operation : Operation)
    (celestial_index : Index) (h : p.step env operation = .returns () q) :
    (p.is_closed celestial_index → q.is_closed celestial_index) ∧
      (operation.inserts_celestial celestial_index = true → q.is_closed celestial_index) := by
  cases hi : operation.is_initialization with
  | false =>
    refine ⟨(step_sameBodies env p q operation hi h).is_closed celestial_index, ?_⟩
    intro ho
    cases operation <;> first | cases ho | cases hi
  | true =>
    cases operation with
    | InsertCelestialAbsoluteCartesian index parent_index initial_state body storage =>
      obtain ⟨hpi, hph, hpf, hqi, hqh, hqa, hk, _, _⟩ :=
        InsertCelestialAbsoluteCartesian_returns_inv p q index parent_index initial_state body
          storage h
      have hmem : ∀ i, i ∈ map.keys q.celestials_ ↔ i = index ∨ i ∈ map.keys p.celestials_ := by
        intro i
        rw [hk, keys_insert_ordered]
      constructor
      · intro hc
        rcases hc with hc | hc | ⟨objects, ho, _⟩
        · rw [hpi] at hc; cases hc
        · exact Or.inr (Or.inl ⟨(hmem _).2 (Or.inr hc.1), hqa⟩)
        · rw [hph] at ho; cases ho
      · intro ho
        have e : index = celestial_index := by simpa [Operation.inserts_celestial] using ho
        exact Or.inr (Or.inl ⟨(hmem _).2 (Or.inl e.symm), hqa⟩)
    | InsertCelestialJacobiKeplerian index parent_index keplerian_elements body =>
      obtain ⟨hpi, hpa, hqi, hqa, hqc, _, _, objects, hqo, hmem⟩ :=
        InsertCelestialJacobiKeplerian_returns_inv env p q index parent_index
          keplerian_elements body h
      constructor
      · intro hc
        rcases hc with hc | hc | ⟨objects₀, ho, hm⟩
        · rw [hpi] at hc; cases hc
        · rw [hpa] at hc; cases hc.2
        · refine Or.inr (Or.inr ⟨objects, hqo, (hmem _).2 (Or.inr ?_)⟩)
          rw [ho]
          exact hm
      · intro ho
        have e : index = celestial_index := by simpa [Operation.inserts_celestial] using ho
        exact Or.inr (Or.inr ⟨objects, hqo, (hmem _).2 (Or.inl e.symm)⟩)
    | EndInitialization storage =>
      have hq := (EndInitialization_returns_inv env p q storage h).2.1
      exact ⟨fun _ => Or.inl hq, fun _ => Or.inl hq⟩
    | _ => cases hi

theorem run_is_closed (env : Environment) (operations : List Operation) (p q : Plugin)
    (celestial_index : Index) (h : p.run env operations = .returns () q)
    (hc : p.is_closed celestial_index) : q.is_closed celestial_index := by
  induction operations generalizing p with
  | nil =>
    cases h
    exact hc
  | cons operation rest ih =>
    rw [run] at h
    cases hs : p.step env operation with
    | fatal s => rw [hs] at h; cases h
    | returns u p1 =>
      rw [hs] at h
      exact ih p1 h ((step_is_closed env p p1 operation celestial_index hs).1 hc)

theorem InsertCelestialAbsoluteCartesian_closed (p : Plugin) (celestial_index : Index)
    (parent_index : Option Index) (initial_state : DegreesOfFreedom) (body : MassiveBody)
    (storage : Address) (hc : p.is_closed celestial_index) :
    (p.InsertCelestialAbsoluteCartesian celestial_index parent_index initial_state body
      storage).is_fatal = true := by
  cases hq : p.InsertCelestialAbsoluteCartesian celestial_index parent_index initial_state body
      storage with
  | fatal s => rfl
  | returns u q =>
    cases u
    obtain ⟨hpi, hph, hpf, _⟩ :=
      InsertCelestialAbsoluteCartesian_returns_inv p q celestial_index parent_index
        initial_state body storage hq
    rcases hc with hc | hc | ⟨objects, ho, _⟩
    · rw [hpi] at hc; cases hc
    · exact absurd hc.1 ((map.find?_eq_none_iff _ _).1 hpf)
    · rw [hph] at ho; cases ho

theorem InsertCelestialAbsoluteCartesian_duplicate (p : Plugin) (celestial_index : Index)
    (parent_index : Option Index) (initial_state : DegreesOfFreedom) (body : MassiveBody)
    (storage : Address) (hc : celestial_index ∈ map.keys p.celestials_) :
    (p.InsertCelestialAbsoluteCartesian celestial_index parent_index initial_state body
      storage).is_fatal = true := by
  cases hq : p.InsertCelestialAbsoluteCartesian celestial_index parent_index initial_state body
      storage with
  | fatal s => rfl
  | returns u q =>
    cases u
    exact absurd hc ((map.find?_eq_none_iff _ _).1
      (InsertCelestialAbsoluteCartesian_returns_inv p q celestial_index parent_index
        initial_state body storage hq).2.2.1)

theorem InsertCelestialJacobiKeplerian_closed (env : Environment) (p : Plugin)
    (celestial_index : Index) (parent_index : Option Index)
    (keplerian_elements : Option KeplerianElements) (body : MassiveBody)
    (hc : p.is_closed celestial_index) :
    (p.InsertCelestialJacobiKeplerian env celestial_index parent_index keplerian_elements
      body).is_fatal = true := by
  cases hq : p.InsertCelestialJacobiKeplerian env celestial_index parent_index
      keplerian_elements body with
  | fatal s => rfl
  | returns u q =>
    cases u
    exfalso
    unfold InsertCelestialJacobiKeplerian at hq
    dsimp only at hq
    rcases hc with hc | hc | ⟨objects, ho, hm⟩
    · simp [hc] at hq
    · cases hi : p.initializing_ <;> simp [hi, hc.2] at hq
    · cases hi : p.initializing_ with
      | false => simp [hi] at hq
      | true =>
        cases ha : p.absolute_initialization_ with
        | some o => simp [hi, ha] at hq
        | none =>
          simp only [hi, ha, Bool.not_true, Option.isSome_none, Bool.false_eq_true,
            if_false] at hq
          split at hq
          · cases hq
          · split at hq
            · cases hq
            · split at hq
              · cases hq
              · rename_i objects' s hadd
                have hp := InsertCelestialJacobiKeplerian.add_parents p s parent_index
                  keplerian_elements body objects' hadd
                rw [ho] at hp
                have hm' : celestial_index ∈ map.keys objects'.parents := by
                  rw [hp]
                  exact hm
                cases hf : map.find? objects'.parents celestial_index with
                | none => exact absurd hm' ((map.find?_eq_none_iff _ _).1 hf)
                | some w =>
                  rw [emplace_present _ _ _ _ hf] at hq
                  simp at hq

end Plugin

/-- C11 (duplicate body registration is fatal).  (1)
`InsertCelestialAbsoluteCartesian` with a celestial index under which a
celestial is stored, or which the initialization under way has registered,
aborts.  (2) `InsertCelestialJacobiKeplerian` with a celestial index that the
initialization under way has registered aborts.  (3) Hence an index is
registered at most once: once an insertion of either kind under the index has
returned, whatever operations follow, every further insertion under that index,
of either kind, aborts. -/
theorem C11_duplicate_registration (env : Environment) (p : Plugin)
    (celestial_index : Index) :
    (celestial_index ∈ map.keys p.celestials_ ∨ p.is_registered celestial_index →
      ∀ parent_index initial_state body storage,
        (p.InsertCelestialAbsoluteCartesian celestial_index parent_index initial_state body
          storage).is_fatal = true) ∧
    (p.is_registered celestial_index →
      ∀ parent_index keplerian_elements body,
        (p.InsertCelestialJacobiKeplerian env celestial_index parent_index keplerian_elements
          body).is_fatal = true) ∧
    (∀ operation q operations r,
      operation.inserts_celestial celestial_index = true →
      p.step env operation = .returns () q → q.run env operations = .returns () r →
      (∀ parent_index initial_state body storage,
        (r.InsertCelestialAbsoluteCartesian celestial_index parent_index initial_state body
          storage).is_fatal = true) ∧
      (∀ parent_index keplerian_elements body,
        (r.InsertCelestialJacobiKeplerian env celestial_index parent_index keplerian_elements
          body).is_fatal = true)) := by
  refine ⟨fun h _ _ _ _ => h.elim
      (fun h => Plugin.InsertCelestialAbsoluteCartesian_duplicate p _ _ _ _ _ h)
      (fun h => Plugin.InsertCelestialAbsoluteCartesian_closed p _ _ _ _ _ (Or.inr h)),
    fun h _ _ _ => Plugin.InsertCelestialJacobiKeplerian_closed env p _ _ _ _ (Or.inr h), ?_⟩
  intro operation q operations r ho hq hr
  have hc : r.is_closed celestial_index :=
    Plugin.run_is_closed env operations q r celestial_index hr
      ((Plugin.step_is_closed env p q operation celestial_index hq).2 ho)
  exact ⟨fun _ _ _ _ => Plugin.InsertCelestialAbsoluteCartesian_closed r _ _ _ _ _ hc,
    fun _ _ _ => Plugin.InsertCelestialJacobiKeplerian_closed env r _ _ _ _ hc⟩

/-- C11, on a new plugin: once the sun has been inserted under index 0, by an
absolute or by a hierarchical insertion, a second insertion under index 0 aborts,
also after another body has been inserted under index 1. -/
theorem C11_duplicate_registration_witness :
    (Plugin.test_plugin_with_sun.InsertCelestialAbsoluteCartesian 0 none 0 ⟨101, true⟩
      11).is_fatal = true ∧
    (Plugin.test_plugin_hierarchical.InsertCelestialJacobiKeplerian Plugin.test_environment 0
      (some 0) (some []) ⟨101, true⟩).is_fatal = true ∧
    (((Plugin.test_new_plugin.run Plugin.test_environment
        [.InsertCelestialAbsoluteCartesian 0 none 0 ⟨100, true⟩ 10,
          .InsertCelestialAbsoluteCartesian 1 (some 0) 0 ⟨101, true⟩ 11]).state
      ).InsertCelestialAbsoluteCartesian 0 none 0 ⟨102, true⟩ 12).is_fatal = true :=
  ⟨(C11_duplicate_registration Plugin.test_environment Plugin.test_plugin_with_sun 0).1
      (Or.inl (by decide)) none 0 ⟨101, true⟩ 11,
    (C11_duplicate_registration Plugin.test_environment Plugin.test_plugin_hierarchical 0).2.1
      (Or.inr ⟨_, rfl, by decide⟩) (some 0) (some []) ⟨101, true⟩,
    ((C11_duplicate_registration Plugin.test_environment Plugin.test_new_plugin 0).2.2
      (.InsertCelestialAbsoluteCartesian 0 none 0 ⟨100, true⟩ 10) _
      [.InsertCelestialAbsoluteCartesian 1 (some 0) 0 ⟨101, true⟩ 11] _ rfl rfl rfl).1
      none 0 ⟨102, true⟩ 12⟩

/-! ## Lookup failures -/

/-- C12 (lookup failure without mutation).  `InsertOrKeepVessel(guid,
parent_index)` with a `parent_index` under which no celestial is registered
aborts in the very state in which it was called: `vessels_` and `kept_vessels_`
are as they were, so no vessel has been inserted and none has been flagged. -/
theorem C12_InsertOrKeepVessel_unknown_parent (p : Plugin) (vessel_guid : GUID)
    (parent_index : Index) (storage : Address)
    (h : parent_index ∉ map.keys p.celestials_) :
    p.InsertOrKeepVessel vessel_guid parent_index storage = .fatal p ∧
      (p.InsertOrKeepVessel vessel_guid parent_index storage).state.vessels_ = p.vessels_ ∧
      (p.InsertOrKeepVessel vessel_guid parent_index storage).state.kept_vessels_
        = p.kept_vessels_ := by
  have hf : map.find? p.celestials_ parent_index = none := (map.find?_eq_none_iff _ _).2 h
  have key : p.InsertOrKeepVessel vessel_guid parent_index storage = .fatal p := by
    unfold Plugin.InsertOrKeepVessel
    rw [hf]
    split <;> rfl
  rw [key]
  exact ⟨rfl, rfl, rfl⟩

/-- C12, on the example, whose only celestial has index 0: inserting a vessel
with parent index 7 aborts and leaves the two vessels and the flag as they
were. -/
theorem C12_InsertOrKeepVessel_unknown_parent_witness :
    Plugin.test_plugin.InsertOrKeepVessel "c" 7 3 = .fatal Plugin.test_plugin ∧
      (Plugin.test_plugin.InsertOrKeepVessel "c" 7 3).state.vessels_
        = Plugin.test_plugin.vessels_ ∧
      (Plugin.test_plugin.InsertOrKeepVessel "c" 7 3).state.kept_vessels_
        = Plugin.test_plugin.kept_vessels_ :=
  C12_InsertOrKeepVessel_unknown_parent Plugin.test_plugin "c" 7 3 (by decide)

/-- C13 does not hold as stated: on the plugin whose only body is the sun, under
index 0, `InsertCelestialAbsoluteCartesian(1, parent_index = 7, ...)` aborts, but
in the state reached the celestial and the body of index 1 have been recorded
(the indices registered are 0 and 1, no longer 0 alone).  And with
`parent_index = 1`, the index being inserted, which was not registered when the
call was made, the call returns. -/
theorem C13_unknown_parent_counterexample :
    (Plugin.test_plugin_with_sun.InsertCelestialAbsoluteCartesian 1 (some 7) 0 ⟨101, true⟩
      11).is_fatal = true ∧
    map.keys Plugin.test_plugin_with_sun.celestials_ = [0] ∧
    map.keys (Plugin.test_plugin_with_sun.InsertCelestialAbsoluteCartesian 1 (some 7) 0
      ⟨101, true⟩ 11).state.celestials_ = [0, 1] ∧
    ((Plugin.test_plugin_with_sun.InsertCelestialAbsoluteCartesian 1 (some 7) 0 ⟨101, true⟩
      11).state.absolute_initialization_.map (fun objects => map.keys objects.bodies))
      = some [0, 1] ∧
    (1 : Index) ∉ map.keys Plugin.test_plugin_with_sun.celestials_ ∧
    (Plugin.test_plugin_with_sun.InsertCelestialAbsoluteCartesian 1 (some 1) 0 ⟨101, true⟩
      11).is_fatal = false := by
  refine ⟨rfl, rfl, rfl, rfl, by decide, rfl⟩

/-- C13, as the code has it.  `InsertCelestialAbsoluteCartesian` called with a
parent index that is neither a registered celestial nor the index being inserted
aborts, and in the state reached the sun and the recorded initial states are as
they were before the call.  When the call got as far as looking the parent up
(the initialization is under way, it is not hierarchical, and the celestial
index was free), the new celestial and the body have by then been recorded under
the celestial index; otherwise the celestials and the recorded bodies are as
they were. -/
theorem C13_unknown_parent_is_fatal (p : Plugin) (celestial_index : Index)
    (parent_index : Index) (initial_state : DegreesOfFreedom) (body : MassiveBody)
    (storage : Address) (h : parent_index ∉ map.keys p.celestials_)
    (hne : parent_index ≠ celestial_index) :
    ∃ s, p.InsertCelestialAbsoluteCartesian celestial_index (some parent_index) initial_state
        body storage = .fatal s ∧
      s.sun_ = p.sun_ ∧
      (s.absolute_initialization_.map (fun objects => objects.initial_state)).getD []
        = (p.absolute_initialization_.map (fun objects => objects.initial_state)).getD [] ∧
      (p.initializing_ = true ∧ p.hierarchical_initialization_ = none ∧
          celestial_index ∉ map.keys p.celestials_ →
        s.celestials_
          = map.insert_ordered celestial_index (Celestial.new storage body.address)
              p.celestials_ ∧
        (s.absolute_initialization_.map (fun objects => objects.bodies)).getD []
          = (map.emplace
              ((p.absolute_initialization_.map (fun objects => objects.bodies)).getD [])
              celestial_index body).1) ∧
      (¬ (p.initializing_ = true ∧ p.hierarchical_initialization_ = none ∧
            celestial_index ∉ map.keys p.celestials_) →
        s.celestials_ = p.celestials_ ∧
        (s.absolute_initialization_.map (fun objects => objects.bodies)).getD []
          = (p.absolute_initialization_.map (fun objects => objects.bodies)).getD []) := by
  have hf : map.find? p.celestials_ parent_index = none := (map.find?_eq_none_iff _ _).2 h
  have hA : p.initializing_ = false →
      p.InsertCelestialAbsoluteCartesian celestial_index (some parent_index) initial_state
        body storage = .fatal p := by
    intro hi
    unfold Plugin.InsertCelestialAbsoluteCartesian
    simp [hi]
  have hB : ∀ objects, p.initializing_ = true → p.hierarchical_initialization_ = some objects →
      p.InsertCelestialAbsoluteCartesian celestial_index (some parent_index) initial_state
        body storage = .fatal p := by
    intro objects hi hh
    unfold Plugin.InsertCelestialAbsoluteCartesian
    simp [hi, hh]
  have hC : ∀ c, p.initializing_ = true → p.hierarchical_initialization_ = none →
      map.find? p.celestials_ celestial_index = some c →
      p.InsertCelestialAbsoluteCartesian celestial_index (some parent_index) initial_state
        body storage
        = .fatal { p with absolute_initialization_ := some (p.absolute_initialization_.getD {}) } := by
    intro c hi hh hc
    unfold Plugin.InsertCelestialAbsoluteCartesian
    dsimp only
    rw [Plugin.emplace_present _ _ _ _ hc]
    simp [hi, hh]
  have hD : p.initializing_ = true → p.hierarchical_initialization_ = none →
      map.find? p.celestials_ celestial_index = none →
      p.InsertCelestialAbsoluteCartesian celestial_index (some parent_index) initial_state
        body storage
        = .fatal { p with
            celestials_ := map.insert_ordered celestial_index
              (Celestial.new storage body.address) p.celestials_
            absolute_initialization_ := some
              { p.absolute_initialization_.getD {} with
                bodies := (map.emplace (p.absolute_initialization_.getD {}).bodies
                  celestial_index body).1 } } := by
    intro hi hh hc
    have hp : map.find? (map.insert_ordered celestial_index
        (Celestial.new storage body.address) p.celestials_) parent_index = none := by
      rw [map.find?_insert_ordered _ _ _ _ hc, if_neg hne]
      exact hf
    unfold Plugin.InsertCelestialAbsoluteCartesian
    dsimp only
    rw [Plugin.emplace_absent _ _ _ hc]
    simp [hi, hh, hp]
  cases hi : p.initializing_ with
  | false =>
    rw [hA hi]
    exact ⟨p, rfl, rfl, rfl, fun hc => Bool.noConfusion hc.1, fun _ => ⟨rfl, rfl⟩⟩
  | true =>
    cases hh : p.hierarchical_initialization_ with
    | some objects =>
      rw [hB objects hi hh]
      exact ⟨p, rfl, rfl, rfl, fun hc => Option.noConfusion hc.2.1, fun _ => ⟨rfl, rfl⟩⟩
    | none =>
      cases hc : map.find? p.celestials_ celestial_index with
      | some c =>
        have hmem : celestial_index ∈ map.keys p.celestials_ := by
          by_contra hn
          rw [(map.find?_eq_none_iff _ _).2 hn] at hc
          cases hc
        rw [hC c hi hh hc]
        refine ⟨_, rfl, rfl, ?_, fun hc' => absurd hmem hc'.2.2, fun _ => ⟨rfl, ?_⟩⟩
        · cases p.absolute_initialization_ <;> rfl
        · cases p.absolute_initialization_ <;> rfl
      | none =>
        have hmem : celestial_index ∉ map.keys p.celestials_ :=
          (map.find?_eq_none_iff _ _).1 hc
        rw [hD hi hh hc]
        refine ⟨_, rfl, rfl, ?_, fun _ => ⟨rfl, ?_⟩, fun hn => absurd ⟨rfl, rfl, hmem⟩ hn⟩
        · cases p.absolute_initialization_ <;> rfl
        · cases p.absolute_initialization_ <;> rfl

/-- C13 as the code has it, on the plugin whose only body is the sun, under
index 0: inserting a body under index 1 with the unknown parent index 7
aborts. -/
theorem C13_unknown_parent_is_fatal_witness :
    ∃ s, Plugin.test_plugin_with_sun.InsertCelestialAbsoluteCartesian 1 (some 7) 0
        ⟨101, true⟩ 11 = .fatal s ∧ s.sun_ = Plugin.test_plugin_with_sun.sun_ := by
  obtain ⟨s, hs, hsun, _⟩ :=
    C13_unknown_parent_is_fatal Plugin.test_plugin_with_sun 1 7 0 ⟨101, true⟩ 11
      (by decide) (by decide)
  exact ⟨s, hs, hsun⟩

/-! ## The two stages of a plugin -/

namespace Plugin

/-- No operation but `EndInitialization` moves the plugin from one stage to the
other. -/
theorem step_initializing (env : Environment) (p q : Plugin) (operation : Operation)
    (ho : operation.is_EndInitialization = false)
    (h : p.step env operation = .returns () q) : q.initializing_ = p.initializing_ := by
  cases hi : operation.is_initialization with
  | false => exact (step_sameBodies env p q operation hi h).initializing_eq
  | true =>
    cases operation with
    | InsertCelestialAbsoluteCartesian index parent_index initial_state body storage =>
      obtain ⟨hpi, _, _, hqi, _⟩ :=
        InsertCelestialAbsoluteCartesian_returns_inv p q index parent_index initial_state body
          storage h
      rw [hpi, hqi]
    | InsertCelestialJacobiKeplerian index parent_index keplerian_elements body =>
      obtain ⟨hpi, _, hqi, _⟩ :=
        InsertCelestialJacobiKeplerian_returns_inv env p q index parent_index
          keplerian_elements body h
      rw [hpi, hqi]
    | EndInitialization storage => cases ho
    | _ => cases hi

theorem run_initializing (env : Environment) (operations : List Operation) (p q : Plugin)
    (ho : ∀ operation ∈ operations, operation.is_EndInitialization = false)
    (h : p.run env operations = .returns () q) : q.initializing_ = p.initializing_ := by
  induction operations generalizing p with
  | nil =>
    cases h
    rfl
  | cons operation rest ih =>
    rw [run] at h
    cases hs : p.step env operation with
    | fatal s => rw [hs] at h; cases h
    | returns u p1 =>
      rw [hs] at h
      rw [ih p1 (fun o hm => ho o (List.mem_cons_of_mem _ hm)) h]
      exact step_initializing env p p1 operation (ho operation (List.mem_cons_self _ _)) hs

/-- Once the initialization has ended, an operation that returns leaves it ended
and leaves the registered celestial indices as they were. -/
theorem step_steady (env : Environment) (p q : Plugin) (operation : Operation)
    (hp : p.initializing_ = false) (h : p.step env operation = .returns () q) :
    q.initializing_ = false ∧ map.keys q.celestials_ = map.keys p.celestials_ := by
  cases hi : operation.is_initialization with
  | false =>
    have hs := step_sameBodies env p q operation hi h
    exact ⟨hs.initializing_eq.trans hp, hs.celestial_indices_eq⟩
  | true =>
    exfalso
    cases operation with
    | InsertCelestialAbsoluteCartesian index parent_index initial_state body storage =>
      have := (InsertCelestialAbsoluteCartesian_returns_inv p q index parent_index
        initial_state body storage h).1
      rw [hp] at this
      cases this
    | InsertCelestialJacobiKeplerian index parent_index keplerian_elements body =>
      have := (InsertCelestialJacobiKeplerian_returns_inv env p q index parent_index
        keplerian_elements body h).1
      rw [hp] at this
      cases this
    | EndInitialization storage =>
      have := (EndInitialization_returns_inv env p q storage h).1
      rw [hp] at this
      cases this
    | _ => cases hi

theorem run_steady (env : Environment) (operations : List Operation) (p q : Plugin)
    (hp : p.initializing_ = false) (h : p.run env operations = .returns () q) :
    q.initializing_ = false ∧ map.keys q.celestials_ = map.keys p.celestials_ := by
  induction operations generalizing p with
  | nil =>
    cases h
    exact ⟨hp, rfl⟩
  | cons operation rest ih =>
    rw [run] at h
    cases hs : p.step env operation with
    | fatal s => rw [hs] at h; cases h
    | returns u p1 =>
      rw [hs] at h
      have h1 := step_steady env p p1 operation hp hs
      have h2 := ih p1 h1.1 h
      exact ⟨h2.1, h2.2.trans h1.2⟩

theorem InsertCelestialAbsoluteCartesian_steady (p : Plugin) (celestial_index : Index)
    (parent_index : Option Index) (initial_state : DegreesOfFreedom) (body : MassiveBody)
    (storage : Address) (hp : p.initializing_ = false) :
    p.InsertCelestialAbsoluteCartesian celestial_index parent_index initial_state body storage
      = .fatal p := by
  unfold InsertCelestialAbsoluteCartesian
  simp [hp]

theorem InsertCelestialJacobiKeplerian_steady (env : Environment) (p : Plugin)
    (celestial_index : Index) (parent_index : Option Index)
    (keplerian_elements : Option KeplerianElements) (body : MassiveBody)
    (hp : p.initializing_ = false) :
    p.InsertCelestialJacobiKeplerian env celestial_index parent_index keplerian_elements body
      = .fatal p := by
  unfold InsertCelestialJacobiKeplerian
  simp [hp]

theorem EndInitialization_steady (env : Environment) (p : Plugin) (storage : Nat → Address)
    (hp : p.initializing_ = false) : p.EndInitialization env storage = .fatal p := by
  unfold EndInitialization
  simp [hp]

theorem InsertOrKeepVessel_initializing (p : Plugin) (vessel_guid : GUID)
    (parent_index : Index) (storage : Address) (hp : p.initializing_ = true) :
    p.InsertOrKeepVessel vessel_guid parent_index storage = .fatal p := by
  unfold InsertOrKeepVessel
  simp [hp]

theorem SetVesselStateOffset_initializing (env : Environment) (p : Plugin)
    (vessel_guid : GUID) (from_parent : RelativeDegreesOfFreedom)
    (hp : p.initializing_ = true) :
    p.SetVesselStateOffset env vessel_guid from_parent = .fatal p := by
  unfold SetVesselStateOffset
  simp [hp]

theorem ForgetAllHistoriesBefore_initializing (env : Environment) (p : Plugin) (t : Instant)
    (hp : p.initializing_ = true) : p.ForgetAllHistoriesBefore env t = .fatal p := by
  unfold ForgetAllHistoriesBefore
  simp [hp]

theorem VesselFromParent_initializing (env : Environment) (p : Plugin) (vessel_guid : GUID)
    (hp : p.initializing_ = true) : p.VesselFromParent env vessel_guid = .fatal p := by
  unfold VesselFromParent
  simp [hp]

theorem CelestialFromParent_initializing (env : Environment) (p : Plugin)
    (celestial_index : Index) (hp : p.initializing_ = true) :
    p.CelestialFromParent env celestial_index = .fatal p := by
  unfold CelestialFromParent
  simp [hp]

end Plugin

/-- C14 (the bodies are fixed once the initialization has ended).  (1) After an
`EndInitialization` that returned, whatever operations follow, every call to
`InsertCelestialAbsoluteCartesian`, `InsertCelestialJacobiKeplerian` or
`EndInitialization` aborts, in the state in which it was called, and the
registered celestial indices are those that `EndInitialization` left.  (2) While
the initialization is under way (as it is in a new plugin, and as it stays until
`EndInitialization` is called), `AdvanceTime`, `InsertOrKeepVessel`,
`SetVesselStateOffset`, `ForgetAllHistoriesBefore`, `VesselFromParent` and
`CelestialFromParent` abort, in the state in which they were called. -/
theorem C14_bodies_fixed (env : Environment) (p : Plugin) :
    (∀ storage q operations r,
      p.EndInitialization env storage = .returns () q →
      q.run env operations = .returns () r →
      (∀ celestial_index parent_index initial_state body storage,
        r.InsertCelestialAbsoluteCartesian celestial_index parent_index initial_state body
          storage = .fatal r) ∧
      (∀ celestial_index parent_index keplerian_elements body,
        r.InsertCelestialJacobiKeplerian env celestial_index parent_index keplerian_elements
          body = .fatal r) ∧
      (∀ storage, r.EndInitialization env storage = .fatal r) ∧
      map.keys r.celestials_ = map.keys q.celestials_) ∧
    (∀ game_epoch solar_system_epoch planetarium_rotation,
      (Plugin.new env game_epoch solar_system_epoch planetarium_rotation).initializing_
        = true) ∧
    (∀ operations r,
      p.initializing_ = true →
      (∀ operation ∈ operations, operation.is_EndInitialization = false) →
      p.run env operations = .returns () r →
      (∀ t planetarium_rotation, r.AdvanceTime env t planetarium_rotation = .fatal r) ∧
      (∀ vessel_guid parent_index storage,
        r.InsertOrKeepVessel vessel_guid parent_index storage = .fatal r) ∧
      (∀ vessel_guid from_parent,
        r.SetVesselStateOffset env vessel_guid from_parent = .fatal r) ∧
      (∀ t, r.ForgetAllHistoriesBefore env t = .fatal r) ∧
      (∀ vessel_guid, r.VesselFromParent env vessel_guid = .fatal r) ∧
      (∀ celestial_index, r.CelestialFromParent env celestial_index = .fatal r)) := by
  refine ⟨?_, fun _ _ _ => rfl, ?_⟩
  · intro storage q operations r hq hr
    have hs := Plugin.run_steady env operations q r
      (Plugin.EndInitialization_returns_inv env p q storage hq).2.1 hr
    exact ⟨fun _ _ _ _ _ => Plugin.InsertCelestialAbsoluteCartesian_steady r _ _ _ _ _ hs.1,
      fun _ _ _ _ => Plugin.InsertCelestialJacobiKeplerian_steady env r _ _ _ _ hs.1,
      fun _ => Plugin.EndInitialization_steady env r _ hs.1, hs.2⟩
  · intro operations r hp ho hr
    have hi : r.initializing_ = true :=
      (Plugin.run_initializing env operations p r ho hr).trans hp
    exact ⟨fun _ _ => Plugin.AdvanceTime_initializing env r _ _ hi,
      fun _ _ _ => Plugin.InsertOrKeepVessel_initializing r _ _ _ hi,
      fun _ _ => Plugin.SetVesselStateOffset_initializing env r _ _ hi,
      fun _ => Plugin.ForgetAllHistoriesBefore_initializing env r _ hi,
      fun _ => Plugin.VesselFromParent_initializing env r _ hi,
      fun _ => Plugin.CelestialFromParent_initializing env r _ hi⟩

/-- C14, on the new plugin in which the sun has been inserted: after
`EndInitialization` and an `InsertOrKeepVessel`, a further insertion of a
celestial aborts; before `EndInitialization`, `AdvanceTime` aborts. -/
theorem C14_bodies_fixed_witness :
    (((Plugin.test_plugin_with_sun.EndInitialization Plugin.test_environment id).state.run
        Plugin.test_environment [.InsertOrKeepVessel "a" 0 1]).state
      ).InsertCelestialAbsoluteCartesian 1 (some 0) 0 ⟨101, true⟩ 11
      = .fatal ((Plugin.test_plugin_with_sun.EndInitialization Plugin.test_environment
          id).state.run Plugin.test_environment [.InsertOrKeepVessel "a" 0 1]).state ∧
    Plugin.test_plugin_with_sun.AdvanceTime Plugin.test_environment 1 0
      = .fatal Plugin.test_plugin_with_sun :=
  ⟨((C14_bodies_fixed Plugin.test_environment Plugin.test_plugin_with_sun).1 id _
      [.InsertOrKeepVessel "a" 0 1] _ rfl rfl).1 1 (some 0) 0 ⟨101, true⟩ 11,
    ((C14_bodies_fixed Plugin.test_environment Plugin.test_plugin_with_sun).2.2 [] _ rfl
      (fun _ h => nomatch h) rfl).1 1 0⟩

/-! ## The initial state of a vessel -/

namespace Plugin

/-- The state in which `SetVesselStateOffset` returns, given what it found: the
vessel, the planetarium rotation, the ephemeris and the celestial that is the
parent of the vessel. -/
theorem SetVesselStateOffset_run (env : Environment) (p : Plugin) (vessel_guid : GUID)
    (from_parent : RelativeDegreesOfFreedom) (vessel : Vessel)
    (planetarium_rotation : PlanetariumRotationValue) (ephemeris : Ephemeris)
    (parent : Celestial)
    (hi : p.initializing_ = false) (hv : map.find? p.vessels_ vessel_guid = some vessel)
    (hn : vessel.is_initialized = false)
    (hr : p.PlanetariumRotation = some planetarium_rotation)
    (he : p.ephemeris_ = some ephemeris) (hc : p.celestial_at vessel.parent = some parent) :
    p.SetVesselStateOffset env vessel_guid from_parent
      = .returns ()
          { p with
            ephemeris_ := some (ephemeris.Prolong p.current_time_)
            vessels_ :=
              map.modify p.vessels_ vessel_guid
                (fun v => v.CreateHistoryAndForkProlongation p.current_time_
                  (env.current_degrees_of_freedom (ephemeris.Prolong p.current_time_)
                    parent.body p.current_time_ +
                    env.rotate_inverse planetarium_rotation from_parent))
            calls_ := p.calls_ ++ [Call.Ephemeris_Prolong p.current_time_] ++
              [Call.Vessel_CreateHistoryAndForkProlongation vessel.address p.current_time_
                (env.current_degrees_of_freedom (ephemeris.Prolong p.current_time_)
                  parent.body p.current_time_ +
                  env.rotate_inverse planetarium_rotation from_parent)] } := by
  unfold SetVesselStateOffset
  rw [if_neg (by rw [hi]; decide)]
  simp only [hv, hn, hr, he, Bool.false_eq_true, if_false]
  simp only [Plugin.celestial_at] at hc ⊢
  simp only [hc]

theorem SetVesselStateOffset_returns_inv (env : Environment) (p q : Plugin)
    (vessel_guid : GUID) (from_parent : RelativeDegreesOfFreedom)
    (h : p.SetVesselStateOffset env vessel_guid from_parent = .returns () q) :
    p.initializing_ = false ∧
      ∃ vessel planetarium_rotation ephemeris parent,
        map.find? p.vessels_ vessel_guid = some vessel ∧ vessel.is_initialized = false ∧
        p.PlanetariumRotation = some planetarium_rotation ∧ p.ephemeris_ = some ephemeris ∧
        p.celestial_at vessel.parent = some parent := by
  cases hi : p.initializing_ with
  | true =>
    rw [SetVesselStateOffset_initializing env p _ _ hi] at h
    cases h
  | false =>
    refine ⟨rfl, ?_⟩
    unfold SetVesselStateOffset at h
    rw [if_neg (by rw [hi]; decide)] at h
    cases hv : map.find? p.vessels_ vessel_guid with
    | none => simp [hv] at h
    | some vessel =>
      cases hn : vessel.is_initialized with
      | true => simp [hv, hn] at h
      | false =>
        cases hr : p.PlanetariumRotation with
        | none => simp [hv, hn, hr] at h
        | some planetarium_rotation =>
          cases he : p.ephemeris_ with
          | none => simp [hv, hn, hr, he] at h
          | some ephemeris =>
            cases hc : p.celestial_at vessel.parent with
            | none =>
              simp only [hv, hn, hr, he, Bool.false_eq_true, if_false] at h
              simp only [Plugin.celestial_at] at hc h
              simp [hc] at h
            | some parent => exact ⟨_, _, _, _, rfl, hn, rfl, rfl, hc⟩

theorem SetVesselStateOffset_initialized (env : Environment) (p : Plugin)
    (vessel_guid : GUID) (from_parent : RelativeDegreesOfFreedom) (vessel : Vessel)
    (hv : map.find? p.vessels_ vessel_guid = some vessel)
    (hn : vessel.is_initialized = true) :
    p.SetVesselStateOffset env vessel_guid from_parent = .fatal p := by
  unfold SetVesselStateOffset
  simp only [hv, hn, if_true]
  split <;> rfl

/-- The vessel that `SetVesselStateOffset` leaves under the GUID. -/
theorem SetVesselStateOffset_vessel (env : Environment) (p q : Plugin) (vessel_guid : GUID)
    (from_parent : RelativeDegreesOfFreedom)
    (h : p.SetVesselStateOffset env vessel_guid from_parent = .returns () q) :
    ∃ vessel planetarium_rotation ephemeris parent,
      map.find? p.vessels_ vessel_guid = some vessel ∧
      p.PlanetariumRotation = some planetarium_rotation ∧ p.ephemeris_ = some ephemeris ∧
      p.celestial_at vessel.parent = some parent ∧
      q.initializing_ = false ∧ q.PlanetariumRotation = some planetarium_rotation ∧
      q.ephemeris_ = some (ephemeris.Prolong p.current_time_) ∧
      q.celestial_at vessel.parent = some parent ∧ q.current_time_ = p.current_time_ ∧
      map.find? q.vessels_ vessel_guid
        = some (vessel.CreateHistoryAndForkProlongation p.current_time_
            (env.current_degrees_of_freedom (ephemeris.Prolong p.current_time_) parent.body
              p.current_time_ + env.rotate_inverse planetarium_rotation from_parent)) := by
  obtain ⟨hi, vessel, planetarium_rotation, ephemeris, parent, hv, hn, hr, he, hc⟩ :=
    SetVesselStateOffset_returns_inv env p q vessel_guid from_parent h
  rw [SetVesselStateOffset_run env p vessel_guid from_parent vessel planetarium_rotation
    ephemeris parent hi hv hn hr he hc] at h
  cases h
  refine ⟨vessel, planetarium_rotation, ephemeris, parent, hv, hr, he, hc, hi, hr, rfl, hc,
    rfl, ?_⟩
  dsimp only
  rw [map.find?_modify, if_pos rfl, hv]
  rfl

end Plugin

/-! ## A vessel stays initialized -/

namespace Plugin

theorem StaysInitialized.of_self (p : Plugin) : StaysInitialized p p :=
  fun _ v hv hi => ⟨v, hv, hi⟩

theorem StaysInitialized.followed {p q r : Plugin} (h₁ : StaysInitialized p q)
    (h₂ : StaysInitialized q r) : StaysInitialized p r := by
  intro g v hv hi
  obtain ⟨v', hv', hi'⟩ := h₁ g v hv hi
  exact h₂ g v' hv' hi'

theorem staysInitialized_of_vessels {p q : Plugin} (h : q.vessels_ = p.vessels_) :
    StaysInitialized p q := by
  intro g v hv hi
  exact ⟨v, by rw [h]; exact hv, hi⟩

theorem call_on_vessel_staysInitialized (p : Plugin) (wf : p.WellFormed) (a : Address)
    (f : Ephemeris → Vessel → Ephemeris × Vessel) (call : Call)
    (hf : ∀ e v, v.is_initialized = true → (f e v).2.is_initialized = true) :
    StaysInitialized p (p.call_on_vessel a f call) := by
  by_cases hreg : a ∈ p.vessel_addresses
  · cases he : p.ephemeris_ with
    | none => exact staysInitialized_of_vessels (call_on_vessel_no_ephemeris p a he f call).2
    | some e =>
      obtain ⟨g₀, v₀, hv₀, rfl⟩ := vessel_at_registered p wf a hreg
      obtain ⟨_, hfind⟩ := call_on_vessel_registered p wf g₀ v₀ hv₀ e he f call
      intro g v hv hi
      by_cases hg : g = g₀
      · subst hg
        rw [hv₀] at hv
        cases hv
        exact ⟨v₀.after f e, by rw [hfind, if_pos rfl], hf e v₀ hi⟩
      · exact ⟨v, by rw [hfind, if_neg hg, hv], hi⟩
  · exact staysInitialized_of_vessels (call_on_vessel_unregistered p a hreg f call).2

theorem call_on_vessels_staysInitialized (f : Ephemeris → Vessel → Ephemeris × Vessel)
    (call : Address → Call)
    (hf : ∀ e v, v.is_initialized = true → (f e v).2.is_initialized = true)
    (addresses : List Address) (p : Plugin) (wf : p.WellFormed) :
    StaysInitialized p (call_on_vessels f call p addresses) := by
  induction addresses generalizing p with
  | nil => exact StaysInitialized.of_self p
  | cons a rest ih =>
    rw [call_on_vessels]
    exact (call_on_vessel_staysInitialized p wf a f (call a) hf).followed
      (ih _ ((call_on_vessel_frame p a f (call a)).wellFormed wf))

theorem EvolveBubble_staysInitialized (env : Environment) (hk : KeepsInitialized env)
    (p : Plugin) (wf : p.WellFormed) (t : Instant) :
    StaysInitialized p (p.EvolveBubble env t).state := by
  by_cases h : p.bubble_.empty = true
  · rw [EvolveBubble_empty env p t h]
    exact StaysInitialized.of_self p
  · have h' : p.bubble_.empty = false := by simpa using h
    cases he : p.ephemeris_ with
    | none =>
      rw [EvolveBubble_no_ephemeris env p t h' he]
      exact StaysInitialized.of_self p
    | some e =>
      have hflowed : StaysInitialized p (EvolveBubble.flowed env p e t) :=
        staysInitialized_of_vessels rfl
      cases hf : (EvolveBubble.flow env p e t).reached_final_time with
      | false =>
        rw [EvolveBubble_not_reached env p t e h' he hf]
        exact hflowed
      | true =>
        cases hl : physics.last (EvolveBubble.flow env p e t).trajectory with
        | none =>
          rw [EvolveBubble_no_last env p t e h' he hf hl]
          exact hflowed
        | some l =>
          rw [EvolveBubble_run env p t e l h' he hf hl]
          refine hflowed.followed ?_
          show StaysInitialized _ (EvolveBubble.loop env t l.2 _ _)
          rw [EvolveBubble_loop_eq]
          exact call_on_vessels_staysInitialized _ _
            (fun e v hi => hk.Vessel_AdvanceTimeInBubble e v t _ hi) _ _
            (wellFormed_of_registry wf rfl rfl)

theorem ForgetAllHistoriesBefore_staysInitialized (env : Environment)
    (hk : KeepsInitialized env) (p : Plugin) (wf : p.WellFormed) (t : Instant) :
    StaysInitialized p (p.ForgetAllHistoriesBefore env t).state := by
  unfold ForgetAllHistoriesBefore
  dsimp only
  repeat' split
  all_goals first
    | exact StaysInitialized.of_self p
    | (simp only [Outcome.state]
       rw [ForgetAllHistoriesBefore_loop_eq]
       refine StaysInitialized.followed ?_
         (call_on_vessels_staysInitialized _ _
           (fun e v hi => hk.Vessel_ForgetBefore e v t hi) _ _
           (wellFormed_of_registry wf rfl rfl))
       exact staysInitialized_of_vessels rfl)

theorem UpdatePrediction_staysInitialized (env : Environment) (hk : KeepsInitialized env)
    (p : Plugin) (wf : p.WellFormed) (vessel_guid : GUID) :
    StaysInitialized p (p.UpdatePrediction env vessel_guid).state := by
  unfold UpdatePrediction
  repeat' split
  all_goals first
    | exact StaysInitialized.of_self p
    | exact call_on_vessel_staysInitialized p wf _ _ _
        (fun e v hi => hk.Vessel_UpdatePrediction e v _ hi)

theorem CreateFlightPlan_staysInitialized (env : Environment) (hk : KeepsInitialized env)
    (p : Plugin) (wf : p.WellFormed) (vessel_guid : GUID) (final_time : Instant)
    (initial_mass : ℚ) :
    StaysInitialized p (p.CreateFlightPlan env vessel_guid final_time initial_mass).state := by
  unfold CreateFlightPlan
  repeat' split
  all_goals first
    | exact StaysInitialized.of_self p
    | exact call_on_vessel_staysInitialized p wf _ _ _
        (fun e v hi => hk.Vessel_CreateFlightPlan e v _ _ _ hi)

theorem modify_staysInitialized (p q : Plugin) (guid : GUID) (f : Vessel → Vessel)
    (hf : ∀ v, v.is_initialized = true → (f v).is_initialized = true)
    (h : q.vessels_ = map.modify p.vessels_ guid f) : StaysInitialized p q := by
  intro g v hv hi
  rw [h, map.find?_modify]
  by_cases hg : g = guid
  · rw [if_pos hg, hv]
    exact ⟨_, rfl, hf v hi⟩
  · rw [if_neg hg]
    exact ⟨v, hv, hi⟩

theorem InsertOrKeepVessel_staysInitialized (p : Plugin) (vessel_guid : GUID)
    (parent_index : Index) (storage : Address) :
    StaysInitialized p (p.InsertOrKeepVessel vessel_guid parent_index storage).state := by
  unfold InsertOrKeepVessel
  dsimp only
  repeat' split
  all_goals first
    | exact StaysInitialized.of_self p
    | skip
  rename_i parent_celestial _ _ _ _
  intro g v hv hi
  simp only [Outcome.state]
  rw [map.find?_modify]
  cases hf : map.find? p.vessels_ vessel_guid with
  | some existing =>
    rw [emplace_present _ _ _ _ hf]
    by_cases hg : g = vessel_guid
    · rw [if_pos hg, hv]
      exact ⟨_, rfl, hi⟩
    · rw [if_neg hg]
      exact ⟨v, hv, hi⟩
  | none =>
    rw [emplace_absent _ _ _ hf]
    have hg : g ≠ vessel_guid := by
      intro e
      rw [e, hf] at hv
      cases hv
    rw [if_neg hg, map.find?_insert_ordered _ _ _ _ hf, if_neg hg]
    exact ⟨v, hv, hi⟩

theorem SetVesselStateOffset_staysInitialized (env : Environment) (p : Plugin)
    (vessel_guid : GUID) (from_parent : RelativeDegreesOfFreedom) :
    StaysInitialized p (p.SetVesselStateOffset env vessel_guid from_parent).state := by
  unfold SetVesselStateOffset
  dsimp only
  repeat' split
  all_goals first
    | exact StaysInitialized.of_self p
    | exact staysInitialized_of_vessels rfl
    | exact modify_staysInitialized p _ vessel_guid
        (fun v => v.CreateHistoryAndForkProlongation _ _) (fun _ _ => rfl) rfl

theorem SetPredictionAdaptiveStepParameters_staysInitialized (p : Plugin)
    (parameters : AdaptiveStepParameters) :
    StaysInitialized p (p.SetPredictionAdaptiveStepParameters parameters) := by
  intro g v hv hi
  refine ⟨v.set_prediction_adaptive_step_parameters parameters, ?_, hi⟩
  show map.find? (p.vessels_.map (fun gv =>
    (gv.1, gv.2.set_prediction_adaptive_step_parameters parameters))) g = _
  generalize p.vessels_ = m at hv
  induction m with
  | nil => cases hv
  | cons kv m ih =>
    obtain ⟨k, w⟩ := kv
    rw [List.map_cons, map.find?_cons]
    rw [map.find?_cons] at hv
    by_cases hg : g = k
    · rw [if_pos hg] at hv ⊢
      cases hv
      rfl
    · rw [if_neg hg] at hv ⊢
      exact ih hv

/-- An `AdvanceTime` that returns leaves initialized the initialized vessels that
it leaves registered. -/
theorem AdvanceTime_keeps_initialized (env : Environment) (hk : KeepsInitialized env)
    (p q : Plugin) (wf : p.WellFormed) (t : Instant) (rot : Angle)
    (h : p.AdvanceTime env t rot = .returns () q) (g : GUID) (v v' : Vessel)
    (hv : map.find? p.vessels_ g = some v) (hi : v.is_initialized = true)
    (hq : map.find? q.vessels_ g = some v') : v'.is_initialized = true := by
  obtain ⟨_, _, e, rotv, p4, he, hr, hb4, rfl⟩ := AdvanceTime_returns_inv env p q t rot h
  have wfF := FreeVessels_wellFormed p wf
  have wfP : (AdvanceTime.prepared env p e rotv t).WellFormed :=
    wellFormed_of_registry wfF rfl rfl
  have h1 := EvolveBubble_staysInitialized env hk (AdvanceTime.prepared env p e rotv t) wfP t
  rw [hb4] at h1
  have hframe : Frame (AdvanceTime.prepared env p e rotv t) p4 := by
    have := EvolveBubble_frame env (AdvanceTime.prepared env p e rotv t) t
    rw [hb4] at this
    exact this
  have wf4 := hframe.wellFormed wfP
  have h2 : StaysInitialized p4 (AdvanceTime.loop env t p4 p4.vessels_) := by
    rw [AdvanceTime_loop_eq]
    exact call_on_vessels_staysInitialized _ _
      (fun e v hi => hk.Vessel_AdvanceTimeNotInBubble e v t hi) _ _ wf4
  have h3 : StaysInitialized (AdvanceTime.prepared env p e rotv t)
      (AdvanceTime.finished env p4 t rot) :=
    h1.followed (h2.followed (staysInitialized_of_vessels rfl))
  have hkeys : map.keys (AdvanceTime.finished env p4 t rot).vessels_
      = map.keys p.FreeVessels.vessels_ :=
    keys_eq_of_registry (AdvanceTime_registry env p _ t rot h).1
  have hmem : g ∈ map.keys p.FreeVessels.vessels_ := by
    rw [← hkeys]
    have := (map.find?_eq_some_iff _ _ _
      (by rw [hkeys]; exact wfF.guids_nodup)).1 hq
    exact List.mem_map.2 ⟨(g, v'), this, rfl⟩
  obtain ⟨⟨g', w⟩, hw, hg'⟩ := List.mem_map.1 hmem
  simp only at hg'
  subst hg'
  have hw' := ((FreeVessels_mem_iff p wf g' w).1 hw).1
  have hwv : w = v := by
    have := (map.find?_eq_some_iff _ _ _ wf.guids_nodup).2 hw'
    rw [hv] at this
    exact (Option.some.inj this).symm
  subst hwv
  obtain ⟨v'', hv'', hi''⟩ := h3 g' w
    ((map.find?_eq_some_iff _ _ _ wfF.guids_nodup).2 hw) hi
  rw [hq] at hv''
  cases hv''
  exact hi''

/-- Once the initialization has ended, an operation that returns leaves
initialized the initialized vessels that it leaves registered, when the member
functions of `Vessel` keep a vessel initialized. -/
theorem step_keeps_initialized (env : Environment) (hk : KeepsInitialized env)
    (p q : Plugin) (operation : Operation) (wf : p.WellFormed)
    (hp : p.initializing_ = false) (h : p.step env operation = .returns () q)
    (g : GUID) (v v' : Vessel) (hv : map.find? p.vessels_ g = some v)
    (hi : v.is_initialized = true) (hq : map.find? q.vessels_ g = some v') :
    v'.is_initialized = true := by
  have same : ∀ {o : Outcome Plugin Unit}, o = .returns () q → StaysInitialized p o.state →
      v'.is_initialized = true := by
    intro o ho hs
    rw [ho] at hs
    obtain ⟨v'', hv'', hi''⟩ := hs g v hv hi
    have hv3 : map.find? q.vessels_ g = some v'' := hv''
    rw [hq] at hv3
    cases hv3
    exact hi''
  cases operation with
  | InsertCelestialAbsoluteCartesian celestial_index parent_index initial_state body storage =>
    rw [show p.step env (.InsertCelestialAbsoluteCartesian celestial_index parent_index
        initial_state body storage) = _ from
      InsertCelestialAbsoluteCartesian_steady p _ _ _ _ _ hp] at h
    cases h
  | InsertCelestialJacobiKeplerian celestial_index parent_index keplerian_elements body =>
    rw [show p.step env (.InsertCelestialJacobiKeplerian celestial_index parent_index
        keplerian_elements body) = _ from
      InsertCelestialJacobiKeplerian_steady env p _ _ _ _ hp] at h
    cases h
  | EndInitialization storage =>
    rw [show p.step env (.EndInitialization storage) = _ from
      EndInitialization_steady env p _ hp] at h
    cases h
  | HasEncounteredApocalypse details =>
    refine same h ?_
    show StaysInitialized p (p.HasEncounteredApocalypse details).discard.state
    rw [discard_state]
    apply staysInitialized_of_vessels
    unfold HasEncounteredApocalypse
    repeat' split
    all_goals first
      | rfl
      | (dsimp only; split <;> rfl)
  | UpdateCelestialHierarchy celestial_index parent_index =>
    refine same h (staysInitialized_of_vessels ?_)
    show (p.UpdateCelestialHierarchy celestial_index parent_index).state.vessels_ = _
    unfold UpdateCelestialHierarchy
    repeat' split
    all_goals rfl
  | SetMainBody index =>
    refine same h (staysInitialized_of_vessels ?_)
    show (p.SetMainBody index).state.vessels_ = _
    unfold SetMainBody
    repeat' split
    all_goals rfl
  | InsertOrKeepVessel vessel_guid parent_index storage =>
    refine same h ?_
    show StaysInitialized p (p.InsertOrKeepVessel vessel_guid parent_index storage).discard.state
    rw [discard_state]
    exact InsertOrKeepVessel_staysInitialized p _ _ _
  | SetVesselStateOffset vessel_guid from_parent =>
    exact same h (SetVesselStateOffset_staysInitialized env p _ _)
  | AdvanceTime t planetarium_rotation =>
    exact AdvanceTime_keeps_initialized env hk p q wf t _ h g v v' hv hi hq
  | ForgetAllHistoriesBefore t =>
    exact same h (ForgetAllHistoriesBefore_staysInitialized env hk p wf _)
  | UpdatePrediction vessel_guid =>
    exact same h (UpdatePrediction_staysInitialized env hk p wf _)
  | CreateFlightPlan vessel_guid final_time initial_mass =>
    exact same h (CreateFlightPlan_staysInitialized env hk p wf _ _ _)
  | SetPredictionLength t =>
    cases h
    rw [show (p.SetPredictionLength t).vessels_ = p.vessels_ from rfl, hv] at hq
    cases hq
    exact hi
  | SetPredictionAdaptiveStepParameters prediction_adaptive_step_parameters =>
    cases h
    obtain ⟨v'', hv'', hi''⟩ :=
      SetPredictionAdaptiveStepParameters_staysInitialized p
        prediction_adaptive_step_parameters g v hv hi
    rw [hq] at hv''
    cases hv''
    exact hi''
  | SetPlottingFrame plotting_frame =>
    cases h
    rw [show (p.SetPlottingFrame plotting_frame).vessels_ = p.vessels_ from rfl, hv] at hq
    cases hq
    exact hi
  | AddVesselToNextPhysicsBubble vessel_guid parts =>
    refine same h (staysInitialized_of_vessels ?_)
    show (p.AddVesselToNextPhysicsBubble env vessel_guid parts).state.vessels_ = _
    unfold AddVesselToNextPhysicsBubble
    repeat' split
    all_goals rfl
  | CelestialFromParent celestial_index =>
    refine same h ?_
    show StaysInitialized p (p.CelestialFromParent env celestial_index).discard.state
    rw [discard_state]
    apply staysInitialized_of_vessels
    unfold CelestialFromParent
    dsimp only
    repeat' split
    all_goals rfl
  | WriteToMessage =>
    refine same h ?_
    show StaysInitialized p p.WriteToMessage.discard.state
    rw [discard_state]
    apply staysInitialized_of_vessels
    unfold WriteToMessage
    dsimp only
    repeat' split
    all_goals rfl

/-- Along a sequence of operations on an initialized plugin, a vessel that is
initialized and stays registered stays initialized, when the member functions of
`Vessel` keep a vessel initialized and the vessels are allocated fresh
storage. -/
theorem run_keeps_initialized (env : Environment) (hk : KeepsInitialized env)
    (operations : List Operation) (p r : Plugin) (wf : p.WellFormed)
    (hp : p.initializing_ = false) (hfresh : p.fresh_run env operations)
    (h : p.run env operations = .returns () r) (g : GUID)
    (hreg : ∀ k, k ≤ operations.length →
      (p.run env (operations.take k)).state.HasVessel g = true)
    (v : Vessel) (hv : map.find? p.vessels_ g = some v) (hi : v.is_initialized = true) :
    ∃ v', map.find? r.vessels_ g = some v' ∧ v'.is_initialized = true := by
  induction operations generalizing p v with
  | nil =>
    cases h
    exact ⟨v, hv, hi⟩
  | cons operation rest ih =>
    rw [run] at h
    obtain ⟨hf₀, hf⟩ := hfresh
    cases hs : p.step env operation with
    | fatal s => rw [hs] at h; cases h
    | returns u p1 =>
      rw [hs] at h hf
      have hrun1 : p.run env [operation] = .returns () p1 := by
        rw [run, hs]
        rfl
      have wf1 : p1.WellFormed :=
        run_wellFormed env [operation] p p1 wf ⟨hf₀, by rw [hs]; trivial⟩ hrun1
      have hp1 := (step_steady env p p1 operation hp hs).1
      have h1 := hreg 1 (by simp)
      rw [List.take_succ_cons, List.take_zero, hrun1] at h1
      obtain ⟨v1, hv1⟩ := Option.isSome_iff_exists.1 h1
      have hv1' : map.find? p1.vessels_ g = some v1 := hv1
      have hi1 := step_keeps_initialized env hk p p1 operation wf hp hs g v v1 hv hi hv1'
      refine ih p1 wf1 hp1 hf h ?_ v1 hv1' hi1
      intro k hk'
      have := hreg (k + 1) (by simpa using hk')
      rw [List.take_succ_cons, run, hs] at this
      exact this

end Plugin

/-- C15 (`SetVesselStateOffset` may be called only once per vessel).  (1) The
call aborts, in the state in which it was made, when the vessel registered under
the GUID is already initialized.  (2) A call that returns leaves the vessel
initialized, so that a second call for the same GUID, whatever the offset,
aborts.  (3) So does a second call made after any sequence of operations along
which the vessel has not been removed (the GUID is registered after each of
them): the vessel is still initialized, when the member functions of `Vessel`
keep a vessel initialized and the vessels inserted are allocated fresh storage,
the vessel tables being well formed to begin with. -/
theorem C15_SetVesselStateOffset_once (env : Environment) (p : Plugin) (vessel_guid : GUID) :
    (∀ vessel from_parent,
      map.find? p.vessels_ vessel_guid = some vessel → vessel.is_initialized = true →
      p.SetVesselStateOffset env vessel_guid from_parent = .fatal p) ∧
    (∀ from_parent q,
      p.SetVesselStateOffset env vessel_guid from_parent = .returns () q →
      (∃ vessel, map.find? q.vessels_ vessel_guid = some vessel ∧
        vessel.is_initialized = true) ∧
      ∀ from_parent', q.SetVesselStateOffset env vessel_guid from_parent' = .fatal q) ∧
    (∀ from_parent q operations r,
      p.WellFormed → Plugin.KeepsInitialized env →
      p.SetVesselStateOffset env vessel_guid from_parent = .returns () q →
      q.fresh_run env operations →
      q.run env operations = .returns () r →
      (∀ k, k ≤ operations.length →
        (q.run env (operations.take k)).state.HasVessel vessel_guid = true) →
      (∃ vessel, map.find? r.vessels_ vessel_guid = some vessel ∧
        vessel.is_initialized = true) ∧
      ∀ from_parent', r.SetVesselStateOffset env vessel_guid from_parent' = .fatal r) := by
  refine ⟨fun vessel from_parent hv hn =>
    Plugin.SetVesselStateOffset_initialized env p vessel_guid from_parent vessel hv hn, ?_, ?_⟩
  · intro from_parent q h
    obtain ⟨vessel, planetarium_rotation, ephemeris, parent, _, _, _, _, _, _, _, _, _, hq⟩ :=
      Plugin.SetVesselStateOffset_vessel env p q vessel_guid from_parent h
    exact ⟨⟨_, hq, rfl⟩, fun from_parent' =>
      Plugin.SetVesselStateOffset_initialized env q vessel_guid from_parent' _ hq rfl⟩
  · intro from_parent q operations r wf hk h hfresh hrun hreg
    obtain ⟨vessel, planetarium_rotation, ephemeris, parent, _, _, _, _, hqi, _, _, _, _, hq⟩ :=
      Plugin.SetVesselStateOffset_vessel env p q vessel_guid from_parent h
    have wfq : q.WellFormed := by
      have hs : p.step env (.SetVesselStateOffset vessel_guid from_parent) = .returns () q := h
      exact Plugin.run_wellFormed env [.SetVesselStateOffset vessel_guid from_parent] p q wf
        ⟨trivial, by rw [hs]; trivial⟩ (by rw [Plugin.run, hs]; rfl)
    obtain ⟨v', hv', hi'⟩ := Plugin.run_keeps_initialized env hk operations q r wfq hqi hfresh
      hrun vessel_guid hreg _ hq rfl
    exact ⟨⟨v', hv', hi'⟩, fun from_parent' =>
      Plugin.SetVesselStateOffset_initialized env r vessel_guid from_parent' v' hv' hi'⟩

theorem test_environment_keepsInitialized :
    Plugin.KeepsInitialized Plugin.test_environment :=
  ⟨fun _ _ _ h => h, fun _ _ _ _ h => h, fun _ _ _ h => h, fun _ _ _ h => h,
    fun _ _ _ _ _ h => h⟩

/-- C15, on the example, whose vessels have not been given a state: the first
`SetVesselStateOffset` for `"a"` returns, the second aborts; and so does one
made after the time has then been advanced and the prediction of `"a"`
updated. -/
theorem C15_SetVesselStateOffset_once_witness :
    (Plugin.test_plugin.SetVesselStateOffset Plugin.test_environment "a"
      ((1, 0, 0), (0, 1, 0))).is_fatal = false ∧
    (Plugin.test_plugin.SetVesselStateOffset Plugin.test_environment "a"
        ((1, 0, 0), (0, 1, 0))).state.SetVesselStateOffset Plugin.test_environment "a"
        ((2, 0, 0), (0, 1, 0))
      = .fatal (Plugin.test_plugin.SetVesselStateOffset Plugin.test_environment "a"
          ((1, 0, 0), (0, 1, 0))).state ∧
    ∃ r, (Plugin.test_plugin.SetVesselStateOffset Plugin.test_environment "a"
        ((1, 0, 0), (0, 1, 0))).state.run Plugin.test_environment
        [.AdvanceTime 1 0, .UpdatePrediction "a"] = .returns () r ∧
      r.SetVesselStateOffset Plugin.test_environment "a" ((2, 0, 0), (0, 1, 0)) = .fatal r :=
  ⟨rfl, ((C15_SetVesselStateOffset_once Plugin.test_environment Plugin.test_plugin "a").2.1
    ((1, 0, 0), (0, 1, 0)) _ rfl).2 ((2, 0, 0), (0, 1, 0)),
    _, rfl,
    ((C15_SetVesselStateOffset_once Plugin.test_environment Plugin.test_plugin "a").2.2
      ((1, 0, 0), (0, 1, 0)) _ [.AdvanceTime 1 0, .UpdatePrediction "a"] _
      test_plugin_wellFormed test_environment_keepsInitialized rfl
      ⟨trivial, trivial, trivial⟩ rfl
      (fun k hk =>
        match k, hk with
        | 0, _ => rfl
        | 1, _ => rfl
        | 2, _ => rfl)).2 ((2, 0, 0), (0, 1, 0))⟩

/-- C17 (set/get round trip of the state of a vessel).  Provided the planetarium
rotation undoes its inverse, (1) right after a `SetVesselStateOffset(guid, x)`
that returned, `VesselFromParent(guid)` returns `x`; (2) the call
`SetVesselStateOffset(guid, x)` does return when the plugin is initialized, the
vessel is registered and has not been given a state, and its parent is a
registered celestial. -/
theorem C17_state_offset_round_trip (env : Environment) (p : Plugin) (vessel_guid : GUID)
    (x : RelativeDegreesOfFreedom)
    (hrot : ∀ rotation y, env.rotate rotation (env.rotate_inverse rotation y) = y) :
    (∀ q, p.SetVesselStateOffset env vessel_guid x = .returns () q →
      q.VesselFromParent env vessel_guid = .returns x q) ∧
    (∀ vessel, p.Initialized → map.find? p.vessels_ vessel_guid = some vessel →
      vessel.is_initialized = false → (p.celestial_at vessel.parent).isSome = true →
      ∃ q, p.SetVesselStateOffset env vessel_guid x = .returns () q) := by
  constructor
  · intro q h
    obtain ⟨vessel, planetarium_rotation, ephemeris, parent, _, _, _, _, hqi, hqr, hqe, hqc,
      hqt, hqv⟩ := Plugin.SetVesselStateOffset_vessel env p q vessel_guid x h
    have hqc' : q.celestial_at
        (vessel.CreateHistoryAndForkProlongation p.current_time_
          (env.current_degrees_of_freedom (ephemeris.Prolong p.current_time_) parent.body
            p.current_time_ + env.rotate_inverse planetarium_rotation x)).parent
          = some parent := hqc
    have hinit : (vessel.CreateHistoryAndForkProlongation p.current_time_
        (env.current_degrees_of_freedom (ephemeris.Prolong p.current_time_) parent.body
          p.current_time_ + env.rotate_inverse planetarium_rotation x)).is_initialized
          = true := rfl
    have hlast : (vessel.CreateHistoryAndForkProlongation p.current_time_
        (env.current_degrees_of_freedom (ephemeris.Prolong p.current_time_) parent.body
          p.current_time_ + env.rotate_inverse planetarium_rotation x)).prolongation.bind
          physics.last
        = some (p.current_time_,
            env.current_degrees_of_freedom (ephemeris.Prolong p.current_time_) parent.body
              p.current_time_ + env.rotate_inverse planetarium_rotation x) := rfl
    unfold Plugin.VesselFromParent
    rw [if_neg (by rw [hqi]; decide)]
    simp only [hqv, hinit, Bool.not_true, Bool.false_eq_true, if_false, hlast, hqe, hqc', hqr,
      hqt, add_sub_cancel_left, hrot]
  · intro vessel hp hv hn hc
    obtain ⟨hi, he, hm⟩ := hp
    cases hc' : p.celestial_at vessel.parent with
    | none => rw [hc'] at hc; cases hc
    | some parent =>
      cases he' : p.ephemeris_ with
      | none => rw [he'] at he; cases he
      | some ephemeris =>
        cases hr : p.PlanetariumRotation with
        | none =>
          exfalso
          unfold Plugin.PlanetariumRotation at hr
          cases hpc : p.is_pre_cardano_ with
          | true => simp [hpc] at hr
          | false =>
            have := hm hpc
            cases hmb : p.main_body_ with
            | none => rw [hmb] at this; cases this
            | some b => simp [hpc, hmb] at hr
        | some planetarium_rotation =>
          exact ⟨_, Plugin.SetVesselStateOffset_run env p vessel_guid x vessel
            planetarium_rotation ephemeris parent hi hv hn hr he' hc'⟩

/-- C17, on the example, with a planetarium rotation that is a quarter turn and
a parent that moves: after `SetVesselStateOffset("a", x)`, the state of `"a"`
relative to its parent is `x`. -/
theorem C17_state_offset_round_trip_witness :
    (Plugin.test_plugin.SetVesselStateOffset Plugin.test_environment_rotating "a"
        ((1, 2, 3), (4, 5, 6))).state.VesselFromParent Plugin.test_environment_rotating "a"
      = .returns ((1, 2, 3), (4, 5, 6))
          (Plugin.test_plugin.SetVesselStateOffset Plugin.test_environment_rotating "a"
            ((1, 2, 3), (4, 5, 6))).state :=
  (C17_state_offset_round_trip Plugin.test_environment_rotating Plugin.test_plugin "a"
    ((1, 2, 3), (4, 5, 6))
    (fun _ y => by simp [Plugin.test_environment_rotating])).1 _ rfl

/-! ## Queries on a vessel without a state -/

/-- C16 (querying an uninitialized vessel is fatal).  For a vessel that is
registered under the GUID and was not given an initial state
(`is_initialized()` is false), `VesselFromParent`, `RenderedVesselTrajectory`,
`RenderedPrediction`, `VesselVelocity` and `UpdatePrediction` abort, in the state
in which they were called, instead of returning a value. -/
theorem C16_uninitialized_vessel (env : Environment) (p : Plugin) (vessel_guid : GUID)
    (vessel : Vessel) (hv : map.find? p.vessels_ vessel_guid = some vessel)
    (hn : vessel.is_initialized = false) :
    p.VesselFromParent env vessel_guid = .fatal p ∧
    (∀ sun_world_position,
      p.RenderedVesselTrajectory env vessel_guid sun_world_position = .fatal p) ∧
    (∀ sun_world_position,
      p.RenderedPrediction env vessel_guid sun_world_position = .fatal p) ∧
    p.VesselVelocity env vessel_guid = .fatal p ∧
    p.UpdatePrediction env vessel_guid = .fatal p := by
  have hprediction : vessel.prediction = none := by
    simp [Vessel.prediction, hn]
  have hprolongation : vessel.prolongation = none := by
    simp [Vessel.prolongation, hn]
  refine ⟨?_, fun sun_world_position => ?_, fun sun_world_position => ?_, ?_, ?_⟩
  · unfold Plugin.VesselFromParent
    simp only [hv, hn, Bool.not_false, if_true]
    split <;> rfl
  · unfold Plugin.RenderedVesselTrajectory
    simp only [hv, hn, Bool.not_false, if_true]
    split <;> rfl
  · unfold Plugin.RenderedPrediction
    simp only [hv, hprediction]
    split <;> rfl
  · unfold Plugin.VesselVelocity
    simp only [hv, hprolongation, Option.none_bind]
  · unfold Plugin.UpdatePrediction
    simp only [hv, Vessel.UpdatePrediction.precondition, hn, Bool.not_false, if_true]
    split <;> rfl

/-- C16, on the example, whose vessel `"a"` has not been given a state. -/
theorem C16_uninitialized_vessel_witness :
    Plugin.test_plugin.VesselFromParent Plugin.test_environment "a"
      = .fatal Plugin.test_plugin ∧
    Plugin.test_plugin.RenderedVesselTrajectory Plugin.test_environment "a" (0, 0, 0)
      = .fatal Plugin.test_plugin ∧
    Plugin.test_plugin.RenderedPrediction Plugin.test_environment "a" (0, 0, 0)
      = .fatal Plugin.test_plugin ∧
    Plugin.test_plugin.VesselVelocity Plugin.test_environment "a"
      = .fatal Plugin.test_plugin ∧
    Plugin.test_plugin.UpdatePrediction Plugin.test_environment "a"
      = .fatal Plugin.test_plugin :=
  have h := C16_uninitialized_vessel Plugin.test_environment Plugin.test_plugin "a"
    (Plugin.test_vessel 1) rfl rfl
  ⟨h.1, h.2.1 (0, 0, 0), h.2.2.1 (0, 0, 0), h.2.2.2.1, h.2.2.2.2⟩

/-! ## Serialization -/

namespace Plugin

/-- The addresses of the celestials, in the order of `celestials_`. -/
theorem addresses_modify (m : List (Index × Celestial)) (index : Index)
    (f : Celestial → Celestial) (hf : ∀ c, (f c).address = c.address) :
    (map.modify m index f).map (fun ic => ic.2.address) = m.map (fun ic => ic.2.address) := by
  induction m with
  | nil => rfl
  | cons ic m ih =>
    obtain ⟨i, c⟩ := ic
    rw [map.modify_cons]
    by_cases e : i = index <;> simp [e, ih, hf]

theorem restore_fields (vessels : List (GUID × Vessel)) (celestials : List (Index × Celestial))
    (bubble : PhysicsBubble) (ephemeris : Option Ephemeris)
    (history_parameters : FixedStepParameters)
    (prolongation_parameters prediction_parameters : AdaptiveStepParameters)
    (planetarium_rotation : Angle) (game_epoch current_time : Instant) (sun_index : Index)
    (is_pre_cardano : Bool) (p : Plugin)
    (h : restore vessels celestials bubble ephemeris history_parameters
      prolongation_parameters prediction_parameters planetarium_rotation game_epoch
      current_time sun_index is_pre_cardano = some p) :
    p.celestials_ = celestials ∧ p.history_parameters_ = history_parameters ∧
      p.prolongation_parameters_ = prolongation_parameters ∧
      p.prediction_parameters_ = prediction_parameters ∧
      p.game_epoch_ = game_epoch ∧ p.current_time_ = current_time ∧
      p.is_pre_cardano_ = is_pre_cardano ∧ p.initializing_ = false ∧
      ∃ sun, map.find? celestials sun_index = some sun ∧ p.sun_ = some sun.address := by
  unfold restore at h
  cases hs : map.find? celestials sun_index with
  | none => simp [hs] at h
  | some sun =>
    simp only [hs] at h
    split at h
    · cases h
      exact ⟨rfl, rfl, rfl, rfl, rfl, rfl, rfl, rfl, sun, rfl, rfl⟩
    · split at h
      · cases h
      · split at h
        · cases h
          exact ⟨rfl, rfl, rfl, rfl, rfl, rfl, rfl, rfl, sun, rfl, rfl⟩
        · cases h

/-- What `ReadFromMessage` did when it returns a plugin: it read the celestials
with `ReadCelestialsFromMessages`, built the plugin with the private constructor
and set its plotting frame. -/
theorem ReadFromMessage_inv (env : Environment) (message : serialization.Plugin)
    (celestial_storage vessel_storage : Nat → Address) (p : Plugin)
    (h : ReadFromMessage env message celestial_storage vessel_storage = some p) :
    ∃ ephemeris celestial_messages celestials vessels bubble plugin plotting_frame,
      ReadCelestialsFromMessages ephemeris celestial_messages celestial_storage []
        = some celestials ∧
      restore vessels celestials bubble (some ephemeris)
        (if !(message.history_parameters.isSome && message.prolongation_parameters.isSome &&
              message.prediction_parameters.isSome) then env.DefaultHistoryParameters
          else message.history_parameters.getD env.DefaultHistoryParameters)
        (if !(message.history_parameters.isSome && message.prolongation_parameters.isSome &&
              message.prediction_parameters.isSome) then env.DefaultProlongationParameters
          else message.prolongation_parameters.getD env.DefaultProlongationParameters)
        (if !(message.history_parameters.isSome && message.prolongation_parameters.isSome &&
              message.prediction_parameters.isSome) then env.DefaultPredictionParameters
          else message.prediction_parameters.getD env.DefaultPredictionParameters)
        message.planetarium_rotation
        (if !message.game_epoch.isSome then astronomy.J2000
          else message.game_epoch.getD astronomy.J2000)
        message.current_time message.sun_index (!message.game_epoch.isSome) = some plugin ∧
      p = plugin.SetPlottingFrame plotting_frame := by
  unfold ReadFromMessage at h
  dsimp only at h
  split at h
  · cases h
  · rename_i ephemeris _
    split at h
    · cases h
    · rename_i celestials hc
      split at h
      · cases h
      · rename_i vessels _
        split at h
        · cases h
        · rename_i bubble _
          split at h
          · cases h
          · rename_i plugin hr
            have hc' : ∃ celestial_messages,
                ReadCelestialsFromMessages ephemeris celestial_messages celestial_storage []
                  = some celestials := by
              split at hc
              · exact ⟨_, hc⟩
              · exact ⟨_, hc⟩
            obtain ⟨celestial_messages, hc'⟩ := hc'
            split at h
            · cases hf : plugin.NewBodyCentredNonRotatingNavigationFrame message.sun_index with
              | none => rw [hf] at h; cases h
              | some plotting_frame =>
                rw [hf] at h
                cases h
                exact ⟨ephemeris, celestial_messages, celestials, vessels, bubble, plugin,
                  plotting_frame, hc', hr, rfl⟩
            · rename_i plotting_frame _
              cases h
              exact ⟨ephemeris, celestial_messages, celestials, vessels, bubble, plugin,
                plotting_frame, hc', hr, rfl⟩

/-- The scalar members of the plugin that `ReadFromMessage` returns. -/
theorem ReadFromMessage_fields (env : Environment) (message : serialization.Plugin)
    (celestial_storage vessel_storage : Nat → Address) (p : Plugin)
    (h : ReadFromMessage env message celestial_storage vessel_storage = some p) :
    p.history_parameters_
        = (if !(message.history_parameters.isSome && message.prolongation_parameters.isSome &&
              message.prediction_parameters.isSome) then env.DefaultHistoryParameters
          else message.history_parameters.getD env.DefaultHistoryParameters) ∧
      p.prolongation_parameters_
        = (if !(message.history_parameters.isSome && message.prolongation_parameters.isSome &&
              message.prediction_parameters.isSome) then env.DefaultProlongationParameters
          else message.prolongation_parameters.getD env.DefaultProlongationParameters) ∧
      p.prediction_parameters_
        = (if !(message.history_parameters.isSome && message.prolongation_parameters.isSome &&
              message.prediction_parameters.isSome) then env.DefaultPredictionParameters
          else message.prediction_parameters.getD env.DefaultPredictionParameters) ∧
      p.game_epoch_
        = (if !message.game_epoch.isSome then astronomy.J2000
          else message.game_epoch.getD astronomy.J2000) ∧
      p.current_time_ = message.current_time ∧
      p.is_pre_cardano_ = !message.game_epoch.isSome ∧ p.initializing_ = false ∧
      (∃ sun, map.find? p.celestials_ message.sun_index = some sun ∧
        p.sun_ = some sun.address) ∧
      ∃ ephemeris celestial_messages,
        ReadCelestialsFromMessages ephemeris celestial_messages celestial_storage []
          = some p.celestials_ := by
  obtain ⟨ephemeris, celestial_messages, celestials, vessels, bubble, plugin, plotting_frame,
    hc, hr, rfl⟩ := ReadFromMessage_inv env message celestial_storage vessel_storage p h
  obtain ⟨h1, h2, h3, h4, h5, h6, h7, h8, h9⟩ := restore_fields _ _ _ _ _ _ _ _ _ _ _ _ _ hr
  refine ⟨h2, h3, h4, h5, h6, h7, h8, ?_, ephemeris, celestial_messages, ?_⟩
  · show ∃ sun, map.find? plugin.celestials_ message.sun_index = some sun ∧
      plugin.sun_ = some sun.address
    rw [h1]
    exact h9
  · show _ = some plugin.celestials_
    rw [h1]
    exact hc

end Plugin

/-- C18 (older-schema read, game epoch).  Let `ReadFromMessage` return a plugin.
(1) When the message lacks the field `game_epoch`, `GameEpoch()` is `J2000` and
the plugin is marked as predating Cardano: `MustRotateBodies()` is false.
(2) When the message has the field, `GameEpoch()` is the instant stored and
`MustRotateBodies()` is true. -/
theorem C18_game_epoch_default (env : Environment) (message : serialization.Plugin)
    (celestial_storage vessel_storage : Nat → Address) (p : Plugin)
    (h : Plugin.ReadFromMessage env message celestial_storage vessel_storage = some p) :
    (message.game_epoch = none →
      p.GameEpoch = astronomy.J2000 ∧ p.MustRotateBodies = false) ∧
    (∀ game_epoch, message.game_epoch = some game_epoch →
      p.GameEpoch = game_epoch ∧ p.MustRotateBodies = true) := by
  obtain ⟨_, _, _, hg, _, hc, _⟩ :=
    Plugin.ReadFromMessage_fields env message celestial_storage vessel_storage p h
  constructor
  · intro hm
    rw [hm] at hg hc
    exact ⟨hg, by simp [Plugin.MustRotateBodies, hc]⟩
  · intro game_epoch hm
    rw [hm] at hg hc
    exact ⟨hg, by simp [Plugin.MustRotateBodies, hc]⟩

/-- C18, on the example message, whose game epoch is 5, and on the same message
without the field. -/
theorem C18_game_epoch_default_witness :
    (∃ p, Plugin.ReadFromMessage Plugin.test_environment
        { Plugin.test_message with game_epoch := none } (fun i => 10 + i) (fun i => 1 + i)
          = some p ∧
      p.GameEpoch = astronomy.J2000 ∧ p.MustRotateBodies = false) ∧
    (∃ p, Plugin.ReadFromMessage Plugin.test_environment Plugin.test_message
        (fun i => 10 + i) (fun i => 1 + i) = some p ∧
      p.GameEpoch = 5 ∧ p.MustRotateBodies = true) :=
  ⟨⟨_, rfl, (C18_game_epoch_default Plugin.test_environment
      { Plugin.test_message with game_epoch := none } (fun i => 10 + i) (fun i => 1 + i) _
      rfl).1 rfl⟩,
    ⟨_, rfl, (C18_game_epoch_default Plugin.test_environment Plugin.test_message
      (fun i => 10 + i) (fun i => 1 + i) _ rfl).2 5 rfl⟩⟩

/-- C19 does not hold as stated: the example message without its prolongation
parameters still has the field `history_parameters`, with a step of 7, yet the
plugin read from it has the history parameters of `DefaultHistoryParameters()`
(a step of 10 for the example collaborators), not those stored. -/
theorem C19_parameters_counterexample :
    ({ Plugin.test_message with prolongation_parameters := none }
        : serialization.Plugin).history_parameters = some ⟨7⟩ ∧
    (Plugin.ReadFromMessage Plugin.test_environment
        { Plugin.test_message with prolongation_parameters := none }
        (fun i => 10 + i) (fun i => 1 + i)).map (fun p => p.history_parameters_)
      = some Plugin.test_environment.DefaultHistoryParameters ∧
    Plugin.test_environment.DefaultHistoryParameters ≠ ⟨7⟩ := by
  refine ⟨rfl, rfl, by decide⟩

/-- C19, as the code has it.  Let `ReadFromMessage` return a plugin.  (1) When
the message has the three fields `history_parameters`,
`prolongation_parameters` and `prediction_parameters`, the plugin has the
parameters stored in them.  (2) When any one of the three is missing, the plugin
has `DefaultHistoryParameters()`, `DefaultProlongationParameters()` and
`DefaultPredictionParameters()`, whatever the fields that are present hold. -/
theorem C19_parameters_all_or_default (env : Environment) (message : serialization.Plugin)
    (celestial_storage vessel_storage : Nat → Address) (p : Plugin)
    (h : Plugin.ReadFromMessage env message celestial_storage vessel_storage = some p) :
    (∀ history_parameters prolongation_parameters prediction_parameters,
      message.history_parameters = some history_parameters →
      message.prolongation_parameters = some prolongation_parameters →
      message.prediction_parameters = some prediction_parameters →
      p.history_parameters_ = history_parameters ∧
      p.prolongation_parameters_ = prolongation_parameters ∧
      p.prediction_parameters_ = prediction_parameters) ∧
    (message.history_parameters = none ∨ message.prolongation_parameters = none ∨
        message.prediction_parameters = none →
      p.history_parameters_ = env.DefaultHistoryParameters ∧
      p.prolongation_parameters_ = env.DefaultProlongationParameters ∧
      p.prediction_parameters_ = env.DefaultPredictionParameters) := by
  obtain ⟨h1, h2, h3, _⟩ :=
    Plugin.ReadFromMessage_fields env message celestial_storage vessel_storage p h
  constructor
  · intro a b c ha hb hc
    rw [ha, hb, hc] at h1 h2 h3
    exact ⟨h1, h2, h3⟩
  · intro hm
    have hpre : (!(message.history_parameters.isSome &&
        message.prolongation_parameters.isSome && message.prediction_parameters.isSome))
        = true := by
      rcases hm with hm | hm | hm <;> rw [hm] <;> simp
    rw [hpre] at h1 h2 h3
    exact ⟨h1, h2, h3⟩

/-- C19 as the code has it, on the example message (all three fields) and on
the same message without its prolongation parameters. -/
theorem C19_parameters_all_or_default_witness :
    (∃ p, Plugin.ReadFromMessage Plugin.test_environment Plugin.test_message
        (fun i => 10 + i) (fun i => 1 + i) = some p ∧
      p.history_parameters_ = ⟨7⟩ ∧ p.prolongation_parameters_ = ⟨500, 2, 2⟩ ∧
      p.prediction_parameters_ = ⟨600, 3, 3⟩) ∧
    (∃ p, Plugin.ReadFromMessage Plugin.test_environment
        { Plugin.test_message with prolongation_parameters := none }
        (fun i => 10 + i) (fun i => 1 + i) = some p ∧
      p.history_parameters_ = Plugin.test_environment.DefaultHistoryParameters ∧
      p.prolongation_parameters_ = Plugin.test_environment.DefaultProlongationParameters ∧
      p.prediction_parameters_ = Plugin.test_environment.DefaultPredictionParameters) :=
  ⟨⟨_, rfl, (C19_parameters_all_or_default Plugin.test_environment Plugin.test_message
      (fun i => 10 + i) (fun i => 1 + i) _ rfl).1 _ _ _ rfl rfl rfl⟩,
    ⟨_, rfl, (C19_parameters_all_or_default Plugin.test_environment
      { Plugin.test_message with prolongation_parameters := none }
      (fun i => 10 + i) (fun i => 1 + i) _ rfl).2 (Or.inr (Or.inl rfl))⟩⟩

/-! ## The round trip through a message -/

namespace Plugin

/-- In `celestial_to_index` (and in `vessel_to_guid`), built by `emplace`, an
address is mapped to the key of the first entry that holds it. -/
theorem find?_foldl_emplace {κ ν : Type} [DecidableEq κ] [LT κ]
    [DecidableRel (fun a b : κ => a < b)] (address : ν → Address) (l : List (κ × ν))
    (m : List (Address × κ)) (a : Address) :
    map.find? (l.foldl (fun m kv => (map.emplace m (address kv.2) kv.1).1) m) a
      = match map.find? m a with
        | some k => some k
        | none => (l.find? (fun kv => decide (address kv.2 = a))).map Prod.fst := by
  induction l generalizing m with
  | nil =>
    rw [List.foldl_nil]
    cases map.find? m a <;> rfl
  | cons kv l ih =>
    obtain ⟨k, v⟩ := kv
    rw [List.foldl_cons, ih]
    cases hv : map.find? m (address v) with
    | some k' =>
      rw [emplace_present _ _ _ _ hv]
      cases ha : map.find? m a with
      | some k'' => rfl
      | none =>
        have hne : address v ≠ a := by
          intro e
          rw [e, ha] at hv
          cases hv
        simp [List.find?_cons, hne]
    | none =>
      rw [emplace_absent _ _ _ hv]
      dsimp only
      rw [map.find?_insert_ordered _ _ _ _ hv]
      by_cases e : a = address v
      · subst e
        simp [hv, List.find?_cons]
      · have e' : ¬ address v = a := fun h => e h.symm
        simp only [e, if_false]
        cases ha : map.find? m a with
        | some k'' => rfl
        | none => simp [List.find?_cons, e']

/-- When distinct entries hold distinct celestials, `celestial_to_index` maps
the address of the celestial stored under an index to that index. -/
theorem celestial_to_index_find (celestials : List (Index × Celestial))
    (ha : (celestials.map (fun ic => ic.2.address)).Nodup) (index : Index) (c : Celestial)
    (h : map.find? celestials index = some c) :
    map.find? (WriteToMessage.celestial_to_index celestials) c.address = some index := by
  unfold WriteToMessage.celestial_to_index
  rw [find?_foldl_emplace (fun c : Celestial => c.address)]
  have hmem : (index, c) ∈ celestials := map.find?_mem _ _ _ h
  simp only [map.find?]
  cases hf : celestials.find? (fun kv => decide (kv.2.address = c.address)) with
  | none =>
    have := List.find?_eq_none.1 hf (index, c) hmem
    simp at this
  | some kv =>
    have hkv : kv ∈ celestials := List.mem_of_find?_eq_some hf
    have hp : kv.2.address = c.address := by
      have := List.find?_some hf
      simpa using this
    have : kv = (index, c) :=
      List.inj_on_of_nodup_map ha hkv hmem hp
    rw [this]
    rfl

theorem ReadCelestialsFromMessages.insert_addresses (storage : Nat → Address)
    (hs : Function.Injective storage) (celestial_messages : List (Index × Option Index))
    (bodies : List MassiveBody) (i : Nat) (celestials : List (Index × Celestial))
    (result : List (Index × Celestial) × List MassiveBody)
    (h : ReadCelestialsFromMessages.insert storage celestial_messages bodies i celestials
      = some result)
    (ha : (celestials.map (fun ic => ic.2.address)).Nodup)
    (hb : ∀ a ∈ celestials.map (fun ic => ic.2.address), ∃ j, j < i ∧ a = storage j) :
    (result.1.map (fun ic => ic.2.address)).Nodup := by
  induction celestial_messages generalizing bodies i celestials with
  | nil =>
    rw [ReadCelestialsFromMessages.insert] at h
    cases h
    exact ha
  | cons message rest ih =>
    obtain ⟨index, parent_index⟩ := message
    cases bodies with
    | nil =>
      rw [ReadCelestialsFromMessages.insert] at h
      cases h
    | cons body bodies =>
      rw [ReadCelestialsFromMessages.insert] at h
      cases hf : map.find? celestials index with
      | some c =>
        rw [emplace_present _ _ _ _ hf] at h
        simp at h
      | none =>
        rw [emplace_absent _ _ _ hf] at h
        simp only [Bool.not_true, Bool.false_eq_true, if_false] at h
        have hperm : ((map.modify
            (map.insert_ordered index (Celestial.new (storage i) body.address) celestials)
            index (fun c => c.set_trajectory)).map (fun ic => ic.2.address)).Perm
            (storage i :: celestials.map (fun ic => ic.2.address)) := by
          rw [addresses_modify _ index (fun c => c.set_trajectory) (fun _ => rfl)]
          exact (map.insert_ordered_perm celestials index _).map _
        have hnew : storage i ∉ celestials.map (fun ic => ic.2.address) := by
          intro hm
          obtain ⟨j, hj, e⟩ := hb _ hm
          have := hs e
          omega
        refine ih bodies (i + 1) _ h (hperm.nodup_iff.2 (List.nodup_cons.2 ⟨hnew, ha⟩)) ?_
        intro a hm
        rcases List.mem_cons.1 (hperm.mem_iff.1 hm) with e | hm'
        · exact ⟨i, Nat.lt_succ_self i, e⟩
        · obtain ⟨j, hj, e⟩ := hb a hm'
          exact ⟨j, Nat.lt_succ_of_lt hj, e⟩

theorem ReadCelestialsFromMessages.set_parents_addresses
    (celestial_messages : List (Index × Option Index))
    (celestials result : List (Index × Celestial))
    (h : ReadCelestialsFromMessages.set_parents celestial_messages celestials = some result) :
    result.map (fun ic => ic.2.address) = celestials.map (fun ic => ic.2.address) := by
  induction celestial_messages generalizing celestials with
  | nil =>
    rw [ReadCelestialsFromMessages.set_parents] at h
    cases h
    rfl
  | cons message rest ih =>
    obtain ⟨index, parent_index⟩ := message
    cases parent_index with
    | none =>
      rw [ReadCelestialsFromMessages.set_parents] at h
      exact ih celestials h
    | some parent_index =>
      rw [ReadCelestialsFromMessages.set_parents] at h
      split at h
      · rw [ih _ h]
        exact addresses_modify _ _ _ (fun _ => rfl)
      · cases h

/-- The celestials that `ReadCelestialsFromMessages` builds, each in storage of
its own, are distinct objects. -/
theorem ReadCelestialsFromMessages_addresses (ephemeris : Ephemeris)
    (celestial_messages : List (Index × Option Index)) (storage : Nat → Address)
    (hs : Function.Injective storage) (result : List (Index × Celestial))
    (h : ReadCelestialsFromMessages ephemeris celestial_messages storage [] = some result) :
    (result.map (fun ic => ic.2.address)).Nodup := by
  unfold ReadCelestialsFromMessages at h
  split at h
  · cases h
  · rename_i inserted hi
    split at h
    · cases h
    · rw [ReadCelestialsFromMessages.set_parents_addresses _ _ _ h]
      exact ReadCelestialsFromMessages.insert_addresses storage hs _ _ _ _ _ hi List.nodup_nil
        (fun a hm => by simp at hm)

/-- What `WriteToMessage` recorded when it returns. -/
theorem WriteToMessage_returns_inv (p p1 : Plugin) (message : serialization.Plugin)
    (h : p.WriteToMessage = .returns message p1) :
    p.initializing_ = false ∧ message.current_time = p.current_time_ ∧
      message.game_epoch = (if !p.is_pre_cardano_ then some p.game_epoch_ else none) ∧
      p.sun_index = some message.sun_index ∧
      message.history_parameters = some p.history_parameters_ ∧
      message.prolongation_parameters = some p.prolongation_parameters_ ∧
      message.prediction_parameters = some p.prediction_parameters_ ∧
      message.planetarium_rotation = p.planetarium_rotation_ := by
  unfold WriteToMessage at h
  cases hi : p.initializing_ with
  | true => simp [hi] at h
  | false =>
    rw [if_neg (by rw [hi]; decide)] at h
    split at h
    · cases h
    · dsimp only at h
      split at h
      · rename_i hsun _
        cases h
        exact ⟨rfl, rfl, rfl, hsun, rfl, rfl, rfl, rfl⟩
      · cases h

end Plugin

namespace Plugin

/-- No operation changes the game epoch or the mark of a save from before
Cardano. -/
theorem step_epoch (env : Environment) (p q : Plugin) (operation : Operation)
    (h : p.step env operation = .returns () q) :
    q.game_epoch_ = p.game_epoch_ ∧ q.is_pre_cardano_ = p.is_pre_cardano_ := by
  cases hi : operation.is_initialization with
  | false =>
    have hs := step_sameBodies env p q operation hi h
    exact ⟨hs.game_epoch_eq, hs.is_pre_cardano_eq⟩
  | true =>
    cases operation with
    | InsertCelestialAbsoluteCartesian index parent_index initial_state body storage =>
      obtain ⟨_, _, _, _, _, _, _, hg, hc⟩ :=
        InsertCelestialAbsoluteCartesian_returns_inv p q index parent_index initial_state body
          storage h
      exact ⟨hg, hc⟩
    | InsertCelestialJacobiKeplerian index parent_index keplerian_elements body =>
      obtain ⟨_, _, _, _, _, hg, hc, _⟩ :=
        InsertCelestialJacobiKeplerian_returns_inv env p q index parent_index
          keplerian_elements body h
      exact ⟨hg, hc⟩
    | EndInitialization storage =>
      exact (EndInitialization_returns_inv env p q storage h).2.2
    | _ => cases hi

theorem run_epoch_consistent (env : Environment) (operations : List Operation) (p q : Plugin)
    (h : p.run env operations = .returns () q) (hp : p.epoch_consistent) :
    q.epoch_consistent := by
  induction operations generalizing p with
  | nil =>
    cases h
    exact hp
  | cons operation rest ih =>
    rw [run] at h
    cases hs : p.step env operation with
    | fatal s => rw [hs] at h; cases h
    | returns u p1 =>
      rw [hs] at h
      have he := step_epoch env p p1 operation hs
      refine ih p1 h ?_
      intro hc
      rw [he.1]
      exact hp (he.2 ▸ hc)

theorem ReadFromMessage_epoch_consistent (env : Environment) (message : serialization.Plugin)
    (celestial_storage vessel_storage : Nat → Address) (p : Plugin)
    (h : ReadFromMessage env message celestial_storage vessel_storage = some p) :
    p.epoch_consistent := by
  obtain ⟨_, _, _, hg, _, hc, _⟩ :=
    ReadFromMessage_fields env message celestial_storage vessel_storage p h
  intro hpc
  rw [hc] at hpc
  rw [hg, hpc]
  rfl

end Plugin

/-- C20 (write/read round trip of the scalar state of the plugin).  (1) Let `p`
be a plugin whose game epoch is consistent with the age of its save, let
`WriteToMessage` return on `p` (which requires `p` to be initialized) and let
`ReadFromMessage` return the plugin `q` for the message written, the celestials
being built in storage of their own.  Then `q` has the same `CurrentTime()`, the
same `GameEpoch()`, the same `MustRotateBodies()` and the same index of the sun
as `p`; in particular, if `p` is from before Cardano, so is `q`.  (2) The game
epoch is consistent with the age of the save in every plugin that a sequence of
operations reaches from a new plugin, and (3) from a plugin that
`ReadFromMessage` returned. -/
theorem C20_scalar_round_trip (env : Environment) :
    (∀ (p p1 q : Plugin) (message : serialization.Plugin)
        (celestial_storage vessel_storage : Nat → Address),
      Function.Injective celestial_storage → p.epoch_consistent →
      p.WriteToMessage = .returns message p1 →
      Plugin.ReadFromMessage env message celestial_storage vessel_storage = some q →
      q.CurrentTime = p.CurrentTime ∧ q.GameEpoch = p.GameEpoch ∧
      q.MustRotateBodies = p.MustRotateBodies ∧ q.sun_index = p.sun_index ∧
      (p.is_pre_cardano_ = true → q.is_pre_cardano_ = true)) ∧
    (∀ game_epoch solar_system_epoch planetarium_rotation operations r,
      (Plugin.new env game_epoch solar_system_epoch planetarium_rotation).run env operations
        = .returns () r →
      r.epoch_consistent) ∧
    (∀ message celestial_storage vessel_storage p operations r,
      Plugin.ReadFromMessage env message celestial_storage vessel_storage = some p →
      p.run env operations = .returns () r → r.epoch_consistent) := by
  refine ⟨?_, ?_, ?_⟩
  · intro p p1 q message celestial_storage vessel_storage hs hp hw hr
    obtain ⟨_, ht, hg, hsun, _⟩ := Plugin.WriteToMessage_returns_inv p p1 message hw
    obtain ⟨_, _, _, hqg, hqt, hqc, _, ⟨sun, hfind, hqsun⟩, ephemeris, celestial_messages,
      hcel⟩ := Plugin.ReadFromMessage_fields env message celestial_storage vessel_storage q hr
    have hq_sun : q.sun_index = some message.sun_index := by
      unfold Plugin.sun_index
      rw [hqsun]
      exact Plugin.celestial_to_index_find q.celestials_
        (Plugin.ReadCelestialsFromMessages_addresses ephemeris celestial_messages
          celestial_storage hs _ hcel) _ _ hfind
    have hpre : q.is_pre_cardano_ = p.is_pre_cardano_ := by
      rw [hqc, hg]
      cases p.is_pre_cardano_ <;> rfl
    refine ⟨hqt.trans ht, ?_, ?_, hq_sun.trans hsun.symm, fun h => hpre.trans h⟩
    · show q.game_epoch_ = p.game_epoch_
      rw [hqg, hg]
      cases hc : p.is_pre_cardano_ with
      | false => rfl
      | true => exact (hp hc).symm
    · show (!q.is_pre_cardano_) = !p.is_pre_cardano_
      rw [hpre]
  · intro game_epoch solar_system_epoch planetarium_rotation operations r hr
    exact Plugin.run_epoch_consistent env operations _ r hr (fun h => Bool.noConfusion h)
  · intro message celestial_storage vessel_storage p operations r hp hr
    exact Plugin.run_epoch_consistent env operations p r hr
      (Plugin.ReadFromMessage_epoch_consistent env message celestial_storage vessel_storage
        p hp)

/-- C20, on the plugin in flight (game epoch 5, time 30, the sun under index 3)
and on the plugin from before Cardano: the plugin read from the message written
has the same scalar state. -/
theorem C20_scalar_round_trip_witness :
    (∃ message p1 q,
      Plugin.test_plugin_in_flight.WriteToMessage = .returns message p1 ∧
      Plugin.ReadFromMessage Plugin.test_environment message (fun i => 20 + i)
        (fun i => 5 + i) = some q ∧
      q.CurrentTime = 30 ∧ q.GameEpoch = 5 ∧ q.MustRotateBodies = true ∧
      q.sun_index = some 3) ∧
    (∃ message p1 q,
      Plugin.test_plugin_pre_cardano.WriteToMessage = .returns message p1 ∧
      Plugin.ReadFromMessage Plugin.test_environment message (fun i => 20 + i)
        (fun i => 5 + i) = some q ∧
      q.CurrentTime = 30 ∧ q.GameEpoch = astronomy.J2000 ∧ q.MustRotateBodies = false ∧
      q.sun_index = some 3 ∧ q.is_pre_cardano_ = true) := by
  have hs : Function.Injective (fun i : Nat => 20 + i) := fun a b h => Nat.add_left_cancel h
  constructor
  · have h := (C20_scalar_round_trip Plugin.test_environment).1 Plugin.test_plugin_in_flight
      _ _ _ (fun i => 20 + i) (fun i => 5 + i) hs (fun h => Bool.noConfusion h) rfl rfl
    exact ⟨_, _, _, rfl, rfl, h.1, h.2.1, h.2.2.1, h.2.2.2.1⟩
  · have h := (C20_scalar_round_trip Plugin.test_environment).1
      Plugin.test_plugin_pre_cardano _ _ _ (fun i => 20 + i) (fun i => 5 + i) hs
      (fun _ => rfl) rfl rfl
    exact ⟨_, _, _, rfl, rfl, h.1, h.2.1, h.2.2.1, h.2.2.2.1, h.2.2.2.2 rfl⟩

/-! ## The tables of celestials and of vessels through a message -/

namespace Plugin

theorem find?_zip_none {α β : Type} (messages : List (Index × α)) (bodies : List β)
    (k : Index) (h : k ∉ messages.map Prod.fst) :
    (messages.zip bodies).find? (fun mb => decide (mb.1.1 = k)) = none := by
  rw [List.find?_eq_none]
  intro mb hmb
  have := (List.of_mem_zip hmb).1
  simp only [decide_eq_true_eq]
  intro e
  exact h (List.mem_map.2 ⟨mb.1, this, e⟩)

/-- The first loop of `ReadCelestialsFromMessages`, on messages with distinct
indices that are not yet in the table and as many bodies: it returns, every body
is consumed, and the celestial under the index of a message is bound to the body
at the same position, without a parent. -/
theorem ReadCelestialsFromMessages.insert_spec (storage : Nat → Address)
    (celestial_messages : List (Index × Option Index)) (bodies : List MassiveBody) (i : Nat)
    (celestials : List (Index × Celestial))
    (hn : (celestial_messages.map Prod.fst).Nodup)
    (hfresh : ∀ k ∈ celestial_messages.map Prod.fst, map.find? celestials k = none)
    (hlen : celestial_messages.length = bodies.length) :
    ∃ result,
      ReadCelestialsFromMessages.insert storage celestial_messages bodies i celestials
        = some (result, []) ∧
      ∀ k, (map.find? result k).map (fun c => (c.body_, c.parent_)) =
        match (celestial_messages.zip bodies).find? (fun mb => decide (mb.1.1 = k)) with
        | some mb => some (mb.2.address, none)
        | none => (map.find? celestials k).map (fun c => (c.body_, c.parent_)) := by
  induction celestial_messages generalizing bodies i celestials with
  | nil =>
    cases bodies with
    | nil => exact ⟨celestials, rfl, fun k => rfl⟩
    | cons body bodies => simp at hlen
  | cons message rest ih =>
    obtain ⟨index, parent_index⟩ := message
    cases bodies with
    | nil => simp at hlen
    | cons body bodies =>
      have hnone : map.find? celestials index = none := hfresh index (by simp)
      have hn' : index ∉ rest.map Prod.fst ∧ (rest.map Prod.fst).Nodup := by
        simpa using hn
      have hfresh' : ∀ k ∈ rest.map Prod.fst,
          map.find? (map.modify
            (map.insert_ordered index (Celestial.new (storage i) body.address) celestials)
            index (fun c => c.set_trajectory)) k = none := by
        intro k hk
        have hne : k ≠ index := fun e => hn'.1 (e ▸ hk)
        rw [map.find?_modify, if_neg hne, map.find?_insert_ordered _ _ _ _ hnone, if_neg hne]
        exact hfresh k (by simp [hk])
      obtain ⟨result, hresult, hfind⟩ :=
        ih bodies (i + 1) _ hn'.2 hfresh' (by simpa using hlen)
      refine ⟨result, ?_, ?_⟩
      · rw [ReadCelestialsFromMessages.insert, emplace_absent _ _ _ hnone]
        simpa using hresult
      · intro k
        rw [hfind k, List.zip_cons_cons, List.find?_cons]
        by_cases e : index = k
        · subst e
          rw [find?_zip_none rest bodies index hn'.1]
          simp [map.find?_modify, map.find?_insert_ordered _ _ _ _ hnone, Celestial.new,
            Celestial.set_trajectory]
        · have e' : k ≠ index := fun h => e h.symm
          simp only [e, decide_False]
          rw [map.find?_modify, if_neg e', map.find?_insert_ordered _ _ _ _ hnone, if_neg e']

end Plugin

namespace Plugin

theorem find?_messages_none {α : Type} (messages : List (Index × α)) (k : Index)
    (h : k ∉ messages.map Prod.fst) :
    messages.find? (fun m => decide (m.1 = k)) = none := by
  rw [List.find?_eq_none]
  intro m hm
  simp only [decide_eq_true_eq]
  intro e
  exact h (List.mem_map.2 ⟨m, hm, e⟩)

theorem find?_set_parent_address (celestials : List (Index × Celestial)) (index : Index)
    (parent : Address) (k : Index) :
    (map.find? (map.modify celestials index (fun c => c.set_parent parent)) k).map
        (fun c => c.address)
      = (map.find? celestials k).map (fun c => c.address) := by
  rw [map.find?_modify]
  split
  · cases map.find? celestials k <;> rfl
  · rfl

/-- The second loop of `ReadCelestialsFromMessages`, on messages with distinct
indices whose celestials and parents are in the table: it returns, and the
parent of a celestial is the celestial under the parent index of its message. -/
theorem ReadCelestialsFromMessages.set_parents_spec
    (celestial_messages : List (Index × Option Index)) (celestials : List (Index × Celestial))
    (hn : (celestial_messages.map Prod.fst).Nodup)
    (hfound : ∀ m ∈ celestial_messages, ∀ parent_index, m.2 = some parent_index →
      (map.find? celestials m.1).isSome = true ∧
        (map.find? celestials parent_index).isSome = true) :
    ∃ result,
      ReadCelestialsFromMessages.set_parents celestial_messages celestials = some result ∧
      ∀ k, (map.find? result k).map (fun c => (c.address, c.body_, c.parent_)) =
        (map.find? celestials k).map (fun c => (c.address, c.body_,
          match celestial_messages.find? (fun m => decide (m.1 = k)) with
          | some (_, some parent_index) =>
            (map.find? celestials parent_index).map (fun parent => parent.address)
          | _ => c.parent_)) := by
  induction celestial_messages generalizing celestials with
  | nil => exact ⟨celestials, rfl, fun k => rfl⟩
  | cons message rest ih =>
    obtain ⟨index, parent_index⟩ := message
    have hn' : index ∉ rest.map Prod.fst ∧ (rest.map Prod.fst).Nodup := by
      simpa using hn
    cases parent_index with
    | none =>
      obtain ⟨result, hresult, hfind⟩ := ih celestials hn'.2
        (fun m hm => hfound m (List.mem_cons_of_mem _ hm))
      refine ⟨result, ?_, ?_⟩
      · rw [ReadCelestialsFromMessages.set_parents]
        exact hresult
      · intro k
        rw [hfind k, List.find?_cons]
        by_cases e : index = k
        · subst e
          rw [find?_messages_none rest index hn'.1]
          simp
        · simp only [e, decide_False]
    | some parent_index =>
      obtain ⟨h1, h2⟩ := hfound (index, some parent_index) (List.mem_cons_self _ _)
        parent_index rfl
      obtain ⟨c0, hc0⟩ := Option.isSome_iff_exists.1 h1
      obtain ⟨parent, hparent⟩ := Option.isSome_iff_exists.1 h2
      have hfound' : ∀ m ∈ rest, ∀ parent_index', m.2 = some parent_index' →
          (map.find? (map.modify celestials index (fun c => c.set_parent parent.address))
            m.1).isSome = true ∧
          (map.find? (map.modify celestials index (fun c => c.set_parent parent.address))
            parent_index').isSome = true := by
        intro m hm parent_index' hp
        obtain ⟨h3, h4⟩ := hfound m (List.mem_cons_of_mem _ hm) parent_index' hp
        constructor
        · rw [map.find?_modify]; split
          · rw [Option.isSome_map']; exact h3
          · exact h3
        · rw [map.find?_modify]; split
          · rw [Option.isSome_map']; exact h4
          · exact h4
      obtain ⟨result, hresult, hfind⟩ := ih _ hn'.2 hfound'
      refine ⟨result, ?_, ?_⟩
      · rw [ReadCelestialsFromMessages.set_parents]
        simp only [hc0, hparent]
        exact hresult
      · intro k
        rw [hfind k, List.find?_cons]
        by_cases e : index = k
        · subst e
          rw [find?_messages_none rest index hn'.1]
          simp [map.find?_modify, hc0, hparent, Celestial.set_parent]
        · have e' : k ≠ index := fun h => e h.symm
          simp only [e, decide_False]
          rw [map.find?_modify, if_neg e']
          cases hk : map.find? celestials k with
          | none => rfl
          | some c =>
            simp only [Option.map_some']
            cases hm : rest.find? (fun m => decide (m.1 = k)) with
            | none => rfl
            | some m =>
              obtain ⟨index', parent_index'⟩ := m
              cases parent_index' with
              | none => rfl
              | some parent_index' =>
                simp only
                rw [find?_set_parent_address]

end Plugin

namespace Plugin

theorem find?_zip_bodies (celestials : List (Index × Celestial)) (bodies : List MassiveBody)
    (parent_index : Celestial → Option Index)
    (hb : celestials.map (fun ic => ic.2.body) = bodies.map (fun body => body.address))
    (k : Index) :
    (((celestials.map (fun ic => (ic.1, parent_index ic.2))).zip bodies).find?
        (fun mb => decide (mb.1.1 = k))).map (fun mb => mb.2.address)
      = (map.find? celestials k).map (fun c => c.body) := by
  induction celestials generalizing bodies with
  | nil => rfl
  | cons ic celestials ih =>
    obtain ⟨index, c⟩ := ic
    cases bodies with
    | nil => simp at hb
    | cons body bodies =>
      simp only [List.map_cons, List.cons.injEq] at hb
      rw [List.map_cons, List.zip_cons_cons, List.find?_cons, map.find?_cons]
      by_cases e : index = k
      · subst e
        simp [hb.1]
      · have e' : ¬ k = index := fun h => e h.symm
        simp only [e, decide_False, if_neg e']
        exact ih bodies hb.2

theorem find?_messages_of_celestials (celestials : List (Index × Celestial))
    (parent_index : Celestial → Option Index) (k : Index) :
    (celestials.map (fun ic => (ic.1, parent_index ic.2))).find? (fun m => decide (m.1 = k))
      = (map.find? celestials k).map (fun c => (k, parent_index c)) := by
  induction celestials with
  | nil => rfl
  | cons ic celestials ih =>
    obtain ⟨index, c⟩ := ic
    rw [List.map_cons, List.find?_cons, map.find?_cons]
    by_cases e : index = k
    · subst e
      simp
    · have e' : ¬ k = index := fun h => e h.symm
      simp only [e, decide_False, if_neg e']
      exact ih

/-- The index that `celestial_to_index` gives for an address is the index of a
celestial of the table. -/
theorem celestial_to_index_mem (celestials : List (Index × Celestial)) (a : Address)
    (index : Index)
    (h : map.find? (WriteToMessage.celestial_to_index celestials) a = some index) :
    (map.find? celestials index).isSome = true := by
  unfold WriteToMessage.celestial_to_index at h
  rw [find?_foldl_emplace (fun c : Celestial => c.address)] at h
  simp only [map.find?] at h
  cases hf : celestials.find? (fun kv => decide (kv.2.address = a)) with
  | none => rw [hf] at h; cases h
  | some kv =>
    rw [hf] at h
    have hkv : kv ∈ celestials := List.mem_of_find?_eq_some hf
    have hk : kv.1 = index := by simpa using h
    have : index ∈ map.keys celestials := List.mem_map.2 ⟨kv, hkv, hk⟩
    cases hn : map.find? celestials index with
    | none => exact absurd this ((map.find?_eq_none_iff _ _).1 hn)
    | some c => rfl

end Plugin

namespace Plugin

/-- The celestials read from the messages written for a table of celestials
whose indices are distinct and which are bound, in their order, to the bodies of
the ephemeris in theirs: `ReadCelestialsFromMessages` returns, and under each
index the table read has a celestial exactly when the table written had one,
bound to the same body and with its parent under the same index. -/
theorem ReadCelestialsFromMessages_round_trip (ephemeris : Ephemeris)
    (celestials : List (Index × Celestial)) (storage : Nat → Address)
    (hs : Function.Injective storage)
    (hn : (map.keys celestials).Nodup)
    (hb : celestials.map (fun ic => ic.2.body)
      = ephemeris.bodies_.map (fun body => body.address)) :
    ∃ result,
      ReadCelestialsFromMessages ephemeris
        (celestials.map (fun ic =>
          (ic.1, ic.2.parent_.bind (map.find? (WriteToMessage.celestial_to_index celestials)))))
        storage [] = some result ∧
      (result.map (fun ic => ic.2.address)).Nodup ∧
      (∀ k, (map.find? result k).isSome = (map.find? celestials k).isSome) ∧
      (∀ k, (map.find? result k).map (fun c => c.body)
        = (map.find? celestials k).map (fun c => c.body)) ∧
      (∀ k, (map.find? result k).map
          (fun c => c.parent_.bind (map.find? (WriteToMessage.celestial_to_index result)))
        = (map.find? celestials k).map
          (fun c => c.parent_.bind
            (map.find? (WriteToMessage.celestial_to_index celestials)))) := by
  have hkeys : (celestials.map (fun ic =>
      (ic.1, ic.2.parent_.bind (map.find? (WriteToMessage.celestial_to_index celestials))))).map
      Prod.fst = map.keys celestials := by
    simp [map.keys, List.map_map, Function.comp_def]
  have hlen : (celestials.map (fun ic =>
      (ic.1, ic.2.parent_.bind (map.find? (WriteToMessage.celestial_to_index celestials))))).length
      = ephemeris.bodies_.length := by
    have := congrArg List.length hb
    simpa using this
  obtain ⟨inserted, hinserted, hfind⟩ :=
    ReadCelestialsFromMessages.insert_spec storage _ ephemeris.bodies_ 0 []
      (by rw [hkeys]; exact hn) (fun k _ => rfl) hlen
  -- what the first loop built
  have hins : ∀ k, (map.find? inserted k).map (fun c => (c.body_, c.parent_))
      = (map.find? celestials k).map (fun c => (c.body_, none)) := by
    intro k
    rw [hfind k]
    have hz := find?_zip_bodies celestials ephemeris.bodies_
      (fun c => c.parent_.bind (map.find? (WriteToMessage.celestial_to_index celestials))) hb k
    cases hc : ((celestials.map (fun ic =>
        (ic.1, ic.2.parent_.bind (map.find? (WriteToMessage.celestial_to_index celestials))))).zip
        ephemeris.bodies_).find? (fun mb => decide (mb.1.1 = k)) with
    | none =>
      rw [hc] at hz
      cases hk : map.find? celestials k with
      | none => rfl
      | some c => rw [hk] at hz; cases hz
    | some mb =>
      rw [hc] at hz
      cases hk : map.find? celestials k with
      | none => rw [hk] at hz; cases hz
      | some c =>
        rw [hk] at hz
        simp only [Option.map_some', Option.some.injEq] at hz
        simp only [Option.map_some', hz]
        rfl
  have hins_some : ∀ k, (map.find? inserted k).isSome = (map.find? celestials k).isSome := by
    intro k
    have := congrArg Option.isSome (hins k)
    simpa using this
  have hfound : ∀ m ∈ celestials.map (fun ic =>
      (ic.1, ic.2.parent_.bind (map.find? (WriteToMessage.celestial_to_index celestials)))),
      ∀ parent_index, m.2 = some parent_index →
        (map.find? inserted m.1).isSome = true ∧
          (map.find? inserted parent_index).isSome = true := by
    intro m hm parent_index hp
    obtain ⟨ic, hic, rfl⟩ := List.mem_map.1 hm
    constructor
    · rw [hins_some]
      have : ic.1 ∈ map.keys celestials := List.mem_map.2 ⟨ic, hic, rfl⟩
      cases hk : map.find? celestials ic.1 with
      | none => exact absurd this ((map.find?_eq_none_iff _ _).1 hk)
      | some c => rfl
    · rw [hins_some]
      simp only at hp
      cases hpar : ic.2.parent_ with
      | none => rw [hpar] at hp; cases hp
      | some parent =>
        rw [hpar] at hp
        exact celestial_to_index_mem celestials parent parent_index hp
  obtain ⟨result, hresult, hres⟩ :=
    ReadCelestialsFromMessages.set_parents_spec _ inserted (by rw [hkeys]; exact hn) hfound
  have hread : ReadCelestialsFromMessages ephemeris
      (celestials.map (fun ic =>
        (ic.1, ic.2.parent_.bind (map.find? (WriteToMessage.celestial_to_index celestials)))))
      storage [] = some result := by
    unfold ReadCelestialsFromMessages
    rw [hinserted]
    simpa using hresult
  have hnodup := ReadCelestialsFromMessages_addresses ephemeris _ storage hs result hread
  have hres_some : ∀ k, (map.find? result k).isSome = (map.find? celestials k).isSome := by
    intro k
    have := congrArg Option.isSome (hres k)
    rw [Option.isSome_map', Option.isSome_map'] at this
    rw [this, hins_some]
  refine ⟨result, hread, hnodup, hres_some, ?_, ?_⟩
  · intro k
    have h1 := congrArg (Option.map (fun x : Address × Address × Option Address => x.2.1)) (hres k)
    have h2 := congrArg (Option.map (fun x : Address × Option Address => x.1)) (hins k)
    simp only [Option.map_map, Function.comp_def] at h1 h2
    exact h1.trans h2
  · intro k
    have h1 := hres k
    rw [find?_messages_of_celestials celestials
      (fun c => c.parent_.bind (map.find? (WriteToMessage.celestial_to_index celestials))) k] at h1
    cases hk : map.find? celestials k with
    | none =>
      have := hres_some k
      rw [hk] at this
      cases hr : map.find? result k with
      | none => rfl
      | some c => rw [hr] at this; cases this
    | some c =>
      rw [hk] at h1
      have hi := hins k
      rw [hk] at hi
      cases hik : map.find? inserted k with
      | none => rw [hik] at hi; cases hi
      | some ci =>
        rw [hik] at hi h1
        simp only [Option.map_some', Option.some.injEq, Prod.mk.injEq] at hi
        cases hr : map.find? result k with
        | none => rw [hr] at h1; cases h1
        | some cr =>
          rw [hr] at h1
          simp only [Option.map_some', Option.some.injEq, Prod.mk.injEq] at h1
          simp only [Option.map_some', Option.some.injEq]
          obtain ⟨_, _, hparent⟩ := h1
          rw [hparent]
          cases hp : c.parent_.bind
              (map.find? (WriteToMessage.celestial_to_index celestials)) with
          | none =>
            simp only [hi.2]
            rfl
          | some parent_index =>
            simp only
            have hsome := hfound (k, some parent_index)
              (List.mem_map.2 ⟨(k, c), map.find?_mem _ _ _ hk, by simp [hp]⟩) parent_index rfl
            obtain ⟨cp, hcp⟩ := Option.isSome_iff_exists.1 hsome.2
            have hrp := hres parent_index
            rw [hcp] at hrp
            cases hrr : map.find? result parent_index with
            | none => rw [hrr] at hrp; cases hrp
            | some crp =>
              rw [hrr] at hrp
              simp only [Option.map_some', Option.some.injEq, Prod.mk.injEq] at hrp
              rw [hcp]
              simp only [Option.map_some', Option.bind_some]
              rw [← hrp.1]
              exact celestial_to_index_find result hnodup parent_index crp hrr

end Plugin

namespace Plugin

/-- The messages that the loop of `WriteToMessage` over `vessels_` wrote: one
for each vessel, in the order of `vessels_`, with its GUID, the index of its
parent and its dirty flag. -/
theorem WriteToMessage.vessels_spec (celestial_to_index : List (Address × Index))
    (vessels : List (GUID × Vessel)) (messages : List serialization.VesselAndProperties)
    (h : WriteToMessage.vessels celestial_to_index vessels = some messages) :
    List.Forall₂
      (fun (gv : GUID × Vessel) (m : serialization.VesselAndProperties) =>
        m.guid = gv.1 ∧ map.find? celestial_to_index gv.2.parent = some m.parent_index ∧
          m.dirty = gv.2.is_dirty)
      vessels messages := by
  induction vessels generalizing messages with
  | nil =>
    rw [WriteToMessage.vessels] at h
    cases h
    exact List.Forall₂.nil
  | cons gv vessels ih =>
    obtain ⟨guid, vessel⟩ := gv
    rw [WriteToMessage.vessels] at h
    split at h
    · rename_i vessel_message parent_index hv hp
      cases hr : WriteToMessage.vessels celestial_to_index vessels with
      | none => rw [hr] at h; cases h
      | some rest =>
        rw [hr] at h
        simp only [Option.map_some', Option.some.injEq] at h
        subst h
        exact List.Forall₂.cons ⟨rfl, hp, rfl⟩ (ih rest hr)
    · cases h

theorem find?_vessel_messages (celestial_to_index : List (Address × Index))
    (vessels : List (GUID × Vessel)) (messages : List serialization.VesselAndProperties)
    (h : List.Forall₂
      (fun (gv : GUID × Vessel) (m : serialization.VesselAndProperties) =>
        m.guid = gv.1 ∧ map.find? celestial_to_index gv.2.parent = some m.parent_index ∧
          m.dirty = gv.2.is_dirty)
      vessels messages) (g : GUID) :
    (messages.find? (fun m => decide (m.guid = g))).map
        (fun m => (some m.parent_index, m.dirty))
      = (map.find? vessels g).map
        (fun v => (map.find? celestial_to_index v.parent, v.is_dirty)) := by
  induction h with
  | nil => rfl
  | @cons gv m vessels messages hhead _ ih =>
    obtain ⟨guid, vessel⟩ := gv
    obtain ⟨h1, h2, h3⟩ := hhead
    simp only at h1 h2 h3
    rw [List.find?_cons, map.find?_cons]
    by_cases e : guid = g
    · subst e
      simp [h1, h2, h3]
    · have e' : ¬ g = guid := fun h => e h.symm
      have e'' : ¬ m.guid = g := by rw [h1]; exact e
      simp only [e'', decide_False, if_neg e']
      exact ih

theorem find?_vessel_messages_none (messages : List serialization.VesselAndProperties)
    (g : GUID) (h : g ∉ messages.map (fun m => m.guid)) :
    messages.find? (fun m => decide (m.guid = g)) = none := by
  rw [List.find?_eq_none]
  intro m hm
  simp only [decide_eq_true_eq]
  intro e
  exact h (List.mem_map.2 ⟨m, hm, e⟩)

/-- The loop of `ReadFromMessage` over the messages of the vessels, when the
GUIDs are distinct and not yet registered and every parent index is that of a
celestial: it returns, and the vessel registered under the GUID of a message has
the celestial under the parent index of the message as its parent and the dirty
flag of the message. -/
theorem ReadFromMessage.vessels_read_spec (celestials : List (Index × Celestial))
    (storage : Nat → Address) (messages : List serialization.VesselAndProperties) (i : Nat)
    (vessels : List (GUID × Vessel))
    (hn : (messages.map (fun m => m.guid)).Nodup)
    (hfresh : ∀ g ∈ messages.map (fun m => m.guid), map.find? vessels g = none)
    (hfound : ∀ m ∈ messages, (map.find? celestials m.parent_index).isSome = true) :
    ∃ result,
      ReadFromMessage.vessels celestials storage messages i vessels = some result ∧
      ∀ g, (map.find? result g).map (fun v => (v.parent_, v.is_dirty_)) =
        match messages.find? (fun m => decide (m.guid = g)) with
        | some m =>
          (map.find? celestials m.parent_index).map (fun parent => (parent.address, m.dirty))
        | none => (map.find? vessels g).map (fun v => (v.parent_, v.is_dirty_)) := by
  induction messages generalizing i vessels with
  | nil => exact ⟨vessels, rfl, fun g => rfl⟩
  | cons message rest ih =>
    have hn' : message.guid ∉ rest.map (fun m => m.guid) ∧
        (rest.map (fun m => m.guid)).Nodup := by
      simpa using hn
    have hnone : map.find? vessels message.guid = none := hfresh message.guid (by simp)
    obtain ⟨parent, hparent⟩ :=
      Option.isSome_iff_exists.1 (hfound message (List.mem_cons_self _ _))
    have hfresh' : ∀ g ∈ rest.map (fun m => m.guid),
        map.find? (map.insert_ordered message.guid
          (if message.dirty then
            (Vessel.ReadFromMessage message.vessel (storage i) parent.address).set_dirty
          else Vessel.ReadFromMessage message.vessel (storage i) parent.address) vessels) g
          = none := by
      intro g hg
      have hne : g ≠ message.guid := fun e => hn'.1 (e ▸ hg)
      rw [map.find?_insert_ordered _ _ _ _ hnone, if_neg hne]
      exact hfresh g (by simp [hg])
    obtain ⟨result, hresult, hfind⟩ := ih (i + 1) _ hn'.2 hfresh'
      (fun m hm => hfound m (List.mem_cons_of_mem _ hm))
    refine ⟨result, ?_, ?_⟩
    · rw [ReadFromMessage.vessels]
      simp only [hparent]
      rw [emplace_absent _ _ _ hnone]
      simpa using hresult
    · intro g
      rw [hfind g, List.find?_cons]
      by_cases e : message.guid = g
      · subst e
        rw [find?_vessel_messages_none rest message.guid hn'.1]
        simp only [decide_True, map.find?_insert_ordered _ _ _ _ hnone, if_true, hparent,
          Option.map_some']
        cases message.dirty <;> rfl
      · have e' : g ≠ message.guid := fun h => e h.symm
        simp only [e, decide_False]
        rw [map.find?_insert_ordered _ _ _ _ hnone, if_neg e']

end Plugin

namespace Plugin

theorem guids_of_vessel_messages (celestial_to_index : List (Address × Index))
    (vessels : List (GUID × Vessel)) (messages : List serialization.VesselAndProperties)
    (h : List.Forall₂
      (fun (gv : GUID × Vessel) (m : serialization.VesselAndProperties) =>
        m.guid = gv.1 ∧ map.find? celestial_to_index gv.2.parent = some m.parent_index ∧
          m.dirty = gv.2.is_dirty)
      vessels messages) :
    messages.map (fun m => m.guid) = map.keys vessels ∧
    ∀ m ∈ messages, ∃ a, map.find? celestial_to_index a = some m.parent_index := by
  induction h with
  | nil => exact ⟨rfl, fun m hm => by cases hm⟩
  | @cons gv m vessels messages hhead _ ih =>
    refine ⟨?_, ?_⟩
    · simp only [List.map_cons, map.keys]
      rw [hhead.1]
      exact congrArg _ ih.1
    · intro m' hm'
      rcases List.mem_cons.1 hm' with e | hm''
      · subst e
        exact ⟨_, hhead.2.1⟩
      · exact ih.2 m' hm''

/-- The vessels read from the messages written for a table of vessels with
distinct GUIDs, against a table of celestials that has the indices of the table
written: the loop of `ReadFromMessage` returns, and under each GUID the table
read has a vessel exactly when the table written had one, with its parent under
the same index and with the same dirty flag. -/
theorem ReadFromMessage.vessels_round_trip (celestials_written celestials_read :
      List (Index × Celestial))
    (vessels : List (GUID × Vessel)) (storage : Nat → Address)
    (messages : List serialization.VesselAndProperties)
    (hn : (map.keys vessels).Nodup)
    (hw : WriteToMessage.vessels (WriteToMessage.celestial_to_index celestials_written)
      vessels = some messages)
    (hsome : ∀ k, (map.find? celestials_read k).isSome
      = (map.find? celestials_written k).isSome)
    (hread : (celestials_read.map (fun ic => ic.2.address)).Nodup) :
    ∃ result,
      ReadFromMessage.vessels celestials_read storage messages 0 [] = some result ∧
      (∀ g, (map.find? result g).isSome = (map.find? vessels g).isSome) ∧
      (∀ g, (map.find? result g).map
          (fun v => map.find? (WriteToMessage.celestial_to_index celestials_read) v.parent)
        = (map.find? vessels g).map
          (fun v => map.find? (WriteToMessage.celestial_to_index celestials_written) v.parent)) ∧
      (∀ g, (map.find? result g).map (fun v => v.is_dirty)
        = (map.find? vessels g).map (fun v => v.is_dirty)) := by
  have hforall := WriteToMessage.vessels_spec _ vessels messages hw
  obtain ⟨hguids, hparents⟩ := guids_of_vessel_messages _ vessels messages hforall
  have hfound : ∀ m ∈ messages, (map.find? celestials_read m.parent_index).isSome = true := by
    intro m hm
    obtain ⟨a, ha⟩ := hparents m hm
    rw [hsome]
    exact celestial_to_index_mem celestials_written a m.parent_index ha
  obtain ⟨result, hresult, hfind⟩ :=
    ReadFromMessage.vessels_read_spec celestials_read storage messages 0 []
      (by rw [hguids]; exact hn) (fun g _ => rfl) hfound
  have key : ∀ g,
      (map.find? result g).map (fun v =>
          (map.find? (WriteToMessage.celestial_to_index celestials_read) v.parent, v.is_dirty))
        = (map.find? vessels g).map (fun v =>
          (map.find? (WriteToMessage.celestial_to_index celestials_written) v.parent,
            v.is_dirty)) := by
    intro g
    have h1 := hfind g
    have h2 := find?_vessel_messages _ vessels messages hforall g
    cases hm : messages.find? (fun m => decide (m.guid = g)) with
    | none =>
      rw [hm] at h1 h2
      cases hv : map.find? vessels g with
      | some v => rw [hv] at h2; cases h2
      | none =>
        cases hr : map.find? result g with
        | some v => rw [hr] at h1; cases h1
        | none => rfl
    | some m =>
      rw [hm] at h1 h2
      have hmem : m ∈ messages := List.mem_of_find?_eq_some hm
      obtain ⟨parent, hparent⟩ := Option.isSome_iff_exists.1 (hfound m hmem)
      simp only [hparent, Option.map_some'] at h1 h2
      cases hv : map.find? vessels g with
      | none => rw [hv] at h2; cases h2
      | some v =>
        rw [hv] at h2
        simp only [Option.map_some', Option.some.injEq, Prod.mk.injEq] at h2
        cases hr : map.find? result g with
        | none => rw [hr] at h1; cases h1
        | some v' =>
          rw [hr] at h1
          simp only [Option.map_some', Option.some.injEq, Prod.mk.injEq] at h1
          simp only [Option.map_some', Option.some.injEq, Prod.mk.injEq]
          refine ⟨?_, ?_⟩
          · rw [← h2.1]
            show map.find? _ v'.parent_ = _
            rw [h1.1]
            exact celestial_to_index_find celestials_read hread m.parent_index parent hparent
          · show v'.is_dirty_ = v.is_dirty
            rw [h1.2, h2.2]
  refine ⟨result, hresult, ?_, ?_, ?_⟩
  · intro g
    have := congrArg Option.isSome (key g)
    simpa using this
  · intro g
    have := congrArg (Option.map (fun x : Option Index × Bool => x.1)) (key g)
    simpa [Option.map_map, Function.comp_def] using this
  · intro g
    have := congrArg (Option.map (fun x : Option Index × Bool => x.2)) (key g)
    simpa [Option.map_map, Function.comp_def] using this

end Plugin

namespace Plugin

theorem mapM_some_of_forall {α β : Type} (f : α → Option β) (l : List α)
    (h : ∀ a ∈ l, (f a).isSome = true) : ∃ r, l.mapM f = some r := by
  induction l with
  | nil => exact ⟨[], rfl⟩
  | cons a l ih =>
    obtain ⟨b, hb⟩ := Option.isSome_iff_exists.1 (h a (List.mem_cons_self _ _))
    obtain ⟨r, hr⟩ := ih (fun a' ha' => h a' (List.mem_cons_of_mem _ ha'))
    exact ⟨b :: r, by rw [List.mapM_cons, hb, hr]; rfl⟩

theorem mem_of_mapM_some {α β : Type} (f : α → Option β) (l : List α) (r : List β)
    (h : l.mapM f = some r) : ∀ b ∈ r, ∃ a ∈ l, f a = some b := by
  induction l generalizing r with
  | nil =>
    rw [List.mapM_nil] at h
    cases h
    intro b hb
    cases hb
  | cons a l ih =>
    rw [List.mapM_cons] at h
    cases ha : f a with
    | none => rw [ha] at h; cases h
    | some b' =>
      rw [ha] at h
      cases hl : l.mapM f with
      | none => rw [hl] at h; cases h
      | some r' =>
        rw [hl] at h
        cases h
        intro b hb
        rcases List.mem_cons.1 hb with e | hb'
        · subst e
          exact ⟨a, List.mem_cons_self _ _, ha⟩
        · obtain ⟨a', ha', hfa'⟩ := ih r' hl b hb'
          exact ⟨a', List.mem_cons_of_mem _ ha', hfa'⟩

/-- The GUID that `vessel_to_guid` gives for an address is the GUID of a vessel
of the table. -/
theorem vessel_to_guid_mem (vessels : List (GUID × Vessel)) (a : Address) (guid : GUID)
    (h : map.find? (WriteToMessage.vessel_to_guid vessels) a = some guid) :
    (map.find? vessels guid).isSome = true := by
  unfold WriteToMessage.vessel_to_guid at h
  rw [find?_foldl_emplace (fun v : Vessel => v.address)] at h
  simp only [map.find?] at h
  cases hf : vessels.find? (fun kv => decide (kv.2.address = a)) with
  | none => rw [hf] at h; cases h
  | some kv =>
    rw [hf] at h
    have hkv : kv ∈ vessels := List.mem_of_find?_eq_some hf
    have hk : kv.1 = guid := by simpa using h
    have : guid ∈ map.keys vessels := List.mem_map.2 ⟨kv, hkv, hk⟩
    cases hn : map.find? vessels guid with
    | none => exact absurd this ((map.find?_eq_none_iff _ _).1 hn)
    | some c => rfl

/-- The bubble written with the GUIDs of a table of vessels is read back against
a table that has the same GUIDs. -/
theorem PhysicsBubble.ReadFromMessage_round_trip (bubble : PhysicsBubble)
    (vessels_written vessels_read : List (GUID × Vessel))
    (message : serialization.PhysicsBubble)
    (hw : bubble.WriteToMessage
      (fun vessel => map.find? (WriteToMessage.vessel_to_guid vessels_written) vessel)
      = some message)
    (hsome : ∀ g, (map.find? vessels_read g).isSome = (map.find? vessels_written g).isSome) :
    ∃ result, PhysicsBubble.ReadFromMessage
      (fun guid => (map.find? vessels_read guid).map (fun vessel => vessel.address)) message
      = some result := by
  unfold PhysicsBubble.WriteToMessage at hw
  cases hg : bubble.vessels.mapM
      (fun vessel => map.find? (WriteToMessage.vessel_to_guid vessels_written) vessel) with
  | none => rw [hg] at hw; cases hw
  | some guids =>
    rw [hg] at hw
    simp only [Option.some.injEq] at hw
    subst hw
    have hall : ∀ g ∈ guids,
        ((map.find? vessels_read g).map (fun vessel => vessel.address)).isSome = true := by
      intro g hgm
      obtain ⟨a, _, ha⟩ := mem_of_mapM_some _ _ _ hg g hgm
      rw [Option.isSome_map', hsome]
      exact vessel_to_guid_mem vessels_written a g ha
    obtain ⟨r, hr⟩ := mapM_some_of_forall _ guids hall
    unfold PhysicsBubble.ReadFromMessage
    simp only [hr]
    exact ⟨_, rfl⟩

end Plugin

namespace Plugin

/-- The tables and the collaborators that `WriteToMessage` recorded when it
returns. -/
theorem WriteToMessage_returns_tables (p p1 : Plugin) (message : serialization.Plugin)
    (h : p.WriteToMessage = .returns message p1) :
    ∃ ephemeris plotting_frame,
      p.ephemeris_ = some ephemeris ∧
      message.ephemeris = some (ephemeris.Prolong p.current_time_) ∧
      message.pre_bourbaki_celestial = [] ∧
      WriteToMessage.celestials (WriteToMessage.celestial_to_index p.celestials_)
        p.celestials_ = some message.celestial ∧
      WriteToMessage.vessels (WriteToMessage.celestial_to_index p.celestials_)
        p.vessels_ = some message.vessel ∧
      p.bubble_.WriteToMessage
        (fun vessel => map.find? (WriteToMessage.vessel_to_guid p.vessels_) vessel)
        = some message.bubble ∧
      p.sun_.bind (map.find? (WriteToMessage.celestial_to_index p.celestials_))
        = some message.sun_index ∧
      message.plotting_frame = some plotting_frame := by
  unfold WriteToMessage at h
  cases hi : p.initializing_ with
  | true => simp [hi] at h
  | false =>
    rw [if_neg (by rw [hi]; decide)] at h
    split at h
    · cases h
    · rename_i ephemeris he
      dsimp only at h
      split at h
      · rename_i celestial vessel bubble sun_index plotting_frame hc hv hb hs hf
        cases h
        exact ⟨ephemeris, plotting_frame, he, rfl, rfl, hc, hv, hb, hs, rfl⟩
      · cases h

/-- The messages that the loop of `WriteToMessage` over `celestials_` wrote: one
for each celestial, in the order of `celestials_`, with its index and the index
of its parent. -/
theorem WriteToMessage.celestials_spec (celestial_to_index : List (Address × Index))
    (celestials : List (Index × Celestial))
    (messages : List serialization.CelestialParenthood)
    (h : WriteToMessage.celestials celestial_to_index celestials = some messages) :
    messages.map (fun m => (m.index, m.parent_index))
      = celestials.map (fun ic => (ic.1, ic.2.parent_.bind (map.find? celestial_to_index))) := by
  induction celestials generalizing messages with
  | nil =>
    rw [WriteToMessage.celestials] at h
    cases h
    rfl
  | cons ic celestials ih =>
    obtain ⟨index, celestial⟩ := ic
    rw [WriteToMessage.celestials] at h
    cases hp : celestial.parent_ with
    | none =>
      simp only [hp] at h
      cases hr : WriteToMessage.celestials celestial_to_index celestials with
      | none => rw [hr] at h; cases h
      | some rest =>
        rw [hr] at h
        cases h
        simp only [List.map_cons, hp, ih rest hr]
        rfl
    | some parent =>
      simp only [hp] at h
      cases hf : map.find? celestial_to_index parent with
      | none => simp only [hf] at h; cases h
      | some parent_index =>
        simp only [hf] at h
        cases hr : WriteToMessage.celestials celestial_to_index celestials with
        | none => rw [hr] at h; cases h
        | some rest =>
          rw [hr] at h
          cases h
          simp only [List.map_cons, hp, ih rest hr]
          rw [← hf]
          rfl

/-- The private constructor returns when the sun is in the table and, unless
the save predates Cardano, is bound to a rotating body of the ephemeris. -/
theorem restore_some (vessels : List (GUID × Vessel)) (celestials : List (Index × Celestial))
    (bubble : PhysicsBubble) (ephemeris : Ephemeris)
    (history_parameters : FixedStepParameters)
    (prolongation_parameters prediction_parameters : AdaptiveStepParameters)
    (planetarium_rotation : Angle) (game_epoch current_time : Instant) (sun_index : Index)
    (is_pre_cardano : Bool) (sun : Celestial)
    (hsun : map.find? celestials sun_index = some sun)
    (hrot : is_pre_cardano = false →
      ∃ sun_body, ephemeris.bodies_.find? (fun body => decide (body.address = sun.body))
        = some sun_body ∧ sun_body.is_rotating = true) :
    ∃ plugin, restore vessels celestials bubble (some ephemeris) history_parameters
      prolongation_parameters prediction_parameters planetarium_rotation game_epoch
      current_time sun_index is_pre_cardano = some plugin ∧
      plugin.vessels_ = vessels ∧ plugin.celestials_ = celestials ∧
      plugin.ephemeris_ = some ephemeris ∧ plugin.sun_ = some sun.address ∧
      plugin.is_pre_cardano_ = is_pre_cardano := by
  unfold restore
  simp only [hsun]
  cases is_pre_cardano with
  | true => exact ⟨_, rfl, rfl, rfl, rfl, rfl, rfl⟩
  | false =>
    obtain ⟨sun_body, hbody, hrotating⟩ := hrot rfl
    have hat : body_at
        { vessels_ := vessels, celestials_ := celestials, bubble_ := bubble,
          ephemeris_ := some ephemeris, history_parameters_ := history_parameters,
          prolongation_parameters_ := prolongation_parameters,
          prediction_parameters_ := prediction_parameters,
          planetarium_rotation_ := planetarium_rotation, game_epoch_ := game_epoch,
          current_time_ := current_time, sun_ := some sun.address, is_pre_cardano_ := false,
          kept_vessels_ := vessels.foldl (fun kept gv => set.emplace kept gv.2.address) [] }
        sun.body = some sun_body := by
      unfold body_at
      simpa using hbody
    simp only [Bool.false_eq_true, if_false, hat, hrotating, if_true]
    exact ⟨_, rfl, rfl, rfl, rfl, rfl, rfl⟩

/-- The plugin that `ReadFromMessage` returns for a message of the current
schema, given what its parts return. -/
theorem ReadFromMessage_some (env : Environment) (message : serialization.Plugin)
    (celestial_storage vessel_storage : Nat → Address)
    (hpre : message.pre_bourbaki_celestial = [])
    (ephemeris : Ephemeris) (he : message.ephemeris = some ephemeris)
    (celestials : List (Index × Celestial))
    (hc : ReadCelestialsFromMessages ephemeris
      (message.celestial.map (fun m => (m.index, m.parent_index))) celestial_storage []
      = some celestials)
    (vessels : List (GUID × Vessel))
    (hv : ReadFromMessage.vessels celestials vessel_storage message.vessel 0 [] = some vessels)
    (bubble : PhysicsBubble)
    (hb : PhysicsBubble.ReadFromMessage
      (fun guid => (map.find? vessels guid).map (fun vessel => vessel.address))
      message.bubble = some bubble)
    (plugin : Plugin)
    (hr : restore vessels celestials bubble (some ephemeris)
        (if !(message.history_parameters.isSome && message.prolongation_parameters.isSome &&
              message.prediction_parameters.isSome) then env.DefaultHistoryParameters
          else message.history_parameters.getD env.DefaultHistoryParameters)
        (if !(message.history_parameters.isSome && message.prolongation_parameters.isSome &&
              message.prediction_parameters.isSome) then env.DefaultProlongationParameters
          else message.prolongation_parameters.getD env.DefaultProlongationParameters)
        (if !(message.history_parameters.isSome && message.prolongation_parameters.isSome &&
              message.prediction_parameters.isSome) then env.DefaultPredictionParameters
          else message.prediction_parameters.getD env.DefaultPredictionParameters)
        message.planetarium_rotation
        (if !message.game_epoch.isSome then astronomy.J2000
          else message.game_epoch.getD astronomy.J2000)
        message.current_time message.sun_index (!message.game_epoch.isSome) = some plugin)
    (plotting_frame : NavigationFrame) (hf : message.plotting_frame = some plotting_frame) :
    ReadFromMessage env message celestial_storage vessel_storage
      = some (plugin.SetPlottingFrame plotting_frame) := by
  unfold ReadFromMessage
  simp only [hpre, List.length_nil, gt_iff_lt, lt_self_iff_false, decide_False,
    Bool.false_eq_true, if_false, he, hc, hv, hb, hr, hf]

end Plugin

namespace Plugin

/-- The celestial that a pointer designates is stored under the index that
`celestial_to_index` gives for the pointer. -/
theorem find?_of_celestial_at (p : Plugin) (hn : (map.keys p.celestials_).Nodup)
    (a : Address) (index : Index) (celestial : Celestial)
    (hi : map.find? (WriteToMessage.celestial_to_index p.celestials_) a = some index)
    (hc : p.celestial_at a = some celestial) :
    map.find? p.celestials_ index = some celestial := by
  unfold WriteToMessage.celestial_to_index at hi
  rw [find?_foldl_emplace (fun c : Celestial => c.address)] at hi
  simp only [map.find?] at hi
  unfold celestial_at at hc
  cases hf : p.celestials_.find? (fun kv => decide (kv.2.address = a)) with
  | none => rw [hf] at hi; cases hi
  | some kv =>
    rw [hf] at hi hc
    simp only [Option.map_some', Option.some.injEq] at hi hc
    have hkv : kv ∈ p.celestials_ := List.mem_of_find?_eq_some hf
    rw [map.find?_eq_some_iff _ _ _ hn, ← hi, ← hc]
    exact hkv

theorem mem_keys_iff_isSome {κ ν : Type} [DecidableEq κ] (m : List (κ × ν)) (k : κ) :
    k ∈ map.keys m ↔ (map.find? m k).isSome = true := by
  cases h : map.find? m k with
  | none =>
    have := (map.find?_eq_none_iff m k).1 h
    simp [this]
  | some v =>
    have : ¬ k ∉ map.keys m := fun hn => by
      rw [(map.find?_eq_none_iff m k).2 hn] at h
      cases h
    simp only [Option.isSome_some, iff_true]
    exact Classical.not_not.1 this

/-- The bodies to which the celestials of a table with distinct indices are
bound, found index by index. -/
theorem map_find?_body (celestials : List (Index × Celestial))
    (hn : (map.keys celestials).Nodup) :
    celestials.map (fun ic => (map.find? celestials ic.1).map (fun c => c.body))
      = celestials.map (fun ic => some ic.2.body) := by
  apply List.map_congr_left
  intro ic hic
  rw [(map.find?_eq_some_iff celestials ic.1 ic.2 hn).2 hic]
  rfl

end Plugin

/-- The round trip of the tables: when the table of celestials of `p` is well
formed and the GUIDs of its vessels are distinct, `ReadFromMessage` returns a
plugin for the message that `WriteToMessage` returned on `p`, with the same
indices, parents, bodies, GUIDs and dirty flags. -/
theorem Plugin.tables_round_trip (env : Environment) (p p1 : Plugin)
    (message : serialization.Plugin) (celestial_storage vessel_storage : Nat → Address)
    (hs : Function.Injective celestial_storage)
    (hc : p.CelestialsWellFormed) (hg : (map.keys p.vessels_).Nodup)
    (hw : p.WriteToMessage = .returns message p1) :
    ∃ q, Plugin.ReadFromMessage env message celestial_storage vessel_storage = some q ∧
      (∀ index, index ∈ map.keys q.celestials_ ↔ index ∈ map.keys p.celestials_) ∧
      (∀ index, q.celestial_parent_index index = p.celestial_parent_index index) ∧
      (∀ guid, guid ∈ map.keys q.vessels_ ↔ guid ∈ map.keys p.vessels_) ∧
      (∀ guid, q.vessel_parent_index guid = p.vessel_parent_index guid) ∧
      (∀ guid, q.vessel_is_dirty guid = p.vessel_is_dirty guid) ∧
      (∀ index, q.celestial_body index = p.celestial_body index) ∧
      q.ephemeris_.map (fun ephemeris => ephemeris.bodies_)
        = p.ephemeris_.map (fun ephemeris => ephemeris.bodies_) ∧
      message.celestial.map (fun m => m.index) = map.keys p.celestials_ ∧
      some (message.celestial.map (fun m => q.celestial_body m.index))
        = q.ephemeris_.map (fun ephemeris =>
            ephemeris.bodies_.map (fun body => some body.address)) := by
  obtain ⟨ephemeris, plotting_frame, he, hme, hpre, hwc, hwv, hwb, hws, hmf⟩ :=
    Plugin.WriteToMessage_returns_tables p p1 message hw
  obtain ⟨_, _, hgame, _⟩ := Plugin.WriteToMessage_returns_inv p p1 message hw
  obtain ⟨ephemeris', he', hbodies⟩ := hc.bodies_in_index_order
  rw [he] at he'
  cases he'
  have hcs := Plugin.WriteToMessage.celestials_spec _ _ _ hwc
  have hbodies' : p.celestials_.map (fun ic => ic.2.body)
      = (ephemeris.Prolong p.current_time_).bodies_.map (fun body => body.address) := hbodies
  obtain ⟨celestials, hread, hnodup, hsome, hbody, hparent⟩ :=
    Plugin.ReadCelestialsFromMessages_round_trip (ephemeris.Prolong p.current_time_)
      p.celestials_ celestial_storage hs hc.indices_nodup hbodies'
  rw [← hcs] at hread
  obtain ⟨vessels, hvread, hvsome, hvparent, hvdirty⟩ :=
    Plugin.ReadFromMessage.vessels_round_trip p.celestials_ celestials p.vessels_
      vessel_storage message.vessel hg hwv hsome hnodup
  obtain ⟨bubble, hbread⟩ :=
    Plugin.PhysicsBubble.ReadFromMessage_round_trip p.bubble_ p.vessels_ vessels
      message.bubble hwb hvsome
  -- the sun
  obtain ⟨sun, hsun, hsun_index⟩ : ∃ sun, p.sun_ = some sun ∧
      map.find? (Plugin.WriteToMessage.celestial_to_index p.celestials_) sun
        = some message.sun_index := by
    cases hsun : p.sun_ with
    | none => rw [hsun] at hws; cases hws
    | some sun => rw [hsun] at hws; exact ⟨sun, rfl, hws⟩
  have hsun_some := Plugin.celestial_to_index_mem p.celestials_ sun message.sun_index hsun_index
  rw [← hsome] at hsun_some
  obtain ⟨sun', hsun'⟩ := Option.isSome_iff_exists.1 hsun_some
  have hcardano : (!message.game_epoch.isSome) = p.is_pre_cardano_ := by
    rw [hgame]
    cases p.is_pre_cardano_ <;> rfl
  have hrot : (!message.game_epoch.isSome) = false →
      ∃ sun_body, (ephemeris.Prolong p.current_time_).bodies_.find?
        (fun body => decide (body.address = sun'.body)) = some sun_body ∧
        sun_body.is_rotating = true := by
    intro hpc
    rw [hcardano] at hpc
    obtain ⟨ephemeris'', sun'', sun_celestial, sun_body, he'', hsun'', hat, hfind, hrotating⟩ :=
      hc.sun_rotating hpc
    rw [he] at he''
    cases he''
    rw [hsun] at hsun''
    cases hsun''
    have hfound := Plugin.find?_of_celestial_at p hc.indices_nodup sun message.sun_index
      sun_celestial hsun_index hat
    have hb := hbody message.sun_index
    rw [hsun', hfound] at hb
    simp only [Option.map_some', Option.some.injEq] at hb
    rw [hb]
    exact ⟨sun_body, hfind, hrotating⟩
  obtain ⟨plugin, hrestore, hpv, hpc, hpe, _, _⟩ :=
    Plugin.restore_some vessels celestials bubble (ephemeris.Prolong p.current_time_)
      (if !(message.history_parameters.isSome && message.prolongation_parameters.isSome &&
            message.prediction_parameters.isSome) then env.DefaultHistoryParameters
        else message.history_parameters.getD env.DefaultHistoryParameters)
      (if !(message.history_parameters.isSome && message.prolongation_parameters.isSome &&
            message.prediction_parameters.isSome) then env.DefaultProlongationParameters
        else message.prolongation_parameters.getD env.DefaultProlongationParameters)
      (if !(message.history_parameters.isSome && message.prolongation_parameters.isSome &&
            message.prediction_parameters.isSome) then env.DefaultPredictionParameters
        else message.prediction_parameters.getD env.DefaultPredictionParameters)
      message.planetarium_rotation
      (if !message.game_epoch.isSome then astronomy.J2000
        else message.game_epoch.getD astronomy.J2000)
      message.current_time message.sun_index (!message.game_epoch.isSome) sun' hsun' hrot
  have hq := Plugin.ReadFromMessage_some env message celestial_storage vessel_storage hpre
    (ephemeris.Prolong p.current_time_) hme celestials hread vessels hvread bubble hbread
    plugin hrestore plotting_frame hmf
  have hqc : (plugin.SetPlottingFrame plotting_frame).celestials_ = celestials := hpc
  have hqv : (plugin.SetPlottingFrame plotting_frame).vessels_ = vessels := hpv
  have hqe : (plugin.SetPlottingFrame plotting_frame).ephemeris_
      = some (ephemeris.Prolong p.current_time_) := hpe
  have hindices : message.celestial.map (fun m => m.index) = map.keys p.celestials_ := by
    have := congrArg (List.map Prod.fst) hcs
    simpa [map.keys, List.map_map, Function.comp_def] using this
  have hqbody : ∀ index, (plugin.SetPlottingFrame plotting_frame).celestial_body index
      = p.celestial_body index := by
    intro index
    unfold Plugin.celestial_body
    rw [hqc]
    exact hbody index
  refine ⟨plugin.SetPlottingFrame plotting_frame, hq, ?_, ?_, ?_, ?_, ?_, hqbody, ?_,
    hindices, ?_⟩
  · intro index
    rw [hqc, Plugin.mem_keys_iff_isSome, Plugin.mem_keys_iff_isSome, hsome]
  · intro index
    unfold Plugin.celestial_parent_index
    rw [hqc]
    exact hparent index
  · intro guid
    rw [hqv, Plugin.mem_keys_iff_isSome, Plugin.mem_keys_iff_isSome, hvsome]
  · intro guid
    unfold Plugin.vessel_parent_index
    rw [hqv, hqc]
    exact hvparent guid
  · intro guid
    unfold Plugin.vessel_is_dirty
    rw [hqv]
    exact hvdirty guid
  · rw [hqe, he]
    rfl
  · rw [hqe]
    simp only [Option.map_some', Option.some.injEq]
    have h1 : message.celestial.map
        (fun m => (plugin.SetPlottingFrame plotting_frame).celestial_body m.index)
        = (map.keys p.celestials_).map (fun index => p.celestial_body index) := by
      rw [← hindices, List.map_map]
      apply List.map_congr_left
      intro m _
      exact hqbody m.index
    rw [h1]
    have h2 := Plugin.map_find?_body p.celestials_ hc.indices_nodup
    have h3 : (map.keys p.celestials_).map (fun index => p.celestial_body index)
        = p.celestials_.map (fun ic => (map.find? p.celestials_ ic.1).map (fun c => c.body)) := by
      simp [map.keys, List.map_map, Function.comp_def, Plugin.celestial_body]
    rw [h3, h2]
    have h4 := congrArg (List.map (fun a : Address => some a)) hbodies'
    simpa [List.map_map, Function.comp_def] using h4

/-! ## The order of the bodies of the ephemeris -/

namespace Plugin

theorem map_insert_ordered {κ ν μ : Type} [LT κ] [DecidableRel (fun a b : κ => a < b)]
    (f : ν → μ) (k : κ) (v : ν) (m : List (κ × ν)) :
    (map.insert_ordered k v m).map (fun kv => (kv.1, f kv.2))
      = map.insert_ordered k (f v) (m.map (fun kv => (kv.1, f kv.2))) := by
  induction m with
  | nil => rfl
  | cons kv m ih =>
    obtain ⟨k', v'⟩ := kv
    by_cases h : k < k'
    · simp [map.insert_ordered, h]
    · simp only [map.insert_ordered, h, if_false, List.map_cons, ih]

theorem find?_map_value {κ ν μ : Type} [DecidableEq κ] (f : ν → μ) (m : List (κ × ν))
    (k : κ) : map.find? (m.map (fun kv => (kv.1, f kv.2))) k = (map.find? m k).map f := by
  induction m with
  | nil => rfl
  | cons kv m ih =>
    obtain ⟨k', v'⟩ := kv
    rw [List.map_cons, map.find?_cons, map.find?_cons]
    by_cases h : k = k'
    · rw [if_pos h, if_pos h]; rfl
    · rw [if_neg h, if_neg h, ih]

theorem map_modify_of_preserved {κ ν μ : Type} [DecidableEq κ] (g : ν → μ) (h : ν → ν)
    (hg : ∀ v, g (h v) = g v) (k : κ) (m : List (κ × ν)) :
    (map.modify m k h).map (fun kv => (kv.1, g kv.2)) = m.map (fun kv => (kv.1, g kv.2)) := by
  induction m with
  | nil => rfl
  | cons kv m ih =>
    obtain ⟨k', v'⟩ := kv
    rw [map.modify_cons, List.map_cons, List.map_cons, ih]
    by_cases e : k' = k
    · rw [if_pos e, hg]
    · rw [if_neg e]

/-- The table of celestials of a new plugin is aligned with the bodies kept for
the ephemeris: both are empty. -/
theorem new_bodies_aligned (env : Environment) (game_epoch solar_system_epoch : Instant)
    (planetarium_rotation : Angle) :
    (Plugin.new env game_epoch solar_system_epoch planetarium_rotation).bodies_aligned := rfl

/-- An absolute insertion that returns keeps the celestials aligned with the
bodies kept for the ephemeris: the new celestial and its body are stored under
the same index. -/
theorem InsertCelestialAbsoluteCartesian_bodies_aligned (p q : Plugin)
    (celestial_index : Index) (parent_index : Option Index) (initial_state : DegreesOfFreedom)
    (body : MassiveBody) (storage : Address) (ha : p.bodies_aligned)
    (h : p.InsertCelestialAbsoluteCartesian celestial_index parent_index initial_state body
      storage = .returns () q) : q.bodies_aligned := by
  have hinv := InsertCelestialAbsoluteCartesian_returns_inv p q celestial_index
    parent_index initial_state body storage h
  have hi := hinv.1
  have hh := hinv.2.1
  have hf := hinv.2.2.1
  clear hinv
  unfold bodies_aligned at ha ⊢
  have hfb : map.find? (p.absolute_initialization_.getD {}).bodies celestial_index
      = none := by
    have h1 := find?_map_value (fun c : Celestial => c.body) p.celestials_ celestial_index
    have h2 := find?_map_value (fun b : MassiveBody => b.address)
      ((p.absolute_initialization_.map (fun objects => objects.bodies)).getD [])
      celestial_index
    rw [ha, h2, hf] at h1
    cases ho : p.absolute_initialization_ with
    | none => rfl
    | some objects =>
      rw [ho] at h1
      simp only [Option.map_some', Option.getD_some] at h1
      cases hb : map.find? objects.bodies celestial_index with
      | none => exact hb
      | some b => rw [hb] at h1; cases h1
  have hal : (map.insert_ordered celestial_index (Celestial.new storage body.address)
      p.celestials_).map (fun ic => (ic.1, ic.2.body))
      = (map.insert_ordered celestial_index body
        (p.absolute_initialization_.getD {}).bodies).map
          (fun ib => (ib.1, ib.2.address)) := by
    rw [map_insert_ordered (fun c : Celestial => c.body),
      map_insert_ordered (fun b : MassiveBody => b.address), ha]
    cases p.absolute_initialization_ <;> rfl
  unfold InsertCelestialAbsoluteCartesian at h
  dsimp only at h
  rw [emplace_absent _ _ _ hf] at h
  simp only [hi, hh, Bool.not_true, Option.isSome_none, Bool.false_eq_true, if_false,
    Bool.not_true] at h
  rw [emplace_absent _ _ _ hfb] at h
  cases parent_index with
  | none =>
    dsimp only at h
    split at h
    · cases h
    · cases h
      exact hal
  | some parent_index =>
    dsimp only at h
    split at h
    · cases h
    · cases h
      dsimp only
      rw [map_modify_of_preserved (fun c : Celestial => c.body)
        (fun c : Celestial => c.set_parent _) (fun _ => rfl)]
      exact hal

end Plugin

namespace Plugin

/-- An absolute insertion that returns leaves the indices of the celestials
distinct and does not touch the ephemeris. -/
theorem InsertCelestialAbsoluteCartesian_indices_nodup (p q : Plugin)
    (celestial_index : Index) (parent_index : Option Index) (initial_state : DegreesOfFreedom)
    (body : MassiveBody) (storage : Address) (hn : (map.keys p.celestials_).Nodup)
    (h : p.InsertCelestialAbsoluteCartesian celestial_index parent_index initial_state body
      storage = .returns () q) :
    (map.keys q.celestials_).Nodup ∧ q.ephemeris_ = p.ephemeris_ := by
  have hinv := InsertCelestialAbsoluteCartesian_returns_inv p q celestial_index
    parent_index initial_state body storage h
  have hi := hinv.1
  have hh := hinv.2.1
  have hf := hinv.2.2.1
  have hk := hinv.2.2.2.2.2.2.1
  clear hinv
  constructor
  · rw [hk]
    have hperm := (map.insert_ordered_perm p.celestials_ celestial_index
      (Celestial.new storage body.address)).map Prod.fst
    refine (hperm.nodup_iff).2 ?_
    simp only [List.map_cons]
    exact List.nodup_cons.2 ⟨(map.find?_eq_none_iff _ _).1 hf, hn⟩
  · unfold InsertCelestialAbsoluteCartesian at h
    dsimp only at h
    rw [emplace_absent _ _ _ hf] at h
    simp only [hi, hh, Bool.not_true, Option.isSome_none, Bool.false_eq_true, if_false,
      Bool.not_true] at h
    cases parent_index with
    | none =>
      dsimp only at h
      split at h
      · cases h
      · cases h
        rfl
    | some parent_index =>
      dsimp only at h
      split at h
      · cases h
      · cases h
        rfl

/-- The loop of `EndInitialization` keeps the celestials aligned with the bodies
kept for the ephemeris and their indices distinct. -/
theorem EndInitialization.loop_bodies_aligned (parents : List (Index × Option Index))
    (storage : Nat → Address) (system : List (MassiveBody × DegreesOfFreedom))
    (p q : Plugin) (bodies_to_indices : List (Address × Index)) (i : Nat)
    (ha : p.bodies_aligned) (hn : (map.keys p.celestials_).Nodup)
    (h : EndInitialization.loop parents storage p bodies_to_indices i system = .returns () q) :
    q.bodies_aligned ∧ (map.keys q.celestials_).Nodup ∧ q.ephemeris_ = p.ephemeris_ := by
  induction system generalizing p bodies_to_indices i with
  | nil =>
    rw [EndInitialization.loop] at h
    cases h
    exact ⟨ha, hn, rfl⟩
  | cons bd rest ih =>
    obtain ⟨body, dof⟩ := bd
    rw [EndInitialization.loop] at h
    split at h
    · cases h
    · rename_i parent_index _
      split at h
      · cases h
      · rename_i u p1 heq
        have h1 := InsertCelestialAbsoluteCartesian_bodies_aligned p p1 _ _ _ _ _ ha heq
        have h2 := InsertCelestialAbsoluteCartesian_indices_nodup p p1 _ _ _ _ _ hn heq
        obtain ⟨h3, h4, h5⟩ := ih p1 _ (i + 1) h1 h2.1 h
        exact ⟨h3, h4, h5.trans h2.2⟩

/-- The first part of `EndInitialization` keeps the celestials aligned with the
bodies kept for the ephemeris and their indices distinct. -/
theorem EndInitialization.hierarchical_bodies_aligned (env : Environment) (p q : Plugin)
    (storage : Nat → Address) (ha : p.bodies_aligned) (hn : (map.keys p.celestials_).Nodup)
    (h : EndInitialization.hierarchical env p storage = .returns () q) :
    q.bodies_aligned ∧ (map.keys q.celestials_).Nodup ∧ q.ephemeris_ = p.ephemeris_ := by
  unfold EndInitialization.hierarchical at h
  split at h
  · cases h
    exact ⟨ha, hn, rfl⟩
  · dsimp only at h
    split at h
    · cases h
    · split at h
      · have key := fun h1 h2 =>
          EndInitialization.loop_bodies_aligned _ storage _ _ q _ 0 h1 h2 h
        exact key ha hn
      · have key := fun h1 h2 =>
          EndInitialization.loop_bodies_aligned _ storage _ _ q _ 0 h1 h2 h
        exact key ha hn

end Plugin

namespace Plugin

theorem find?_map_set_trajectory (celestials : List (Index × Celestial)) (a : Address) :
    ((celestials.map (fun ic => (ic.1, ic.2.set_trajectory))).find?
        (fun ic => decide (ic.2.address = a))).map Prod.snd
      = ((celestials.find? (fun ic => decide (ic.2.address = a))).map Prod.snd).map
          (fun c => c.set_trajectory) := by
  induction celestials with
  | nil => rfl
  | cons ic celestials ih =>
    rw [List.map_cons, List.find?_cons, List.find?_cons]
    by_cases e : ic.2.address = a
    · have e' : (ic.2.set_trajectory).address = a := e
      simp only [e, e', decide_True, Option.map_some']
    · have e' : ¬ (ic.2.set_trajectory).address = a := e
      simp only [e, e', decide_False]
      exact ih

/-- The function `InitializeEphemerisAndSetCelestialTrajectories` gives the
ephemeris the bodies of `absolute_initialization_->bodies` in the order of their
indices; when these are aligned with the celestials, the celestials are bound to
the bodies of the ephemeris in their order. -/
theorem InitializeEphemerisAndSetCelestialTrajectories_returns_inv (p q : Plugin)
    (h : p.InitializeEphemerisAndSetCelestialTrajectories = .returns () q) :
    ∃ objects, p.absolute_initialization_ = some objects ∧
      q.ephemeris_ = some (Ephemeris.new (map.values objects.bodies) p.current_time_) ∧
      q.celestials_ = p.celestials_.map (fun ic => (ic.1, ic.2.set_trajectory)) ∧
      q.sun_ = p.sun_ ∧ q.is_pre_cardano_ = p.is_pre_cardano_ := by
  unfold InitializeEphemerisAndSetCelestialTrajectories at h
  split at h
  · cases h
  · rename_i objects ho
    dsimp only at h
    split at h
    · cases h
    · split at h
      · cases h
      · cases h
        exact ⟨objects, ho, rfl, rfl, rfl, rfl⟩

/-- When the celestials are aligned with the bodies kept for the ephemeris and
their indices are distinct, an `EndInitialization` that returns leaves a table
of celestials that is well formed: the ephemeris it builds was given the bodies
in the order of the indices of the celestials. -/
theorem EndInitialization_celestialsWellFormed (env : Environment) (p q : Plugin)
    (storage : Nat → Address) (ha : p.bodies_aligned) (hn : (map.keys p.celestials_).Nodup)
    (he : p.ephemeris_ = none) (h : p.EndInitialization env storage = .returns () q) :
    q.CelestialsWellFormed := by
  unfold EndInitialization at h
  split at h
  · cases h
  · split at h
    · cases h
    · rename_i u p1 hh
      obtain ⟨ha1, hn1, he1⟩ :=
        EndInitialization.hierarchical_bodies_aligned env p p1 storage ha hn hh
      rw [he] at he1
      split at h
      · cases h
      · rename_i objects ho
        split at h
        · cases h
        · rename_i sun hsun
          split at h
          · cases h
          · rename_i sun_celestial hat
            split at h
            · cases h
            · rename_i sun_body hbody
              split at h
              · cases h
              · rename_i hrot
                obtain ⟨objects', ho', hqe, hqc, hqs, _⟩ :=
                  InitializeEphemerisAndSetCelestialTrajectories_returns_inv _ q h
                have ho'' : p1.absolute_initialization_ = some objects' := ho'
                rw [ho] at ho''
                cases ho''
                unfold bodies_aligned at ha1
                rw [ho] at ha1
                simp only [Option.map_some', Option.getD_some] at ha1
                have hbodies : q.celestials_.map (fun ic => ic.2.body)
                    = (map.values objects.bodies).map (fun body => body.address) := by
                  rw [hqc]
                  have := congrArg (List.map Prod.snd) ha1
                  simp only [List.map_map, Function.comp_def] at this
                  simp only [List.map_map, Function.comp_def, map.values]
                  exact this
                refine ⟨?_, ⟨_, hqe, hbodies⟩, ?_⟩
                · rw [hqc]
                  simpa [map.keys, List.map_map, Function.comp_def] using hn1
                · intro _
                  refine ⟨_, sun, sun_celestial.set_trajectory, sun_body, hqe, ?_, ?_, ?_, ?_⟩
                  · rw [hqs]; exact hsun
                  · unfold celestial_at
                    rw [hqc, find?_map_set_trajectory]
                    unfold celestial_at at hat
                    rw [hat]
                    rfl
                  · unfold body_at at hbody
                    rw [ho, he1] at hbody
                    simpa [Ephemeris.new] using hbody
                  · simpa using hrot

end Plugin

namespace Plugin

/-- A hierarchical insertion that returns touches neither the celestials, nor
the bodies kept for the ephemeris, nor the ephemeris. -/
theorem InsertCelestialJacobiKeplerian_celestials (env : Environment) (p q : Plugin)
    (celestial_index : Index) (parent_index : Option Index)
    (keplerian_elements : Option KeplerianElements) (body : MassiveBody)
    (h : p.InsertCelestialJacobiKeplerian env celestial_index parent_index keplerian_elements
      body = .returns () q) :
    q.celestials_ = p.celestials_ ∧ q.absolute_initialization_ = p.absolute_initialization_ ∧
      q.ephemeris_ = p.ephemeris_ := by
  unfold InsertCelestialJacobiKeplerian at h
  dsimp only at h
  repeat' split at h
  all_goals first
    | (cases h; exact ⟨rfl, rfl, rfl⟩)
    | cases h

/-- The invariant of the initialization: the celestials are aligned with the
bodies kept for the ephemeris, their indices are distinct and there is no
ephemeris yet.  It holds in a new plugin and every insertion of a celestial
keeps it. -/
theorem run_insertions_bodies_aligned (env : Environment) (insertions : List Operation)
    (p r : Plugin)
    (hi : ∀ operation ∈ insertions,
      operation.is_initialization = true ∧ operation.is_EndInitialization = false)
    (ha : p.bodies_aligned) (hn : (map.keys p.celestials_).Nodup) (he : p.ephemeris_ = none)
    (h : p.run env insertions = .returns () r) :
    r.bodies_aligned ∧ (map.keys r.celestials_).Nodup ∧ r.ephemeris_ = none := by
  induction insertions generalizing p with
  | nil =>
    cases h
    exact ⟨ha, hn, he⟩
  | cons operation rest ih =>
    rw [run] at h
    cases hs : p.step env operation with
    | fatal s => rw [hs] at h; cases h
    | returns u p1 =>
      rw [hs] at h
      have hrest := fun o hm => hi o (List.mem_cons_of_mem _ hm)
      obtain ⟨h1, h2⟩ := hi operation (List.mem_cons_self _ _)
      cases operation with
      | InsertCelestialAbsoluteCartesian index parent_index initial_state body storage =>
        have hs' : p.InsertCelestialAbsoluteCartesian index parent_index initial_state body
            storage = .returns () p1 := hs
        have a1 := InsertCelestialAbsoluteCartesian_bodies_aligned p p1 _ _ _ _ _ ha hs'
        have a2 := InsertCelestialAbsoluteCartesian_indices_nodup p p1 _ _ _ _ _ hn hs'
        exact ih p1 hrest a1 a2.1 (a2.2.trans he) h
      | InsertCelestialJacobiKeplerian index parent_index keplerian_elements body =>
        have hs' : p.InsertCelestialJacobiKeplerian env index parent_index keplerian_elements
            body = .returns () p1 := hs
        obtain ⟨c1, c2, c3⟩ := InsertCelestialJacobiKeplerian_celestials env p p1 _ _ _ _ hs'
        refine ih p1 hrest ?_ ?_ (c3.trans he) h
        · unfold bodies_aligned
          rw [c1, c2]
          exact ha
        · rw [c1]
          exact hn
      | EndInitialization storage => cases h2
      | _ => cases h1

end Plugin

/-! ## The bindings of the celestials under each operation -/

namespace Plugin

theorem SameBindings.self_bound (p : Plugin) : SameBindings p p := ⟨rfl, rfl, rfl, rfl⟩

theorem SameBindings.chain {p q r : Plugin} (h₁ : SameBindings p q)
    (h₂ : SameBindings q r) : SameBindings p r :=
  ⟨h₂.bindings_eq.trans h₁.bindings_eq,
    h₂.ephemeris_bodies_eq.trans h₁.ephemeris_bodies_eq,
    h₂.sun_eq.trans h₁.sun_eq, h₂.is_pre_cardano_eq.trans h₁.is_pre_cardano_eq⟩

/-- A call to a collaborator that leaves the bodies of the ephemeris alone
leaves the bindings alone. -/
theorem Frame.sameBindings {p q : Plugin} (h : Frame p q)
    (he : q.ephemeris_bodies = p.ephemeris_bodies) : SameBindings p q :=
  ⟨congrArg (List.map (fun ic : Index × Celestial => (ic.1, ic.2.address, ic.2.body)))
      h.celestials_eq, he, h.sun_eq, h.is_pre_cardano_eq⟩

theorem call_on_vessel_ephemeris_bodies (p : Plugin) (vessel : Address)
    (f : Ephemeris → Vessel → Ephemeris × Vessel) (call : Call)
    (hf : ∀ ephemeris v, (f ephemeris v).1.bodies_ = ephemeris.bodies_) :
    (p.call_on_vessel vessel f call).ephemeris_bodies = p.ephemeris_bodies := by
  unfold call_on_vessel ephemeris_bodies
  dsimp only
  split
  · rename_i ephemeris guid v he hv
    rw [he]
    exact congrArg some (hf ephemeris v)
  · rfl

theorem call_on_vessel_sameBindings (p : Plugin) (vessel : Address)
    (f : Ephemeris → Vessel → Ephemeris × Vessel) (call : Call)
    (hf : ∀ ephemeris v, (f ephemeris v).1.bodies_ = ephemeris.bodies_) :
    SameBindings p (p.call_on_vessel vessel f call) :=
  (call_on_vessel_frame p vessel f call).sameBindings
    (call_on_vessel_ephemeris_bodies p vessel f call hf)

theorem EvolveBubble_loop_sameBindings (env : Environment) (hk : KeepsBodies env)
    (t : Instant) (c : DegreesOfFreedom) (vessels : List Address) (p : Plugin) :
    SameBindings p (EvolveBubble.loop env t c p vessels) := by
  induction vessels generalizing p with
  | nil => exact SameBindings.self_bound p
  | cons v rest ih =>
    rw [EvolveBubble.loop]
    exact (call_on_vessel_sameBindings p v _ _
      (fun e w => hk.Vessel_AdvanceTimeInBubble e w _ _)).chain (ih _)

theorem AdvanceTime_loop_sameBindings (env : Environment) (hk : KeepsBodies env)
    (t : Instant) (vessels : List (GUID × Vessel)) (p : Plugin) :
    SameBindings p (AdvanceTime.loop env t p vessels) := by
  induction vessels generalizing p with
  | nil => exact SameBindings.self_bound p
  | cons gv rest ih =>
    obtain ⟨g, v⟩ := gv
    rw [AdvanceTime.loop]
    split
    · exact (call_on_vessel_sameBindings p v.address _ _
        (fun e w => hk.Vessel_AdvanceTimeNotInBubble e w _)).chain (ih _)
    · exact ih p

theorem ForgetAllHistoriesBefore_loop_sameBindings (env : Environment) (hk : KeepsBodies env)
    (t : Instant) (vessels : List (GUID × Vessel)) (p : Plugin) :
    SameBindings p (ForgetAllHistoriesBefore.loop env t p vessels) := by
  induction vessels generalizing p with
  | nil => exact SameBindings.self_bound p
  | cons gv rest ih =>
    obtain ⟨g, v⟩ := gv
    rw [ForgetAllHistoriesBefore.loop]
    exact (call_on_vessel_sameBindings p v.address _ _
      (fun e w => hk.Vessel_ForgetBefore e w _)).chain (ih _)

theorem EvolveBubble.flowed_sameBindings (env : Environment) (hk : KeepsBodies env)
    (p : Plugin) (e : Ephemeris) (t : Instant) (he : p.ephemeris_ = some e) :
    SameBindings p (EvolveBubble.flowed env p e t) := by
  refine ⟨rfl, ?_, rfl, rfl⟩
  unfold ephemeris_bodies
  rw [he]
  exact congrArg some (hk.FlowWithAdaptiveStep _ _ _ _ _)

theorem EvolveBubble_sameBindings (env : Environment) (hk : KeepsBodies env) (p : Plugin)
    (t : Instant) : SameBindings p (p.EvolveBubble env t).state := by
  by_cases h : p.bubble_.empty = true
  · rw [EvolveBubble_empty env p t h]
    exact SameBindings.self_bound p
  · have h' : p.bubble_.empty = false := by simpa using h
    cases he : p.ephemeris_ with
    | none =>
      rw [EvolveBubble_no_ephemeris env p t h' he]
      exact SameBindings.self_bound p
    | some e =>
      cases hf : (EvolveBubble.flow env p e t).reached_final_time with
      | false =>
        rw [EvolveBubble_not_reached env p t e h' he hf]
        exact EvolveBubble.flowed_sameBindings env hk p e t he
      | true =>
        cases hl : physics.last (EvolveBubble.flow env p e t).trajectory with
        | none =>
          rw [EvolveBubble_no_last env p t e h' he hf hl]
          exact EvolveBubble.flowed_sameBindings env hk p e t he
        | some l =>
          rw [EvolveBubble_run env p t e l h' he hf hl]
          exact (EvolveBubble.flowed_sameBindings env hk p e t he).chain
            (EvolveBubble_loop_sameBindings env hk _ _ _ _)

theorem bindings_modify_set_parent (m : List (Index × Celestial)) (index : Index)
    (parent : Address) :
    (map.modify m index (fun c => c.set_parent parent)).map
        (fun ic => (ic.1, ic.2.address, ic.2.body))
      = m.map (fun ic => (ic.1, ic.2.address, ic.2.body)) := by
  induction m with
  | nil => rfl
  | cons ic m ih =>
    obtain ⟨i, c⟩ := ic
    rw [map.modify_cons]
    by_cases e : i = index
    · simp only [e, if_true, List.map_cons, ih]
      rfl
    · simp only [e, if_false, List.map_cons, ih]

theorem UpdateCelestialHierarchy_sameBindings (p : Plugin) (celestial_index : Index)
    (parent_index : Index) :
    SameBindings p (p.UpdateCelestialHierarchy celestial_index parent_index).state := by
  unfold UpdateCelestialHierarchy
  repeat' split
  all_goals first
    | exact ⟨rfl, rfl, rfl, rfl⟩
    | (refine ⟨?_, rfl, rfl, rfl⟩
       simp only [Outcome.state]
       exact bindings_modify_set_parent _ _ _)

theorem SetMainBody_sameBindings (p : Plugin) (index : Index) :
    SameBindings p (p.SetMainBody index).state := by
  unfold SetMainBody
  repeat' split
  all_goals exact ⟨rfl, rfl, rfl, rfl⟩

theorem InsertOrKeepVessel_sameBindings (p : Plugin) (vessel_guid : GUID)
    (parent_index : Index) (storage : Address) :
    SameBindings p (p.InsertOrKeepVessel vessel_guid parent_index storage).state := by
  unfold InsertOrKeepVessel
  dsimp only
  repeat' split
  all_goals exact ⟨rfl, rfl, rfl, rfl⟩

theorem SetVesselStateOffset_sameBindings (env : Environment) (p : Plugin)
    (vessel_guid : GUID) (from_parent : RelativeDegreesOfFreedom) :
    SameBindings p (p.SetVesselStateOffset env vessel_guid from_parent).state := by
  unfold SetVesselStateOffset
  dsimp only
  repeat' split
  all_goals first
    | exact ⟨rfl, rfl, rfl, rfl⟩
    | (refine ⟨rfl, ?_, rfl, rfl⟩
       simp_all [Outcome.state, ephemeris_bodies, Ephemeris.Prolong])

theorem ForgetAllHistoriesBefore_sameBindings (env : Environment) (hk : KeepsBodies env)
    (p : Plugin) (t : Instant) :
    SameBindings p (p.ForgetAllHistoriesBefore env t).state := by
  unfold ForgetAllHistoriesBefore
  dsimp only
  repeat' split
  all_goals first
    | exact ⟨rfl, rfl, rfl, rfl⟩
    | (refine SameBindings.chain (q := { p with
          ephemeris_ := some (Ephemeris.ForgetBefore _ t)
          calls_ := p.calls_ ++ [Call.Ephemeris_ForgetBefore t] }) ?_
        (ForgetAllHistoriesBefore_loop_sameBindings env hk t _ _)
       refine ⟨rfl, ?_, rfl, rfl⟩
       simp_all [ephemeris_bodies, Ephemeris.ForgetBefore])

theorem UpdatePrediction_sameBindings (env : Environment) (hk : KeepsBodies env) (p : Plugin)
    (vessel_guid : GUID) : SameBindings p (p.UpdatePrediction env vessel_guid).state := by
  unfold UpdatePrediction
  repeat' split
  all_goals first
    | exact ⟨rfl, rfl, rfl, rfl⟩
    | exact call_on_vessel_sameBindings p _ _ _ (fun e w => hk.Vessel_UpdatePrediction e w _)

theorem CreateFlightPlan_sameBindings (env : Environment) (hk : KeepsBodies env) (p : Plugin)
    (vessel_guid : GUID) (final_time : Instant) (initial_mass : ℚ) :
    SameBindings p (p.CreateFlightPlan env vessel_guid final_time initial_mass).state := by
  unfold CreateFlightPlan
  repeat' split
  all_goals first
    | exact ⟨rfl, rfl, rfl, rfl⟩
    | exact call_on_vessel_sameBindings p _ _ _
        (fun e w => hk.Vessel_CreateFlightPlan e w _ _ _)

theorem AddVesselToNextPhysicsBubble_sameBindings (env : Environment) (p : Plugin)
    (vessel_guid : GUID) (parts : List Nat) :
    SameBindings p (p.AddVesselToNextPhysicsBubble env vessel_guid parts).state := by
  unfold AddVesselToNextPhysicsBubble
  repeat' split
  all_goals exact ⟨rfl, rfl, rfl, rfl⟩

theorem CelestialFromParent_sameBindings (env : Environment) (p : Plugin)
    (celestial_index : Index) :
    SameBindings p (p.CelestialFromParent env celestial_index).state := by
  unfold CelestialFromParent
  dsimp only
  repeat' split
  all_goals first
    | exact ⟨rfl, rfl, rfl, rfl⟩
    | (refine ⟨rfl, ?_, rfl, rfl⟩
       simp_all [Outcome.state, ephemeris_bodies, Ephemeris.Prolong])

theorem WriteToMessage_sameBindings (p : Plugin) :
    SameBindings p p.WriteToMessage.state := by
  unfold WriteToMessage
  dsimp only
  repeat' split
  all_goals first
    | exact ⟨rfl, rfl, rfl, rfl⟩
    | (refine ⟨rfl, ?_, rfl, rfl⟩
       simp_all [Outcome.state, ephemeris_bodies, Ephemeris.Prolong])

theorem AdvanceTime_sameBindings (env : Environment) (hk : KeepsBodies env) (p q : Plugin)
    (t : Instant) (rot : Angle) (h : p.AdvanceTime env t rot = .returns () q) :
    SameBindings p q := by
  obtain ⟨_, _, e, rotv, p4, he, _, hb, rfl⟩ := AdvanceTime_returns_inv env p q t rot h
  have hf := EvolveBubble_sameBindings env hk (AdvanceTime.prepared env p e rotv t) t
  rw [hb] at hf
  have h1 : SameBindings p (AdvanceTime.prepared env p e rotv t) := by
    refine ⟨rfl, ?_, rfl, rfl⟩
    have he' : p.ephemeris_ = some e := he
    simp only [ephemeris_bodies, he']
    rfl
  have h2 : SameBindings p4 (AdvanceTime.loop env t p4 p4.vessels_) :=
    AdvanceTime_loop_sameBindings env hk t p4.vessels_ p4
  have h3 : SameBindings (AdvanceTime.loop env t p4 p4.vessels_)
      (AdvanceTime.finished env p4 t rot) := ⟨rfl, rfl, rfl, rfl⟩
  exact (h1.chain hf).chain (h2.chain h3)

end Plugin

namespace Plugin

theorem step_sameBindings (env : Environment) (hk : KeepsBodies env) (p q : Plugin)
    (operation : Operation) (hi : operation.is_initialization = false)
    (h : p.step env operation = .returns () q) : SameBindings p q := by
  have same : ∀ {o : Outcome Plugin Unit}, o = .returns () q → SameBindings p o.state →
      SameBindings p q := by
    intro o ho hs
    rw [ho] at hs
    exact hs
  cases operation with
  | InsertCelestialAbsoluteCartesian celestial_index parent_index initial_state body storage =>
    cases hi
  | InsertCelestialJacobiKeplerian celestial_index parent_index keplerian_elements body =>
    cases hi
  | EndInitialization storage => cases hi
  | HasEncounteredApocalypse details =>
    refine same h ?_
    show SameBindings p (p.HasEncounteredApocalypse details).discard.state
    rw [discard_state]
    exact (HasEncounteredApocalypse_frame p details).sameBindings
      (HasEncounteredApocalypse_ephemeris_bodies p details)
  | UpdateCelestialHierarchy celestial_index parent_index =>
    exact same h (UpdateCelestialHierarchy_sameBindings p _ _)
  | SetMainBody index => exact same h (SetMainBody_sameBindings p _)
  | InsertOrKeepVessel vessel_guid parent_index storage =>
    have hs := InsertOrKeepVessel_sameBindings p vessel_guid parent_index storage
    change (p.InsertOrKeepVessel vessel_guid parent_index storage).discard = .returns () q at h
    cases hh : p.InsertOrKeepVessel vessel_guid parent_index storage with
    | fatal s => rw [hh] at h; cases h
    | returns r s =>
      rw [hh] at h hs
      cases h
      exact hs
  | SetVesselStateOffset vessel_guid from_parent =>
    exact same h (SetVesselStateOffset_sameBindings env p _ _)
  | AdvanceTime t planetarium_rotation => exact AdvanceTime_sameBindings env hk p q t _ h
  | ForgetAllHistoriesBefore t =>
    exact same h (ForgetAllHistoriesBefore_sameBindings env hk p _)
  | UpdatePrediction vessel_guid => exact same h (UpdatePrediction_sameBindings env hk p _)
  | CreateFlightPlan vessel_guid final_time initial_mass =>
    exact same h (CreateFlightPlan_sameBindings env hk p _ _ _)
  | SetPredictionLength t =>
    cases h
    exact ⟨rfl, rfl, rfl, rfl⟩
  | SetPredictionAdaptiveStepParameters prediction_adaptive_step_parameters =>
    cases h
    exact ⟨rfl, rfl, rfl, rfl⟩
  | SetPlottingFrame plotting_frame =>
    cases h
    exact ⟨rfl, rfl, rfl, rfl⟩
  | AddVesselToNextPhysicsBubble vessel_guid parts =>
    exact same h (AddVesselToNextPhysicsBubble_sameBindings env p _ _)
  | CelestialFromParent celestial_index =>
    refine same h ?_
    show SameBindings p (p.CelestialFromParent env celestial_index).discard.state
    rw [discard_state]
    exact CelestialFromParent_sameBindings env p _
  | WriteToMessage =>
    refine same h ?_
    show SameBindings p p.WriteToMessage.discard.state
    rw [discard_state]
    exact WriteToMessage_sameBindings p

/-- Two tables of celestials with the same bindings hold, at an address, celestials
bound to the same body. -/
theorem find?_address_of_bindings (m m' : List (Index × Celestial)) (a : Address)
    (h : m'.map (fun ic => (ic.1, ic.2.address, ic.2.body))
      = m.map (fun ic => (ic.1, ic.2.address, ic.2.body)))
    (c : Celestial)
    (hc : (m.find? (fun ic => decide (ic.2.address = a))).map Prod.snd = some c) :
    ∃ c', (m'.find? (fun ic => decide (ic.2.address = a))).map Prod.snd = some c' ∧
      c'.body = c.body := by
  induction m generalizing m' with
  | nil => cases hc
  | cons ic m ih =>
    cases m' with
    | nil => cases h
    | cons ic' m' =>
      rw [List.map_cons, List.map_cons, List.cons.injEq] at h
      obtain ⟨hhead, htail⟩ := h
      have haddr : ic'.2.address = ic.2.address := congrArg (fun b => b.2.1) hhead
      have hbody : ic'.2.body = ic.2.body := congrArg (fun b => b.2.2) hhead
      rw [List.find?_cons] at hc ⊢
      rw [haddr]
      by_cases e : ic.2.address = a
      · simp only [e, decide_True, Option.map_some', Option.some.injEq] at hc ⊢
        exact ⟨_, rfl, hc ▸ hbody⟩
      · simp only [e, decide_False] at hc ⊢
        exact ih m' htail hc

theorem SameBindings.celestialsWellFormed {p q : Plugin} (h : SameBindings p q)
    (wf : p.CelestialsWellFormed) : q.CelestialsWellFormed := by
  have hb := h.bindings_eq
  unfold bindings at hb
  have he := h.ephemeris_bodies_eq
  unfold ephemeris_bodies at he
  obtain ⟨e, hpe, hord⟩ := wf.bodies_in_index_order
  rw [hpe] at he
  cases hqe : q.ephemeris_ with
  | none => rw [hqe] at he; cases he
  | some e' =>
    rw [hqe] at he
    have hbodies : e'.bodies_ = e.bodies_ := Option.some.inj he
    refine ⟨?_, ⟨e', hqe, ?_⟩, ?_⟩
    · have := congrArg (List.map (fun b : Index × Address × Address => b.1)) hb
      simp only [List.map_map, Function.comp_def] at this
      unfold map.keys
      rw [show q.celestials_.map Prod.fst = p.celestials_.map Prod.fst from this]
      exact wf.indices_nodup
    · have := congrArg (List.map (fun b : Index × Address × Address => b.2.2)) hb
      simp only [List.map_map, Function.comp_def] at this
      rw [this, hbodies]
      exact hord
    · intro hc
      obtain ⟨e0, sun, sun_celestial, sun_body, h0, hsun, hat, hfind, hrot⟩ :=
        wf.sun_rotating (h.is_pre_cardano_eq ▸ hc)
      rw [hpe] at h0
      cases h0
      obtain ⟨c', hc', hcb⟩ := find?_address_of_bindings p.celestials_ q.celestials_ sun hb
        sun_celestial hat
      exact ⟨e', sun, c', sun_body, hqe, h.sun_eq.trans hsun, hc',
        by rw [hbodies, hcb]; exact hfind, hrot⟩

/-- The invariant of the table of celestials: while the initialization is under
way, the celestials are aligned with the bodies kept for the ephemeris, their
indices are distinct and there is no ephemeris yet; once it has ended, the table
is well formed. -/
theorem step_celestials_invariant (env : Environment) (hk : KeepsBodies env) (p q : Plugin)
    (operation : Operation)
    (h1 : p.initializing_ = true →
      p.bodies_aligned ∧ (map.keys p.celestials_).Nodup ∧ p.ephemeris_ = none)
    (h2 : p.initializing_ = false → p.CelestialsWellFormed)
    (h : p.step env operation = .returns () q) :
    (q.initializing_ = true →
      q.bodies_aligned ∧ (map.keys q.celestials_).Nodup ∧ q.ephemeris_ = none) ∧
    (q.initializing_ = false → q.CelestialsWellFormed) := by
  cases hi : operation.is_initialization with
  | false =>
    have hs := step_sameBodies env p q operation hi h
    have hb := step_sameBindings env hk p q operation hi h
    refine ⟨fun hq => ?_, fun hq => hb.celestialsWellFormed (h2 (hs.initializing_eq ▸ hq))⟩
    obtain ⟨ha, hn, he⟩ := h1 (hs.initializing_eq ▸ hq)
    refine ⟨?_, ?_, ?_⟩
    · unfold bodies_aligned
      rw [hs.absolute_initialization_eq]
      have := congrArg (List.map (fun b : Index × Address × Address => (b.1, b.2.2)))
        hb.bindings_eq
      simp only [bindings, List.map_map, Function.comp_def] at this
      rw [this]
      exact ha
    · rw [hs.celestial_indices_eq]
      exact hn
    · have := hb.ephemeris_bodies_eq
      unfold ephemeris_bodies at this
      rw [he] at this
      cases hqe : q.ephemeris_ with
      | none => rfl
      | some e => rw [hqe] at this; cases this
  | true =>
    cases operation with
    | InsertCelestialAbsoluteCartesian index parent_index initial_state body storage =>
      have hs : p.InsertCelestialAbsoluteCartesian index parent_index initial_state body
          storage = .returns () q := h
      have hinv := InsertCelestialAbsoluteCartesian_returns_inv p q _ _ _ _ _ hs
      obtain ⟨ha, hn, he⟩ := h1 hinv.1
      have a1 := InsertCelestialAbsoluteCartesian_bodies_aligned p q _ _ _ _ _ ha hs
      have a2 := InsertCelestialAbsoluteCartesian_indices_nodup p q _ _ _ _ _ hn hs
      refine ⟨fun _ => ⟨a1, a2.1, a2.2.trans he⟩, fun hq => ?_⟩
      rw [hinv.2.2.2.1] at hq
      cases hq
    | InsertCelestialJacobiKeplerian index parent_index keplerian_elements body =>
      have hs : p.InsertCelestialJacobiKeplerian env index parent_index keplerian_elements
          body = .returns () q := h
      have hinv := InsertCelestialJacobiKeplerian_returns_inv env p q _ _ _ _ hs
      obtain ⟨ha, hn, he⟩ := h1 hinv.1
      obtain ⟨c1, c2, c3⟩ := InsertCelestialJacobiKeplerian_celestials env p q _ _ _ _ hs
      refine ⟨fun _ => ⟨?_, ?_, c3.trans he⟩, fun hq => ?_⟩
      · unfold bodies_aligned
        rw [c1, c2]
        exact ha
      · rw [c1]
        exact hn
      · rw [hinv.2.2.1] at hq
        cases hq
    | EndInitialization storage =>
      have hs : p.EndInitialization env storage = .returns () q := h
      have hinv := EndInitialization_returns_inv env p q storage hs
      obtain ⟨ha, hn, he⟩ := h1 hinv.1
      refine ⟨fun hq => ?_, fun _ =>
        EndInitialization_celestialsWellFormed env p q storage ha hn he hs⟩
      rw [hinv.2.1] at hq
      cases hq
    | _ => cases hi

/-- The table of celestials is well formed in every initialized plugin reached
from a new one, whatever the operations, when the collaborators leave the bodies
of the ephemeris alone. -/
theorem run_celestials_invariant (env : Environment) (hk : KeepsBodies env)
    (operations : List Operation) (p q : Plugin)
    (h1 : p.initializing_ = true →
      p.bodies_aligned ∧ (map.keys p.celestials_).Nodup ∧ p.ephemeris_ = none)
    (h2 : p.initializing_ = false → p.CelestialsWellFormed)
    (h : p.run env operations = .returns () q) :
    (q.initializing_ = true →
      q.bodies_aligned ∧ (map.keys q.celestials_).Nodup ∧ q.ephemeris_ = none) ∧
    (q.initializing_ = false → q.CelestialsWellFormed) := by
  induction operations generalizing p with
  | nil =>
    cases h
    exact ⟨h1, h2⟩
  | cons operation rest ih =>
    rw [run] at h
    cases hs : p.step env operation with
    | fatal s => rw [hs] at h; cases h
    | returns u p1 =>
      rw [hs] at h
      obtain ⟨i1, i2⟩ := step_celestials_invariant env hk p p1 operation h1 h2 hs
      exact ih p1 i1 i2 h

theorem test_environment_keepsBodies : KeepsBodies test_environment :=
  ⟨fun _ _ _ _ _ => rfl, fun _ _ _ => rfl, fun _ _ _ _ => rfl, fun _ _ _ => rfl,
    fun _ _ _ => rfl, fun _ _ _ _ _ => rfl⟩

theorem test_environment_rotating_keepsBodies : KeepsBodies test_environment_rotating :=
  ⟨fun _ _ _ _ _ => rfl, fun _ _ _ => rfl, fun _ _ _ _ => rfl, fun _ _ _ => rfl,
    fun _ _ _ => rfl, fun _ _ _ _ _ => rfl⟩

end Plugin

/-- C21: (1) let the table of celestials of `p` be well formed (an index is
registered once, the celestials are bound, in the order of `celestials_`, to the
bodies of the ephemeris in the order in which it was given them, and the sun is
bound to a rotating body unless the save predates Cardano), let the GUIDs of its
vessels be distinct and let `WriteToMessage` return on `p`.  Then
`ReadFromMessage` returns a plugin `q` for the message written, the celestials
being built in storage of their own, and `q` has the same set of celestial
indices, under each of them a celestial whose parent has the same index and
which is bound to the same body, the same set of vessel GUIDs, and under each of
them a vessel whose parent has the same index and whose dirty flag is the same;
the ephemeris of `q` has the same bodies; the messages of the celestials were
written in the order of `celestials_`, and the celestial read for the `i`-th of
them is bound to the `i`-th body of the ephemeris.  (2) The table of celestials
is well formed in the plugin that `EndInitialization` leaves after any sequence
of insertions of celestials into a new plugin: the ephemeris is given the bodies
in the order of `celestials_`, that of the indices.  (3) The hypotheses of (1)
hold in every initialized plugin that a sequence of operations reaches from a
new plugin, when the collaborators leave the bodies of the ephemeris alone and
the vessels are allocated fresh storage. -/
theorem C21_tables_round_trip (env : Environment) :
    (∀ (p p1 : Plugin) (message : serialization.Plugin)
        (celestial_storage vessel_storage : Nat → Address),
      Function.Injective celestial_storage → p.CelestialsWellFormed →
      (map.keys p.vessels_).Nodup → p.WriteToMessage = .returns message p1 →
      ∃ q, Plugin.ReadFromMessage env message celestial_storage vessel_storage = some q ∧
        (∀ index, index ∈ map.keys q.celestials_ ↔ index ∈ map.keys p.celestials_) ∧
        (∀ index, q.celestial_parent_index index = p.celestial_parent_index index) ∧
        (∀ guid, guid ∈ map.keys q.vessels_ ↔ guid ∈ map.keys p.vessels_) ∧
        (∀ guid, q.vessel_parent_index guid = p.vessel_parent_index guid) ∧
        (∀ guid, q.vessel_is_dirty guid = p.vessel_is_dirty guid) ∧
        (∀ index, q.celestial_body index = p.celestial_body index) ∧
        q.ephemeris_.map (fun ephemeris => ephemeris.bodies_)
          = p.ephemeris_.map (fun ephemeris => ephemeris.bodies_) ∧
        message.celestial.map (fun m => m.index) = map.keys p.celestials_ ∧
        some (message.celestial.map (fun m => q.celestial_body m.index))
          = q.ephemeris_.map (fun ephemeris =>
              ephemeris.bodies_.map (fun body => some body.address))) ∧
    (∀ (game_epoch solar_system_epoch : Instant) (planetarium_rotation : Angle)
        (insertions : List Operation) (r q : Plugin) (storage : Nat → Address),
      (∀ operation ∈ insertions,
        operation.is_initialization = true ∧ operation.is_EndInitialization = false) →
      (Plugin.new env game_epoch solar_system_epoch planetarium_rotation).run env insertions
        = .returns () r →
      r.EndInitialization env storage = .returns () q →
      q.CelestialsWellFormed) ∧
    (∀ (game_epoch solar_system_epoch : Instant) (planetarium_rotation : Angle)
        (operations : List Operation) (q : Plugin),
      Plugin.KeepsBodies env →
      (Plugin.new env game_epoch solar_system_epoch planetarium_rotation).fresh_run env
        operations →
      (Plugin.new env game_epoch solar_system_epoch planetarium_rotation).run env operations
        = .returns () q →
      q.initializing_ = false →
      q.CelestialsWellFormed ∧ (map.keys q.vessels_).Nodup) := by
  refine ⟨?_, ?_, ?_⟩
  · intro p p1 message celestial_storage vessel_storage hs hc hg hw
    exact Plugin.tables_round_trip env p p1 message celestial_storage vessel_storage hs hc hg
      hw
  · intro game_epoch solar_system_epoch planetarium_rotation insertions r q storage hi hr hq
    obtain ⟨ha, hn, he⟩ := Plugin.run_insertions_bodies_aligned env insertions _ r hi
      (Plugin.new_bodies_aligned env game_epoch solar_system_epoch planetarium_rotation)
      List.nodup_nil rfl hr
    exact Plugin.EndInitialization_celestialsWellFormed env r q storage ha hn he hq
  · intro game_epoch solar_system_epoch planetarium_rotation operations q hk hfresh hr hq
    refine ⟨(Plugin.run_celestials_invariant env hk operations _ q
        (fun _ => ⟨Plugin.new_bodies_aligned env game_epoch solar_system_epoch
          planetarium_rotation, List.nodup_nil, rfl⟩)
        (fun hn => by cases hn) hr).2 hq, ?_⟩
    exact (Plugin.run_wellFormed env operations _ q
      (Plugin.wellFormed_of_no_vessels _ rfl rfl) hfresh hr).guids_nodup

/-- C21, on the plugin in flight (the sun, bound to the body at 100, under index
3; a planet, bound to the body at 101, under index 1 with the sun as its parent;
the vessel `"a"` around the planet): the plugin read from the message written
has the same tables; on the plugin that `EndInitialization` leaves after the two
insertions; and on the plugin in flight after the hierarchy has been updated and
the prediction of the vessel computed. -/
theorem C21_tables_round_trip_witness :
    (∃ message p1 q,
      Plugin.test_plugin_in_flight.WriteToMessage = .returns message p1 ∧
      Plugin.ReadFromMessage Plugin.test_environment message (fun i => 20 + i)
        (fun i => 5 + i) = some q ∧
      q.celestial_parent_index 1 = some (some 3) ∧
      q.celestial_parent_index 3 = some none ∧
      q.vessel_parent_index "a" = some (some 1) ∧
      q.vessel_is_dirty "a" = Plugin.test_plugin_in_flight.vessel_is_dirty "a" ∧
      q.celestial_body 1 = some 101 ∧ q.celestial_body 3 = some 100) ∧
    ((Plugin.new Plugin.test_environment_rotating 5 30 0).run Plugin.test_environment_rotating
      [.InsertCelestialAbsoluteCartesian 3 none 0 ⟨100, true⟩ 10,
        .InsertCelestialAbsoluteCartesian 1 (some 3) ((1, 0, 0), (0, 1, 0)) ⟨101, false⟩ 11,
        .EndInitialization id]).state.CelestialsWellFormed ∧
    (((Plugin.new Plugin.test_environment_rotating 5 30 0).run
        Plugin.test_environment_rotating
      [.InsertCelestialAbsoluteCartesian 3 none 0 ⟨100, true⟩ 10,
        .InsertCelestialAbsoluteCartesian 1 (some 3) ((1, 0, 0), (0, 1, 0)) ⟨101, false⟩ 11,
        .EndInitialization id,
        .InsertOrKeepVessel "a" 1 1,
        .SetVesselStateOffset "a" ((1, 2, 3), (4, 5, 6)),
        .UpdateCelestialHierarchy 1 3,
        .UpdatePrediction "a"]).state.CelestialsWellFormed ∧
      (map.keys ((Plugin.new Plugin.test_environment_rotating 5 30 0).run
          Plugin.test_environment_rotating
        [.InsertCelestialAbsoluteCartesian 3 none 0 ⟨100, true⟩ 10,
          .InsertCelestialAbsoluteCartesian 1 (some 3) ((1, 0, 0), (0, 1, 0)) ⟨101, false⟩ 11,
          .EndInitialization id,
          .InsertOrKeepVessel "a" 1 1,
          .SetVesselStateOffset "a" ((1, 2, 3), (4, 5, 6)),
          .UpdateCelestialHierarchy 1 3,
          .UpdatePrediction "a"]).state.vessels_).Nodup) := by
  have hs : Function.Injective (fun i : Nat => 20 + i) := fun a b h => Nat.add_left_cancel h
  have hwf : Plugin.test_plugin_in_flight.CelestialsWellFormed :=
    ⟨by decide, ⟨_, rfl, rfl⟩, fun _ => ⟨_, _, _, _, rfl, rfl, rfl, rfl, rfl⟩⟩
  refine ⟨?_, ?_, ?_⟩
  · obtain ⟨q, hq, _, h2, _, h4, h5, h6, _⟩ :=
      (C21_tables_round_trip Plugin.test_environment).1 Plugin.test_plugin_in_flight
        _ _ (fun i => 20 + i) (fun i => 5 + i) hs hwf (by decide) rfl
    exact ⟨_, _, q, rfl, hq, (h2 1).trans rfl, (h2 3).trans rfl, (h4 "a").trans rfl, h5 "a",
      (h6 1).trans rfl, (h6 3).trans rfl⟩
  · exact (C21_tables_round_trip Plugin.test_environment_rotating).2.1 5 30 0
      [.InsertCelestialAbsoluteCartesian 3 none 0 ⟨100, true⟩ 10,
        .InsertCelestialAbsoluteCartesian 1 (some 3) ((1, 0, 0), (0, 1, 0)) ⟨101, false⟩ 11]
      _ _ id (by decide) rfl rfl
  · exact (C21_tables_round_trip Plugin.test_environment_rotating).2.2 5 30 0
      [.InsertCelestialAbsoluteCartesian 3 none 0 ⟨100, true⟩ 10,
        .InsertCelestialAbsoluteCartesian 1 (some 3) ((1, 0, 0), (0, 1, 0)) ⟨101, false⟩ 11,
        .EndInitialization id,
        .InsertOrKeepVessel "a" 1 1,
        .SetVesselStateOffset "a" ((1, 2, 3), (4, 5, 6)),
        .UpdateCelestialHierarchy 1 3,
        .UpdatePrediction "a"]
      _ Plugin.test_environment_rotating_keepsBodies
      ⟨trivial, trivial, trivial, List.not_mem_nil 1, trivial, trivial, trivial, trivial⟩
      rfl rfl

end ksp_plugin

/-! ## The product of a matrix and a vector -/

namespace numerics

theorem set_getElem_eq_self (l : List ℚ) (i : Nat) (h : i < l.length) : l.set i l[i] = l := by
  apply List.ext_getElem (by simp)
  intro n h1 h2
  rw [List.getElem_set]
  split
  · subst_vars; rfl
  · rfl

theorem FixedMatrix.operator_mul.columns_loop_prefix {rows columns : Nat}
    (left : FixedMatrix rows columns) (right : FixedVector columns) (row i : Nat)
    (result : FixedVector rows) (hi : i < rows) (hrow : row + columns ≤ rows * columns)
    (n : Nat) (hn : n ≤ columns) :
    ∃ r : FixedVector rows,
      (List.range n).foldlM
        (fun (result : FixedVector rows) (j : Nat) => do
          let entry ← result.data_[i]?
          let left_entry ← left.data_[row + j]?
          let right_entry ← right.data_[j]?
          pure (result.set i (entry + left_entry * right_entry)))
        result = some r ∧
      r.data_ = result.data_.set i (result.data_.getD i 0 +
        ∑ j in Finset.range n, left.data_.getD (row + j) 0 * right.data_.getD j 0) := by
  induction n with
  | zero =>
    refine ⟨result, rfl, ?_⟩
    have h : i < result.data_.length := by rw [result.size_eq]; exact hi
    rw [Finset.range_zero, Finset.sum_empty, add_zero,
      List.getD_eq_getElem _ _ h]
    exact (set_getElem_eq_self _ _ h).symm
  | succ n ih =>
    obtain ⟨r, hr, hd⟩ := ih (Nat.le_of_succ_le hn)
    have h : i < result.data_.length := by rw [result.size_eq]; exact hi
    have hl : row + n < left.data_.length := by rw [left.size_eq]; omega
    have hv : n < right.data_.length := by rw [right.size_eq]; omega
    have h' : i < r.data_.length := by rw [r.size_eq]; exact hi
    refine ⟨r.set i (r.data_.getD i 0 + left.data_.getD (row + n) 0 * right.data_.getD n 0), ?_, ?_⟩
    · rw [List.range_succ, List.foldlM_append, hr]
      simp [List.getElem?_eq_getElem h', List.getElem?_eq_getElem hl, List.getElem?_eq_getElem hv,
        List.getD_eq_getElem _ _ h', List.getD_eq_getElem _ _ hl, List.getD_eq_getElem _ _ hv]
    · simp only [FixedVector.set]
      rw [hd, Finset.sum_range_succ, List.set_set]
      congr 1
      rw [List.getD_eq_getElem _ _ (by rw [List.length_set]; exact h), List.getElem_set_self]
      ring

theorem FixedMatrix.operator_mul.columns_loop_spec {rows columns : Nat}
    (left : FixedMatrix rows columns) (right : FixedVector columns) (row i : Nat)
    (result : FixedVector rows) (hi : i < rows) (hrow : row + columns ≤ rows * columns) :
    ∃ r : FixedVector rows,
      FixedMatrix.operator_mul.columns_loop left right row i result = some r ∧
      r.data_ = result.data_.set i (result.data_.getD i 0 +
        ∑ j in Finset.range columns, left.data_.getD (row + j) 0 * right.data_.getD j 0) :=
  FixedMatrix.operator_mul.columns_loop_prefix left right row i result hi hrow columns
    (Nat.le_refl _)

theorem FixedMatrix.operator_mul.rows_loop_prefix {rows columns : Nat}
    (left : FixedMatrix rows columns) (right : FixedVector columns)
    (result : FixedVector rows) (m : Nat) (hm : m ≤ rows) :
    ∃ r : FixedVector rows,
      (List.range m).foldlM
        (fun (state : FixedVector rows × Nat) (i : Nat) => do
          let result ← FixedMatrix.operator_mul.columns_loop left right state.2 i state.1
          pure (result, state.2 + columns))
        (result, 0) = some (r, m * columns) ∧
      ∀ i : Nat, r.data_[i]? =
        if i < m then
          some (result.data_.getD i 0 +
            ∑ j in Finset.range columns,
              left.data_.getD (i * columns + j) 0 * right.data_.getD j 0)
        else result.data_[i]? := by
  induction m with
  | zero => exact ⟨result, by simp, fun i => by simp⟩
  | succ m ih =>
    obtain ⟨r, hr, hd⟩ := ih (Nat.le_of_succ_le hm)
    have hrow : m * columns + columns ≤ rows * columns := by
      calc m * columns + columns = (m + 1) * columns := by ring
        _ ≤ rows * columns := Nat.mul_le_mul_right _ hm
    obtain ⟨r', hr', hd'⟩ :=
      FixedMatrix.operator_mul.columns_loop_spec left right (m * columns) m r (by omega) hrow
    refine ⟨r', ?_, ?_⟩
    · rw [List.range_succ, List.foldlM_append, hr]
      simp [hr', Nat.succ_mul]
    · intro i
      have hlen : m < r.data_.length := by rw [r.size_eq]; omega
      have hm0 : r.data_.getD m 0 = result.data_.getD m 0 := by
        have := hd m
        rw [if_neg (Nat.lt_irrefl _)] at this
        simp only [List.getD_eq_getElem?_getD, this]
      rw [hd', List.getElem?_set, hm0]
      by_cases h : m = i
      · subst h
        simp [hlen]
      · rw [if_neg h, hd i]
        by_cases h1 : i < m
        · rw [if_pos h1, if_pos (by omega)]
        · rw [if_neg h1, if_neg (by omega)]

/-- C25: the product of a `rows x columns` matrix and a vector of size `columns`
returns, every read being inside its array, the vector whose entry `i` is the
sum over `j < columns` of `left.data_[i * columns + j] * right.data_[j]`, and
the flat indices `i * columns + j` read are below `rows * columns`, the size of
`left.data_`; run on any initial `result` the loops add these sums to its
entries, and the default-constructed `result` is all zeros. -/
theorem C25_matrix_vector_product {rows columns : Nat} (left : FixedMatrix rows columns)
    (right : FixedVector columns) :
    (∃ product : FixedVector rows,
      FixedMatrix.operator_mul left right = some product ∧
      ∀ i : Nat, i < rows →
        product.data_[i]? = some (∑ j in Finset.range columns,
          left.data_.getD (i * columns + j) 0 * right.data_.getD j 0)) ∧
    (∀ i j : Nat, i < rows → j < columns →
      i * columns + j < rows * columns ∧ i * columns + j < left.data_.length ∧
        j < right.data_.length) ∧
    (∀ result : FixedVector rows, ∃ r : FixedVector rows,
      FixedMatrix.operator_mul.rows_loop left right result = some (r, rows * columns) ∧
      ∀ i : Nat, i < rows →
        r.data_[i]? = some (result.data_.getD i 0 + ∑ j in Finset.range columns,
          left.data_.getD (i * columns + j) 0 * right.data_.getD j 0)) ∧
    (FixedVector.new rows).data_ = List.replicate rows 0 := by
  have hloop : ∀ result : FixedVector rows, ∃ r : FixedVector rows,
      FixedMatrix.operator_mul.rows_loop left right result = some (r, rows * columns) ∧
      ∀ i : Nat, i < rows →
        r.data_[i]? = some (result.data_.getD i 0 + ∑ j in Finset.range columns,
          left.data_.getD (i * columns + j) 0 * right.data_.getD j 0) := by
    intro result
    obtain ⟨r, hr, hd⟩ :=
      FixedMatrix.operator_mul.rows_loop_prefix left right result rows (Nat.le_refl _)
    exact ⟨r, hr, fun i hi => by rw [hd i, if_pos hi]⟩
  have hbound : ∀ i j : Nat, i < rows → j < columns → i * columns + j < rows * columns := by
    intro i j hi hj
    calc i * columns + j < i * columns + columns := by omega
      _ = (i + 1) * columns := by ring
      _ ≤ rows * columns := Nat.mul_le_mul_right _ hi
  refine ⟨?_, ?_, hloop, rfl⟩
  · obtain ⟨r, hr, hd⟩ := hloop (FixedVector.new rows)
    refine ⟨r, ?_, ?_⟩
    · unfold FixedMatrix.operator_mul
      rw [hr]
      rfl
    · intro i hi
      rw [hd i hi]
      have hzero : (FixedVector.new rows).data_.getD i 0 = 0 := by
        simp [FixedVector.new, List.getD_eq_getElem?_getD, List.getElem?_replicate, hi]
      rw [hzero, zero_add]
  · intro i j hi hj
    exact ⟨hbound i j hi hj, by rw [left.size_eq]; exact hbound i j hi hj,
      by rw [right.size_eq]; exact hj⟩

/-- The product of the matrix with rows `1 2 3` and `4 5 6` and the vector
`1 0 -1`. -/
theorem C25_matrix_vector_product_witness :
    (∃ product : FixedVector 2,
      FixedMatrix.operator_mul (⟨[1, 2, 3, 4, 5, 6], rfl⟩ : FixedMatrix 2 3)
        (⟨[1, 0, -1], rfl⟩ : FixedVector 3) = some product ∧
      product.data_[1]? = some (∑ j in Finset.range 3,
        ([1, 2, 3, 4, 5, 6] : List ℚ).getD (1 * 3 + j) 0 * ([1, 0, -1] : List ℚ).getD j 0)) ∧
    (1 * 3 + 2 < 2 * 3) ∧
    (FixedMatrix.operator_mul (⟨[1, 2, 3, 4, 5, 6], rfl⟩ : FixedMatrix 2 3)
      (⟨[1, 0, -1], rfl⟩ : FixedVector 3)).map (fun product => product.data_) =
        some [-2, -2] :=
  ⟨(C25_matrix_vector_product (⟨[1, 2, 3, 4, 5, 6], rfl⟩ : FixedMatrix 2 3)
      (⟨[1, 0, -1], rfl⟩ : FixedVector 3)).1.imp
      (fun _ h => ⟨h.1, h.2 1 (by decide)⟩),
    ((C25_matrix_vector_product (⟨[1, 2, 3, 4, 5, 6], rfl⟩ : FixedMatrix 2 3)
      (⟨[1, 0, -1], rfl⟩ : FixedVector 3)).2.1 1 2 (by decide) (by decide)).1,
    by
      simp only [FixedMatrix.operator_mul, FixedMatrix.operator_mul.rows_loop,
        FixedMatrix.operator_mul.columns_loop, FixedVector.new, FixedVector.set, List.range,
        List.range.loop, List.foldlM, List.replicate]
      norm_num⟩

/-! ## The storage of a strictly lower triangular matrix -/

namespace FixedStrictlyLowerTriangularMatrix

theorem operator_index_succ (i : Int) (hi : 0 ≤ i) :
    operator_index (i + 1) = operator_index i + i := by
  unfold operator_index
  have h0 : 0 ≤ i * (i - 1) := by
    rcases eq_or_lt_of_le hi with h | h
    · subst h; decide
    · exact Int.mul_nonneg hi (by omega)
  rw [Int.tdiv_eq_ediv (Int.mul_nonneg (by omega) (by omega)) (by decide),
    Int.tdiv_eq_ediv h0 (by decide)]
  have h : (i + 1) * (i + 1 - 1) = i * (i - 1) + i * 2 := by ring
  rw [h, Int.add_mul_ediv_right _ _ (by decide)]

theorem operator_index_natCast_succ (n : Nat) :
    operator_index ((n : Int) + 1) = operator_index n + n :=
  operator_index_succ n (Int.ofNat_nonneg n)

theorem operator_index_nonneg (i : Int) (hi : 0 ≤ i) : 0 ≤ operator_index i := by
  obtain ⟨n, rfl⟩ := Int.eq_ofNat_of_zero_le hi
  induction n with
  | zero => decide
  | succ n ih =>
    have := operator_index_natCast_succ n
    have := ih (Int.ofNat_nonneg n)
    push_cast
    omega

theorem operator_index_mono (i k : Int) (hi : 0 ≤ i) (hik : i ≤ k) :
    operator_index i ≤ operator_index k := by
  obtain ⟨d, rfl⟩ := Int.le.dest hik
  induction d with
  | zero => simp
  | succ d ih =>
    have h1 := operator_index_succ (i + d) (by omega)
    have h2 := ih (by omega)
    have h3 : i + ((d + 1 : Nat) : Int) = i + d + 1 := by push_cast; ring
    rw [h3]
    omega

theorem flat_index_lt (i j k : Int) (hj : 0 ≤ j) (hji : j < i) (hik : i < k) :
    flat_index i j < operator_index k := by
  have h1 := operator_index_succ i (by omega)
  have h2 := operator_index_mono (i + 1) k (by omega) (by omega)
  unfold flat_index
  omega

theorem flat_index_injective (i j i' j' : Int)
    (hj : 0 ≤ j) (hji : j < i) (hj' : 0 ≤ j') (hji' : j' < i')
    (h : flat_index i j = flat_index i' j') : i = i' ∧ j = j' := by
  have key : i = i' := by
    rcases lt_trichotomy i i' with hlt | heq | hgt
    · have := flat_index_lt i j i' hj hji hlt
      unfold flat_index at h this
      omega
    · exact heq
    · have := flat_index_lt i' j' i hj' hji' hgt
      unfold flat_index at h this
      omega
  subst key
  unfold flat_index at h
  exact ⟨rfl, by omega⟩

theorem flat_index_surjective (rows : Nat)
    (k : Int) (hk : 0 ≤ k) (hlt : k < operator_index rows) :
    ∃ i j : Int, 0 ≤ j ∧ j < i ∧ i < rows ∧ flat_index i j = k := by
  induction rows with
  | zero => exact absurd hlt (by have : operator_index 0 = 0 := by decide
                                 simp only [Nat.cast_zero, this]; omega)
  | succ rows ih =>
    have hs := operator_index_natCast_succ rows
    push_cast at hlt ⊢
    rw [hs] at hlt
    by_cases h : k < operator_index rows
    · obtain ⟨i, j, h1, h2, h3, h4⟩ := ih h
      exact ⟨i, j, h1, h2, by omega, h4⟩
    · exact ⟨rows, k - operator_index rows, by omega, by omega, by omega, by
        unfold flat_index; omega⟩

theorem operator_index_eq_ediv (i : Int) (hi : 0 ≤ i) :
    operator_index i = i * (i - 1) / 2 := by
  unfold operator_index
  have h0 : 0 ≤ i * (i - 1) := by
    rcases eq_or_lt_of_le hi with h | h
    · subst h; decide
    · exact Int.mul_nonneg hi (by omega)
  exact Int.tdiv_eq_ediv h0 (by decide)

end FixedStrictlyLowerTriangularMatrix

/-- C26: with the row `i` of a strictly lower triangular matrix starting at the
offset `operator[](i) = i * (i - 1) / 2` of `data_`, the flat index
`i * (i - 1) / 2 + j` of the entry `(i, j)`, for `0 <= j < i < rows`, is at
least 0 and below `rows * (rows - 1) / 2`; two entries with the same flat index
are the same entry; every index from 0 to `rows * (rows - 1) / 2 - 1` is the
flat index of exactly one entry; the row `i + 1` starts where the `i` entries of
the row `i` end; and when `rows * (rows - 1)` is an `int` so is every value
computed by `operator[]`. -/
theorem C26_strictly_lower_triangular_indexing (rows : Nat) :
    (∀ i j : Int, 0 ≤ j → j < i → i < rows →
      FixedStrictlyLowerTriangularMatrix.flat_index i j = i * (i - 1) / 2 + j ∧
      0 ≤ FixedStrictlyLowerTriangularMatrix.flat_index i j ∧
      FixedStrictlyLowerTriangularMatrix.flat_index i j < (rows : Int) * (rows - 1) / 2) ∧
    (∀ i j i' j' : Int, 0 ≤ j → j < i → i < rows → 0 ≤ j' → j' < i' → i' < rows →
      FixedStrictlyLowerTriangularMatrix.flat_index i j =
        FixedStrictlyLowerTriangularMatrix.flat_index i' j' → i = i' ∧ j = j') ∧
    (∀ k : Int, 0 ≤ k → k < (rows : Int) * (rows - 1) / 2 →
      ∃! entry : Int × Int, 0 ≤ entry.2 ∧ entry.2 < entry.1 ∧ entry.1 < rows ∧
        FixedStrictlyLowerTriangularMatrix.flat_index entry.1 entry.2 = k) ∧
    (∀ i : Int, 0 ≤ i →
      FixedStrictlyLowerTriangularMatrix.operator_index (i + 1) =
        FixedStrictlyLowerTriangularMatrix.operator_index i + i) ∧
    (is_int ((rows : Int) * (rows - 1)) → ∀ i : Int, 0 ≤ i → i < rows →
      is_int (i - 1) ∧ is_int (i * (i - 1)) ∧
        is_int (FixedStrictlyLowerTriangularMatrix.operator_index i)) := by
  have hrows := FixedStrictlyLowerTriangularMatrix.operator_index_eq_ediv rows
    (Int.ofNat_nonneg rows)
  refine ⟨?_, ?_, ?_, FixedStrictlyLowerTriangularMatrix.operator_index_succ, ?_⟩
  · intro i j hj hji hi
    refine ⟨?_, ?_, ?_⟩
    · unfold FixedStrictlyLowerTriangularMatrix.flat_index
      rw [FixedStrictlyLowerTriangularMatrix.operator_index_eq_ediv i (by omega)]
    · have := FixedStrictlyLowerTriangularMatrix.operator_index_nonneg i (by omega)
      unfold FixedStrictlyLowerTriangularMatrix.flat_index
      omega
    · rw [← hrows]
      exact FixedStrictlyLowerTriangularMatrix.flat_index_lt i j rows hj hji hi
  · intro i j i' j' hj hji _ hj' hji' _ h
    exact FixedStrictlyLowerTriangularMatrix.flat_index_injective i j i' j' hj hji hj' hji' h
  · intro k hk hlt
    rw [← hrows] at hlt
    obtain ⟨i, j, hj, hji, hi, h⟩ :=
      FixedStrictlyLowerTriangularMatrix.flat_index_surjective rows k hk hlt
    refine ⟨(i, j), ⟨hj, hji, hi, h⟩, ?_⟩
    rintro ⟨i', j'⟩ ⟨hj', hji', _, h'⟩
    obtain ⟨h1, h2⟩ := FixedStrictlyLowerTriangularMatrix.flat_index_injective i' j' i j
      hj' hji' hj hji (h'.trans h.symm)
    rw [h1, h2]
  · intro hfit i hi hlt
    have h0 : 0 ≤ i * (i - 1) := by
      rcases eq_or_lt_of_le hi with h | h
      · subst h; decide
      · exact Int.mul_nonneg hi (by omega)
    have h1 : i * (i - 1) ≤ (rows : Int) * (rows - 1) := by
      rcases eq_or_lt_of_le hi with h | h
      · subst h
        rcases Nat.eq_zero_or_pos rows with hz | hp
        · subst hz; decide
        · exact le_trans (by decide) (Int.mul_nonneg (by omega) (by omega))
      · exact Int.mul_le_mul (by omega) (by omega) (by omega) (by omega)
    have h2 : i - 1 ≤ i * (i - 1) := by
      rcases eq_or_lt_of_le hi with h | h
      · subst h; decide
      · nlinarith
    have h3 := FixedStrictlyLowerTriangularMatrix.operator_index_eq_ediv i hi
    have h4 : i * (i - 1) / 2 ≤ i * (i - 1) := Int.ediv_le_self _ h0
    have h5 : 0 ≤ i * (i - 1) / 2 := Int.ediv_nonneg h0 (by decide)
    unfold is_int at hfit ⊢
    refine ⟨⟨by omega, by omega⟩, ⟨by omega, by omega⟩, ⟨by omega, by omega⟩⟩

/-- The entries of a matrix with 4 rows: the entry `(3, 2)` is the last of the
6 entries of `data_`, and the index 4 is that of the entry `(3, 1)`. -/
theorem C26_strictly_lower_triangular_indexing_witness :
    (FixedStrictlyLowerTriangularMatrix.flat_index 3 2 = 3 * (3 - 1) / 2 + 2 ∧
      0 ≤ FixedStrictlyLowerTriangularMatrix.flat_index 3 2 ∧
      FixedStrictlyLowerTriangularMatrix.flat_index 3 2 < ((4 : Nat) : Int) * ((4 : Nat) - 1) / 2) ∧
    (∃! entry : Int × Int, 0 ≤ entry.2 ∧ entry.2 < entry.1 ∧ entry.1 < ((4 : Nat) : Int) ∧
      FixedStrictlyLowerTriangularMatrix.flat_index entry.1 entry.2 = 4) ∧
    FixedStrictlyLowerTriangularMatrix.flat_index 3 1 = 4 ∧
    is_int (FixedStrictlyLowerTriangularMatrix.operator_index 3) :=
  ⟨(C26_strictly_lower_triangular_indexing 4).1 3 2 (by decide) (by decide) (by decide),
    (C26_strictly_lower_triangular_indexing 4).2.2.1 4 (by decide) (by decide),
    by decide,
    ((C26_strictly_lower_triangular_indexing 4).2.2.2.2 (by decide) 3 (by decide)
      (by decide)).2.2⟩

end numerics

/-! ## Jacobi coordinates and the barycentre -/

namespace physics

namespace jacobi_coordinates

theorem weighted_sum_append (bodies : List MassiveBody) (dof : List RelativeDegreesOfFreedom)
    (h : bodies.length = dof.length) (body : MassiveBody) (x : RelativeDegreesOfFreedom) :
    weighted_sum (bodies ++ [body]) (dof ++ [x]) =
      weighted_sum bodies dof + body.gravitational_parameter • x := by
  unfold weighted_sum
  rw [List.zipWith_append _ _ _ _ _ h]
  simp

theorem JacobiCoordinates.new_holds (primary : MassiveBody)
    (h : 0 < primary.gravitational_parameter) :
    (JacobiCoordinates.new primary).Holds [primary] := by
  refine ⟨rfl, ?_, ?_, ?_⟩
  · simp [JacobiCoordinates.new, geometry.BarycentreCalculator.Add, weighted_sum]
  · simp [JacobiCoordinates.new, geometry.BarycentreCalculator.Add]
  · simpa [JacobiCoordinates.new, geometry.BarycentreCalculator.Add] using h

theorem JacobiCoordinates.Add_holds (coordinates : JacobiCoordinates) (bodies : List MassiveBody)
    (h : coordinates.Holds bodies) (body : MassiveBody) (dof : RelativeDegreesOfFreedom)
    (hb : 0 < body.gravitational_parameter) :
    ∃ result : JacobiCoordinates, coordinates.Add body dof = some result ∧
      result.Holds (bodies ++ [body]) ∧
      result.primocentric_dof_ = coordinates.primocentric_dof_ ++
        [weighted_barycentre bodies coordinates.primocentric_dof_ + dof] := by
  have hw : coordinates.system_barycentre_.weight_ ≠ 0 := ne_of_gt h.weight_pos
  have hB : coordinates.system_barycentre_.weight_⁻¹ • coordinates.system_barycentre_.weighted_sum_
      = weighted_barycentre bodies coordinates.primocentric_dof_ := by
    unfold weighted_barycentre
    rw [← h.weight_eq, h.weighted_sum_eq]
  have hadd : coordinates.Add body dof = some
      { primocentric_dof_ := coordinates.primocentric_dof_ ++
          [weighted_barycentre bodies coordinates.primocentric_dof_ + dof]
        system_barycentre_ := coordinates.system_barycentre_.Add
          (weighted_barycentre bodies coordinates.primocentric_dof_ + dof)
          body.gravitational_parameter } := by
    unfold JacobiCoordinates.Add geometry.BarycentreCalculator.Get
    rw [if_neg hw, hB]
    simp [id_fp_]
  refine ⟨_, hadd, ⟨?_, ?_, ?_, ?_⟩, rfl⟩
  · simp [h.length_eq]
  · simp only [geometry.BarycentreCalculator.Add]
    rw [weighted_sum_append _ _ h.length_eq, h.weighted_sum_eq]
  · simp [geometry.BarycentreCalculator.Add, h.weight_eq]
  · simp only [geometry.BarycentreCalculator.Add]
    linarith [h.weight_pos]

theorem JacobiCoordinates.AddAll_holds
    (adds : List (MassiveBody × RelativeDegreesOfFreedom))
    (coordinates : JacobiCoordinates) (bodies : List MassiveBody)
    (h : coordinates.Holds bodies)
    (hpos : ∀ body ∈ adds, 0 < body.1.gravitational_parameter) :
    ∃ result : JacobiCoordinates, coordinates.AddAll adds = some result ∧
      result.Holds (bodies ++ adds.map Prod.fst) ∧
      ∃ more : List DegreesOfFreedom,
        result.primocentric_dof_ = coordinates.primocentric_dof_ ++ more ∧
        more.length = adds.length := by
  induction adds generalizing coordinates bodies with
  | nil => exact ⟨coordinates, rfl, by simpa using h, [], by simp, rfl⟩
  | cons add adds ih =>
    obtain ⟨next, hnext, hholds, hdof⟩ :=
      JacobiCoordinates.Add_holds coordinates bodies h add.1 add.2
        (hpos add (List.mem_cons_self _ _))
    obtain ⟨result, hresult, hholds', more, hmore, hlength⟩ :=
      ih next (bodies ++ [add.1]) hholds (fun body hbody => hpos body (List.mem_cons_of_mem _ hbody))
    refine ⟨result, ?_, ?_,
      (weighted_barycentre bodies coordinates.primocentric_dof_ + add.2) :: more, ?_, ?_⟩
    · unfold JacobiCoordinates.AddAll at hresult ⊢
      rw [List.foldlM_cons, hnext]
      exact hresult
    · simpa using hholds'
    · rw [hmore, hdof]; simp
    · simp [hlength]

theorem weighted_sum_map_sub (bodies : List MassiveBody) (dof : List DegreesOfFreedom)
    (h : bodies.length = dof.length) (barycentre : DegreesOfFreedom) :
    weighted_sum bodies (dof.map (fun dof => id_pf_ (dof - barycentre))) =
      weighted_sum bodies dof -
        (bodies.map (fun body => body.gravitational_parameter)).sum • barycentre := by
  induction bodies generalizing dof with
  | nil => simp [weighted_sum]
  | cons body bodies ih =>
    cases dof with
    | nil => simp at h
    | cons x dof =>
      have := ih dof (by simpa using h)
      unfold weighted_sum at this ⊢
      simp only [List.map_cons, List.zipWith_cons_cons, List.sum_cons, this]
      simp only [id_pf_]
      rw [smul_sub, add_smul]
      abel

theorem JacobiCoordinates.BarycentricCoordinates_holds (coordinates : JacobiCoordinates)
    (bodies : List MassiveBody) (h : coordinates.Holds bodies) :
    coordinates.BarycentricCoordinates = some
      (coordinates.primocentric_dof_.map (fun dof => id_pf_ (dof -
        weighted_barycentre bodies coordinates.primocentric_dof_))) := by
  unfold JacobiCoordinates.BarycentricCoordinates geometry.BarycentreCalculator.Get
  rw [if_neg (ne_of_gt h.weight_pos)]
  unfold weighted_barycentre
  rw [← h.weight_eq, h.weighted_sum_eq]
  rfl

theorem weighted_barycentre_map_sub (bodies : List MassiveBody) (dof : List DegreesOfFreedom)
    (h : bodies.length = dof.length)
    (hpos : 0 < (bodies.map (fun body => body.gravitational_parameter)).sum)
    (barycentre : DegreesOfFreedom) :
    weighted_barycentre bodies (dof.map (fun dof => id_pf_ (dof - barycentre))) =
      weighted_barycentre bodies dof - barycentre := by
  unfold weighted_barycentre
  rw [weighted_sum_map_sub bodies dof h, smul_sub, inv_smul_smul₀ (ne_of_gt hpos)]

/-- C23: for a primary and bodies added with positive gravitational parameters,
`BarycentricCoordinates()` returns one entry per body, the primary first and the
added bodies in the order of the calls (the entries, counted from the first one,
are the degrees of freedom in the frame of the primary, to which `Add` appends),
and the sum of the entries weighted by the gravitational parameters of their
bodies is zero, for the displacements and for the velocities; with the primary
alone the only entry is zero. -/
theorem C23_barycentric_coordinates_centred (primary : MassiveBody)
    (adds : List (MassiveBody × RelativeDegreesOfFreedom))
    (hprimary : 0 < primary.gravitational_parameter)
    (hadds : ∀ body ∈ adds, 0 < body.1.gravitational_parameter) :
    ∃ (coordinates : JacobiCoordinates) (barycentric : List RelativeDegreesOfFreedom),
      (JacobiCoordinates.new primary).AddAll adds = some coordinates ∧
      coordinates.BarycentricCoordinates = some barycentric ∧
      barycentric.length = adds.length + 1 ∧
      barycentric.map (fun entry => entry - barycentric.headD 0)
        = coordinates.primocentric_dof_ ∧
      (weighted_sum (primary :: adds.map Prod.fst) barycentric).1 = 0 ∧
      (weighted_sum (primary :: adds.map Prod.fst) barycentric).2 = 0 ∧
      (adds = [] → barycentric = [((0, 0, 0), (0, 0, 0))]) := by
  obtain ⟨coordinates, hcoordinates, hholds, more, hmore, hlength⟩ :=
    JacobiCoordinates.AddAll_holds adds (JacobiCoordinates.new primary) [primary]
      (JacobiCoordinates.new_holds primary hprimary) hadds
  have hB := JacobiCoordinates.BarycentricCoordinates_holds coordinates _ hholds
  have hpos : 0 < (([primary] ++ adds.map Prod.fst).map
      (fun body => body.gravitational_parameter)).sum := by
    rw [← hholds.weight_eq]; exact hholds.weight_pos
  have hzero : weighted_sum (primary :: adds.map Prod.fst)
      (coordinates.primocentric_dof_.map (fun dof => id_pf_ (dof -
        weighted_barycentre ([primary] ++ adds.map Prod.fst) coordinates.primocentric_dof_)))
      = 0 := by
    have h := weighted_sum_map_sub ([primary] ++ adds.map Prod.fst)
      coordinates.primocentric_dof_ hholds.length_eq
      (weighted_barycentre ([primary] ++ adds.map Prod.fst) coordinates.primocentric_dof_)
    rw [List.singleton_append] at h hpos
    rw [List.singleton_append, h]
    unfold weighted_barycentre
    rw [smul_inv_smul₀ (ne_of_gt hpos), sub_self]
  refine ⟨coordinates, _, hcoordinates, hB, ?_, ?_, ?_, ?_, ?_⟩
  · rw [List.length_map, hmore, List.length_append, hlength]
    simp [JacobiCoordinates.new, Nat.add_comm]
  · have hhead : coordinates.primocentric_dof_
        = ((0, 0, 0), (0, 0, 0)) :: more := hmore
    generalize weighted_barycentre ([primary] ++ adds.map Prod.fst)
      coordinates.primocentric_dof_ = barycentre
    rw [hhead]
    simp only [List.map_cons, List.headD_cons, List.map_map, Function.comp_def, id_pf_]
    have key : ∀ x : DegreesOfFreedom,
        x - barycentre - (((0, 0, 0), (0, 0, 0)) - barycentre) = x := by
      intro x
      have : (((0, 0, 0), (0, 0, 0)) : DegreesOfFreedom) = 0 := rfl
      rw [this]
      abel
    simp only [key, List.map_id']
  · rw [hzero]; rfl
  · rw [hzero]; rfl
  · intro hnil
    subst hnil
    cases more with
    | nil =>
      rw [List.append_nil] at hmore
      rw [hmore]
      simp [JacobiCoordinates.new, weighted_barycentre, weighted_sum, id_pf_]
    | cons x more => simp at hlength

/-- C24: the entry of `BarycentricCoordinates()` for a body added with
`Add(body, dof)`, minus the barycentre of the entries before it weighted by the
gravitational parameters of their bodies, is `dof`, whatever bodies are added
before and after it; and the gravitational parameter of `System()` is the sum of
the gravitational parameters of the primary and of the bodies added. The
gravitational parameters are positive. -/
theorem C24_jacobi_coordinates_recovered (primary : MassiveBody)
    (before after : List (MassiveBody × RelativeDegreesOfFreedom))
    (body : MassiveBody) (dof : RelativeDegreesOfFreedom)
    (hprimary : 0 < primary.gravitational_parameter)
    (hadds : ∀ added ∈ before ++ (body, dof) :: after, 0 < added.1.gravitational_parameter) :
    ∃ (coordinates : JacobiCoordinates) (barycentric : List RelativeDegreesOfFreedom)
      (entry : RelativeDegreesOfFreedom),
      (JacobiCoordinates.new primary).AddAll (before ++ (body, dof) :: after) =
        some coordinates ∧
      coordinates.BarycentricCoordinates = some barycentric ∧
      barycentric[before.length + 1]? = some entry ∧
      entry - weighted_barycentre (primary :: before.map Prod.fst)
        (barycentric.take (before.length + 1)) = dof ∧
      coordinates.System.gravitational_parameter =
        primary.gravitational_parameter +
          ((before ++ (body, dof) :: after).map
            (fun added => added.1.gravitational_parameter)).sum := by
  obtain ⟨c1, hc1, hholds1, more1, hmore1, hlength1⟩ :=
    JacobiCoordinates.AddAll_holds before (JacobiCoordinates.new primary) [primary]
      (JacobiCoordinates.new_holds primary hprimary)
      (fun added h => hadds added (List.mem_append_left _ h))
  obtain ⟨c2, hc2, hholds2, hdof2⟩ :=
    JacobiCoordinates.Add_holds c1 _ hholds1 body dof
      (hadds (body, dof) (List.mem_append_right _ (List.mem_cons_self _ _)))
  obtain ⟨c3, hc3, hholds3, more3, hmore3, hlength3⟩ :=
    JacobiCoordinates.AddAll_holds after c2 _ hholds2
      (fun added h => hadds added (List.mem_append_right _ (List.mem_cons_of_mem _ h)))
  have hB := JacobiCoordinates.BarycentricCoordinates_holds c3 _ hholds3
  have hlen1 : c1.primocentric_dof_.length = before.length + 1 := by
    rw [hmore1, List.length_append, hlength1]
    simp [JacobiCoordinates.new, Nat.add_comm]
  have hpos1 : 0 < (([primary] ++ before.map Prod.fst).map
      (fun body => body.gravitational_parameter)).sum := by
    rw [← hholds1.weight_eq]; exact hholds1.weight_pos
  have hP : c3.primocentric_dof_ = c1.primocentric_dof_ ++
      (weighted_barycentre ([primary] ++ before.map Prod.fst) c1.primocentric_dof_ + dof)
        :: more3 := by
    rw [hmore3, hdof2, List.append_assoc, List.singleton_append]
  refine ⟨c3, _,
    (weighted_barycentre ([primary] ++ before.map Prod.fst) c1.primocentric_dof_ + dof) -
      weighted_barycentre ([primary] ++ before.map Prod.fst ++ [body] ++ after.map Prod.fst)
        c3.primocentric_dof_, ?_, hB, ?_, ?_, ?_⟩
  · unfold JacobiCoordinates.AddAll at hc1 hc3 ⊢
    rw [List.foldlM_append, hc1]
    simp only [Option.bind_eq_bind, Option.some_bind, List.foldlM_cons, hc2]
    exact hc3
  · rw [List.getElem?_map, hP, ← hlen1, List.getElem?_append_right (Nat.le_refl _)]
    simp [id_pf_]
  · rw [← hlen1, ← List.map_take, hP, List.take_left' rfl, List.singleton_append,
      weighted_barycentre_map_sub _ _ (by simpa using hholds1.length_eq) (by simpa using hpos1)]
    abel
  · unfold JacobiCoordinates.System geometry.BarycentreCalculator.weight
    rw [hholds3.weight_eq]
    simp [List.sum_append, add_assoc]
    rfl

/-- A primary of gravitational parameter 2 and one body of gravitational
parameter 1 added at the displacement `(3, 0, 0)` with the velocity `(0, 1, 0)`. -/
theorem C23_barycentric_coordinates_centred_witness :
    (0 : ℚ) < 2 ∧
    ∃ (coordinates : JacobiCoordinates) (barycentric : List RelativeDegreesOfFreedom),
      (JacobiCoordinates.new ⟨2⟩).AddAll [(⟨1⟩, ((3, 0, 0), (0, 1, 0)))] = some coordinates ∧
      coordinates.BarycentricCoordinates = some barycentric ∧
      barycentric.length = 2 ∧
      (weighted_sum [⟨2⟩, ⟨1⟩] barycentric).1 = 0 ∧
      (weighted_sum [⟨2⟩, ⟨1⟩] barycentric).2 = 0 :=
  ⟨by decide,
    (C23_barycentric_coordinates_centred ⟨2⟩ [(⟨1⟩, ((3, 0, 0), (0, 1, 0)))] (by decide)
      (by simp)).imp
      (fun _ h => h.imp (fun _ h => ⟨h.1, h.2.1, h.2.2.1, h.2.2.2.2.1, h.2.2.2.2.2.1⟩))⟩

/-- A primary of gravitational parameter 2, a body of gravitational parameter
1 added at `(3, 0, 0)`, then a body of gravitational parameter 3 added at
`(0, 6, 0)` and a last one of gravitational parameter 6. -/
theorem C24_jacobi_coordinates_recovered_witness :
    (0 : ℚ) < 2 ∧
    ∃ (coordinates : JacobiCoordinates) (barycentric : List RelativeDegreesOfFreedom)
      (entry : RelativeDegreesOfFreedom),
      (JacobiCoordinates.new ⟨2⟩).AddAll
        [(⟨1⟩, ((3, 0, 0), (0, 1, 0))), (⟨3⟩, ((0, 6, 0), (1, 0, 0))),
          (⟨6⟩, ((0, 0, 2), (0, 0, 0)))] = some coordinates ∧
      coordinates.BarycentricCoordinates = some barycentric ∧
      barycentric[2]? = some entry ∧
      entry - weighted_barycentre [⟨2⟩, ⟨1⟩] (barycentric.take 2) = ((0, 6, 0), (1, 0, 0)) ∧
      coordinates.System.gravitational_parameter = 2 + (1 + (3 + (6 + 0))) :=
  ⟨by decide,
    C24_jacobi_coordinates_recovered ⟨2⟩ [(⟨1⟩, ((3, 0, 0), (0, 1, 0)))]
      [(⟨6⟩, ((0, 0, 2), (0, 0, 0)))] ⟨3⟩ ((0, 6, 0), (1, 0, 0)) (by decide) (by simp)⟩

end jacobi_coordinates

end physics

/-! ## The round trip of a body through its message -/

namespace physics

namespace internal_body

/-- The expectations of `BodyTest.MasslessSerializationSuccess`. -/
theorem BodyTest.MasslessSerializationSuccess :
    BodyTest.massless_body_.is_massless = true ∧
    BodyTest.massless_body_.is_oblate = false ∧
    BodyTest.massless_body_.WriteToMessage.has_massless_body = true ∧
    BodyTest.massless_body_.WriteToMessage.has_massive_body = false ∧
    (MasslessBody.ReadFromMessage BodyTest.massless_body_.WriteToMessage).isSome = true ∧
    (Body.ReadFromMessage BodyTest.massless_body_.WriteToMessage).map Body.variant =
      some .massless :=
  ⟨rfl, rfl, rfl, rfl, rfl, rfl⟩

/-- The expectations of `BodyTest.MassiveSerializationSuccess`. -/
theorem BodyTest.MassiveSerializationSuccess :
    BodyTest.massive_body_.is_massless = false ∧
    BodyTest.massive_body_.is_oblate = false ∧
    BodyTest.massive_body_.WriteToMessage.has_massive_body = true ∧
    BodyTest.massive_body_.WriteToMessage.has_massless_body = false ∧
    BodyTest.massive_body_.WriteToMessage.massive_body.map
      (fun massive_body => massive_body.gravitational_parameter) = some 42 ∧
    (MassiveBody.ReadFromMessage BodyTest.massive_body_.WriteToMessage).bind
      Body.gravitational_parameter = BodyTest.massive_body_.gravitational_parameter ∧
    (Body.ReadFromMessage BodyTest.massive_body_.WriteToMessage).map Body.variant =
      some .massive ∧
    (Body.ReadFromMessage BodyTest.massive_body_.WriteToMessage).bind
      Body.gravitational_parameter = BodyTest.massive_body_.gravitational_parameter :=
  ⟨rfl, rfl, rfl, rfl, rfl, rfl, rfl, rfl⟩

/-- The expectations of `BodyTest.RotatingSerializationSuccess` on the written
message. -/
theorem BodyTest.RotatingSerializationSuccess (Degree : Angle) :
    (BodyTest.rotating_body_ Degree).is_massless = false ∧
    (BodyTest.rotating_body_ Degree).is_oblate = false ∧
    (BodyTest.rotating_body_ Degree).WriteToMessage.has_massive_body = true ∧
    (BodyTest.rotating_body_ Degree).WriteToMessage.has_massless_body = false ∧
    ∃ (massive_body : serialization.MassiveBody) (extension : serialization.RotatingBody),
      (BodyTest.rotating_body_ Degree).WriteToMessage.massive_body = some massive_body ∧
      massive_body.rotating_body_extension = some extension ∧
      massive_body.gravitational_parameter = 17 ∧
      extension.reference_angle = 3 ∧
      extension.reference_instant = 4 ∧
      extension.angular_frequency = -3 / 2 ∧
      extension.right_ascension_of_pole = 37 * Degree ∧
      extension.declination_of_pole = 123 * Degree :=
  ⟨rfl, rfl, rfl, rfl, _, _, rfl, rfl, rfl, rfl, by
    simp only [RotatingBodyParameters.WriteToMessage, BodyTest.parameters]; norm_num, rfl, rfl, rfl⟩

/-- The expectations of `BodyTest.OblateSerializationSuccess` on the written
message. -/
theorem BodyTest.OblateSerializationSuccess (Degree : Angle) :
    (BodyTest.oblate_body_ Degree).is_massless = false ∧
    (BodyTest.oblate_body_ Degree).is_oblate = true ∧
    (BodyTest.oblate_body_ Degree).WriteToMessage.has_massive_body = true ∧
    (BodyTest.oblate_body_ Degree).WriteToMessage.has_massless_body = false ∧
    ∃ (massive_body : serialization.MassiveBody) (extension : serialization.RotatingBody)
      (oblate_extension : serialization.OblateBody),
      (BodyTest.oblate_body_ Degree).WriteToMessage.massive_body = some massive_body ∧
      massive_body.rotating_body_extension = some extension ∧
      extension.oblate_body_extension = some oblate_extension ∧
      massive_body.gravitational_parameter = 17 ∧
      oblate_extension.j2 = 163 :=
  ⟨rfl, rfl, rfl, rfl, _, _, _, rfl, rfl, rfl, rfl, rfl⟩

/-- The body read back from the message that a body wrote is that body. -/
theorem Body.ReadFromMessage_WriteToMessage (body : Body) :
    Body.ReadFromMessage body.WriteToMessage = some body := by
  cases body <;> rfl

/-- A massive body is also read back by `MassiveBody::ReadFromMessage`. -/
theorem MassiveBody.ReadFromMessage_massive (body : Body)
    (h : body.is_massless = false) :
    MassiveBody.ReadFromMessage body.WriteToMessage = some body := by
  cases body
  · cases h
  all_goals rfl

/-- C22: the message written by a body has exactly one of the parts
`massive_body` and `massless_body`, the massless one exactly for a massless
body, and reading it back yields a body of the same variant (massless, massive,
rotating, oblate) with the same gravitational parameter, the same angular
velocity, the same `AngleAt(t)` at every `t`, the same `j2` and the same polar
axis, a quantity that a variant does not have being absent on both sides; a
body that is not massless is also read back by `MassiveBody::ReadFromMessage`. -/
theorem C22_body_round_trip (body : Body) :
    body.WriteToMessage.has_massless_body = body.is_massless ∧
    body.WriteToMessage.has_massive_body = !body.is_massless ∧
    ∃ read : Body,
      Body.ReadFromMessage body.WriteToMessage = some read ∧
      read.variant = body.variant ∧
      read.gravitational_parameter = body.gravitational_parameter ∧
      (∀ ToCartesian : ℚ → Angle → Angle → Vec3,
        read.angular_velocity ToCartesian = body.angular_velocity ToCartesian) ∧
      (∀ t : Instant, read.AngleAt t = body.AngleAt t) ∧
      read.j2 = body.j2 ∧
      (∀ ToCartesian : ℚ → Angle → Angle → Vec3,
        read.polar_axis ToCartesian = body.polar_axis ToCartesian) ∧
      read.frame = body.frame ∧
      (body.is_massless = false →
        MassiveBody.ReadFromMessage body.WriteToMessage = some read) := by
  refine ⟨by cases body <;> rfl, by cases body <;> rfl, body,
    Body.ReadFromMessage_WriteToMessage body, rfl, rfl, fun _ => rfl, fun _ => rfl, rfl,
    fun _ => rfl, rfl, MassiveBody.ReadFromMessage_massive body⟩

/-- The round trip of the oblate body of `BodyTest`, with a degree of `1 / 60`. -/
theorem C22_body_round_trip_witness :
    (BodyTest.oblate_body_ (1 / 60)).is_massless = false ∧
    ∃ read : Body,
      Body.ReadFromMessage (BodyTest.oblate_body_ (1 / 60)).WriteToMessage = some read ∧
      read.variant = .oblate ∧
      read.gravitational_parameter = some 17 ∧
      read.j2 = some 163 ∧
      MassiveBody.ReadFromMessage (BodyTest.oblate_body_ (1 / 60)).WriteToMessage = some read :=
  ⟨rfl, (C22_body_round_trip (BodyTest.oblate_body_ (1 / 60))).2.2.imp
    (fun _ h => ⟨h.1, h.2.1.trans rfl, h.2.2.1.trans rfl, h.2.2.2.2.2.1.trans rfl,
      h.2.2.2.2.2.2.2.2 rfl⟩)⟩

end internal_body

end physics

/-! ## The fork held by a `ForkHandle` -/

namespace ksp_plugin

/-- A handle cannot be constructed on a root: the `CHECK` of the constructor
fails. -/
theorem ForkHandle.new_on_root (trajectories : Trajectories) (trajectory : Address)
    (h : trajectories.is_root trajectory = some true) :
    ForkHandle.new trajectories trajectory = .fatal trajectories := by
  unfold ForkHandle.new
  simp [h]

/-- A handle is constructed on a trajectory that is not a root. -/
theorem ForkHandle.new_on_fork (trajectories : Trajectories) (trajectory : Address)
    (h : trajectories.is_root trajectory = some false) :
    ForkHandle.new trajectories trajectory = .returns ⟨some trajectory⟩ trajectories := by
  unfold ForkHandle.new
  simp [h]

/-- The destructor of a handle that holds a trajectory does nothing: the
condition `trajectory_ == nullptr` is false. -/
theorem ForkHandle.destroy_holding (trajectories : Trajectories) (trajectory : Address) :
    ForkHandle.destroy ⟨some trajectory⟩ trajectories = .returns () trajectories := by
  unfold ForkHandle.destroy
  simp

/-- The destructor of a handle that holds no trajectory follows the null
pointer. -/
theorem ForkHandle.destroy_null (trajectories : Trajectories) :
    ForkHandle.destroy ⟨none⟩ trajectories = .fatal trajectories := by
  unfold ForkHandle.destroy
  simp

/-- C27: on the history at address 1 with one fork at address 2, the
constructor of `ForkHandle` aborts on the history and returns a handle on the
fork; destroying that handle returns without any call to `DeleteFork`, and the
fork is still among the children of the history, whereas a call
`DeleteFork` on the history removes it. -/
theorem C27_destructor_keeps_fork :
    (ForkHandle.new test_trajectories 1).is_fatal = true ∧
    (ForkHandle.new test_trajectories 2).value? = some ⟨some 2⟩ ∧
    (ForkHandle.destroy ⟨some 2⟩ test_trajectories).is_fatal = false ∧
    (ForkHandle.destroy ⟨some 2⟩ test_trajectories).state.delete_fork_calls_ = [] ∧
    (ForkHandle.destroy ⟨some 2⟩ test_trajectories).state.children 1 = [2] ∧
    (test_trajectories.DeleteFork 1 2).state.delete_fork_calls_ = [(1, 2)] ∧
    (test_trajectories.DeleteFork 1 2).state.children 1 = [] := by
  refine ⟨rfl, rfl, rfl, rfl, rfl, rfl, ?_⟩
  decide

end ksp_plugin

end principia
